import Mathlib

/-!
The 6502 code generator of cc65 (`src/cc65/codegen.c`).

A shallow embedding of the code generator: every C function that the verified
properties talk about is a Lean function of the same name over an explicit
generator state (the virtual stack offset `oursp`, the emitted lines and
hints, the diagnostics, the label counter, the segment state).

Conventions of the embedding:

* `unsigned` and `unsigned long` values are natural numbers, `int` values are
  integers; where a C conversion or wrap-around matters it is written out
  (`toUnsigned`, `bnot`, `% 2 ^ 32`).
* `Internal (...)` aborts code generation: a generator returns `Res.fatal`
  together with the state reached at the abort.  `Error` and `Warning` only
  record a diagnostic and code generation continues.
* The header `codegen.h` (the `CF_` flag values), `cpu.h`, `global.h` and
  `util.h` are not part of the sources; what the code reads from them is the
  parameter `Env`.
-/

namespace CC65

/-! ## Environment: what the code reads from headers that are not in the sources -/

/-- The names that `codegen.c` takes from other headers: the `CF_` flag
constants of `codegen.h`, the CPU selection of `cpu.h`, the `FavourSize`
switch of `global.h`, the helper `powerof2` of `util.h`, and the C strings
that an `unsigned long` label points to when it is cast to `char*`. -/
structure Env where
  CF_TYPE : Nat
  CF_CHAR : Nat
  CF_INT : Nat
  CF_PTR : Nat
  CF_LONG : Nat
  CF_UNSIGNED : Nat
  CF_CONST : Nat
  CF_TEST : Nat
  CF_FIXARGC : Nat
  CF_FORCECHAR : Nat
  CF_SHORT : Nat
  CF_REG : Nat
  CF_ADDRMASK : Nat
  CF_STATIC : Nat
  CF_EXTERNAL : Nat
  CF_ABSOLUTE : Nat
  CF_REGVAR : Nat
  CPU : Nat
  CPU_65C02 : Nat
  FavourSize : Nat
  powerof2 : Nat → Int
  strAt : Nat → String

/-- The value `n` is a single bit of a 32-bit word. -/
def isBit (n : Nat) : Prop := ∃ k, k < 32 ∧ n = 2 ^ k

instance (n : Nat) : Decidable (isBit n) := by
  unfold isBit; infer_instance

/-- Modelled from the spec: the helper `powerof2` of `util.h` is not among the
sources. It returns the exponent if val is a power of two (of a 32-bit
value), and -1 if val is not a power of two. -/
def powerof2 (val : Nat) : Int :=
  match (List.range 32).find? (fun i => val == 2 ^ i) with
  | some i => (i : Int)
  | none => -1

/-- What the code assumes of the flag encoding of `codegen.h`: the three width
codes are distinct values of the `CF_TYPE` field (they are the labels of one
`switch`), `CF_CONST` and `CF_UNSIGNED` are single bits, the flags tested by
the code lie outside the width field and outside each other, `CF_PTR` is the
16-bit width, and every constant fits an `unsigned`. -/
structure Env.WF (E : Env) : Prop where
  char_type : E.CF_CHAR &&& E.CF_TYPE = E.CF_CHAR
  int_type : E.CF_INT &&& E.CF_TYPE = E.CF_INT
  long_type : E.CF_LONG &&& E.CF_TYPE = E.CF_LONG
  char_ne_int : E.CF_CHAR ≠ E.CF_INT
  char_ne_long : E.CF_CHAR ≠ E.CF_LONG
  int_ne_long : E.CF_INT ≠ E.CF_LONG
  ptr_int : E.CF_PTR = E.CF_INT
  const_bit : isBit E.CF_CONST
  unsigned_bit : isBit E.CF_UNSIGNED
  const_type : E.CF_CONST &&& E.CF_TYPE = 0
  unsigned_type : E.CF_UNSIGNED &&& E.CF_TYPE = 0
  forcechar_type : E.CF_FORCECHAR &&& E.CF_TYPE = 0
  const_forcechar : E.CF_CONST &&& E.CF_FORCECHAR = 0
  const_unsigned : E.CF_CONST &&& E.CF_UNSIGNED = 0
  forcechar_unsigned : E.CF_FORCECHAR &&& E.CF_UNSIGNED = 0
  type_lt : E.CF_TYPE < 2 ^ 32
  forcechar_lt : E.CF_FORCECHAR < 2 ^ 32

/-- Modelled from the spec: the header `codegen.h` is not among the sources.
One concrete bitfield encoding of the operand descriptor (width in the low
three bits, then signedness, constancy and the auxiliary flags, the storage
class in the top four bits of a 16-bit word), with the baseline CPU and
speed preferred over size; used to evaluate the code on concrete inputs. -/
def cc65Env : Env where
  CF_TYPE := 0x0007
  CF_CHAR := 0x0003
  CF_INT := 0x0001
  CF_PTR := 0x0001
  CF_LONG := 0x0000
  CF_UNSIGNED := 0x0010
  CF_CONST := 0x0020
  CF_TEST := 0x0080
  CF_FIXARGC := 0x0100
  CF_FORCECHAR := 0x0200
  CF_SHORT := 0x0400
  CF_REG := 0x0800
  CF_ADDRMASK := 0xF000
  CF_STATIC := 0x0000
  CF_EXTERNAL := 0x1000
  CF_ABSOLUTE := 0x2000
  CF_REGVAR := 0x8000
  CPU := 0
  CPU_65C02 := 1
  FavourSize := 0
  powerof2 := powerof2
  strAt := fun _ => ""

/-- The same encoding with code size preferred over speed (`FavourSize` set). -/
def cc65EnvSize : Env := { cc65Env with FavourSize := 1 }

/-! ## Machine integers -/

/-- The C conversion of an `int` to `unsigned` (32 bits). -/
def toUnsigned (i : Int) : Nat := (i % 2 ^ 32).toNat

/-- The value of an arithmetic result or of an `unsigned` as an `int` (32
bits, two's complement): out of range values wrap around. -/
def toInt (i : Int) : Int := (i + 2 ^ 31) % 2 ^ 32 - 2 ^ 31

/-- The C operator `~` on an `unsigned` (32 bits). -/
def bnot (x : Nat) : Nat := 0xFFFFFFFF ^^^ x

/-! ## Generator state -/

/-- One item handed to the code emission sink. -/
inductive Out where
  | line (text : String)
  | hint (text : String)
  | empty
  deriving DecidableEq, Repr

/-- The diagnostics of `error.h` that the code generator raises. -/
inductive Diag where
  | ERR_TOO_MANY_LOCALS
  | WARN_COND_NEVER_TRUE
  | WARN_COND_ALWAYS_TRUE
  deriving DecidableEq, Repr

/-- The process-wide state of the code generator: the file-level variables
`oursp`, `CurSeg` (`-1` is `SEG_INV`, `0..3` are code, rodata, data, bss),
`SegmentNames` and `funcargs`, together with the state of the external
collaborators (emitted output in emission order, raised diagnostics, the
next label of the label allocator). -/
structure State where
  oursp : Int
  CurSeg : Int
  SegmentNames : List String
  funcargs : Int
  out : List Out
  diags : List Diag
  nextLabel : Nat
  deriving DecidableEq, Repr

/-- The state at program start: `oursp = 0`, `CurSeg = SEG_CODE`. -/
def State.init : State where
  oursp := 0
  CurSeg := 0
  SegmentNames := ["", "", "", ""]
  funcargs := 0
  out := []
  diags := []
  nextLabel := 0

/-- Result of running a generator: it returns normally, or `Internal` aborted
the compilation; both carry the state reached. -/
inductive Res (α : Type) where
  | ok (val : α) (st : State)
  | fatal (msg : String) (st : State)
  deriving DecidableEq

/-- The state reached, whether the generator returned or aborted. -/
def Res.state {α : Type} : Res α → State
  | .ok _ s => s
  | .fatal _ s => s

/-- The generator returned normally. -/
def Res.isOk {α : Type} : Res α → Bool
  | .ok _ _ => true
  | .fatal _ _ => false

/-- A C function of the code generator: it reads and updates the state. -/
def Gen (α : Type) : Type := State → Res α

/-- Sequencing: an abort ends the run. -/
def Gen.bind {α β : Type} (g : Gen α) (f : α → Gen β) : Gen β := fun s =>
  match g s with
  | .ok a s1 => f a s1
  | .fatal m s1 => .fatal m s1

instance : Monad Gen where
  pure a := fun s => .ok a s
  bind := Gen.bind

/-! ## Formatting (the `printf` conversions used by the code) -/

/-- Upper-case hexadecimal digits of `n`, at least `w` of them (`%0wX`). -/
def hexW (w n : Nat) : String :=
  let ds := (Nat.toDigits 16 n).map Char.toUpper
  String.mk (List.replicate (w - ds.length) '0' ++ ds)

/-- The conversion `%02X`. -/
def hex2 (n : Nat) : String := hexW 2 n

/-- The conversion `%04X`. -/
def hex4 (n : Nat) : String := hexW 4 n

/-- The conversion `%08lX`. -/
def hex8 (n : Nat) : String := hexW 8 n

/-- The conversions `%u` and `%lu`. -/
def decU (n : Nat) : String := String.mk (Nat.toDigits 10 n)

/-- The conversions `%d` and `%ld`. -/
def decI (i : Int) : String :=
  if i < 0 then "-" ++ decU i.natAbs else decU i.natAbs

/-- The conversion `%+d`. -/
def decSigned (i : Int) : String :=
  if i < 0 then "-" ++ decU i.natAbs else "+" ++ decU i.natAbs

/-! ## External collaborators -/

/-- Modelled from the spec: the code emission sink (`asmcode.h`) is not among
the sources. It accepts one formatted line at a time, append-only. -/
def AddCodeLine (text : String) : Gen Unit := fun s =>
  .ok () { s with out := s.out ++ [Out.line text] }

/-- Modelled from the spec: the code emission sink accepts one out-of-band
optimizer hint at a time, in emission order. -/
def AddCodeHint (text : String) : Gen Unit := fun s =>
  .ok () { s with out := s.out ++ [Out.hint text] }

/-- Modelled from the spec: the blank separator line of the emission sink. -/
def AddEmptyLine : Gen Unit := fun s =>
  .ok () { s with out := s.out ++ [Out.empty] }

/-- Modelled from the spec: `Error` of `error.h` reports a user-facing
diagnostic and does not abort; code generation continues. -/
def Error (d : Diag) : Gen Unit := fun s =>
  .ok () { s with diags := s.diags ++ [d] }

/-- Modelled from the spec: `Warning` of `error.h` reports an advisory
diagnostic and does not alter the emitted code. -/
def Warning (d : Diag) : Gen Unit := fun s =>
  .ok () { s with diags := s.diags ++ [d] }

/-- Modelled from the spec: `Internal` of `error.h`, the internal-consistency
failure, is fatal and aborts immediately. -/
def Internal {α : Type} (msg : String) : Gen α := fun s =>
  .fatal msg s

/-- Modelled from the spec: the label allocator (`asmlabel.h`) hands out
unique, monotonically increasing local label identifiers. -/
def GetLabel : Gen Nat := fun s =>
  .ok s.nextLabel { s with nextLabel := s.nextLabel + 1 }

/-! ## Helpers -/

/-- Print an error message about an invalid operand type. -/
def typeerror (E : Env) (type : Nat) : Gen Unit :=
  Internal ("Invalid type in CF flags: " ++ hex4 type ++ ", type = "
    ++ decU (type &&& E.CF_TYPE))

/-- Check the offset into the stack for 8bit range. -/
def CheckLocalOffs (Offs : Nat) : Gen Unit :=
  if Offs ≥ 256 then do
    -- Too many local vars
    AddCodeLine ";*** Too many locals"
    Error Diag.ERR_TOO_MANY_LOCALS
  else
    pure ()

/-- Return the size of a function argument type that is encoded in flags. -/
def sizeofarg (E : Env) (flags : Nat) : Gen Nat :=
  if flags &&& E.CF_TYPE = E.CF_CHAR then
    pure (if flags &&& E.CF_FORCECHAR ≠ 0 then 1 else 2)
  else if flags &&& E.CF_TYPE = E.CF_INT then
    pure 2
  else if flags &&& E.CF_TYPE = E.CF_LONG then
    pure 4
  else do
    typeerror E flags
    -- NOTREACHED
    pure 2

/-- Pop an argument of the given size: `return oursp += sizeofarg (flags)`. -/
def pop (E : Env) (flags : Nat) : Gen Int := do
  let n ← sizeofarg E flags
  fun s => .ok (s.oursp + n) { s with oursp := s.oursp + n }

/-- Push an argument of the given size: `return oursp -= sizeofarg (flags)`. -/
def push (E : Env) (flags : Nat) : Gen Int := do
  let n ← sizeofarg E flags
  fun s => .ok (s.oursp - n) { s with oursp := s.oursp - n }

/-- The label name of a memory cell, by the address class in the flags. -/
def GetLabelName (E : Env) (flags label offs : Nat) : Gen String :=
  if flags &&& E.CF_ADDRMASK = E.CF_STATIC then
    -- Static memory cell
    pure ("L" ++ hex4 (label &&& 0xFFFF) ++ "+" ++ decU offs)
  else if flags &&& E.CF_ADDRMASK = E.CF_EXTERNAL then
    -- External label
    pure ("_" ++ E.strAt label ++ "+" ++ decU offs)
  else if flags &&& E.CF_ADDRMASK = E.CF_ABSOLUTE then
    -- Absolute address
    pure ("$" ++ hex4 ((label + offs) &&& 0xFFFF))
  else if flags &&& E.CF_ADDRMASK = E.CF_REGVAR then
    -- Variable in register bank
    pure ("regbank+" ++ decU ((label + offs) &&& 0xFFFF))
  else do
    Internal "Invalid address flags"
    pure ""

/-- Define a local label. -/
def g_defloclabel (label : Nat) : Gen Unit :=
  AddCodeLine ("L" ++ hex4 (label &&& 0xFFFF) ++ ":")

/-- Load a with a constant. -/
def ldaconst (val : Nat) : Gen Unit :=
  AddCodeLine ("\tlda\t#$" ++ hex2 (val &&& 0xFF))

/-- Load x with a constant. -/
def ldxconst (val : Nat) : Gen Unit :=
  AddCodeLine ("\tldx\t#$" ++ hex2 (val &&& 0xFF))

/-- Load y with a constant. -/
def ldyconst (val : Nat) : Gen Unit :=
  AddCodeLine ("\tldy\t#$" ++ hex2 (val &&& 0xFF))

/-- Run a generator `n` times: the loop `while (n--) ...`. -/
def repeatGen : Nat → Gen Unit → Gen Unit
  | 0, _ => pure ()
  | n + 1, g => do g; repeatGen n g

/-- Read the compiler relative stack pointer. -/
def getOursp : Gen Int := fun s => .ok s.oursp s

/-! ## Fetching constants -/

/-- Load a constant into the primary register. -/
def g_getimmed (E : Env) (flags val offs : Nat) : Gen Unit :=
  if flags &&& E.CF_CONST ≠ 0 then
    -- Numeric constant
    if flags &&& E.CF_TYPE = E.CF_CHAR ∧ flags &&& E.CF_FORCECHAR ≠ 0 then
      ldaconst val
    else if flags &&& E.CF_TYPE = E.CF_CHAR ∨ flags &&& E.CF_TYPE = E.CF_INT then do
      ldxconst ((val >>> 8) &&& 0xFF)
      ldaconst (val &&& 0xFF)
    else if flags &&& E.CF_TYPE = E.CF_LONG then
      if val < 0x100 then do
        AddCodeLine "\tldx\t#$00"
        AddCodeLine "\tstx\tsreg+1"
        AddCodeLine "\tstx\tsreg"
        AddCodeLine ("\tlda\t#$" ++ hex2 (val % 256))
      else if val &&& 0xFFFF00FF = 0 then do
        AddCodeLine "\tlda\t#$00"
        AddCodeLine "\tsta\tsreg+1"
        AddCodeLine "\tsta\tsreg"
        AddCodeLine ("\tldx\t#$" ++ hex2 ((val >>> 8) % 256))
      else if val &&& 0xFFFF0000 = 0 ∧ E.FavourSize = 0 then do
        AddCodeLine "\tlda\t#$00"
        AddCodeLine "\tsta\tsreg+1"
        AddCodeLine "\tsta\tsreg"
        AddCodeLine ("\tlda\t#$" ++ hex2 (val % 256))
        AddCodeLine ("\tldx\t#$" ++ hex2 ((val >>> 8) % 256))
      else if val &&& 0xFFFFFF00 = 0xFFFFFF00 then do
        AddCodeLine "\tldx\t#$FF"
        AddCodeLine "\tstx\tsreg+1"
        AddCodeLine "\tstx\tsreg"
        if val &&& 0xFF = 0xFF then
          AddCodeLine "\ttxa"
        else
          AddCodeLine ("\tlda\t#$" ++ hex2 (val % 256))
      else if val &&& 0xFFFF00FF = 0xFFFF00FF then do
        AddCodeLine "\tlda\t#$FF"
        AddCodeLine "\tsta\tsreg+1"
        AddCodeLine "\tsta\tsreg"
        AddCodeLine ("\tldx\t#$" ++ hex2 ((val >>> 8) % 256))
      else do
        -- Call a subroutine that will load following value
        AddCodeLine "\tjsr\tldeax"
        AddCodeLine ("\t.dword\t$" ++ hex8 (val &&& 0xFFFFFFFF))
    else
      typeerror E flags
  else do
    -- Some sort of label
    let Label ← GetLabelName E flags val offs
    -- Load the address into the primary
    AddCodeLine ("\tldax\t" ++ Label)

/-! ## Push and the shared dispatch of the binary operators -/

/-- Push the primary register or a constant value onto the stack. -/
def g_push (E : Env) (flags val : Nat) : Gen Unit := do
  if flags &&& E.CF_CONST ≠ 0 ∧ flags &&& E.CF_TYPE ≠ E.CF_LONG then
    -- We have a constant 8 or 16 bit value
    if flags &&& E.CF_TYPE = E.CF_CHAR ∧ flags &&& E.CF_FORCECHAR ≠ 0 then
      -- Handle as 8 bit value
      if E.FavourSize ≠ 0 ∧ val ≤ 2 then
        AddCodeLine ("\tjsr\tpushc" ++ decU val)
      else do
        ldaconst val
        AddCodeLine "\tjsr\tpusha"
    else
      -- Handle as 16 bit value
      let hi := (val >>> 8) % 256
      if val ≤ 7 then
        AddCodeLine ("\tjsr\tpush" ++ decU val)
      else if hi = 0 ∨ hi = 0xFF then do
        -- Use special function
        ldaconst val
        AddCodeLine ("\tjsr\t" ++ (if hi = 0 then "pusha0" else "pushaFF"))
      else do
        -- Long way ...
        g_getimmed E flags val 0
        AddCodeLine "\tjsr\tpushax"
  else do
    -- Value is not 16 bit or not constant
    if flags &&& E.CF_CONST ≠ 0 then
      -- Constant 32 bit value, load into eax
      g_getimmed E flags val 0
    -- Push the primary register
    if flags &&& E.CF_TYPE = E.CF_CHAR ∧ flags &&& E.CF_FORCECHAR ≠ 0 then
      -- Handle as char
      AddCodeLine "\tjsr\tpusha"
    else if flags &&& E.CF_TYPE = E.CF_CHAR ∨ flags &&& E.CF_TYPE = E.CF_INT then
      AddCodeLine "\tjsr\tpushax"
    else if flags &&& E.CF_TYPE = E.CF_LONG then
      AddCodeLine "\tjsr\tpusheax"
    else
      typeerror E flags
  -- Adjust the stack offset
  let _ ← push E flags

/-- A table of runtime routine names (`char* ops [12]`), `none` for a null entry. -/
abbrev Subs := List (Option String)

/-- The entry `subs [i]`. -/
def Subs.entry (subs : Subs) (i : Nat) : Option String := subs.getD i none

/-- The line `jsr <subs [i]>`. -/
def jsrSub (subs : Subs) (i : Nat) : Gen Unit :=
  AddCodeLine ("\tjsr\t" ++ (subs.entry i).getD "(null)")

/-- Encode a binary operation. subs is a pointer to four groups of three
strings: 0-2 operate on ints, 3-5 on unsigneds, 6-8 on longs, 9-11 on
unsigned longs. The first name of each group encodes an operation with a
zero constant, the second one with an 8 bit constant, the third is used in
all other cases. -/
def oper (E : Env) (flags val : Nat) (subs : Subs) : Gen Unit := do
  -- Determine the offset into the array
  let offs0 : Nat := if flags &&& E.CF_UNSIGNED ≠ 0 then 3 else 0
  let offs ←
    (if flags &&& E.CF_TYPE = E.CF_CHAR ∨ flags &&& E.CF_TYPE = E.CF_INT then
      pure offs0
    else if flags &&& E.CF_TYPE = E.CF_LONG then
      pure (offs0 + 6)
    else do
      typeerror E flags
      pure offs0 : Gen Nat)
  -- Encode the operation
  if flags &&& E.CF_CONST ≠ 0 then
    -- Constant value given
    if val = 0 ∧ (subs.entry (offs + 0)).isSome then
      -- Special case: constant with value zero
      jsrSub subs (offs + 0)
    else if val < 0x100 ∧ (subs.entry (offs + 1)).isSome then do
      -- Special case: constant with high byte zero
      ldaconst val
      jsrSub subs (offs + 1)
    else do
      -- Others: arbitrary constant value
      g_getimmed E flags val 0
      jsrSub subs (offs + 2)
  else
    -- Value not constant (is already in (e)ax)
    jsrSub subs (offs + 2)
  -- The operation will pop its argument
  let _ ← pop E flags

/-! ## Binary operators -/

/-- Primary = TOS + Primary. -/
def g_add (E : Env) (flags val : Nat) : Gen Unit :=
  let ops : Subs := [
    none, some "tosadda0", some "tosaddax",
    none, some "tosadda0", some "tosaddax",
    none, none, some "tosaddeax",
    none, none, some "tosaddeax"]
  if flags &&& E.CF_CONST ≠ 0 then do
    -- Handle chars as ints
    let flags := flags &&& bnot E.CF_FORCECHAR
    g_push E (flags &&& bnot E.CF_CONST) 0
    oper E flags val ops
  else
    oper E flags val ops

/-- Primary = TOS - Primary. -/
def g_sub (E : Env) (flags val : Nat) : Gen Unit :=
  let ops : Subs := [
    none, some "tossuba0", some "tossubax",
    none, some "tossuba0", some "tossubax",
    none, none, some "tossubeax",
    none, none, some "tossubeax"]
  if flags &&& E.CF_CONST ≠ 0 then do
    -- Handle chars as ints
    let flags := flags &&& bnot E.CF_FORCECHAR
    g_push E (flags &&& bnot E.CF_CONST) 0
    oper E flags val ops
  else
    oper E flags val ops

/-- Primary = Primary - TOS. -/
def g_rsub (E : Env) (flags val : Nat) : Gen Unit :=
  let ops : Subs := [
    none, some "tosrsuba0", some "tosrsubax",
    none, some "tosrsuba0", some "tosrsubax",
    none, none, some "tosrsubeax",
    none, none, some "tosrsubeax"]
  oper E flags val ops

/-- Primary = TOS | Primary. -/
def g_or (E : Env) (flags val : Nat) : Gen Unit :=
  let ops : Subs := [
    none, some "tosora0", some "tosorax",
    none, some "tosora0", some "tosorax",
    none, none, some "tosoreax",
    none, none, some "tosoreax"]
  -- after the switch: push the lhs on stack and use the long way over the stack
  let pushLhs : Gen Unit := do
    g_push E (flags &&& bnot E.CF_CONST) 0
    oper E flags val ops
  -- If the right hand side is const, the lhs is not on stack but still
  -- in the primary register.
  if flags &&& E.CF_CONST ≠ 0 then
    if flags &&& E.CF_TYPE = E.CF_CHAR ∧ flags &&& E.CF_FORCECHAR ≠ 0 then
      if val &&& 0xFF ≠ 0xFF then
        AddCodeLine ("\tora\t#$" ++ hex2 (val &&& 0xFF))
      else
        pure ()
    else if flags &&& E.CF_TYPE = E.CF_CHAR ∨ flags &&& E.CF_TYPE = E.CF_INT then
      if val ≤ 0xFF then
        AddCodeLine ("\tora\t#$" ++ hex2 (val &&& 0xFF))
      else
        pushLhs
    else if flags &&& E.CF_TYPE = E.CF_LONG then
      if val ≤ 0xFF then
        AddCodeLine ("\tora\t#$" ++ hex2 (val &&& 0xFF))
      else
        pushLhs
    else do
      typeerror E flags
      pushLhs
  else
    oper E flags val ops

/-- Primary = TOS ^ Primary. -/
def g_xor (E : Env) (flags val : Nat) : Gen Unit :=
  let ops : Subs := [
    none, some "tosxora0", some "tosxorax",
    none, some "tosxora0", some "tosxorax",
    none, none, some "tosxoreax",
    none, none, some "tosxoreax"]
  let pushLhs : Gen Unit := do
    g_push E (flags &&& bnot E.CF_CONST) 0
    oper E flags val ops
  if flags &&& E.CF_CONST ≠ 0 then
    if flags &&& E.CF_TYPE = E.CF_CHAR ∧ flags &&& E.CF_FORCECHAR ≠ 0 then
      if val &&& 0xFF ≠ 0 then
        AddCodeLine ("\teor\t#$" ++ hex2 (val &&& 0xFF))
      else
        pure ()
    else if flags &&& E.CF_TYPE = E.CF_CHAR ∨ flags &&& E.CF_TYPE = E.CF_INT then
      if val ≤ 0xFF then
        if val ≠ 0 then
          AddCodeLine ("\teor\t#$" ++ hex2 val)
        else
          pure ()
      else if val &&& 0xFF = 0 then do
        AddCodeLine "\tpha"
        AddCodeLine "\ttxa"
        AddCodeLine ("\teor\t#$" ++ hex2 ((val >>> 8) &&& 0xFF))
        AddCodeLine "\ttax"
        AddCodeLine "\tpla"
      else
        pushLhs
    else if flags &&& E.CF_TYPE = E.CF_LONG then
      if val ≤ 0xFF then
        if val ≠ 0 then
          AddCodeLine ("\teor\t#$" ++ hex2 (val &&& 0xFF))
        else
          pure ()
      else
        pushLhs
    else do
      typeerror E flags
      pushLhs
  else
    oper E flags val ops

/-- Primary = TOS & Primary. -/
def g_and (E : Env) (flags val : Nat) : Gen Unit :=
  let ops : Subs := [
    none, some "tosanda0", some "tosandax",
    none, some "tosanda0", some "tosandax",
    none, none, some "tosandeax",
    none, none, some "tosandeax"]
  let pushLhs : Gen Unit := do
    g_push E (flags &&& bnot E.CF_CONST) 0
    oper E flags val ops
  if flags &&& E.CF_CONST ≠ 0 then
    if flags &&& E.CF_TYPE = E.CF_CHAR ∧ flags &&& E.CF_FORCECHAR ≠ 0 then
      AddCodeLine ("\tand\t#$" ++ hex2 (val &&& 0xFF))
    else if flags &&& E.CF_TYPE = E.CF_CHAR ∨ flags &&& E.CF_TYPE = E.CF_INT then
      if val &&& 0xFFFF ≠ 0xFFFF then
        if val ≤ 0xFF then do
          ldxconst 0
          if val = 0 then
            ldaconst 0
          else if val ≠ 0xFF then
            AddCodeLine ("\tand\t#$" ++ hex2 (val &&& 0xFF))
        else if val &&& 0xFF00 = 0xFF00 then
          AddCodeLine ("\tand\t#$" ++ hex2 (val &&& 0xFF))
        else if val &&& 0x00FF = 0x0000 then do
          AddCodeLine "\ttxa"
          AddCodeLine ("\tand\t#$" ++ hex2 ((val >>> 8) &&& 0xFF))
          AddCodeLine "\ttax"
          ldaconst 0
        else do
          AddCodeLine "\ttay"
          AddCodeLine "\ttxa"
          AddCodeLine ("\tand\t#$" ++ hex2 ((val >>> 8) &&& 0xFF))
          AddCodeLine "\ttax"
          AddCodeLine "\ttya"
          if val &&& 0x00FF ≠ 0x00FF then
            AddCodeLine ("\tand\t#$" ++ hex2 (val &&& 0xFF))
      else
        pure ()
    else if flags &&& E.CF_TYPE = E.CF_LONG then
      if val ≤ 0xFF then do
        ldxconst 0
        AddCodeLine "\tstx\tsreg+1"
        AddCodeLine "\tstx\tsreg"
        if val &&& 0xFF ≠ 0xFF then
          AddCodeLine ("\tand\t#$" ++ hex2 (val &&& 0xFF))
      else if val = 0xFF00 then do
        ldaconst 0
        AddCodeLine "\tsta\tsreg+1"
        AddCodeLine "\tsta\tsreg"
      else
        pushLhs
    else do
      typeerror E flags
      pushLhs
  else
    oper E flags val ops

/-- Primary = TOS >> Primary. -/
def g_asr (E : Env) (flags val : Nat) : Gen Unit :=
  let ops : Subs := [
    none, some "tosasra0", some "tosasrax",
    none, some "tosshra0", some "tosshrax",
    none, none, some "tosasreax",
    none, none, some "tosshreax"]
  let pushLhs : Gen Unit := do
    g_push E (flags &&& bnot E.CF_CONST) 0
    oper E flags val ops
  if flags &&& E.CF_CONST ≠ 0 then
    if flags &&& E.CF_TYPE = E.CF_CHAR ∨ flags &&& E.CF_TYPE = E.CF_INT then
      if val ≥ 1 ∧ val ≤ 3 then
        if flags &&& E.CF_UNSIGNED ≠ 0 then
          AddCodeLine ("\tjsr\tshrax" ++ decU val)
        else
          AddCodeLine ("\tjsr\tasrax" ++ decU val)
      else if val = 8 ∧ flags &&& E.CF_UNSIGNED ≠ 0 then do
        AddCodeLine "\ttxa"
        ldxconst 0
      else
        pushLhs
    else if flags &&& E.CF_TYPE = E.CF_LONG then
      if val ≥ 1 ∧ val ≤ 3 then
        if flags &&& E.CF_UNSIGNED ≠ 0 then
          AddCodeLine ("\tjsr\tshreax" ++ decU val)
        else
          AddCodeLine ("\tjsr\tasreax" ++ decU val)
      else if val = 8 ∧ flags &&& E.CF_UNSIGNED ≠ 0 then do
        AddCodeLine "\ttxa"
        AddCodeLine "\tldx\tsreg"
        AddCodeLine "\tldy\tsreg+1"
        AddCodeLine "\tsty\tsreg"
        AddCodeLine "\tldy\t#$00"
        AddCodeLine "\tsty\tsreg+1"
      else if val = 16 then do
        AddCodeLine "\tldy\t#$00"
        AddCodeLine "\tldx\tsreg+1"
        if flags &&& E.CF_UNSIGNED = 0 then do
          AddCodeLine "\tbpl\t*+3"
          AddCodeLine "\tdey"
          AddCodeHint "y:!"
        AddCodeLine "\tlda\tsreg"
        AddCodeLine "\tsty\tsreg+1"
        AddCodeLine "\tsty\tsreg"
      else
        pushLhs
    else do
      typeerror E flags
      pushLhs
  else
    oper E flags val ops

/-- Primary = TOS << Primary. -/
def g_asl (E : Env) (flags val : Nat) : Gen Unit :=
  let ops : Subs := [
    none, some "tosasla0", some "tosaslax",
    none, some "tosshla0", some "tosshlax",
    none, none, some "tosasleax",
    none, none, some "tosshleax"]
  let pushLhs : Gen Unit := do
    g_push E (flags &&& bnot E.CF_CONST) 0
    oper E flags val ops
  if flags &&& E.CF_CONST ≠ 0 then
    if flags &&& E.CF_TYPE = E.CF_CHAR ∨ flags &&& E.CF_TYPE = E.CF_INT then
      if val ≥ 1 ∧ val ≤ 3 then
        if flags &&& E.CF_UNSIGNED ≠ 0 then
          AddCodeLine ("\tjsr\tshlax" ++ decU val)
        else
          AddCodeLine ("\tjsr\taslax" ++ decU val)
      else if val = 8 then do
        AddCodeLine "\ttax"
        AddCodeLine "\tlda\t#$00"
      else
        pushLhs
    else if flags &&& E.CF_TYPE = E.CF_LONG then
      if val ≥ 1 ∧ val ≤ 3 then
        if flags &&& E.CF_UNSIGNED ≠ 0 then
          AddCodeLine ("\tjsr\tshleax" ++ decU val)
        else
          AddCodeLine ("\tjsr\tasleax" ++ decU val)
      else if val = 8 then do
        AddCodeLine "\tldy\tsreg"
        AddCodeLine "\tsty\tsreg+1"
        AddCodeLine "\tstx\tsreg"
        AddCodeLine "\ttax"
        AddCodeLine "\tlda\t#$00"
      else if val = 16 then do
        AddCodeLine "\tstx\tsreg+1"
        AddCodeLine "\tsta\tsreg"
        AddCodeLine "\tlda\t#$00"
        AddCodeLine "\ttax"
      else
        pushLhs
    else do
      typeerror E flags
      pushLhs
  else
    oper E flags val ops

/-- Primary = TOS * Primary. -/
def g_mul (E : Env) (flags val : Nat) : Gen Unit :=
  let ops : Subs := [
    none, some "tosmula0", some "tosmulax",
    none, some "tosumula0", some "tosumulax",
    none, none, some "tosmuleax",
    none, none, some "tosumuleax"]
  -- after the switch: push the lhs on stack (chars handled as ints) and
  -- fall into the normal, non-optimized stuff
  let pushLhs : Gen Unit := do
    let flags := flags &&& bnot E.CF_FORCECHAR
    g_push E (flags &&& bnot E.CF_CONST) 0
    oper E flags val ops
  -- Do strength reduction if the value is constant and a power of two
  if flags &&& E.CF_CONST ≠ 0 ∧ E.powerof2 val ≥ 0 then
    -- Generate a shift instead
    g_asl E flags (E.powerof2 val).toNat
  else if flags &&& E.CF_CONST ≠ 0 then
    if flags &&& E.CF_TYPE = E.CF_CHAR ∧ flags &&& E.CF_FORCECHAR ≠ 0 then
      -- Handle some special cases
      if val = 3 then do
        AddCodeLine "\tsta\ttmp1"
        AddCodeLine "\tasl\ta"
        AddCodeLine "\tclc"
        AddCodeLine "\tadc\ttmp1"
      else if val = 5 then do
        AddCodeLine "\tsta\ttmp1"
        AddCodeLine "\tasl\ta"
        AddCodeLine "\tasl\ta"
        AddCodeLine "\tclc"
        AddCodeLine "\tadc\ttmp1"
      else if val = 10 then do
        AddCodeLine "\tsta\ttmp1"
        AddCodeLine "\tasl\ta"
        AddCodeLine "\tasl\ta"
        AddCodeLine "\tclc"
        AddCodeLine "\tadc\ttmp1"
        AddCodeLine "\tasl\ta"
      else
        pushLhs
    else if flags &&& E.CF_TYPE = E.CF_CHAR ∨ flags &&& E.CF_TYPE = E.CF_INT then
      pushLhs
    else if flags &&& E.CF_TYPE = E.CF_LONG then
      pushLhs
    else do
      typeerror E flags
      pushLhs
  else
    -- Use long way over the stack
    oper E flags val ops

/-- Primary = TOS / Primary. -/
def g_div (E : Env) (flags val : Nat) : Gen Unit :=
  let ops : Subs := [
    none, some "tosdiva0", some "tosdivax",
    none, some "tosudiva0", some "tosudivax",
    none, none, some "tosdiveax",
    none, none, some "tosudiveax"]
  -- Do strength reduction if the value is constant and a power of two
  if flags &&& E.CF_CONST ≠ 0 ∧ E.powerof2 val ≥ 0 then
    -- Generate a shift instead
    g_asr E flags (E.powerof2 val).toNat
  else
    -- Generate a division
    if flags &&& E.CF_CONST ≠ 0 then do
      -- lhs is not on stack; handle chars as ints
      let flags := flags &&& bnot E.CF_FORCECHAR
      g_push E (flags &&& bnot E.CF_CONST) 0
      oper E flags val ops
    else
      oper E flags val ops

/-- Primary = TOS % Primary. The subtraction `val - 1` is that of a 32-bit
`unsigned long`. -/
def g_mod (E : Env) (flags val : Nat) : Gen Unit :=
  let ops : Subs := [
    none, some "tosmoda0", some "tosmodax",
    none, some "tosumoda0", some "tosumodax",
    none, none, some "tosmodeax",
    none, none, some "tosumodeax"]
  -- Check if we can do some cost reduction
  if flags &&& E.CF_CONST ≠ 0 ∧ flags &&& E.CF_UNSIGNED ≠ 0 ∧ val ≠ 0xFFFFFFFF
      ∧ E.powerof2 val ≥ 0 then
    -- We can do that with an AND operation
    g_and E flags ((val + (2 ^ 32 - 1)) % 2 ^ 32)
  else
    -- Do it the hard way...
    if flags &&& E.CF_CONST ≠ 0 then do
      -- lhs is not on stack; handle chars as ints
      let flags := flags &&& bnot E.CF_FORCECHAR
      g_push E (flags &&& bnot E.CF_CONST) 0
      oper E flags val ops
    else
      oper E flags val ops

/-! ## Comparison operators -/

/-- Test for equal. -/
def g_eq (E : Env) (flags val : Nat) : Gen Unit :=
  let ops : Subs := [
    some "toseq00", some "toseqa0", some "toseqax",
    some "toseq00", some "toseqa0", some "toseqax",
    none, none, some "toseqeax",
    none, none, some "toseqeax"]
  let pushLhs : Gen Unit := do
    g_push E (flags &&& bnot E.CF_CONST) 0
    oper E flags val ops
  -- If the right hand side is const, the lhs is not on stack but still
  -- in the primary register.
  if flags &&& E.CF_CONST ≠ 0 then
    if flags &&& E.CF_TYPE = E.CF_CHAR ∧ flags &&& E.CF_FORCECHAR ≠ 0 then do
      AddCodeLine ("\tcmp\t#$" ++ hex2 (val &&& 0xFF))
      AddCodeLine "\tjsr\tbooleq"
    else if flags &&& E.CF_TYPE = E.CF_CHAR ∨ flags &&& E.CF_TYPE = E.CF_INT then do
      AddCodeLine ("\tcpx\t#$" ++ hex2 ((val >>> 8) &&& 0xFF))
      AddCodeLine "\tbne\t*+4"
      AddCodeLine ("\tcmp\t#$" ++ hex2 (val &&& 0xFF))
      AddCodeLine "\tjsr\tbooleq"
    else if flags &&& E.CF_TYPE = E.CF_LONG then
      pushLhs
    else do
      typeerror E flags
      pushLhs
  else
    -- Use long way over the stack
    oper E flags val ops

/-- Test for not equal. -/
def g_ne (E : Env) (flags val : Nat) : Gen Unit :=
  let ops : Subs := [
    some "tosne00", some "tosnea0", some "tosneax",
    some "tosne00", some "tosnea0", some "tosneax",
    none, none, some "tosneeax",
    none, none, some "tosneeax"]
  let pushLhs : Gen Unit := do
    g_push E (flags &&& bnot E.CF_CONST) 0
    oper E flags val ops
  -- If the right hand side is const, the lhs is not on stack but still
  -- in the primary register.
  if flags &&& E.CF_CONST ≠ 0 then
    if flags &&& E.CF_TYPE = E.CF_CHAR ∧ flags &&& E.CF_FORCECHAR ≠ 0 then do
      AddCodeLine ("\tcmp\t#$" ++ hex2 (val &&& 0xFF))
      AddCodeLine "\tjsr\tboolne"
    else if flags &&& E.CF_TYPE = E.CF_CHAR ∨ flags &&& E.CF_TYPE = E.CF_INT then do
      AddCodeLine ("\tcpx\t#$" ++ hex2 ((val >>> 8) &&& 0xFF))
      AddCodeLine "\tbne\t*+4"
      AddCodeLine ("\tcmp\t#$" ++ hex2 (val &&& 0xFF))
      AddCodeLine "\tjsr\tboolne"
    else if flags &&& E.CF_TYPE = E.CF_LONG then
      pushLhs
    else do
      typeerror E flags
      pushLhs
  else
    -- Use long way over the stack
    oper E flags val ops

/-- Test for less than. -/
def g_lt (E : Env) (flags val : Nat) : Gen Unit :=
  let ops : Subs := [
    some "toslt00", some "toslta0", some "tosltax",
    some "tosult00", some "tosulta0", some "tosultax",
    none, none, some "toslteax",
    none, none, some "tosulteax"]
  let pushLhs : Gen Unit := do
    g_push E (flags &&& bnot E.CF_CONST) 0
    oper E flags val ops
  -- If the right hand side is const, the lhs is not on stack but still
  -- in the primary register.
  if flags &&& E.CF_CONST ≠ 0 then do
    -- Give a warning in some special cases
    if flags &&& E.CF_UNSIGNED ≠ 0 ∧ val = 0 then
      Warning Diag.WARN_COND_NEVER_TRUE
    -- Look at the type
    if flags &&& E.CF_TYPE = E.CF_CHAR ∧ flags &&& E.CF_FORCECHAR ≠ 0 then do
      AddCodeLine ("\tcmp\t#$" ++ hex2 (val &&& 0xFF))
      if flags &&& E.CF_UNSIGNED ≠ 0 then
        AddCodeLine "\tjsr\tboolult"
      else
        AddCodeLine "\tjsr\tboollt"
    else if flags &&& E.CF_TYPE = E.CF_CHAR ∨ flags &&& E.CF_TYPE = E.CF_INT then
      if flags &&& E.CF_UNSIGNED = 0 ∧ val = 0 then do
        -- If we have a signed compare against zero, we only need to
        -- test the high byte.
        AddCodeLine "\ttxa"
        AddCodeLine "\tjsr\tboollt"
      -- Direct code only for unsigned data types
      else if flags &&& E.CF_UNSIGNED ≠ 0 then do
        AddCodeLine ("\tcpx\t#$" ++ hex2 ((val >>> 8) &&& 0xFF))
        AddCodeLine "\tbne\t*+4"
        AddCodeLine ("\tcmp\t#$" ++ hex2 (val &&& 0xFF))
        AddCodeLine "\tjsr\tboolult"
      else
        pushLhs
    else if flags &&& E.CF_TYPE = E.CF_LONG then
      pushLhs
    else do
      typeerror E flags
      pushLhs
  else
    -- Use long way over the stack
    oper E flags val ops

/-- Test for less than or equal to. -/
def g_le (E : Env) (flags val : Nat) : Gen Unit :=
  let ops : Subs := [
    some "tosle00", some "toslea0", some "tosleax",
    some "tosule00", some "tosulea0", some "tosuleax",
    none, none, some "tosleeax",
    none, none, some "tosuleeax"]
  let pushLhs : Gen Unit := do
    g_push E (flags &&& bnot E.CF_CONST) 0
    oper E flags val ops
  -- If the right hand side is const, the lhs is not on stack but still
  -- in the primary register.
  if flags &&& E.CF_CONST ≠ 0 then
    -- Look at the type
    if flags &&& E.CF_TYPE = E.CF_CHAR ∧ flags &&& E.CF_FORCECHAR ≠ 0 then do
      AddCodeLine ("\tcmp\t#$" ++ hex2 (val &&& 0xFF))
      if flags &&& E.CF_UNSIGNED ≠ 0 then
        AddCodeLine "\tjsr\tboolule"
      else
        AddCodeLine "\tjsr\tboolle"
    else if flags &&& E.CF_TYPE = E.CF_CHAR ∨ flags &&& E.CF_TYPE = E.CF_INT then
      if flags &&& E.CF_UNSIGNED ≠ 0 then do
        AddCodeLine ("\tcpx\t#$" ++ hex2 ((val >>> 8) &&& 0xFF))
        AddCodeLine "\tbne\t*+4"
        AddCodeLine ("\tcmp\t#$" ++ hex2 (val &&& 0xFF))
        AddCodeLine "\tjsr\tboolule"
      else
        pushLhs
    else if flags &&& E.CF_TYPE = E.CF_LONG then
      pushLhs
    else do
      typeerror E flags
      pushLhs
  else
    -- Use long way over the stack
    oper E flags val ops

/-- Test for greater than. -/
def g_gt (E : Env) (flags val : Nat) : Gen Unit :=
  let ops : Subs := [
    some "tosgt00", some "tosgta0", some "tosgtax",
    some "tosugt00", some "tosugta0", some "tosugtax",
    none, none, some "tosgteax",
    none, none, some "tosugteax"]
  let pushLhs : Gen Unit := do
    g_push E (flags &&& bnot E.CF_CONST) 0
    oper E flags val ops
  -- If the right hand side is const, the lhs is not on stack but still
  -- in the primary register.
  if flags &&& E.CF_CONST ≠ 0 then
    -- Look at the type
    if flags &&& E.CF_TYPE = E.CF_CHAR ∧ flags &&& E.CF_FORCECHAR ≠ 0 then do
      AddCodeLine ("\tcmp\t#$" ++ hex2 (val &&& 0xFF))
      if flags &&& E.CF_UNSIGNED ≠ 0 then
        -- If we have a compare > 0, we will replace it by != 0 here,
        -- since both are identical but the latter is easier to optimize.
        if val &&& 0xFF ≠ 0 then
          AddCodeLine "\tjsr\tboolugt"
        else
          AddCodeLine "\tjsr\tboolne"
      else
        AddCodeLine "\tjsr\tboolgt"
    else if flags &&& E.CF_TYPE = E.CF_CHAR ∨ flags &&& E.CF_TYPE = E.CF_INT then
      if flags &&& E.CF_UNSIGNED ≠ 0 then
        -- If we have a compare > 0, we will replace it by != 0 here,
        -- since both are identical but the latter is easier to optimize.
        if val &&& 0xFFFF = 0 then do
          AddCodeLine "\tstx\ttmp1"
          AddCodeLine "\tora\ttmp1"
          AddCodeLine "\tjsr\tboolne"
        else do
          AddCodeLine ("\tcpx\t#$" ++ hex2 ((val >>> 8) &&& 0xFF))
          AddCodeLine "\tbne\t*+4"
          AddCodeLine ("\tcmp\t#$" ++ hex2 (val &&& 0xFF))
          AddCodeLine "\tjsr\tboolugt"
      else
        pushLhs
    else if flags &&& E.CF_TYPE = E.CF_LONG then
      pushLhs
    else do
      typeerror E flags
      pushLhs
  else
    -- Use long way over the stack
    oper E flags val ops

/-- Test for greater than or equal to. -/
def g_ge (E : Env) (flags val : Nat) : Gen Unit :=
  let ops : Subs := [
    some "tosge00", some "tosgea0", some "tosgeax",
    some "tosuge00", some "tosugea0", some "tosugeax",
    none, none, some "tosgeeax",
    none, none, some "tosugeeax"]
  let pushLhs : Gen Unit := do
    g_push E (flags &&& bnot E.CF_CONST) 0
    oper E flags val ops
  -- If the right hand side is const, the lhs is not on stack but still
  -- in the primary register.
  if flags &&& E.CF_CONST ≠ 0 then do
    -- Give a warning in some special cases
    if flags &&& E.CF_UNSIGNED ≠ 0 ∧ val = 0 then
      Warning Diag.WARN_COND_ALWAYS_TRUE
    -- Look at the type
    if flags &&& E.CF_TYPE = E.CF_CHAR ∧ flags &&& E.CF_FORCECHAR ≠ 0 then do
      AddCodeLine ("\tcmp\t#$" ++ hex2 (val &&& 0xFF))
      if flags &&& E.CF_UNSIGNED ≠ 0 then
        AddCodeLine "\tjsr\tbooluge"
      else
        AddCodeLine "\tjsr\tboolge"
    else if flags &&& E.CF_TYPE = E.CF_CHAR ∨ flags &&& E.CF_TYPE = E.CF_INT then
      if flags &&& E.CF_UNSIGNED ≠ 0 then do
        AddCodeLine ("\tcpx\t#$" ++ hex2 ((val >>> 8) &&& 0xFF))
        AddCodeLine "\tbne\t*+4"
        AddCodeLine ("\tcmp\t#$" ++ hex2 (val &&& 0xFF))
        AddCodeLine "\tjsr\tbooluge"
      else
        pushLhs
    else if flags &&& E.CF_TYPE = E.CF_LONG then
      pushLhs
    else do
      typeerror E flags
      pushLhs
  else
    -- Use long way over the stack
    oper E flags val ops

/-! ## Increment and decrement of the primary register -/

/-- Increment the primary register by a given number. -/
def g_inc (E : Env) (flags val : Nat) : Gen Unit :=
  -- Don't inc by zero
  if val = 0 then
    pure ()
  else
    -- Generate code for the supported types
    let flags := flags &&& bnot E.CF_CONST
    if flags &&& E.CF_TYPE = E.CF_CHAR ∧ flags &&& E.CF_FORCECHAR ≠ 0 then
      if E.CPU = E.CPU_65C02 ∧ val ≤ 2 then
        repeatGen val (AddCodeLine "\tina")
      else do
        AddCodeLine "\tclc"
        AddCodeLine ("\tadc\t#$" ++ hex2 (val &&& 0xFF))
    else if flags &&& E.CF_TYPE = E.CF_CHAR ∨ flags &&& E.CF_TYPE = E.CF_INT then
      if E.CPU = E.CPU_65C02 ∧ val = 1 then do
        AddCodeLine "\tina"
        AddCodeLine "\tbne\t*+3"
        AddCodeLine "\tinx"
        -- Tell the optimizer that the X register may be invalid
        AddCodeHint "x:!"
      else if E.FavourSize ≠ 0 then
        -- Use jsr calls
        if val ≤ 8 then
          AddCodeLine ("\tjsr\tincax" ++ decU val)
        else if val ≤ 255 then do
          ldyconst val
          AddCodeLine "\tjsr\tincaxy"
        else
          g_add E (flags ||| E.CF_CONST) val
      else
        -- Inline the code
        if val < 0x300 then do
          if val &&& 0xFF ≠ 0 then do
            AddCodeLine "\tclc"
            AddCodeLine ("\tadc\t#$" ++ hex2 (val % 256))
            AddCodeLine "\tbcc\t*+3"
            AddCodeLine "\tinx"
            -- Tell the optimizer that the X register may be invalid
            AddCodeHint "x:!"
          if val ≥ 0x100 then
            AddCodeLine "\tinx"
          if val ≥ 0x200 then
            AddCodeLine "\tinx"
        else do
          AddCodeLine "\tclc"
          if val &&& 0xFF ≠ 0 then do
            AddCodeLine ("\tadc\t#$" ++ hex2 (val % 256))
            -- Tell the optimizer that the X register may be invalid
            AddCodeHint "x:!"
          AddCodeLine "\tpha"
          AddCodeLine "\ttxa"
          AddCodeLine ("\tadc\t#$" ++ hex2 ((val >>> 8) % 256))
          AddCodeLine "\ttax"
          AddCodeLine "\tpla"
    else if flags &&& E.CF_TYPE = E.CF_LONG then
      if val ≤ 255 then do
        ldyconst val
        AddCodeLine "\tjsr\tinceaxy"
      else
        g_add E (flags ||| E.CF_CONST) val
    else
      typeerror E flags

/-- Decrement the primary register by a given number. -/
def g_dec (E : Env) (flags val : Nat) : Gen Unit :=
  -- Generate code for the supported types
  let flags := flags &&& bnot E.CF_CONST
  if flags &&& E.CF_TYPE = E.CF_CHAR ∧ flags &&& E.CF_FORCECHAR ≠ 0 then
    if E.CPU = E.CPU_65C02 ∧ val ≤ 2 then
      repeatGen val (AddCodeLine "\tdea")
    else do
      AddCodeLine "\tsec"
      AddCodeLine ("\tsbc\t#$" ++ hex2 (val &&& 0xFF))
  else if flags &&& E.CF_TYPE = E.CF_CHAR ∨ flags &&& E.CF_TYPE = E.CF_INT then
    if val ≤ 2 then
      AddCodeLine ("\tjsr\tdecax" ++ decU val)
    else if val ≤ 255 then do
      ldyconst val
      AddCodeLine "\tjsr\tdecaxy"
    else
      g_sub E (flags ||| E.CF_CONST) val
  else if flags &&& E.CF_TYPE = E.CF_LONG then
    if val ≤ 255 then do
      ldyconst val
      AddCodeLine "\tjsr\tdeceaxy"
    else
      g_sub E (flags ||| E.CF_CONST) val
  else
    typeerror E flags

/-! ## Indirect fetch and store -/

/-- The value in Offs is an offset to an address in a/x. Make sure, an object
of the type given in Flags can be loaded or stored into this address by
adding part of the offset to the address in ax, so that the remaining
offset fits into an index register. Return the remaining offset. -/
def MakeByteOffs (E : Env) (Flags Offs : Nat) : Gen Nat := do
  -- If the offset is too large for a byte register, add the high byte
  -- of the offset to the primary. Beware: We need a special correction
  -- if the offset in the low byte will overflow in the operation.
  let O0 := Offs &&& bnot 0xFF
  let size ← sizeofarg E Flags
  -- We need to add the low byte also
  let O := if Offs &&& 0xFF > 256 - size then O0 + (Offs &&& 0xFF) else O0
  -- Do the correction if we need one
  if O ≠ 0 then do
    g_inc E (E.CF_INT ||| E.CF_CONST) O
    pure (Offs - O)
  else
    -- Return the new offset
    pure Offs

/-- Fetch the specified object type indirect through the primary register
into the primary register. -/
def g_getind (E : Env) (flags offs : Nat) : Gen Unit := do
  -- If the offset is greater than 255, add the part that is > 255 to
  -- the primary. This way we get an easy addition and use the low byte
  -- as the offset
  let offs ← MakeByteOffs E flags offs
  -- Handle the indirect fetch
  if flags &&& E.CF_TYPE = E.CF_CHAR then
    -- Character sized
    if offs ≠ 0 then do
      ldyconst offs
      if flags &&& E.CF_UNSIGNED ≠ 0 then
        AddCodeLine "\tjsr\tldauidx"
      else
        AddCodeLine "\tjsr\tldaidx"
    else
      if flags &&& E.CF_UNSIGNED ≠ 0 then
        if E.FavourSize ≠ 0 then
          AddCodeLine "\tjsr\tldaui"
        else do
          AddCodeLine "\tsta\tptr1"
          AddCodeLine "\tstx\tptr1+1"
          AddCodeLine "\tldx\t#$00"
          AddCodeLine "\tlda\t(ptr1,x)"
      else
        AddCodeLine "\tjsr\tldai"
  else if flags &&& E.CF_TYPE = E.CF_INT then
    if flags &&& E.CF_TEST ≠ 0 then do
      ldyconst offs
      AddCodeLine "\tsta\tptr1"
      AddCodeLine "\tstx\tptr1+1"
      AddCodeLine "\tlda\t(ptr1),y"
      AddCodeLine "\tiny"
      AddCodeLine "\tora\t(ptr1),y"
    else
      if offs = 0 then
        AddCodeLine "\tjsr\tldaxi"
      else do
        ldyconst (offs + 1)
        AddCodeLine "\tjsr\tldaxidx"
  else if flags &&& E.CF_TYPE = E.CF_LONG then do
    if offs = 0 then
      AddCodeLine "\tjsr\tldeaxi"
    else do
      ldyconst (offs + 3)
      AddCodeLine "\tjsr\tldeaxidx"
    if flags &&& E.CF_TEST ≠ 0 then
      AddCodeLine "\tjsr\ttsteax"
  else
    typeerror E flags

/-- Store the specified object type in the primary register at the address
on the top of the stack. -/
def g_putind (E : Env) (flags offs : Nat) : Gen Unit := do
  -- We cannot currently handle more than byte sized offsets
  let size ← sizeofarg E flags
  if offs > 256 - size then
    Internal "g_putind: Large offsets not implemented"
  -- Check the size and determine operation
  if flags &&& E.CF_TYPE = E.CF_CHAR then
    if offs ≠ 0 then do
      ldyconst offs
      AddCodeLine "\tjsr\tstaspidx"
    else
      AddCodeLine "\tjsr\tstaspp"
  else if flags &&& E.CF_TYPE = E.CF_INT then
    if offs ≠ 0 then do
      ldyconst offs
      AddCodeLine "\tjsr\tstaxspidx"
    else
      AddCodeLine "\tjsr\tstaxspp"
  else if flags &&& E.CF_TYPE = E.CF_LONG then
    if offs ≠ 0 then do
      ldyconst offs
      AddCodeLine "\tjsr\tsteaxspidx"
    else
      AddCodeLine "\tjsr\tsteaxspp"
  else
    typeerror E flags
  -- Pop the argument which is always a pointer
  let _ ← pop E E.CF_PTR

/-! ## Special op= functions through a pointer -/

/-- Emit += for the location with address in ax. -/
def g_addeqind (E : Env) (flags offs val : Nat) : Gen Unit := do
  -- If the offset is too large for a byte register, add the high byte
  -- of the offset to the primary. Beware: We need a special correction
  -- if the offset in the low byte will overflow in the operation.
  let offs ← MakeByteOffs E flags offs
  -- Check the size and determine operation
  if flags &&& E.CF_TYPE = E.CF_CHAR then do
    AddCodeLine "\tsta\tptr1"
    AddCodeLine "\tstx\tptr1+1"
    if offs = 0 then do
      AddCodeLine "\tldx\t#$00"
      AddCodeLine ("\tlda\t#$" ++ hex2 (val &&& 0xFF))
      AddCodeLine "\tclc"
      AddCodeLine "\tadc\t(ptr1,x)"
      AddCodeLine "\tsta\t(ptr1,x)"
    else do
      AddCodeLine ("\tldy\t#$" ++ hex2 offs)
      AddCodeLine "\tldx\t#$00"
      AddCodeLine ("\tlda\t#$" ++ hex2 (val &&& 0xFF))
      AddCodeLine "\tclc"
      AddCodeLine "\tadc\t(ptr1),y"
      AddCodeLine "\tsta\t(ptr1),y"
  else if flags &&& E.CF_TYPE = E.CF_INT ∧ E.FavourSize = 0 then do
    -- Lots of code, use only if size is not important
    AddCodeLine "\tsta\tptr1"
    AddCodeLine "\tstx\tptr1+1"
    AddCodeLine ("\tldy\t#$" ++ hex2 offs)
    AddCodeLine ("\tlda\t#$" ++ hex2 (val &&& 0xFF))
    AddCodeLine "\tclc"
    AddCodeLine "\tadc\t(ptr1),y"
    AddCodeLine "\tsta\t(ptr1),y"
    AddCodeLine "\tpha"
    AddCodeLine "\tiny"
    AddCodeLine ("\tlda\t#$" ++ hex2 ((val >>> 8) &&& 0xFF))
    AddCodeLine "\tadc\t(ptr1),y"
    AddCodeLine "\tsta\t(ptr1),y"
    AddCodeLine "\ttax"
    AddCodeLine "\tpla"
  else if flags &&& E.CF_TYPE = E.CF_INT ∨ flags &&& E.CF_TYPE = E.CF_LONG then do
    -- Push the address
    AddCodeLine "\tjsr\tpushax"
    -- Correct the internal sp
    let _ ← push E flags
    -- Fetch the value
    g_getind E flags offs
    -- Increment value in primary
    g_inc E flags val
    -- Store the value back
    g_putind E flags offs
  else
    typeerror E flags

/-- Emit -= for the location with address in ax. -/
def g_subeqind (E : Env) (flags offs val : Nat) : Gen Unit := do
  -- If the offset is too large for a byte register, add the high byte
  -- of the offset to the primary. Beware: We need a special correction
  -- if the offset in the low byte will overflow in the operation.
  let offs ← MakeByteOffs E flags offs
  -- Check the size and determine operation
  if flags &&& E.CF_TYPE = E.CF_CHAR then do
    AddCodeLine "\tsta\tptr1"
    AddCodeLine "\tstx\tptr1+1"
    if offs = 0 then do
      AddCodeLine "\tldx\t#$00"
      AddCodeLine "\tlda\t(ptr1,x)"
      AddCodeLine "\tsec"
      AddCodeLine ("\tsbc\t#$" ++ hex2 (val &&& 0xFF))
      AddCodeLine "\tsta\t(ptr1,x)"
    else do
      AddCodeLine ("\tldy\t#$" ++ hex2 offs)
      AddCodeLine "\tldx\t#$00"
      AddCodeLine "\tlda\t(ptr1),y"
      AddCodeLine "\tsec"
      AddCodeLine ("\tsbc\t#$" ++ hex2 (val &&& 0xFF))
      AddCodeLine "\tsta\t(ptr1),y"
  else if flags &&& E.CF_TYPE = E.CF_INT ∧ E.FavourSize = 0 then do
    -- Lots of code, use only if size is not important
    AddCodeLine "\tsta\tptr1"
    AddCodeLine "\tstx\tptr1+1"
    AddCodeLine ("\tldy\t#$" ++ hex2 offs)
    AddCodeLine "\tlda\t(ptr1),y"
    AddCodeLine "\tsec"
    AddCodeLine ("\tsbc\t#$" ++ hex2 (val &&& 0xFF))
    AddCodeLine "\tsta\t(ptr1),y"
    AddCodeLine "\tpha"
    AddCodeLine "\tiny"
    AddCodeLine "\tlda\t(ptr1),y"
    AddCodeLine ("\tsbc\t#$" ++ hex2 ((val >>> 8) &&& 0xFF))
    AddCodeLine "\tsta\t(ptr1),y"
    AddCodeLine "\ttax"
    AddCodeLine "\tpla"
  else if flags &&& E.CF_TYPE = E.CF_INT ∨ flags &&& E.CF_TYPE = E.CF_LONG then do
    -- Push the address
    AddCodeLine "\tjsr\tpushax"
    -- Correct the internal sp
    let _ ← push E flags
    -- Fetch the value
    g_getind E flags offs
    -- Decrement value in primary
    g_dec E flags val
    -- Store the value back
    g_putind E flags offs
  else
    typeerror E flags

/-! ## Stack-relative access -/

/-- Fetch specified local object (local var). -/
def g_getlocal (E : Env) (flags : Nat) (offs : Int) : Gen Unit := do
  let offs := offs - (← getOursp)
  CheckLocalOffs (toUnsigned offs)
  if flags &&& E.CF_TYPE = E.CF_CHAR then
    if flags &&& E.CF_FORCECHAR ≠ 0 ∨ flags &&& E.CF_TEST ≠ 0 then
      if E.CPU = E.CPU_65C02 ∧ offs = 0 then
        AddCodeLine "\tlda\t(sp)"
      else do
        ldyconst (toUnsigned offs)
        AddCodeLine "\tlda\t(sp),y"
    else do
      if offs = 0 then do
        AddCodeLine "\tldx\t#$00"
        AddCodeLine "\tlda\t(sp,x)"
      else do
        ldyconst (toUnsigned offs)
        AddCodeLine "\tldx\t#$00"
        AddCodeLine "\tlda\t(sp),y"
      if flags &&& E.CF_UNSIGNED = 0 then do
        AddCodeLine "\tbpl\t*+3"
        AddCodeLine "\tdex"
        -- X is invalid now
        AddCodeHint "x:!"
  else if flags &&& E.CF_TYPE = E.CF_INT then do
    CheckLocalOffs (toUnsigned (offs + 1))
    if flags &&& E.CF_TEST ≠ 0 then do
      ldyconst (toUnsigned (offs + 1))
      AddCodeLine "\tlda\t(sp),y"
      AddCodeLine "\tdey"
      AddCodeLine "\tora\t(sp),y"
    else
      if E.FavourSize ≠ 0 then
        if offs ≠ 0 then do
          ldyconst (toUnsigned (offs + 1))
          AddCodeLine "\tjsr\tldaxysp"
        else
          AddCodeLine "\tjsr\tldax0sp"
      else do
        ldyconst (toUnsigned (offs + 1))
        AddCodeLine "\tlda\t(sp),y"
        AddCodeLine "\ttax"
        AddCodeLine "\tdey"
        AddCodeLine "\tlda\t(sp),y"
  else if flags &&& E.CF_TYPE = E.CF_LONG then
    if offs ≠ 0 then do
      ldyconst (toUnsigned (offs + 3))
      AddCodeLine "\tjsr\tldeaxysp"
    else
      AddCodeLine "\tjsr\tldeax0sp"
  else
    typeerror E flags

/-- Put data into local object. -/
def g_putlocal (E : Env) (flags : Nat) (offs : Int) : Gen Unit := do
  let offs := offs - (← getOursp)
  CheckLocalOffs (toUnsigned offs)
  if flags &&& E.CF_TYPE = E.CF_CHAR then
    if E.CPU = E.CPU_65C02 ∧ offs = 0 then
      AddCodeLine "\tsta\t(sp)"
    else do
      ldyconst (toUnsigned offs)
      AddCodeLine "\tsta\t(sp),y"
  else if flags &&& E.CF_TYPE = E.CF_INT then
    if offs ≠ 0 then do
      ldyconst (toUnsigned offs)
      AddCodeLine "\tjsr\tstaxysp"
    else
      AddCodeLine "\tjsr\tstax0sp"
  else if flags &&& E.CF_TYPE = E.CF_LONG then
    if offs ≠ 0 then do
      ldyconst (toUnsigned offs)
      AddCodeLine "\tjsr\tsteaxysp"
    else
      AddCodeLine "\tjsr\tsteax0sp"
  else
    typeerror E flags

/-- Add a local variable to ax. -/
def g_addlocal (E : Env) (flags : Nat) (offs : Int) : Gen Unit := do
  -- Correct the offset and check it
  let offs := offs - (← getOursp)
  CheckLocalOffs (toUnsigned offs)
  if flags &&& E.CF_TYPE = E.CF_CHAR then do
    AddCodeLine ("\tldy\t#$" ++ hex2 (toUnsigned offs &&& 0xFF))
    AddCodeLine "\tclc"
    AddCodeLine "\tadc\t(sp),y"
    AddCodeLine "\tbcc\t*+3"
    AddCodeLine "\tinx"
    AddCodeHint "x:!"
  else if flags &&& E.CF_TYPE = E.CF_INT then do
    AddCodeLine ("\tldy\t#$" ++ hex2 (toUnsigned offs &&& 0xFF))
    AddCodeLine "\tclc"
    AddCodeLine "\tadc\t(sp),y"
    AddCodeLine "\tpha"
    AddCodeLine "\ttxa"
    AddCodeLine "\tiny"
    AddCodeLine "\tadc\t(sp),y"
    AddCodeLine "\ttax"
    AddCodeLine "\tpla"
  else if flags &&& E.CF_TYPE = E.CF_LONG then do
    -- Do it the old way
    g_push E flags 0
    g_getlocal E flags offs
    g_add E flags 0
  else
    typeerror E flags

/-- Emit += for a local variable. -/
def g_addeqlocal (E : Env) (flags : Nat) (offs : Int) (val : Nat) : Gen Unit := do
  -- Calculate the true offset, check it, load it into Y
  let offs := offs - (← getOursp)
  CheckLocalOffs (toUnsigned offs)
  -- Check the size and determine operation
  if flags &&& E.CF_TYPE = E.CF_CHAR ∧ flags &&& E.CF_FORCECHAR ≠ 0 then do
    if offs = 0 then do
      AddCodeLine "\tldx\t#$00"
      if flags &&& E.CF_CONST ≠ 0 then do
        AddCodeLine "\tclc"
        AddCodeLine ("\tlda\t#$" ++ hex2 (val &&& 0xFF))
        AddCodeLine "\tadc\t(sp,x)"
        AddCodeLine "\tsta\t(sp,x)"
      else do
        AddCodeLine "\tclc"
        AddCodeLine "\tadc\t(sp,x)"
        AddCodeLine "\tsta\t(sp,x)"
    else do
      ldyconst (toUnsigned offs)
      AddCodeLine "\tldx\t#$00"
      if flags &&& E.CF_CONST ≠ 0 then do
        AddCodeLine "\tclc"
        AddCodeLine ("\tlda\t#$" ++ hex2 (val &&& 0xFF))
        AddCodeLine "\tadc\t(sp),y"
        AddCodeLine "\tsta\t(sp),y"
      else do
        AddCodeLine "\tclc"
        AddCodeLine "\tadc\t(sp),y"
        AddCodeLine "\tsta\t(sp),y"
    if flags &&& E.CF_UNSIGNED = 0 then do
      AddCodeLine "\tbpl\t*+3"
      AddCodeLine "\tdex"
      -- Invalidate X
      AddCodeHint "x:!"
  else if flags &&& E.CF_TYPE = E.CF_CHAR ∨ flags &&& E.CF_TYPE = E.CF_INT then do
    if flags &&& E.CF_CONST ≠ 0 then
      g_getimmed E flags val 0
    if offs = 0 then
      AddCodeLine "\tjsr\taddeq0sp"
    else do
      ldyconst (toUnsigned offs)
      AddCodeLine "\tjsr\taddeqysp"
  else if flags &&& E.CF_TYPE = E.CF_LONG then do
    if flags &&& E.CF_CONST ≠ 0 then
      g_getimmed E flags val 0
    if offs = 0 then
      AddCodeLine "\tjsr\tladdeq0sp"
    else do
      ldyconst (toUnsigned offs)
      AddCodeLine "\tjsr\tladdeqysp"
  else
    typeerror E flags

/-- Emit -= for a local variable. -/
def g_subeqlocal (E : Env) (flags : Nat) (offs : Int) (val : Nat) : Gen Unit := do
  -- Calculate the true offset, check it, load it into Y
  let offs := offs - (← getOursp)
  CheckLocalOffs (toUnsigned offs)
  -- Check the size and determine operation
  if flags &&& E.CF_TYPE = E.CF_CHAR ∧ flags &&& E.CF_FORCECHAR ≠ 0 then do
    ldyconst (toUnsigned offs)
    AddCodeLine "\tldx\t#$00"
    AddCodeLine "\tsec"
    if flags &&& E.CF_CONST ≠ 0 then do
      AddCodeLine "\tlda\t(sp),y"
      AddCodeLine ("\tsbc\t#$" ++ hex2 (val &&& 0xFF))
    else do
      AddCodeLine "\tsta\ttmp1"
      AddCodeLine "\tlda\t(sp),y"
      AddCodeLine "\tsbc\ttmp1"
    AddCodeLine "\tsta\t(sp),y"
    if flags &&& E.CF_UNSIGNED = 0 then do
      AddCodeLine "\tbpl\t*+3"
      AddCodeLine "\tdex"
      -- Invalidate X
      AddCodeHint "x:!"
  else if flags &&& E.CF_TYPE = E.CF_CHAR ∨ flags &&& E.CF_TYPE = E.CF_INT then do
    if flags &&& E.CF_CONST ≠ 0 then
      g_getimmed E flags val 0
    if offs = 0 then
      AddCodeLine "\tjsr\tsubeq0sp"
    else do
      ldyconst (toUnsigned offs)
      AddCodeLine "\tjsr\tsubeqysp"
  else if flags &&& E.CF_TYPE = E.CF_LONG then do
    if flags &&& E.CF_CONST ≠ 0 then
      g_getimmed E flags val 0
    if offs = 0 then
      AddCodeLine "\tjsr\tlsubeq0sp"
    else do
      ldyconst (toUnsigned offs)
      AddCodeLine "\tjsr\tlsubeqysp"
  else
    typeerror E flags

/-- Restore register variables. The sum `StackOffs+Bytes-1` is computed in
`unsigned` arithmetic (32 bits). -/
def g_restore_regvars (StackOffs RegOffs : Int) (Bytes : Nat) : Gen Unit := do
  -- Calculate the actual stack offset and check it
  let StackOffs := StackOffs - (← getOursp)
  CheckLocalOffs (toUnsigned StackOffs)
  -- Don't loop for up to two bytes
  if Bytes = 1 then do
    ldyconst (toUnsigned StackOffs)
    AddCodeLine "\tlda\t(sp),y"
    AddCodeLine ("\tsta\tregbank" ++ decSigned RegOffs)
  else if Bytes = 2 then do
    ldyconst (toUnsigned StackOffs)
    AddCodeLine "\tlda\t(sp),y"
    AddCodeLine ("\tsta\tregbank" ++ decSigned RegOffs)
    AddCodeLine "\tiny"
    AddCodeLine "\tlda\t(sp),y"
    AddCodeLine ("\tsta\tregbank" ++ decSigned (RegOffs + 1))
  else do
    -- More than two bytes - loop
    let Label ← GetLabel
    ldyconst ((toUnsigned StackOffs + Bytes + (2 ^ 32 - 1)) % 2 ^ 32)
    ldxconst Bytes
    g_defloclabel Label
    AddCodeLine "\tlda\t(sp),y"
    AddCodeLine ("\tsta\tregbank" ++ decSigned (RegOffs - 1) ++ ",x")
    AddCodeLine "\tdey"
    AddCodeLine "\tdex"
    AddCodeLine ("\tbne\tL" ++ hex4 Label)

/-! ## Type conversion -/

/-- Make sure, the value on TOS is a long. Convert if necessary. -/
def g_toslong (E : Env) (flags : Nat) : Gen Unit :=
  if flags &&& E.CF_TYPE = E.CF_CHAR ∨ flags &&& E.CF_TYPE = E.CF_INT then do
    if flags &&& E.CF_UNSIGNED ≠ 0 then
      AddCodeLine "\tjsr\ttosulong"
    else
      AddCodeLine "\tjsr\ttoslong"
    let _ ← push E E.CF_INT
  else if flags &&& E.CF_TYPE = E.CF_LONG then
    pure ()
  else
    typeerror E flags

/-- Make sure, the value in the primary register a long. Convert if necessary. -/
def g_reglong (E : Env) (flags : Nat) : Gen Unit :=
  if flags &&& E.CF_TYPE = E.CF_CHAR ∨ flags &&& E.CF_TYPE = E.CF_INT then
    if flags &&& E.CF_UNSIGNED ≠ 0 then
      if E.FavourSize ≠ 0 then
        AddCodeLine "\tjsr\taxulong"
      else do
        ldyconst 0
        AddCodeLine "\tsty\tsreg"
        AddCodeLine "\tsty\tsreg+1"
    else
      AddCodeLine "\tjsr\taxlong"
  else if flags &&& E.CF_TYPE = E.CF_LONG then
    pure ()
  else
    typeerror E flags

/-- Adjust the integer operands before doing a binary operation. lhs is a
flags value, that corresponds to the value on TOS, rhs corresponds to the
value in (e)ax. The return value is the flags value for the resulting type. -/
def g_typeadjust (E : Env) (lhs rhs : Nat) : Gen Nat := do
  -- Get the type spec from the flags
  let ltype := lhs &&& E.CF_TYPE
  let rtype := rhs &&& E.CF_TYPE
  -- Check if a conversion is needed
  let (lhs, rhs, ltype, rtype) ←
    (if ltype = E.CF_LONG ∧ rtype ≠ E.CF_LONG ∧ rhs &&& E.CF_CONST = 0 then do
      -- We must promote the primary register to long
      g_reglong E rhs
      -- Get the new rhs type
      pure (lhs, (rhs &&& bnot E.CF_TYPE) ||| E.CF_LONG, ltype, E.CF_LONG)
    else if ltype ≠ E.CF_LONG ∧ lhs &&& E.CF_CONST = 0 ∧ rtype = E.CF_LONG then do
      -- We must promote the lhs to long
      if lhs &&& E.CF_REG ≠ 0 then
        g_reglong E lhs
      else
        g_toslong E lhs
      -- Get the new lhs type
      pure ((lhs &&& bnot E.CF_TYPE) ||| E.CF_LONG, rhs, E.CF_LONG, rtype)
    else
      pure (lhs, rhs, ltype, rtype) : Gen (Nat × Nat × Nat × Nat))
  -- Determine the result type for the operation:
  --  - The result is const if both operands are const.
  --  - The result is unsigned if one of the operands is unsigned.
  --  - The result is long if one of the operands is long.
  --  - Otherwise the result is int sized.
  let result := (lhs &&& E.CF_CONST) &&& (rhs &&& E.CF_CONST)
  let result := result ||| ((lhs &&& E.CF_UNSIGNED) ||| (rhs &&& E.CF_UNSIGNED))
  if rtype = E.CF_LONG ∨ ltype = E.CF_LONG then
    pure (result ||| E.CF_LONG)
  else
    pure (result ||| E.CF_INT)


/-- Cast the value in the primary register to the operand size that is flagged
by the lhs value. Return the result value. -/
def g_typecast (E : Env) (lhs rhs : Nat) : Gen Nat := do
  -- Get the type spec from the flags
  let ltype := lhs &&& E.CF_TYPE
  let rtype := rhs &&& E.CF_TYPE
  -- Check if a conversion is needed
  if ltype = E.CF_LONG ∧ rtype ≠ E.CF_LONG ∧ rhs &&& E.CF_CONST = 0 then
    -- We must promote the primary register to long
    g_reglong E rhs
  -- Do not need any other action. If the left type is int, and the primary
  -- register is long, it will be automagically truncated. If the right hand
  -- side is const, it is not located in the primary register and handled by
  -- the expression parser code.
  -- Result is const if the right hand side was const
  let lhs := lhs ||| (rhs &&& E.CF_CONST)
  -- The resulting type is that of the left hand side
  pure lhs

/-! ## Function entry and exit -/

/-- Function prologue. The variable `funcargs` remembers the argument size of
a function; if the function gets its argument size by the caller (variable
param list or function without prototype), it is set to -1. The assignment
`funcargs = argsize` converts the `unsigned` argument size to `int`. -/
def g_enter (E : Env) (flags argsize : Nat) : Gen Unit :=
  if flags &&& E.CF_FIXARGC ≠ 0 then
    -- Just remember the argument size for the leave
    fun s => .ok () { s with funcargs := toInt (argsize : Int) }
  else do
    (fun s => .ok () { s with funcargs := -1 } : Gen Unit)
    AddCodeLine "\tjsr\tenter"

/-- Read the remembered argument size of the function. -/
def getFuncargs : Gen Int := fun s => .ok s.funcargs s

/-- Function epilogue. The `int` value is converted to `unsigned long` where it
is passed on; `k` is an `int`. -/
def g_leave (E : Env) (flags : Nat) (val : Int) : Gen Unit := do
  -- How many bytes of locals do we have to drop?
  let k := -(← getOursp)
  let funcargs ← getFuncargs
  -- If we didn't have a variable argument list, don't call leave
  if funcargs ≥ 0 then do
    -- Load a function return code if needed
    if flags &&& E.CF_CONST ≠ 0 then
      g_getimmed E flags (toUnsigned val) 0
    -- Drop stackframe or leave with rts
    let k := k + funcargs
    if k = 0 then
      AddCodeLine "\trts"
    else if k ≤ 8 then
      AddCodeLine ("\tjmp\tincsp" ++ decI k)
    else do
      CheckLocalOffs (toUnsigned k)
      ldyconst (toUnsigned k)
      AddCodeLine "\tjmp\taddysp"
  else do
    let buf := "\tjmp\tleave"
    let buf ←
      (if k ≠ 0 then do
        -- We've a stack frame to drop
        ldyconst (toUnsigned k)
        pure (buf ++ "y")
      else
        pure buf : Gen String)
    let buf ←
      (if flags &&& E.CF_CONST ≠ 0 then
        if flags &&& E.CF_TYPE ≠ E.CF_LONG then
          -- Constant int sized value given for return code
          if val = 0 then
            -- Special case: return 0
            pure (buf ++ "00")
          else if (toUnsigned val >>> 8) &&& 0xFF = 0 then do
            -- Special case: constant with high byte zero
            ldaconst (toUnsigned val)
            pure (buf ++ "0")
          else do
            -- Others: arbitrary constant value
            g_getimmed E flags (toUnsigned val) 0
            pure buf
        else do
          -- Constant long value: No shortcut possible
          g_getimmed E flags (toUnsigned val) 0
          pure buf
      else
        pure buf : Gen String)
    -- Output the jump
    AddCodeLine buf
  -- Add an empty line after a function to make the code more readable
  AddEmptyLine

/-! ## Segment support -/

/-- Invalid segment. -/
def SEG_INV : Int := -1

/-- The code segment. -/
def SEG_CODE : Int := 0

/-- The read only data segment. -/
def SEG_RODATA : Int := 1

/-- The data segment. -/
def SEG_DATA : Int := 2

/-- The bss segment. -/
def SEG_BSS : Int := 3

/-- The optimizer hints that name the segment kinds. -/
def SegmentHints : List String := ["seg:code", "seg:rodata", "seg:data", "seg:bss"]

/-- Switch to a specific segment. -/
def UseSeg (NewSeg : Int) : Gen Unit := fun s =>
  if s.CurSeg ≠ NewSeg then
    (do
      AddCodeLine (".segment\t\"" ++ s.SegmentNames.getD NewSeg.toNat "" ++ "\"")
      AddCodeHint (SegmentHints.getD NewSeg.toNat "")) { s with CurSeg := NewSeg }
  else
    .ok () s

/-- Switch to the code segment. -/
def g_usecode : Gen Unit := UseSeg SEG_CODE

/-- Switch to the read only data segment. -/
def g_userodata : Gen Unit := UseSeg SEG_RODATA

/-- Switch to the data segment. -/
def g_usedata : Gen Unit := UseSeg SEG_DATA

/-- Switch to the bss segment. -/
def g_usebss : Gen Unit := UseSeg SEG_BSS

/-- Set the name of a segment. -/
def SegName (Seg : Int) (Name : String) : Gen Unit := fun s =>
  -- Free the old name and set a new one
  let s1 := { s with SegmentNames := s.SegmentNames.set Seg.toNat Name }
  -- If the new segment is the current segment, emit a segment directive
  -- with the new name.
  if Seg = s1.CurSeg then
    -- Invalidate
    UseSeg Seg { s1 with CurSeg := SEG_INV }
  else
    .ok () s1

/-- Set the name of the CODE segment. -/
def g_codename (Name : String) : Gen Unit := SegName SEG_CODE Name

/-- Set the name of the RODATA segment. -/
def g_rodataname (Name : String) : Gen Unit := SegName SEG_RODATA Name

/-- Set the name of the DATA segment. -/
def g_dataname (Name : String) : Gen Unit := SegName SEG_DATA Name

/-- Set the name of the BSS segment. -/
def g_bssname (Name : String) : Gen Unit := SegName SEG_BSS Name


/-! ## Static memory cells -/

/-- Fetch an static memory cell into the primary register. -/
def g_getstatic (E : Env) (flags label offs : Nat) : Gen Unit := do
  -- Create the correct label name
  let lbuf ← GetLabelName E flags label offs
  -- Check the size and generate the correct load operation
  if flags &&& E.CF_TYPE = E.CF_CHAR then
    if flags &&& E.CF_FORCECHAR ≠ 0 ∨ flags &&& E.CF_TEST ≠ 0 then
      -- load A from the label
      AddCodeLine ("\tlda\t" ++ lbuf)
    else do
      ldxconst 0
      -- load A from the label
      AddCodeLine ("\tlda\t" ++ lbuf)
      if flags &&& E.CF_UNSIGNED = 0 then do
        -- Must sign extend
        AddCodeLine "\tbpl\t*+3"
        AddCodeLine "\tdex"
        -- X is invalid now
        AddCodeHint "x:!"
  else if flags &&& E.CF_TYPE = E.CF_INT then do
    AddCodeLine ("\tlda\t" ++ lbuf)
    if flags &&& E.CF_TEST ≠ 0 then
      AddCodeLine ("\tora\t" ++ lbuf ++ "+1")
    else
      AddCodeLine ("\tldx\t" ++ lbuf ++ "+1")
  else if flags &&& E.CF_TYPE = E.CF_LONG then
    if flags &&& E.CF_TEST ≠ 0 then do
      AddCodeLine ("\tlda\t" ++ lbuf ++ "+3")
      AddCodeLine ("\tora\t" ++ lbuf ++ "+2")
      AddCodeLine ("\tora\t" ++ lbuf ++ "+1")
      AddCodeLine ("\tora\t" ++ lbuf ++ "+0")
    else do
      AddCodeLine ("\tlda\t" ++ lbuf ++ "+3")
      AddCodeLine "\tsta\tsreg+1"
      AddCodeLine ("\tlda\t" ++ lbuf ++ "+2")
      AddCodeLine "\tsta\tsreg"
      AddCodeLine ("\tldx\t" ++ lbuf ++ "+1")
      AddCodeLine ("\tlda\t" ++ lbuf)
  else
    typeerror E flags

/-- Store the primary register into the specified static memory cell. -/
def g_putstatic (E : Env) (flags label offs : Nat) : Gen Unit := do
  -- Create the correct label name
  let lbuf ← GetLabelName E flags label offs
  -- Check the size and generate the correct store operation
  if flags &&& E.CF_TYPE = E.CF_CHAR then
    AddCodeLine ("\tsta\t" ++ lbuf)
  else if flags &&& E.CF_TYPE = E.CF_INT then do
    AddCodeLine ("\tsta\t" ++ lbuf)
    AddCodeLine ("\tstx\t" ++ lbuf ++ "+1")
  else if flags &&& E.CF_TYPE = E.CF_LONG then do
    AddCodeLine ("\tsta\t" ++ lbuf)
    AddCodeLine ("\tstx\t" ++ lbuf ++ "+1")
    AddCodeLine "\tldy\tsreg"
    AddCodeLine ("\tsty\t" ++ lbuf ++ "+2")
    AddCodeLine "\tldy\tsreg+1"
    AddCodeLine ("\tsty\t" ++ lbuf ++ "+3")
  else
    typeerror E flags

/-- Emit += for a static variable. A `CF_CHAR` descriptor without
`CF_FORCECHAR` falls through to the `CF_INT` case. -/
def g_addeqstatic (E : Env) (flags label offs val : Nat) : Gen Unit := do
  -- Create the correct label name
  let lbuf ← GetLabelName E flags label offs
  -- Check the size and determine operation
  if flags &&& E.CF_TYPE = E.CF_CHAR ∧ flags &&& E.CF_FORCECHAR ≠ 0 then do
    AddCodeLine "\tldx\t#$00"
    if flags &&& E.CF_CONST ≠ 0 then
      if val = 1 then do
        AddCodeLine ("\tinc\t" ++ lbuf)
        AddCodeLine ("\tlda\t" ++ lbuf)
      else do
        AddCodeLine ("\tlda\t#$" ++ hex2 (val &&& 0xFF))
        AddCodeLine "\tclc"
        AddCodeLine ("\tadc\t" ++ lbuf)
        AddCodeLine ("\tsta\t" ++ lbuf)
    else do
      AddCodeLine "\tclc"
      AddCodeLine ("\tadc\t" ++ lbuf)
      AddCodeLine ("\tsta\t" ++ lbuf)
    if flags &&& E.CF_UNSIGNED = 0 then do
      AddCodeLine "\tbpl\t*+3"
      AddCodeLine "\tdex"
      -- Invalidate X
      AddCodeHint "x:!"
  else if flags &&& E.CF_TYPE = E.CF_CHAR ∨ flags &&& E.CF_TYPE = E.CF_INT then
    if flags &&& E.CF_CONST ≠ 0 then
      if val = 1 then do
        let label ← GetLabel
        AddCodeLine ("\tinc\t" ++ lbuf)
        AddCodeLine ("\tbne\tL" ++ hex4 label)
        AddCodeLine ("\tinc\t" ++ lbuf ++ "+1")
        g_defloclabel label
        -- Hmmm...
        AddCodeLine ("\tlda\t" ++ lbuf)
        AddCodeLine ("\tldx\t" ++ lbuf ++ "+1")
      else do
        AddCodeLine ("\tlda\t#$" ++ hex2 (val &&& 0xFF))
        AddCodeLine "\tclc"
        AddCodeLine ("\tadc\t" ++ lbuf)
        AddCodeLine ("\tsta\t" ++ lbuf)
        if val < 0x100 then do
          let label ← GetLabel
          AddCodeLine ("\tbcc\tL" ++ hex4 label)
          AddCodeLine ("\tinc\t" ++ lbuf ++ "+1")
          g_defloclabel label
          AddCodeLine ("\tldx\t" ++ lbuf ++ "+1")
        else do
          AddCodeLine ("\tlda\t#$" ++ hex2 ((val >>> 8) &&& 0xFF))
          AddCodeLine ("\tadc\t" ++ lbuf ++ "+1")
          AddCodeLine ("\tsta\t" ++ lbuf ++ "+1")
          AddCodeLine "\ttax"
          AddCodeLine ("\tlda\t" ++ lbuf)
    else do
      AddCodeLine "\tclc"
      AddCodeLine ("\tadc\t" ++ lbuf)
      AddCodeLine ("\tsta\t" ++ lbuf)
      AddCodeLine "\ttxa"
      AddCodeLine ("\tadc\t" ++ lbuf ++ "+1")
      AddCodeLine ("\tsta\t" ++ lbuf ++ "+1")
      AddCodeLine "\ttax"
      AddCodeLine ("\tlda\t" ++ lbuf)
  else if flags &&& E.CF_TYPE = E.CF_LONG then
    if flags &&& E.CF_CONST ≠ 0 then
      if val < 0x100 then do
        AddCodeLine ("\tldy\t#<(" ++ lbuf ++ ")")
        AddCodeLine "\tsty\tptr1"
        AddCodeLine ("\tldy\t#>(" ++ lbuf ++ "+1)")
        if val = 1 then
          AddCodeLine "\tjsr\tladdeq1"
        else do
          AddCodeLine ("\tlda\t#$" ++ hex2 (val &&& 0xFF))
          AddCodeLine "\tjsr\tladdeqa"
      else do
        g_getstatic E flags label offs
        g_inc E flags val
        g_putstatic E flags label offs
    else do
      AddCodeLine ("\tldy\t#<(" ++ lbuf ++ ")")
      AddCodeLine "\tsty\tptr1"
      AddCodeLine ("\tldy\t#>(" ++ lbuf ++ "+1)")
      AddCodeLine "\tjsr\tladdeq"
  else
    typeerror E flags

/-! ## Address of a stack cell -/

/-- Fetch the address of the specified symbol into the primary register. -/
def g_leasp (E : Env) (offs : Int) : Gen Unit := do
  -- Calculate the offset relative to sp
  let offs := offs - (← getOursp)
  -- For value 0 we do direct code
  if offs = 0 then do
    AddCodeLine "\tlda\tsp"
    AddCodeLine "\tldx\tsp+1"
  else if E.FavourSize ≠ 0 then do
    -- Load A with offset value
    ldaconst (toUnsigned offs)
    -- Load effective address
    AddCodeLine "\tjsr\tleaasp"
  else if E.CPU = E.CPU_65C02 ∧ offs = 1 then do
    AddCodeLine "\tlda\tsp"
    AddCodeLine "\tldx\tsp+1"
    AddCodeLine "\tina"
    AddCodeLine "\tbne\t*+3"
    AddCodeLine "\tinx"
    -- Invalidate X
    AddCodeHint "x:!"
  else do
    ldaconst (toUnsigned offs)
    AddCodeLine "\tclc"
    AddCodeLine "\tldx\tsp+1"
    AddCodeLine "\tadc\tsp"
    AddCodeLine "\tbcc\t*+3"
    AddCodeLine "\tinx"
    -- Invalidate X
    AddCodeHint "x:!"

/-! ## Pre- and postamble -/

/-- Generate the assembler code preamble. The version numbers (`version.h`)
and the `DebugInfo` switch (`global.h`) are not among the sources and are
parameters. -/
def g_preamble (E : Env) (VER_MAJOR VER_MINOR VER_PATCH DebugInfo : Nat) : Gen Unit := do
  AddCodeLine ("; File generated by cc65 v " ++ decU VER_MAJOR ++ "." ++ decU VER_MINOR
    ++ "." ++ decU VER_PATCH)
  AddEmptyLine
  -- Insert some object file options
  AddCodeLine (".fopt\t\tcompiler,\"cc65 v " ++ decU VER_MAJOR ++ "." ++ decU VER_MINOR
    ++ "." ++ decU VER_PATCH ++ "\"")
  AddEmptyLine
  -- If we're producing code for some other CPU, switch the command set
  if E.CPU = E.CPU_65C02 then
    AddCodeLine ".pc02"
  -- Allow auto import for runtime library routines
  AddCodeLine ".autoimport\ton"
  -- Switch the assembler into case sensible mode
  AddCodeLine ".case\t\ton"
  -- Tell the assembler if we want to generate debug info
  AddCodeLine (".debuginfo\t" ++ (if DebugInfo ≠ 0 then "on" else "off"))
  -- Import the stack pointer for direct auto variable access
  AddCodeLine ".importzp\tsp, sreg, regsave, regbank, tmp1, ptr1"
  -- Define long branch macros
  AddCodeLine ".macpack\tlongbranch"
  AddEmptyLine
  -- Define the ldax macro
  AddCodeLine ".macro  ldax    Value"
  AddCodeLine "        lda     #<(Value)"
  AddCodeLine "        ldx     #>(Value)"
  AddCodeLine ".endmacro"
  AddEmptyLine
  -- Define the default names for the segments
  (fun s => .ok () { s with
    SegmentNames := (((s.SegmentNames.set SEG_CODE.toNat "CODE").set SEG_RODATA.toNat
      "RODATA").set SEG_DATA.toNat "DATA").set SEG_BSS.toNat "BSS" })
  -- Tell the optimizer that this is the end of the preamble
  AddCodeHint "end_of_preamble"

/-! ## Scaling for pointer arithmetic -/

/-- Scale the value in the primary register by the given value. If val is
positive, scale up, is val is negative, scale down. -/
def g_scale (E : Env) (flags : Nat) (val : Int) : Gen Unit :=
  -- Value may not be zero
  if val = 0 then
    Internal "Data type has no size"
  else if val > 0 then
    -- Scale up
    let p2 := E.powerof2 val.toNat
    if p2 > 0 ∧ p2 ≤ 3 then
      -- Factor is 2, 4 or 8, use special function
      let wordCase : Gen Unit :=
        if E.FavourSize ≠ 0 ∨ p2 ≥ 3 then
          if flags &&& E.CF_UNSIGNED ≠ 0 then
            AddCodeLine ("\tjsr\tshlax" ++ decI p2)
          else
            AddCodeLine ("\tjsr\taslax" ++ decI p2)
        else do
          AddCodeLine "\tstx\ttmp1"
          repeatGen p2.toNat (do
            AddCodeLine "\tasl\ta"
            AddCodeLine "\trol\ttmp1")
          AddCodeLine "\tldx\ttmp1"
      if flags &&& E.CF_TYPE = E.CF_CHAR then
        if flags &&& E.CF_FORCECHAR ≠ 0 then
          repeatGen p2.toNat (AddCodeLine "\tasl\ta")
        else
          wordCase
      else if flags &&& E.CF_TYPE = E.CF_INT then
        wordCase
      else if flags &&& E.CF_TYPE = E.CF_LONG then
        if flags &&& E.CF_UNSIGNED ≠ 0 then
          AddCodeLine ("\tjsr\tshleax" ++ decI p2)
        else
          AddCodeLine ("\tjsr\tasleax" ++ decI p2)
      else
        typeerror E flags
    else if val ≠ 1 then
      -- Use a multiplication instead
      g_mul E (flags ||| E.CF_CONST) val.toNat
    else
      pure ()
  else
    -- Scale down
    let val := -val
    let p2 := E.powerof2 val.toNat
    if p2 > 0 ∧ p2 ≤ 3 then
      -- Factor is 2, 4 or 8, use special function
      let wordCase : Gen Unit :=
        if flags &&& E.CF_UNSIGNED ≠ 0 then
          if E.FavourSize ≠ 0 ∨ p2 ≥ 3 then
            AddCodeLine ("\tjsr\tlsrax" ++ decI p2)
          else do
            AddCodeLine "\tstx\ttmp1"
            repeatGen p2.toNat (do
              AddCodeLine "\tlsr\ttmp1"
              AddCodeLine "\tror\ta")
            AddCodeLine "\tldx\ttmp1"
        else
          if E.FavourSize ≠ 0 ∨ p2 ≥ 3 then
            AddCodeLine ("\tjsr\tasrax" ++ decI p2)
          else do
            AddCodeLine "\tstx\ttmp1"
            repeatGen p2.toNat (do
              AddCodeLine "\tcpx\t#$80"
              AddCodeLine "\tror\ttmp1"
              AddCodeLine "\tror\ta")
            AddCodeLine "\tldx\ttmp1"
      if flags &&& E.CF_TYPE = E.CF_CHAR then
        if flags &&& E.CF_FORCECHAR ≠ 0 then
          if flags &&& E.CF_UNSIGNED ≠ 0 then
            repeatGen p2.toNat (AddCodeLine "\tlsr\ta")
          else if p2 ≤ 2 then do
            AddCodeLine "\tcmp\t#$80"
            AddCodeLine "\tror\ta"
          else
            wordCase
        else
          wordCase
      else if flags &&& E.CF_TYPE = E.CF_INT then
        wordCase
      else if flags &&& E.CF_TYPE = E.CF_LONG then
        if flags &&& E.CF_UNSIGNED ≠ 0 then
          AddCodeLine ("\tjsr\tlsreax" ++ decI p2)
        else
          AddCodeLine ("\tjsr\tasreax" ++ decI p2)
      else
        typeerror E flags
    else if val ≠ 1 then
      -- Use a division instead
      g_div E (flags ||| E.CF_CONST) val.toNat
    else
      pure ()

/-! ## Jumps -/

/-- Jump to specified internal label number. -/
def g_jump (label : Nat) : Gen Unit :=
  AddCodeLine ("\tjmp\tL" ++ hex4 label)

/-- Jump to label if zero flag clear. -/
def g_truejump (E : Env) (flags label : Nat) : Gen Unit :=
  if flags &&& E.CF_SHORT ≠ 0 then
    AddCodeLine ("\tbne\tL" ++ hex4 label)
  else
    AddCodeLine ("\tjne\tL" ++ hex4 label)

/-- Jump to label if zero flag set. -/
def g_falsejump (E : Env) (flags label : Nat) : Gen Unit :=
  if flags &&& E.CF_SHORT ≠ 0 then
    AddCodeLine ("\tbeq\tL" ++ hex4 label)
  else
    AddCodeLine ("\tjeq\tL" ++ hex4 label)

/-! ## Space on the stack -/

/-- The conversion `%c` of an `int`: the character with the code of its low
byte. -/
def chrC (i : Int) : String := String.singleton (Char.ofNat (toUnsigned i % 256))

/-- Call the routine that moves the stack pointer by `k`: a routine with a
built-in count up to 8, the routine that takes the count in Y above. -/
def mod_internal (k : Int) (verb1 verb2 : String) : Gen Unit :=
  if k ≤ 8 then
    AddCodeLine ("\tjsr\t" ++ verb1 ++ "sp" ++ chrC (k + ('0'.toNat : Int)))
  else do
    CheckLocalOffs (toUnsigned k)
    ldyconst (toUnsigned k)
    AddCodeLine ("\tjsr\t" ++ verb2 ++ "sp")

/-- Create or drop space on the stack. The negation `-space` is computed in
`int`: for the most negative `int` it wraps around to the same value. -/
def g_space (space : Int) : Gen Unit :=
  if space < 0 then
    mod_internal (toInt (-space)) "inc" "addy"
  else if space > 0 then
    mod_internal space "dec" "suby"
  else
    pure ()

/-! ## Constant data -/

/-- The inner loop of `g_defbytes`, `do ... while (Chunk)`, entered with
`Chunk` values left to print on the line: print one value and, if
`--Chunk` is not zero, a comma and go round again. Returns the line buffer
and the advanced byte pointer. The code never enters the loop with
`Chunk = 0`. -/
def defbytesRow : Nat → List Nat → String → String × List Nat
  | 0, Bytes, B => (B, Bytes)
  | Chunk + 1, Bytes, B =>
    let B := B ++ "$" ++ hex2 (Bytes.headD 0 &&& 0xFF)
    if Chunk ≠ 0 then
      defbytesRow Chunk Bytes.tail (B ++ ",")
    else
      (B, Bytes.tail)

/-- The outer loop of `g_defbytes`, `while (Count)`, with a bound on the
number of rounds that are left. -/
def defbytesLoop : Nat → List Nat → Nat → Gen Unit
  | 0, _, _ => pure ()
  | rounds + 1, Bytes, Count =>
    if Count ≠ 0 then do
      -- How many go into this line?
      let Chunk := if Count > 16 then 16 else Count
      let Count := Count - Chunk
      -- Output one line
      let row := defbytesRow Chunk Bytes "\t.byte\t"
      -- Output the line
      AddCodeLine row.1
      defbytesLoop rounds row.2 Count
    else
      pure ()

/-- Output a row of bytes as a constant. `Bytes` is the memory the pointer
points to, of which the first `Count` bytes are output. Every round of the
outer loop takes at least one byte, so `Count` rounds are enough. -/
def g_defbytes (Bytes : List Nat) (Count : Nat) : Gen Unit :=
  defbytesLoop Count Bytes Count

/-! ## Specification vocabulary -/

/-- The descriptor has a recognised width: its `CF_TYPE` field is one of
`CF_CHAR`, `CF_INT`, `CF_LONG`. -/
def Recognised (E : Env) (flags : Nat) : Prop :=
  flags &&& E.CF_TYPE = E.CF_CHAR ∨ flags &&& E.CF_TYPE = E.CF_INT
    ∨ flags &&& E.CF_TYPE = E.CF_LONG

instance (E : Env) (flags : Nat) : Decidable (Recognised E flags) := by
  unfold Recognised; infer_instance

/-- The descriptor is constant (`CF_CONST` set). -/
def IsConst (E : Env) (flags : Nat) : Prop := flags &&& E.CF_CONST ≠ 0

/-- The descriptor is unsigned (`CF_UNSIGNED` set). -/
def IsUnsigned (E : Env) (flags : Nat) : Prop := flags &&& E.CF_UNSIGNED ≠ 0

instance (E : Env) (flags : Nat) : Decidable (IsConst E flags) := by
  unfold IsConst; infer_instance

instance (E : Env) (flags : Nat) : Decidable (IsUnsigned E flags) := by
  unfold IsUnsigned; infer_instance

/-- The width `sizeofarg (flags)` returns (0 if it aborts). -/
def argSize (E : Env) (flags : Nat) : Nat :=
  match sizeofarg E flags State.init with
  | .ok n _ => n
  | .fatal _ _ => 0

/-- One call of the virtual stack tracker. -/
inductive StackOp where
  | push (flags : Nat)
  | pop (flags : Nat)

/-- The descriptor of a call. -/
def StackOp.flags : StackOp → Nat
  | .push f => f
  | .pop f => f

/-- The generator `g` returns normally from every state and moves `oursp` by `d`. -/
def Sp {α : Type} (g : Gen α) (d : Int) : Prop :=
  ∀ s, ∃ a s1, g s = Res.ok a s1 ∧ s1.oursp = s.oursp + d


/-- The binary operators that share the dispatch shape of `oper`. -/
inductive BinOp where
  | add | sub | mul | div | mod | or | xor | and | asr | asl
  | eq | ne | lt | le | gt | ge
  deriving DecidableEq, Repr

/-- The code generator entry point of a binary operator. -/
def BinOp.gen (E : Env) : BinOp → Nat → Nat → Gen Unit
  | .add => g_add E
  | .sub => g_sub E
  | .mul => g_mul E
  | .div => g_div E
  | .mod => g_mod E
  | .or => g_or E
  | .xor => g_xor E
  | .and => g_and E
  | .asr => g_asr E
  | .asl => g_asl E
  | .eq => g_eq E
  | .ne => g_ne E
  | .lt => g_lt E
  | .le => g_le E
  | .gt => g_gt E
  | .ge => g_ge E

/-- The delegate table of `g_rsub`. -/
def rsubOps : Subs := [
  none, some "tosrsuba0", some "tosrsubax",
  none, some "tosrsuba0", some "tosrsubax",
  none, none, some "tosrsubeax",
  none, none, some "tosrsubeax"]

/-- The generator `g` only appends to the diagnostics raised so far, whether
it returns or aborts. -/
def AppendsDiags {α : Type} (g : Gen α) : Prop :=
  ∀ s, ∃ d, (g s).state.diags = s.diags ++ d

/-- The call `g` run from `s` raises the diagnostic `e`: the diagnostics after
the call are those before it followed by new ones, `e` among them. -/
def Raises {α : Type} (e : Diag) (g : Gen α) (s : State) : Prop :=
  ∃ d, (g s).state.diags = s.diags ++ d ∧ e ∈ d

/-- The value `e` is representable as a 32-bit `int`. -/
def IsInt32 (e : Int) : Prop := -(2 ^ 31) ≤ e ∧ e < 2 ^ 31

instance (e : Int) : Decidable (IsInt32 e) := by
  unfold IsInt32; infer_instance

/-- The rank of the width of a descriptor: byte (0) < word (1) < dword (2). -/
def widthRank (E : Env) (flags : Nat) : Nat :=
  if flags &&& E.CF_TYPE = E.CF_CHAR then 0
  else if flags &&& E.CF_TYPE = E.CF_INT then 1
  else 2

/-- The condition under which `g_typeadjust` promotes an operand: exactly one
operand has the 32-bit width and the other, narrower operand is not a
constant. -/
def NeedsPromotion (E : Env) (lhs rhs : Nat) : Prop :=
  (lhs &&& E.CF_TYPE = E.CF_LONG ∧ rhs &&& E.CF_TYPE ≠ E.CF_LONG ∧ rhs &&& E.CF_CONST = 0)
  ∨ (lhs &&& E.CF_TYPE ≠ E.CF_LONG ∧ lhs &&& E.CF_CONST = 0 ∧ rhs &&& E.CF_TYPE = E.CF_LONG)

instance (E : Env) (lhs rhs : Nat) : Decidable (NeedsPromotion E lhs rhs) := by
  unfold NeedsPromotion; infer_instance


/-- The descriptor has the maximal (32-bit) width. -/
def IsLong (E : Env) (flags : Nat) : Prop := flags &&& E.CF_TYPE = E.CF_LONG

instance (E : Env) (flags : Nat) : Decidable (IsLong E flags) := by
  unfold IsLong; infer_instance

/-- The number is one of the four valid segments (code, rodata, data, bss). -/
def ValidSeg (seg : Int) : Prop :=
  seg = SEG_CODE ∨ seg = SEG_RODATA ∨ seg = SEG_DATA ∨ seg = SEG_BSS

instance (seg : Int) : Decidable (ValidSeg seg) := by
  unfold ValidSeg; infer_instance

/-- The `.segment` directive of a segment under the name it has in state `s`. -/
def segDirective (s : State) (seg : Int) : Out :=
  Out.line (".segment\t\"" ++ s.SegmentNames.getD seg.toNat "" ++ "\"")

/-- The optimizer hint that names the kind of a segment. -/
def segHint (seg : Int) : Out := Out.hint (SegmentHints.getD seg.toNat "")

/-- The entry point that switches to a segment: `g_usecode`, `g_userodata`,
`g_usedata` or `g_usebss`. -/
def useEntry (seg : Int) : Gen Unit :=
  if seg = SEG_CODE then g_usecode
  else if seg = SEG_RODATA then g_userodata
  else if seg = SEG_DATA then g_usedata
  else g_usebss

/-- The entry point that renames a segment: `g_codename`, `g_rodataname`,
`g_dataname` or `g_bssname`. -/
def nameEntry (seg : Int) (Name : String) : Gen Unit :=
  if seg = SEG_CODE then g_codename Name
  else if seg = SEG_RODATA then g_rodataname Name
  else if seg = SEG_DATA then g_dataname Name
  else g_bssname Name

/-- The generic multiply delegates: the runtime routines named in the table
of `g_mul`. -/
def mulDelegates : List String :=
  ["tosmula0", "tosmulax", "tosumula0", "tosumulax", "tosmuleax", "tosumuleax"]

/-- The generic modulo delegates: the runtime routines named in the table of
`g_mod`. -/
def modDelegates : List String :=
  ["tosmoda0", "tosmodax", "tosumoda0", "tosumodax", "tosmodeax", "tosumodeax"]

/-- The emitted item is a call (`jsr`) of one of the named runtime routines. -/
def IsCallTo (names : List String) (o : Out) : Prop :=
  ∃ d ∈ names, o = Out.line ("\tjsr\t" ++ d)

instance (names : List String) (o : Out) : Decidable (IsCallTo names o) := by
  unfold IsCallTo; infer_instance

/-- The emitted item is not a call of a generic multiply or modulo delegate. -/
def Plain (o : Out) : Prop := ¬ IsCallTo (mulDelegates ++ modDelegates) o

instance (o : Out) : Decidable (Plain o) := by
  unfold Plain; infer_instance

/-- The generator `g` only appends to the code emitted so far, whether it
returns or aborts, and every item it appends satisfies `P`. -/
def EmitsOnly {α : Type} (P : Out → Prop) (g : Gen α) : Prop :=
  ∀ s, ∃ o, (g s).state.out = s.out ++ o ∧ ∀ x ∈ o, P x

/-- The generator `g` never emits a call of one of the named routines. -/
def NeverCalls {α : Type} (names : List String) (g : Gen α) : Prop :=
  EmitsOnly (fun x => ¬ IsCallTo names x) g

/-- The generator `g` returns from every state, having appended at least one
item to the code emitted so far, the last of which satisfies `Q`. -/
def EndsWith {α : Type} (Q : Out → Prop) (g : Gen α) : Prop :=
  ∀ s, ∃ a s1 o x, g s = Res.ok a s1 ∧ s1.out = s.out ++ o ++ [x] ∧ Q x

/-- The generator `g` returns from every state and only appends to the code
emitted so far. -/
def Returns {α : Type} (g : Gen α) : Prop :=
  ∀ s, ∃ a s1 o, g s = Res.ok a s1 ∧ s1.out = s.out ++ o

/-- The table of runtime routines of `g_mod` (`ops`), as `oper` receives it. -/
def modTable : Subs := [
  none, some "tosmoda0", some "tosmodax",
  none, some "tosumoda0", some "tosumodax",
  none, none, some "tosmodeax",
  none, none, some "tosumodeax"]


/-! ### What the emitted constant loads compute

The claims on the value a constant load leaves in the primary register read
the emitted lines as 6502 instructions. Only the instructions the constant
loads use are given a meaning: immediate loads of A and X, `txa`, the stores
of A and X into the two bytes of the zero-page cell `sreg`, `ora` with an
immediate operand, and the runtime routine `ldeax`, which loads the 32-bit
operand that follows its call. -/

/-- The bytes of the 32-bit primary register: the accumulator, the X
register, and the zero-page cells `sreg` and `sreg+1`. -/
structure Regs where
  a : Nat
  x : Nat
  sreg : Nat
  sreg1 : Nat
  deriving DecidableEq, Repr

/-- The 32-bit value of the primary register, `sreg+1` most significant. -/
def Regs.eax (r : Regs) : Nat :=
  r.a + 256 * r.x + 65536 * r.sreg + 16777216 * r.sreg1

/-- Value of an upper-case hexadecimal digit (0 for any other character). -/
def hexDigit (c : Char) : Nat :=
  if '0' ≤ c ∧ c ≤ '9' then c.toNat - '0'.toNat
  else if 'A' ≤ c ∧ c ≤ 'F' then c.toNat - 'A'.toNat + 10
  else 0

/-- Read a hexadecimal number, most significant digit first. -/
def readHex (cs : List Char) : Nat := cs.foldl (fun n c => n * 16 + hexDigit c) 0

/-- Effect of one emitted instruction line on the registers; `none` for a
line that is not one of the instructions of the constant loads. -/
def execLine (t : String) (r : Regs) : Option Regs :=
  let op := String.mk (t.data.take 7)
  let arg := readHex (t.data.drop 7) % 256
  if op = "\tlda\t#$" then some { r with a := arg }
  else if op = "\tldx\t#$" then some { r with x := arg }
  else if op = "\tora\t#$" then some { r with a := r.a ||| arg }
  else if t = "\ttxa" then some { r with a := r.x }
  else if t = "\tsta\tsreg" then some { r with sreg := r.a }
  else if t = "\tsta\tsreg+1" then some { r with sreg1 := r.a }
  else if t = "\tstx\tsreg" then some { r with sreg := r.x }
  else if t = "\tstx\tsreg+1" then some { r with sreg1 := r.x }
  else none

/-- Effect of a `.dword` operand line that follows `jsr ldeax`: the four
bytes of the operand are loaded into the primary register. -/
def execDword (t : String) : Option Regs :=
  if String.mk (t.data.take 9) = "\t.dword\t$" then
    let v := readHex (t.data.drop 9)
    some { a := v % 256, x := v / 256 % 256, sreg := v / 65536 % 256,
           sreg1 := v / 16777216 % 256 }
  else none

/-- Effect of a sequence of emitted items on the registers. Optimizer hints
and blank lines have no effect. -/
def exec : List Out → Regs → Option Regs
  | [], r => some r
  | Out.line t :: rest, r =>
    if t = "\tjsr\tldeax" then
      match rest with
      | Out.line d :: rest2 =>
        match execDword d with
        | some r1 => exec rest2 r1
        | none => none
      | _ => none
    else
      match execLine t r with
      | some r1 => exec rest r1
      | none => none
  | _ :: rest, r => exec rest r


/-- The emitted item is an instruction line whose text starts with `p`. -/
def StartsWith (p : String) (o : Out) : Prop :=
  match o with
  | Out.line t => t.data.take p.data.length = p.data
  | _ => False

instance (p : String) (o : Out) : Decidable (StartsWith p o) := by
  unfold StartsWith
  cases o <;> infer_instance

/-- The emitted item is a subroutine call (`jsr`). -/
def IsJsr (o : Out) : Prop := StartsWith "\tjsr" o

instance (o : Out) : Decidable (IsJsr o) := by
  unfold IsJsr; infer_instance

/-- The generator `g` raises no diagnostic, whether it returns or aborts. -/
def KeepsDiags {α : Type} (g : Gen α) : Prop :=
  ∀ s, (g s).state.diags = s.diags


/-- The table of runtime routines (`ops`) of each binary operator, as its
generator hands it to `oper`. -/
def BinOp.table : BinOp → Subs
  | .add => [
      none, some "tosadda0", some "tosaddax",
      none, some "tosadda0", some "tosaddax",
      none, none, some "tosaddeax",
      none, none, some "tosaddeax"]
  | .sub => [
      none, some "tossuba0", some "tossubax",
      none, some "tossuba0", some "tossubax",
      none, none, some "tossubeax",
      none, none, some "tossubeax"]
  | .mul => [
      none, some "tosmula0", some "tosmulax",
      none, some "tosumula0", some "tosumulax",
      none, none, some "tosmuleax",
      none, none, some "tosumuleax"]
  | .div => [
      none, some "tosdiva0", some "tosdivax",
      none, some "tosudiva0", some "tosudivax",
      none, none, some "tosdiveax",
      none, none, some "tosudiveax"]
  | .mod => [
      none, some "tosmoda0", some "tosmodax",
      none, some "tosumoda0", some "tosumodax",
      none, none, some "tosmodeax",
      none, none, some "tosumodeax"]
  | .or => [
      none, some "tosora0", some "tosorax",
      none, some "tosora0", some "tosorax",
      none, none, some "tosoreax",
      none, none, some "tosoreax"]
  | .xor => [
      none, some "tosxora0", some "tosxorax",
      none, some "tosxora0", some "tosxorax",
      none, none, some "tosxoreax",
      none, none, some "tosxoreax"]
  | .and => [
      none, some "tosanda0", some "tosandax",
      none, some "tosanda0", some "tosandax",
      none, none, some "tosandeax",
      none, none, some "tosandeax"]
  | .asr => [
      none, some "tosasra0", some "tosasrax",
      none, some "tosshra0", some "tosshrax",
      none, none, some "tosasreax",
      none, none, some "tosshreax"]
  | .asl => [
      none, some "tosasla0", some "tosaslax",
      none, some "tosshla0", some "tosshlax",
      none, none, some "tosasleax",
      none, none, some "tosshleax"]
  | .eq => [
      some "toseq00", some "toseqa0", some "toseqax",
      some "toseq00", some "toseqa0", some "toseqax",
      none, none, some "toseqeax",
      none, none, some "toseqeax"]
  | .ne => [
      some "tosne00", some "tosnea0", some "tosneax",
      some "tosne00", some "tosnea0", some "tosneax",
      none, none, some "tosneeax",
      none, none, some "tosneeax"]
  | .lt => [
      some "toslt00", some "toslta0", some "tosltax",
      some "tosult00", some "tosulta0", some "tosultax",
      none, none, some "toslteax",
      none, none, some "tosulteax"]
  | .le => [
      some "tosle00", some "toslea0", some "tosleax",
      some "tosule00", some "tosulea0", some "tosuleax",
      none, none, some "tosleeax",
      none, none, some "tosuleeax"]
  | .gt => [
      some "tosgt00", some "tosgta0", some "tosgtax",
      some "tosugt00", some "tosugta0", some "tosugtax",
      none, none, some "tosgteax",
      none, none, some "tosugteax"]
  | .ge => [
      some "tosge00", some "tosgea0", some "tosgeax",
      some "tosuge00", some "tosugea0", some "tosugeax",
      none, none, some "tosgeeax",
      none, none, some "tosugeeax"]

/-- The group of the table `oper` selects for a descriptor: 0 for signed
word-class (char or int), 3 for unsigned word-class, 6 for signed long and 9
for unsigned long. -/
def group (E : Env) (flags : Nat) : Nat :=
  (if IsLong E flags then 6 else 0) + (if IsUnsigned E flags then 3 else 0)

/-- The line `jsr <subs [i]>` that calls entry `i` of a table. -/
def callEntry (subs : Subs) (i : Nat) : Out :=
  Out.line ("\tjsr\t" ++ (subs.entry i).getD "(null)")


/-- The instruction idioms of the extended (65C02) instruction set that the
code generator knows: `ina`, `dea`, and the zero-page indirect `lda (sp)` and
`sta (sp)`. -/
def extendedIdioms : List String := ["\tina", "\tdea", "\tlda\t(sp)", "\tsta\t(sp)"]

/-- The emitted item is legal on the baseline CPU: it is none of the extended
idioms. -/
def IsBaseline (o : Out) : Prop := o ∉ extendedIdioms.map Out.line

instance (o : Out) : Decidable (IsBaseline o) := by
  unfold IsBaseline; infer_instance

/-! ### Sequences of segment operations -/

/-- The eight segment entry points: the four that switch to a segment and the
four that rename one. -/
inductive SegOp where
  | usecode
  | userodata
  | usedata
  | usebss
  | codename (Name : String)
  | rodataname (Name : String)
  | dataname (Name : String)
  | bssname (Name : String)
  deriving DecidableEq, Repr

/-- The entry point a segment operation stands for. -/
def SegOp.gen : SegOp → Gen Unit
  | .usecode => g_usecode
  | .userodata => g_userodata
  | .usedata => g_usedata
  | .usebss => g_usebss
  | .codename n => g_codename n
  | .rodataname n => g_rodataname n
  | .dataname n => g_dataname n
  | .bssname n => g_bssname n

/-- Run a sequence of segment operations, first to last. -/
def runSegOps : List SegOp → Gen Unit
  | [] => pure ()
  | op :: ops => do
    op.gen
    runSegOps ops

/-- The segment name an emitted item selects, if the item is a `.segment`
directive: the text between the opening quote and the final character. -/
def directiveName (o : Out) : Option String :=
  match o with
  | Out.line t =>
    if t.data.take 10 = ".segment\t\"".data then some (String.mk (t.data.drop 10).dropLast)
    else none
  | _ => none

/-- The segment in effect in an output stream: the name in the most recent
`.segment` directive, or `dflt` if the stream has no directive. -/
def segmentInEffect (dflt : String) (os : List Out) : String :=
  (os.reverse.findSome? directiveName).getD dflt

/-- The state of the segment bookkeeping agrees with the output stream: the
current segment is valid, the name table has its four entries, and the most
recent `.segment` directive carries the current name of the current segment;
as long as no directive was emitted, the current segment is the code segment
under its default name. -/
def SegInv (s : State) : Prop :=
  ValidSeg s.CurSeg ∧ s.SegmentNames.length = 4
  ∧ match s.out.reverse.findSome? directiveName with
    | some n => n = s.SegmentNames.getD s.CurSeg.toNat ""
    | none => s.CurSeg = SEG_CODE ∧ s.SegmentNames.getD SEG_CODE.toNat "" = "CODE"

/-! ### What inline byte and word arithmetic computes

The claims on the value that inline arithmetic leaves in the registers read
the emitted lines as 6502 instructions in binary mode. Only the instructions
these sequences use are given a meaning: `and`, `lda` and `ldx` with an
immediate operand, the register transfers `txa`, `tax`, `tay`, `tya`, the
store of A into the zero-page cell `tmp1`, `asl a`, `clc`, and `adc tmp1`. -/

/-- The registers A, X, Y, the zero-page cell `tmp1` and the carry flag. -/
structure Cpu where
  a : Nat
  x : Nat
  y : Nat
  tmp1 : Nat
  carry : Bool
  deriving DecidableEq, Repr

/-- The 16-bit value of the primary register, X the high byte. -/
def Cpu.ax (m : Cpu) : Nat := m.a + 256 * m.x

/-- Effect of one emitted instruction line; `none` for a line that is not one
of the instructions above. -/
def Cpu.step (t : String) (m : Cpu) : Option Cpu :=
  let op := String.mk (t.data.take 7)
  let arg := readHex (t.data.drop 7) % 256
  if op = "\tand\t#$" then some { m with a := m.a &&& arg }
  else if op = "\tlda\t#$" then some { m with a := arg }
  else if op = "\tldx\t#$" then some { m with x := arg }
  else if t = "\ttxa" then some { m with a := m.x }
  else if t = "\ttax" then some { m with x := m.a }
  else if t = "\ttay" then some { m with y := m.a }
  else if t = "\ttya" then some { m with a := m.y }
  else if t = "\tsta\ttmp1" then some { m with tmp1 := m.a }
  else if t = "\tasl\ta" then
    some { m with a := 2 * m.a % 256, carry := decide (128 ≤ m.a % 256) }
  else if t = "\tclc" then some { m with carry := false }
  else if t = "\tadc\ttmp1" then
    let sum := m.a + m.tmp1 + (if m.carry then 1 else 0)
    some { m with a := sum % 256, carry := decide (256 ≤ sum) }
  else none

/-- Effect of a sequence of emitted items. Optimizer hints and blank lines
have no effect. -/
def Cpu.run : List Out → Cpu → Option Cpu
  | [], m => some m
  | Out.line t :: rest, m =>
    match Cpu.step t m with
    | some m1 => Cpu.run rest m1
    | none => none
  | _ :: rest, m => Cpu.run rest m

/-! ### Reading back constant data -/

/-- The upper-case hexadecimal digits. -/
def hexChars : List Char := "0123456789ABCDEF".data

/-- One value as a `.byte` line carries it: `$` and two hexadecimal digits. -/
def byteText (b : Nat) : String := "$" ++ hex2 (b &&& 0xFF)

/-- The `.byte` line of a row of values: the directive followed by the
values, separated by commas. -/
def byteLine (row : List Nat) : String :=
  "\t.byte\t" ++ ",".intercalate (row.map byteText)

/-- The rows of a byte sequence: `ceil (n / 16)` rows, row i holding the (up
to) 16 values from position 16 i on. -/
def byteRows (Bytes : List Nat) : List (List Nat) :=
  (List.range ((Bytes.length + 15) / 16)).map (fun i => (Bytes.drop (16 * i)).take 16)

/-- Read comma-separated values of the form `$XX`, stopping at the first
place that is not of this form. -/
def readValues : List Char → List Nat
  | c0 :: c1 :: c2 :: c3 :: rest =>
    if c0 = '$' ∧ c3 = ',' then readHex [c1, c2] :: readValues rest else []
  | [c0, c1, c2] => if c0 = '$' then [readHex [c1, c2]] else []
  | _ => []

/-- The values of an emitted `.byte` line (none for any other item). -/
def readByteLine (o : Out) : List Nat :=
  match o with
  | Out.line t =>
    if t.data.take 7 = "\t.byte\t".data then readValues (t.data.drop 7) else []
  | _ => []

/-- The values of all `.byte` lines of an output stream, in order. -/
def readBytes (os : List Out) : List Nat := (os.map readByteLine).flatten

/-! # Theorems -/

/-! ## The generator monad -/

@[simp] theorem Gen.pure_run {α : Type} (a : α) (s : State) :
    (pure a : Gen α) s = Res.ok a s := rfl

@[simp] theorem Gen.bind_run {α β : Type} (g : Gen α) (f : α → Gen β) (s : State) :
    (g >>= f : Gen β) s = match g s with
      | .ok a s1 => f a s1
      | .fatal m s1 => .fatal m s1 := rfl

theorem Sp_bind {α β : Type} {g : Gen α} {f : α → Gen β} {d1 d2 d : Int}
    (h1 : Sp g d1) (h2 : ∀ a, Sp (f a) d2) (hd : d1 + d2 = d) : Sp (g >>= f) d := by
  intro s
  obtain ⟨a, s1, e1, p1⟩ := h1 s
  obtain ⟨b, s2, e2, p2⟩ := h2 a s1
  refine ⟨b, s2, ?_, ?_⟩
  · simp [e1, e2]
  · omega

theorem Sp_seq0 {α β : Type} {g : Gen α} {f : α → Gen β} {d : Int}
    (h1 : Sp g 0) (h2 : ∀ a, Sp (f a) d) : Sp (g >>= f) d :=
  Sp_bind h1 h2 (by omega)

theorem Sp_ite {α : Type} {c : Prop} [Decidable c] {g1 g2 : Gen α} {d : Int}
    (h1 : c → Sp g1 d) (h2 : ¬ c → Sp g2 d) : Sp (if c then g1 else g2) d := by
  by_cases h : c
  · simpa [h] using h1 h
  · simpa [h] using h2 h

theorem Sp_pure {α : Type} (a : α) : Sp (pure a : Gen α) 0 := by
  intro s; exact ⟨a, s, rfl, by omega⟩

theorem Sp_AddCodeLine (t : String) : Sp (AddCodeLine t) 0 := by
  intro s; exact ⟨(), _, rfl, by simp⟩

theorem Sp_AddCodeHint (t : String) : Sp (AddCodeHint t) 0 := by
  intro s; exact ⟨(), _, rfl, by simp⟩

theorem Sp_Error (d : Diag) : Sp (Error d) 0 := by
  intro s; exact ⟨(), _, rfl, by simp⟩

theorem Sp_ldaconst (v : Nat) : Sp (ldaconst v) 0 := Sp_AddCodeLine _

theorem Sp_ldxconst (v : Nat) : Sp (ldxconst v) 0 := Sp_AddCodeLine _

theorem Sp_ldyconst (v : Nat) : Sp (ldyconst v) 0 := Sp_AddCodeLine _

theorem Sp_jsrSub (subs : Subs) (i : Nat) : Sp (jsrSub subs i) 0 := Sp_AddCodeLine _

theorem Sp_repeatGen (n : Nat) {g : Gen Unit} (h : Sp g 0) : Sp (repeatGen n g) 0 := by
  induction n with
  | zero => exact Sp_pure ()
  | succ n ih => exact Sp_seq0 h (fun _ => ih)

/-! ## Width of a recognised descriptor -/

theorem sizeofarg_ok (E : Env) (flags : Nat) (hr : Recognised E flags) (s : State) :
    sizeofarg E flags s = Res.ok (argSize E flags) s := by
  unfold argSize sizeofarg
  rcases hr with h | h | h <;> split_ifs <;> simp_all

theorem Sp_sizeofarg (E : Env) (flags : Nat) (hr : Recognised E flags) :
    Sp (sizeofarg E flags) 0 := by
  intro s; exact ⟨_, s, sizeofarg_ok E flags hr s, by omega⟩

theorem push_ok (E : Env) (flags : Nat) (hr : Recognised E flags) (s : State) :
    push E flags s = Res.ok (s.oursp - argSize E flags)
      { s with oursp := s.oursp - argSize E flags } := by
  show (sizeofarg E flags >>= _) s = _
  simp [sizeofarg_ok E flags hr]

theorem pop_ok (E : Env) (flags : Nat) (hr : Recognised E flags) (s : State) :
    pop E flags s = Res.ok (s.oursp + argSize E flags)
      { s with oursp := s.oursp + argSize E flags } := by
  show (sizeofarg E flags >>= _) s = _
  simp [sizeofarg_ok E flags hr]

theorem Sp_push (E : Env) (flags : Nat) (hr : Recognised E flags) :
    Sp (push E flags) (-(argSize E flags : Int)) := by
  intro s; exact ⟨_, _, push_ok E flags hr s, by simp; omega⟩

theorem Sp_pop (E : Env) (flags : Nat) (hr : Recognised E flags) :
    Sp (pop E flags) (argSize E flags : Int) := by
  intro s; exact ⟨_, _, pop_ok E flags hr s, by simp⟩

theorem Sp_push_tail (E : Env) (flags : Nat) (hr : Recognised E flags) :
    Sp (push E flags >>= fun _ => (pure PUnit.unit : Gen PUnit)) (-(argSize E flags : Int)) :=
  Sp_bind (Sp_push E flags hr) (fun _ => Sp_pure _) (by omega)

theorem Sp_pop_tail (E : Env) (flags : Nat) (hr : Recognised E flags) :
    Sp (pop E flags >>= fun _ => (pure PUnit.unit : Gen PUnit)) (argSize E flags : Int) :=
  Sp_bind (Sp_pop E flags hr) (fun _ => Sp_pure _) (by omega)

/-! ## Bit masks -/

theorem testBit_allOnes (i : Nat) : (0xFFFFFFFF : Nat).testBit i = decide (i < 32) :=
  Nat.testBit_two_pow_sub_one 32 i

theorem testBit_of_lt32 {m : Nat} (hm : m < 2 ^ 32) {i : Nat} (hi : m.testBit i = true) :
    i < 32 := by
  by_contra h
  have h32 : 32 ≤ i := by omega
  have : m < 2 ^ i := lt_of_lt_of_le hm (Nat.pow_le_pow_right (by omega) h32)
  rw [Nat.testBit_lt_two_pow this] at hi
  exact absurd hi (by simp)

theorem disjoint_testBit {a b : Nat} (h : a &&& b = 0) (i : Nat) :
    ¬ (a.testBit i = true ∧ b.testBit i = true) := by
  have := congrArg (fun x => x.testBit i) h
  simp only [Nat.testBit_and, Nat.zero_testBit] at this
  intro ⟨ha, hb⟩
  simp [ha, hb] at this

/-- Clearing the bits of `c` does not change the field `m` when they are disjoint. -/
theorem and_bnot_and {c m : Nat} (x : Nat) (hm : m < 2 ^ 32) (h : c &&& m = 0) :
    (x &&& bnot c) &&& m = x &&& m := by
  apply Nat.eq_of_testBit_eq
  intro i
  have hd := disjoint_testBit h i
  simp only [bnot, Nat.testBit_and, Nat.testBit_xor, testBit_allOnes]
  by_cases hmi : m.testBit i = true
  · have hi : i < 32 := testBit_of_lt32 hm hmi
    have hc : c.testBit i = false := by
      by_contra hc
      exact hd ⟨by simpa using hc, hmi⟩
    simp [hmi, hi, hc]
  · simp [hmi]

/-- Setting the bits of `c` does not change the field `m` when they are disjoint. -/
theorem or_and_disjoint {c m : Nat} (x : Nat) (h : c &&& m = 0) :
    (x ||| c) &&& m = x &&& m := by
  apply Nat.eq_of_testBit_eq
  intro i
  have hd := disjoint_testBit h i
  simp only [Nat.testBit_and, Nat.testBit_or]
  by_cases hmi : m.testBit i = true
  · have hc : c.testBit i = false := by
      by_contra hc
      exact hd ⟨by simpa using hc, hmi⟩
    simp [hmi, hc]
  · simp [hmi]

theorem and_bnot_self (x : Nat) {c : Nat} (hlt : c < 2 ^ 32) : (x &&& bnot c) &&& c = 0 := by
  apply Nat.eq_of_testBit_eq
  intro i
  simp only [bnot, Nat.testBit_and, Nat.testBit_xor, testBit_allOnes, Nat.zero_testBit]
  by_cases hc : c.testBit i = true
  · have hi : i < 32 := testBit_of_lt32 hlt hc
    simp [hc, hi]
  · simp [hc]

theorem or_and_self (x c : Nat) : (x ||| c) &&& c = c := by
  apply Nat.eq_of_testBit_eq
  intro i
  simp only [Nat.testBit_and, Nat.testBit_or]
  by_cases hc : c.testBit i = true <;> simp [hc]

theorem or_and_sub {c m : Nat} (x : Nat) (hm : m < 2 ^ 32) (h : c &&& m = c) :
    ((x &&& bnot m) ||| c) &&& m = c := by
  apply Nat.eq_of_testBit_eq
  intro i
  have hs := congrArg (fun y => y.testBit i) h
  simp only [Nat.testBit_and] at hs
  simp only [bnot, Nat.testBit_and, Nat.testBit_or, Nat.testBit_xor, testBit_allOnes]
  by_cases hmi : m.testBit i = true
  · have hi : i < 32 := testBit_of_lt32 hm hmi
    by_cases hc : c.testBit i = true <;> simp_all
  · by_cases hc : c.testBit i = true <;> simp_all

/-- A single bit is set in `x` exactly when the mask with it is non-zero. -/
theorem and_bit_ne_zero {c : Nat} (hc : isBit c) (x : Nat) :
    x &&& c ≠ 0 ↔ ∃ k, k < 32 ∧ c = 2 ^ k ∧ x.testBit k = true := by
  obtain ⟨k, hk, rfl⟩ := hc
  rw [Nat.and_two_pow]
  constructor
  · intro h
    refine ⟨k, hk, rfl, ?_⟩
    by_contra hb
    simp [hb] at h
  · rintro ⟨j, _, hj, hb⟩
    have : k = j := Nat.pow_right_injective (le_refl 2) hj
    subst this
    simp [hb]

theorem and_bit_eq {c : Nat} (hc : isBit c) (x : Nat) :
    x &&& c = 0 ∨ x &&& c = c := by
  obtain ⟨k, hk, rfl⟩ := hc
  rw [Nat.and_two_pow]
  cases x.testBit k <;> simp

theorem isBit_ne_zero {c : Nat} (hc : isBit c) : c ≠ 0 := by
  obtain ⟨k, _, rfl⟩ := hc
  exact (Nat.pos_pow_of_pos k (by omega)).ne'

theorem isBit_lt {c : Nat} (hc : isBit c) : c < 2 ^ 32 := by
  obtain ⟨k, hk, rfl⟩ := hc
  exact Nat.pow_lt_pow_right (by omega) hk

/-! ## Descriptors under flag updates -/

theorem argSize_congr (E : Env) {f1 f2 : Nat} (ht : f1 &&& E.CF_TYPE = f2 &&& E.CF_TYPE)
    (hf : f1 &&& E.CF_FORCECHAR = f2 &&& E.CF_FORCECHAR) : argSize E f1 = argSize E f2 := by
  unfold argSize sizeofarg
  rw [ht, hf]
  split_ifs <;> rfl

theorem Recognised_congr (E : Env) {f1 f2 : Nat} (ht : f1 &&& E.CF_TYPE = f2 &&& E.CF_TYPE)
    (h : Recognised E f2) : Recognised E f1 := by
  unfold Recognised at *
  rw [ht]; exact h

theorem type_clear_const (E : Env) (hE : E.WF) (flags : Nat) :
    (flags &&& bnot E.CF_CONST) &&& E.CF_TYPE = flags &&& E.CF_TYPE :=
  and_bnot_and flags hE.type_lt hE.const_type

theorem forcechar_clear_const (E : Env) (hE : E.WF) (flags : Nat) :
    (flags &&& bnot E.CF_CONST) &&& E.CF_FORCECHAR = flags &&& E.CF_FORCECHAR :=
  and_bnot_and flags hE.forcechar_lt hE.const_forcechar

theorem unsigned_clear_const (E : Env) (hE : E.WF) (flags : Nat) :
    (flags &&& bnot E.CF_CONST) &&& E.CF_UNSIGNED = flags &&& E.CF_UNSIGNED :=
  and_bnot_and flags (isBit_lt hE.unsigned_bit) hE.const_unsigned

theorem const_clear_const (E : Env) (hE : E.WF) (flags : Nat) :
    (flags &&& bnot E.CF_CONST) &&& E.CF_CONST = 0 :=
  and_bnot_self flags (isBit_lt hE.const_bit)

theorem type_clear_forcechar (E : Env) (hE : E.WF) (flags : Nat) :
    (flags &&& bnot E.CF_FORCECHAR) &&& E.CF_TYPE = flags &&& E.CF_TYPE :=
  and_bnot_and flags hE.type_lt hE.forcechar_type

theorem const_clear_forcechar (E : Env) (hE : E.WF) (flags : Nat) :
    (flags &&& bnot E.CF_FORCECHAR) &&& E.CF_CONST = flags &&& E.CF_CONST := by
  have h : E.CF_FORCECHAR &&& E.CF_CONST = 0 := by
    rw [Nat.land_comm]; exact hE.const_forcechar
  exact and_bnot_and flags (isBit_lt hE.const_bit) h

theorem type_set_const (E : Env) (hE : E.WF) (flags : Nat) :
    (flags ||| E.CF_CONST) &&& E.CF_TYPE = flags &&& E.CF_TYPE :=
  or_and_disjoint flags hE.const_type

theorem forcechar_set_const (E : Env) (hE : E.WF) (flags : Nat) :
    (flags ||| E.CF_CONST) &&& E.CF_FORCECHAR = flags &&& E.CF_FORCECHAR :=
  or_and_disjoint flags hE.const_forcechar

theorem const_set_const (E : Env) (hE : E.WF) (flags : Nat) :
    (flags ||| E.CF_CONST) &&& E.CF_CONST ≠ 0 := by
  rw [or_and_self]; exact isBit_ne_zero hE.const_bit

theorem argSize_clear_const (E : Env) (hE : E.WF) (flags : Nat) :
    argSize E (flags &&& bnot E.CF_CONST) = argSize E flags :=
  argSize_congr E (type_clear_const E hE flags) (forcechar_clear_const E hE flags)

theorem Recognised_clear_const (E : Env) (hE : E.WF) {flags : Nat} (h : Recognised E flags) :
    Recognised E (flags &&& bnot E.CF_CONST) :=
  Recognised_congr E (type_clear_const E hE flags) h

theorem Recognised_clear_forcechar (E : Env) (hE : E.WF) {flags : Nat}
    (h : Recognised E flags) : Recognised E (flags &&& bnot E.CF_FORCECHAR) :=
  Recognised_congr E (type_clear_forcechar E hE flags) h

theorem Recognised_set_const (E : Env) (hE : E.WF) {flags : Nat} (h : Recognised E flags) :
    Recognised E (flags ||| E.CF_CONST) :=
  Recognised_congr E (type_set_const E hE flags) h

/-! ## Effect of the emitters on the stack offset -/

theorem Sp_typeerror_absurd (E : Env) (flags : Nat) (d : Int) (hr : Recognised E flags)
    (h1 : ¬ flags &&& E.CF_TYPE = E.CF_CHAR) (h2 : ¬ flags &&& E.CF_TYPE = E.CF_INT)
    (h3 : ¬ flags &&& E.CF_TYPE = E.CF_LONG) : Sp (typeerror E flags) d := by
  rcases hr with h | h | h <;> contradiction

theorem Sp_g_getimmed (E : Env) (flags val offs : Nat) (hr : Recognised E flags)
    (hc : flags &&& E.CF_CONST ≠ 0) : Sp (g_getimmed E flags val offs) 0 := by
  unfold g_getimmed
  rw [if_pos hc]
  repeat' with_reducible (first
    | exact Sp_pure _
    | exact Sp_AddCodeLine _
    | exact Sp_ldaconst _
    | exact Sp_ldxconst _
    | refine Sp_seq0 ?_ (fun _ => ?_)
    | refine Sp_ite (fun h => ?_) (fun h => ?_)
    | (refine Sp_typeerror_absurd E flags _ hr ?_ ?_ ?_ <;> tauto))


theorem Sp_g_push (E : Env) (flags val : Nat) (hr : Recognised E flags) :
    Sp (g_push E flags val) (-(argSize E flags : Int)) := by
  unfold g_push
  repeat' with_reducible (first
    | exact Sp_pure _
    | exact Sp_AddCodeLine _
    | exact Sp_ldaconst _
    | exact Sp_push_tail E flags hr
    | (refine Sp_g_getimmed E flags _ _ hr ?_; tauto)
    | refine Sp_seq0 ?_ (fun _ => ?_)
    | refine Sp_ite (fun h => ?_) (fun h => ?_)
    | (refine Sp_typeerror_absurd E flags _ hr ?_ ?_ ?_ <;> tauto))

theorem Sp_oper (E : Env) (flags val : Nat) (subs : Subs) (hr : Recognised E flags) :
    Sp (oper E flags val subs) (argSize E flags : Int) := by
  unfold oper
  repeat' with_reducible (first
    | exact Sp_pure _
    | exact Sp_AddCodeLine _
    | exact Sp_ldaconst _
    | exact Sp_jsrSub _ _
    | exact Sp_pop_tail E flags hr
    | (refine Sp_g_getimmed E flags _ _ hr ?_; tauto)
    | refine Sp_seq0 ?_ (fun _ => ?_)
    | refine Sp_ite (fun h => ?_) (fun h => ?_)
    | (refine Sp_typeerror_absurd E flags _ hr ?_ ?_ ?_ <;> tauto))

theorem Sp_pushLhs (E : Env) (hE : E.WF) (flags val : Nat) (subs : Subs)
    (hr : Recognised E flags) :
    Sp (g_push E (flags &&& bnot E.CF_CONST) 0 >>= fun _ => oper E flags val subs) 0 := by
  refine Sp_bind (Sp_g_push E _ 0 (Recognised_clear_const E hE hr))
    (fun _ => Sp_oper E flags val subs hr) ?_
  rw [argSize_clear_const E hE]; omega

theorem Sp_g_add (E : Env) (hE : E.WF) (flags val : Nat) (hr : Recognised E flags) :
    Sp (g_add E flags val)
      (if flags &&& E.CF_CONST ≠ 0 then 0 else (argSize E flags : Int)) := by
  unfold g_add
  by_cases hc : flags &&& E.CF_CONST ≠ 0
  · simp only [if_pos hc]
    exact Sp_pushLhs E hE (flags &&& bnot E.CF_FORCECHAR) val _
      (Recognised_clear_forcechar E hE hr)
  · simp only [if_neg hc]
    exact Sp_oper E flags val _ hr

theorem Sp_g_sub (E : Env) (hE : E.WF) (flags val : Nat) (hr : Recognised E flags) :
    Sp (g_sub E flags val)
      (if flags &&& E.CF_CONST ≠ 0 then 0 else (argSize E flags : Int)) := by
  unfold g_sub
  by_cases hc : flags &&& E.CF_CONST ≠ 0
  · simp only [if_pos hc]
    exact Sp_pushLhs E hE (flags &&& bnot E.CF_FORCECHAR) val _
      (Recognised_clear_forcechar E hE hr)
  · simp only [if_neg hc]
    exact Sp_oper E flags val _ hr

theorem cc65Env_wf : cc65Env.WF := by
  constructor <;> decide

theorem cc65EnvSize_wf : cc65EnvSize.WF := by
  constructor <;> decide

/-- C5 fails on the code for the long width: `g_addeqind` and `g_subeqind`
called with a long descriptor (offset 0, value 1) from `oursp = 0` return with
`oursp = -2`. The push of the pointer is accounted with `push (flags)`, 4 bytes
for a long, while `g_putind` pops `CF_PTR`, 2 bytes. -/
theorem C5_long_offset_drift :
    Recognised cc65Env cc65Env.CF_LONG
    ∧ (g_addeqind cc65Env cc65Env.CF_LONG 0 1 State.init).isOk = true
    ∧ (g_addeqind cc65Env cc65Env.CF_LONG 0 1 State.init).state.oursp = -2
    ∧ (g_addeqind cc65Env cc65Env.CF_LONG 0 1 State.init).state.out
        = [Out.line "\tjsr\tpushax", Out.line "\tjsr\tldeaxi", Out.line "\tldy\t#$01",
           Out.line "\tjsr\tinceaxy", Out.line "\tjsr\tsteaxspp"]
    ∧ (g_subeqind cc65Env cc65Env.CF_LONG 0 1 State.init).isOk = true
    ∧ (g_subeqind cc65Env cc65Env.CF_LONG 0 1 State.init).state.oursp = -2
    ∧ (g_addeqind cc65EnvSize cc65EnvSize.CF_LONG 0 1 State.init).state.oursp = -2
    ∧ (push cc65Env cc65Env.CF_LONG State.init).state.oursp = -4
    ∧ (pop cc65Env cc65Env.CF_PTR State.init).state.oursp = 2 := by
  decide

/-! ## Diagnostics are append-only -/

theorem AD_bind {α β : Type} {g : Gen α} {f : α → Gen β}
    (h1 : AppendsDiags g) (h2 : ∀ a, AppendsDiags (f a)) : AppendsDiags (g >>= f) := by
  intro s
  obtain ⟨d1, e1⟩ := h1 s
  rw [Gen.bind_run]
  cases hg : g s with
  | ok a s1 =>
    obtain ⟨d2, e2⟩ := h2 a s1
    rw [hg] at e1
    simp only [Res.state] at e1
    exact ⟨d1 ++ d2, by simp only [e2, e1, List.append_assoc]⟩
  | fatal m s1 =>
    rw [hg] at e1
    exact ⟨d1, e1⟩

theorem AD_ite {α : Type} {c : Prop} [Decidable c] {g1 g2 : Gen α}
    (h1 : AppendsDiags g1) (h2 : AppendsDiags g2) :
    AppendsDiags (if c then g1 else g2) := by
  by_cases h : c
  · simpa [h] using h1
  · simpa [h] using h2

theorem AD_pure {α : Type} (a : α) : AppendsDiags (pure a : Gen α) :=
  fun s => ⟨[], by simp [Res.state]⟩

theorem AD_AddCodeLine (t : String) : AppendsDiags (AddCodeLine t) :=
  fun s => ⟨[], by simp [AddCodeLine, Res.state]⟩

theorem AD_AddCodeHint (t : String) : AppendsDiags (AddCodeHint t) :=
  fun s => ⟨[], by simp [AddCodeHint, Res.state]⟩

theorem AD_Error (e : Diag) : AppendsDiags (Error e) :=
  fun s => ⟨[e], by simp [Error, Res.state]⟩

theorem AD_Warning (e : Diag) : AppendsDiags (Warning e) :=
  fun s => ⟨[e], by simp [Warning, Res.state]⟩

theorem AD_Internal {α : Type} (m : String) : AppendsDiags (Internal m : Gen α) :=
  fun s => ⟨[], by simp [Internal, Res.state]⟩

theorem AD_typeerror (E : Env) (t : Nat) : AppendsDiags (typeerror E t) :=
  AD_Internal _

theorem AD_GetLabel : AppendsDiags GetLabel :=
  fun s => ⟨[], by simp [GetLabel, Res.state]⟩

theorem AD_getOursp : AppendsDiags getOursp :=
  fun s => ⟨[], by simp [getOursp, Res.state]⟩

theorem AD_ldaconst (v : Nat) : AppendsDiags (ldaconst v) := AD_AddCodeLine _

theorem AD_ldxconst (v : Nat) : AppendsDiags (ldxconst v) := AD_AddCodeLine _

theorem AD_ldyconst (v : Nat) : AppendsDiags (ldyconst v) := AD_AddCodeLine _

theorem AD_jsrSub (subs : Subs) (i : Nat) : AppendsDiags (jsrSub subs i) := AD_AddCodeLine _

theorem AD_g_defloclabel (l : Nat) : AppendsDiags (g_defloclabel l) := AD_AddCodeLine _

theorem AD_setOursp {α : Type} (v : State → α) (n : State → Int) :
    AppendsDiags (fun s => Res.ok (v s) { s with oursp := n s } : Gen α) :=
  fun s => ⟨[], by simp [Res.state]⟩

theorem AD_CheckLocalOffs (n : Nat) : AppendsDiags (CheckLocalOffs n) := by
  unfold CheckLocalOffs
  exact AD_ite (AD_bind (AD_AddCodeLine _) (fun _ => AD_Error _)) (AD_pure _)

theorem AD_sizeofarg (E : Env) (flags : Nat) : AppendsDiags (sizeofarg E flags) := by
  unfold sizeofarg
  repeat' with_reducible (first
    | exact AD_pure _
    | exact AD_typeerror _ _
    | refine AD_bind ?_ (fun _ => ?_)
    | refine AD_ite ?_ ?_)

theorem AD_push (E : Env) (flags : Nat) : AppendsDiags (push E flags) :=
  AD_bind (AD_sizeofarg E flags) (fun _ => AD_setOursp _ _)

theorem AD_pop (E : Env) (flags : Nat) : AppendsDiags (pop E flags) :=
  AD_bind (AD_sizeofarg E flags) (fun _ => AD_setOursp _ _)

theorem AD_GetLabelName (E : Env) (flags label offs : Nat) :
    AppendsDiags (GetLabelName E flags label offs) := by
  unfold GetLabelName
  repeat' with_reducible (first
    | exact AD_pure _
    | exact AD_Internal _
    | refine AD_bind ?_ (fun _ => ?_)
    | refine AD_ite ?_ ?_)

theorem AD_g_getimmed (E : Env) (flags val offs : Nat) :
    AppendsDiags (g_getimmed E flags val offs) := by
  unfold g_getimmed
  repeat' with_reducible (first
    | exact AD_pure _
    | exact AD_AddCodeLine _
    | exact AD_ldaconst _
    | exact AD_ldxconst _
    | exact AD_typeerror _ _
    | exact AD_GetLabelName _ _ _ _
    | refine AD_bind ?_ (fun _ => ?_)
    | refine AD_ite ?_ ?_)

theorem AD_g_push (E : Env) (flags val : Nat) : AppendsDiags (g_push E flags val) := by
  unfold g_push
  repeat' with_reducible (first
    | exact AD_pure _
    | exact AD_AddCodeLine _
    | exact AD_ldaconst _
    | exact AD_typeerror _ _
    | exact AD_g_getimmed _ _ _ _
    | exact AD_push _ _
    | refine AD_bind ?_ (fun _ => ?_)
    | refine AD_ite ?_ ?_)

theorem AD_oper (E : Env) (flags val : Nat) (subs : Subs) :
    AppendsDiags (oper E flags val subs) := by
  unfold oper
  repeat' with_reducible (first
    | exact AD_pure _
    | exact AD_jsrSub _ _
    | exact AD_ldaconst _
    | exact AD_typeerror _ _
    | exact AD_g_getimmed _ _ _ _
    | exact AD_pop _ _
    | refine AD_bind ?_ (fun _ => ?_)
    | refine AD_ite ?_ ?_)

theorem AD_g_add (E : Env) (flags val : Nat) : AppendsDiags (g_add E flags val) := by
  unfold g_add
  repeat' with_reducible (first
    | exact AD_g_push _ _ _
    | exact AD_oper _ _ _ _
    | refine AD_bind ?_ (fun _ => ?_)
    | refine AD_ite ?_ ?_)

theorem AD_g_getlocal (E : Env) (flags : Nat) (offs : Int) :
    AppendsDiags (g_getlocal E flags offs) := by
  unfold g_getlocal
  repeat' with_reducible (first
    | exact AD_pure _
    | exact AD_AddCodeLine _
    | exact AD_AddCodeHint _
    | exact AD_ldyconst _
    | exact AD_typeerror _ _
    | exact AD_getOursp
    | exact AD_CheckLocalOffs _
    | refine AD_bind ?_ (fun _ => ?_)
    | refine AD_ite ?_ ?_)

/-! ## Offset-range rejection (C6) -/

theorem toUnsigned_bad (e : Int) (hi : IsInt32 e) (hbad : e < 0 ∨ 256 ≤ e) :
    toUnsigned e ≥ 256 := by
  unfold toUnsigned
  obtain ⟨h1, h2⟩ := hi
  omega

theorem bind_getOursp {α : Type} (F : Int → Gen α) (s : State) :
    (getOursp >>= F) s = F s.oursp s := rfl

/-- A failed range check followed by code that only appends diagnostics raises
the too-many-locals diagnostic. -/
theorem raises_after_check {α : Type} (n : Nat) (hn : n ≥ 256) (F : Unit → Gen α)
    (hF : AppendsDiags (F ())) (s : State) :
    ∃ d, ((CheckLocalOffs n >>= F) s).state.diags = s.diags ++ d
      ∧ Diag.ERR_TOO_MANY_LOCALS ∈ d := by
  obtain ⟨s2, hc, hdg⟩ : ∃ s2, CheckLocalOffs n s = Res.ok () s2
      ∧ s2.diags = s.diags ++ [Diag.ERR_TOO_MANY_LOCALS] := by
    unfold CheckLocalOffs
    rw [if_pos hn]
    exact ⟨_, rfl, rfl⟩
  obtain ⟨d, hd⟩ := hF s2
  refine ⟨Diag.ERR_TOO_MANY_LOCALS :: d, ?_, List.mem_cons_self _ _⟩
  rw [Gen.bind_run, hc]
  simp only [hd, hdg, List.append_assoc, List.singleton_append]


theorem raises_g_getlocal (E : Env) (flags : Nat) (offs : Int) (s : State)
    (hn : toUnsigned (offs - s.oursp) ≥ 256) :
    Raises Diag.ERR_TOO_MANY_LOCALS (g_getlocal E flags offs) s := by
  unfold Raises g_getlocal
  rw [bind_getOursp]
  refine raises_after_check _ hn _ ?_ s
  repeat' with_reducible (first
    | exact AD_pure _
    | exact AD_AddCodeLine _
    | exact AD_AddCodeHint _
    | exact AD_ldyconst _
    | exact AD_ldxconst _
    | exact AD_g_defloclabel _
    | exact AD_typeerror _ _
    | exact AD_GetLabel
    | exact AD_CheckLocalOffs _
    | exact AD_g_getimmed _ _ _ _
    | exact AD_g_push _ _ _
    | exact AD_g_getlocal _ _ _
    | exact AD_g_add _ _ _
    | refine AD_bind ?_ (fun _ => ?_)
    | refine AD_ite ?_ ?_)

theorem raises_g_putlocal (E : Env) (flags : Nat) (offs : Int) (s : State)
    (hn : toUnsigned (offs - s.oursp) ≥ 256) :
    Raises Diag.ERR_TOO_MANY_LOCALS (g_putlocal E flags offs) s := by
  unfold Raises g_putlocal
  rw [bind_getOursp]
  refine raises_after_check _ hn _ ?_ s
  repeat' with_reducible (first
    | exact AD_pure _
    | exact AD_AddCodeLine _
    | exact AD_AddCodeHint _
    | exact AD_ldyconst _
    | exact AD_ldxconst _
    | exact AD_g_defloclabel _
    | exact AD_typeerror _ _
    | exact AD_GetLabel
    | exact AD_CheckLocalOffs _
    | exact AD_g_getimmed _ _ _ _
    | exact AD_g_push _ _ _
    | exact AD_g_getlocal _ _ _
    | exact AD_g_add _ _ _
    | refine AD_bind ?_ (fun _ => ?_)
    | refine AD_ite ?_ ?_)

theorem raises_g_addlocal (E : Env) (flags : Nat) (offs : Int) (s : State)
    (hn : toUnsigned (offs - s.oursp) ≥ 256) :
    Raises Diag.ERR_TOO_MANY_LOCALS (g_addlocal E flags offs) s := by
  unfold Raises g_addlocal
  rw [bind_getOursp]
  refine raises_after_check _ hn _ ?_ s
  repeat' with_reducible (first
    | exact AD_pure _
    | exact AD_AddCodeLine _
    | exact AD_AddCodeHint _
    | exact AD_ldyconst _
    | exact AD_ldxconst _
    | exact AD_g_defloclabel _
    | exact AD_typeerror _ _
    | exact AD_GetLabel
    | exact AD_CheckLocalOffs _
    | exact AD_g_getimmed _ _ _ _
    | exact AD_g_push _ _ _
    | exact AD_g_getlocal _ _ _
    | exact AD_g_add _ _ _
    | refine AD_bind ?_ (fun _ => ?_)
    | refine AD_ite ?_ ?_)

theorem raises_g_addeqlocal (E : Env) (flags : Nat) (offs : Int) (val : Nat) (s : State)
    (hn : toUnsigned (offs - s.oursp) ≥ 256) :
    Raises Diag.ERR_TOO_MANY_LOCALS (g_addeqlocal E flags offs val) s := by
  unfold Raises g_addeqlocal
  rw [bind_getOursp]
  refine raises_after_check _ hn _ ?_ s
  repeat' with_reducible (first
    | exact AD_pure _
    | exact AD_AddCodeLine _
    | exact AD_AddCodeHint _
    | exact AD_ldyconst _
    | exact AD_ldxconst _
    | exact AD_g_defloclabel _
    | exact AD_typeerror _ _
    | exact AD_GetLabel
    | exact AD_CheckLocalOffs _
    | exact AD_g_getimmed _ _ _ _
    | exact AD_g_push _ _ _
    | exact AD_g_getlocal _ _ _
    | exact AD_g_add _ _ _
    | refine AD_bind ?_ (fun _ => ?_)
    | refine AD_ite ?_ ?_)

theorem raises_g_subeqlocal (E : Env) (flags : Nat) (offs : Int) (val : Nat) (s : State)
    (hn : toUnsigned (offs - s.oursp) ≥ 256) :
    Raises Diag.ERR_TOO_MANY_LOCALS (g_subeqlocal E flags offs val) s := by
  unfold Raises g_subeqlocal
  rw [bind_getOursp]
  refine raises_after_check _ hn _ ?_ s
  repeat' with_reducible (first
    | exact AD_pure _
    | exact AD_AddCodeLine _
    | exact AD_AddCodeHint _
    | exact AD_ldyconst _
    | exact AD_ldxconst _
    | exact AD_g_defloclabel _
    | exact AD_typeerror _ _
    | exact AD_GetLabel
    | exact AD_CheckLocalOffs _
    | exact AD_g_getimmed _ _ _ _
    | exact AD_g_push _ _ _
    | exact AD_g_getlocal _ _ _
    | exact AD_g_add _ _ _
    | refine AD_bind ?_ (fun _ => ?_)
    | refine AD_ite ?_ ?_)

theorem raises_g_restore_regvars (offs RegOffs : Int) (Bytes : Nat) (s : State)
    (hn : toUnsigned (offs - s.oursp) ≥ 256) :
    Raises Diag.ERR_TOO_MANY_LOCALS (g_restore_regvars offs RegOffs Bytes) s := by
  unfold Raises g_restore_regvars
  rw [bind_getOursp]
  refine raises_after_check _ hn _ ?_ s
  repeat' with_reducible (first
    | exact AD_pure _
    | exact AD_AddCodeLine _
    | exact AD_AddCodeHint _
    | exact AD_ldyconst _
    | exact AD_ldxconst _
    | exact AD_g_defloclabel _
    | exact AD_typeerror _ _
    | exact AD_GetLabel
    | exact AD_CheckLocalOffs _
    | exact AD_g_getimmed _ _ _ _
    | exact AD_g_push _ _ _
    | exact AD_g_getlocal _ _ _
    | exact AD_g_add _ _ _
    | refine AD_bind ?_ (fun _ => ?_)
    | refine AD_ite ?_ ?_)

/-- C6: for each stack-relative access operation `g_getlocal`, `g_putlocal`,
`g_addlocal`, `g_addeqlocal`, `g_subeqlocal` and `g_restore_regvars`, for every
descriptor and value: whenever the effective offset (the caller's offset minus
the current `oursp`, an `int`) lies outside 0..255 (negative, or 256 or more),
the call raises the too-many-locals diagnostic `ERR_TOO_MANY_LOCALS`. -/
theorem C6_offset_range_rejection (E : Env) (flags val Bytes : Nat) (offs RegOffs : Int)
    (s : State) (hi : IsInt32 (offs - s.oursp))
    (hbad : offs - s.oursp < 0 ∨ 256 ≤ offs - s.oursp) :
    Raises Diag.ERR_TOO_MANY_LOCALS (g_getlocal E flags offs) s
    ∧ Raises Diag.ERR_TOO_MANY_LOCALS (g_putlocal E flags offs) s
    ∧ Raises Diag.ERR_TOO_MANY_LOCALS (g_addlocal E flags offs) s
    ∧ Raises Diag.ERR_TOO_MANY_LOCALS (g_addeqlocal E flags offs val) s
    ∧ Raises Diag.ERR_TOO_MANY_LOCALS (g_subeqlocal E flags offs val) s
    ∧ Raises Diag.ERR_TOO_MANY_LOCALS (g_restore_regvars offs RegOffs Bytes) s := by
  have hn := toUnsigned_bad _ hi hbad
  exact ⟨raises_g_getlocal E flags offs s hn, raises_g_putlocal E flags offs s hn,
    raises_g_addlocal E flags offs s hn, raises_g_addeqlocal E flags offs val s hn,
    raises_g_subeqlocal E flags offs val s hn,
    raises_g_restore_regvars offs RegOffs Bytes s hn⟩

/-- Witness of C6: the offset 256 with `oursp = 0`, and the offset 0 after two
bytes were pushed (`oursp = -2` makes the effective offset 2, in range, while
`offs = -3` makes it negative). -/
theorem C6_witness :
    IsInt32 ((256 : Int) - State.init.oursp)
    ∧ ((256 : Int) - State.init.oursp < 0 ∨ 256 ≤ (256 : Int) - State.init.oursp)
    ∧ Raises Diag.ERR_TOO_MANY_LOCALS (g_getlocal cc65Env cc65Env.CF_INT 256) State.init
    ∧ Raises Diag.ERR_TOO_MANY_LOCALS (g_restore_regvars 256 0 4) State.init :=
  ⟨by decide, by decide,
    (C6_offset_range_rejection cc65Env cc65Env.CF_INT 0 4 256 0 State.init
      (by decide) (by decide)).1,
    (C6_offset_range_rejection cc65Env cc65Env.CF_INT 0 4 256 0 State.init
      (by decide) (by decide)).2.2.2.2.2⟩

/-! ## Silent truncation of the Y index (C7) -/

/-- C7 fails on the code: `g_getlocal` with a long descriptor and the effective
offset 253 passes its only range check (253 < 256), raises no diagnostic, and
loads Y with the index 253 + 3 = 256 truncated to `$00`; the int path checks
`offs + 1` and does raise the diagnostic at the offset 255. Likewise
`g_restore_regvars` with 8 bytes at the offset 250 loads 250 + 8 - 1 = 257 as
`$01` without a diagnostic. -/
theorem C7_silent_truncation :
    g_getlocal cc65Env cc65Env.CF_LONG 253 State.init
      = Res.ok () { State.init with
          out := [Out.line "\tldy\t#$00", Out.line "\tjsr\tldeaxysp"] }
    ∧ toUnsigned (253 + 3) = 256
    ∧ (g_getlocal cc65Env cc65Env.CF_INT 255 State.init).state.diags
      = [Diag.ERR_TOO_MANY_LOCALS]
    ∧ (g_restore_regvars 250 0 8 State.init).isOk = true
    ∧ (g_restore_regvars 250 0 8 State.init).state.diags = []
    ∧ (g_restore_regvars 250 0 8 State.init).state.out.head?
      = some (Out.line "\tldy\t#$01")
    ∧ (toUnsigned 250 + 8 + (2 ^ 32 - 1)) % 2 ^ 32 = 257 := by
  decide

/-! ## Type adjustment (C8, C9, C10) -/

theorem Recognised_CF_INT (E : Env) (hE : E.WF) : Recognised E E.CF_INT :=
  Or.inr (Or.inl hE.int_type)

theorem g_reglong_emits (E : Env) (f : Nat) (s : State)
    (h : f &&& E.CF_TYPE = E.CF_CHAR ∨ f &&& E.CF_TYPE = E.CF_INT) :
    ∃ s1 new, g_reglong E f s = Res.ok () s1 ∧ s1.out = s.out ++ new ∧ new ≠ [] := by
  unfold g_reglong
  rw [if_pos h]
  split_ifs
  · exact ⟨_, [_], rfl, rfl, by simp⟩
  · refine ⟨_, [Out.line ("\tldy\t#$" ++ hex2 (0 &&& 0xFF)), Out.line "\tsty\tsreg",
      Out.line "\tsty\tsreg+1"], rfl, ?_, by simp⟩
    simp [List.append_assoc]
  · exact ⟨_, [_], rfl, rfl, by simp⟩

theorem g_toslong_emits (E : Env) (hE : E.WF) (f : Nat) (s : State)
    (h : f &&& E.CF_TYPE = E.CF_CHAR ∨ f &&& E.CF_TYPE = E.CF_INT) :
    ∃ s1 new, g_toslong E f s = Res.ok () s1 ∧ s1.out = s.out ++ new ∧ new ≠ [] := by
  unfold g_toslong
  rw [if_pos h]
  have hp := push_ok E E.CF_INT (Recognised_CF_INT E hE)
  split_ifs
  · exact ⟨_, [_], by simp [AddCodeLine, hp]; rfl, rfl, by simp⟩
  · exact ⟨_, [_], by simp [AddCodeLine, hp]; rfl, rfl, by simp⟩

/-- Replacing the width field by `w` does not change a flag outside the field. -/
theorem retype_and {t w m : Nat} (x : Nat) (hm : m < 2 ^ 32) (htm : m &&& t = 0)
    (hw : w &&& t = w) : ((x &&& bnot t) ||| w) &&& m = x &&& m := by
  apply Nat.eq_of_testBit_eq
  intro i
  have hd := disjoint_testBit htm i
  have hs := congrArg (fun y => y.testBit i) hw
  simp only [Nat.testBit_and] at hs
  simp only [bnot, Nat.testBit_and, Nat.testBit_or, Nat.testBit_xor, testBit_allOnes]
  by_cases hmi : m.testBit i = true
  · have hi : i < 32 := testBit_of_lt32 hm hmi
    have ht : t.testBit i = false := by
      by_contra ht
      exact hd ⟨hmi, by simpa using ht⟩
    have hwi : w.testBit i = false := by
      rw [ht] at hs
      simpa using hs.symm
    simp [hmi, hi, ht, hwi]
  · simp [hmi]

theorem g_typeadjust_spec (E : Env) (hE : E.WF) (lhs rhs : Nat) (s : State)
    (hl : Recognised E lhs) (hr : Recognised E rhs) :
    ∃ s1 new, g_typeadjust E lhs rhs s
        = Res.ok (((lhs &&& E.CF_CONST) &&& (rhs &&& E.CF_CONST))
            ||| ((lhs &&& E.CF_UNSIGNED) ||| (rhs &&& E.CF_UNSIGNED))
            ||| (if rhs &&& E.CF_TYPE = E.CF_LONG ∨ lhs &&& E.CF_TYPE = E.CF_LONG
                  then E.CF_LONG else E.CF_INT)) s1
      ∧ s1.out = s.out ++ new
      ∧ (new ≠ [] ↔ NeedsPromotion E lhs rhs)
      ∧ (¬ NeedsPromotion E lhs rhs → s1 = s) := by
  have hc32 := isBit_lt hE.const_bit
  have hu32 := isBit_lt hE.unsigned_bit
  unfold g_typeadjust
  by_cases h1 : lhs &&& E.CF_TYPE = E.CF_LONG ∧ rhs &&& E.CF_TYPE ≠ E.CF_LONG
      ∧ rhs &&& E.CF_CONST = 0
  · have hrt : rhs &&& E.CF_TYPE = E.CF_CHAR ∨ rhs &&& E.CF_TYPE = E.CF_INT := by
      rcases hr with h | h | h
      · exact Or.inl h
      · exact Or.inr h
      · exact absurd h h1.2.1
    obtain ⟨s1, new, e, ho, hne⟩ := g_reglong_emits E rhs s hrt
    have hP : NeedsPromotion E lhs rhs := Or.inl h1
    refine ⟨s1, new, ?_, ho, ⟨fun _ => hP, fun _ => hne⟩, fun hn => absurd hP hn⟩
    simp only [if_pos h1, Gen.bind_run, e, Gen.pure_run]
    rw [retype_and rhs hc32 hE.const_type hE.long_type,
      retype_and rhs hu32 hE.unsigned_type hE.long_type]
    simp [h1.1]
  · by_cases h2 : lhs &&& E.CF_TYPE ≠ E.CF_LONG ∧ lhs &&& E.CF_CONST = 0
        ∧ rhs &&& E.CF_TYPE = E.CF_LONG
    · have hlt : lhs &&& E.CF_TYPE = E.CF_CHAR ∨ lhs &&& E.CF_TYPE = E.CF_INT := by
        rcases hl with h | h | h
        · exact Or.inl h
        · exact Or.inr h
        · exact absurd h h2.1
      have hP : NeedsPromotion E lhs rhs := Or.inr h2
      have hem : ∃ s1 new, (if lhs &&& E.CF_REG ≠ 0 then g_reglong E lhs
          else g_toslong E lhs) s = Res.ok () s1 ∧ s1.out = s.out ++ new ∧ new ≠ [] := by
        split_ifs
        · exact g_reglong_emits E lhs s hlt
        · exact g_toslong_emits E hE lhs s hlt
      obtain ⟨s1, new, e, ho, hne⟩ := hem
      refine ⟨s1, new, ?_, ho, ⟨fun _ => hP, fun _ => hne⟩, fun hn => absurd hP hn⟩
      simp only [if_neg h1, if_pos h2]
      by_cases hreg : lhs &&& E.CF_REG ≠ 0
      · simp only [if_pos hreg] at e ⊢
        simp only [Gen.bind_run, e, Gen.pure_run]
        rw [retype_and lhs hc32 hE.const_type hE.long_type,
          retype_and lhs hu32 hE.unsigned_type hE.long_type]
        simp [h2.2.2]
      · simp only [if_neg hreg] at e ⊢
        simp only [Gen.bind_run, e, Gen.pure_run]
        rw [retype_and lhs hc32 hE.const_type hE.long_type,
          retype_and lhs hu32 hE.unsigned_type hE.long_type]
        simp [h2.2.2]
    · have hP : ¬ NeedsPromotion E lhs rhs := by
        rintro (h | h)
        · exact h1 h
        · exact h2 h
      refine ⟨s, [], ?_, by simp, ⟨fun h => absurd rfl h, fun h => absurd h hP⟩, fun _ => rfl⟩
      simp only [if_neg h1, if_neg h2, Gen.bind_run, Gen.pure_run]
      split_ifs <;> rfl

theorem disjoint_bool {a b : Nat} (h : a &&& b = 0) (i : Nat) :
    (a.testBit i && b.testBit i) = false := by
  have := congrArg (fun x => x.testBit i) h
  simpa only [Nat.testBit_and, Nat.zero_testBit] using this

theorem sub_bool {w t : Nat} (h : w &&& t = w) (i : Nat) :
    (w.testBit i && t.testBit i) = w.testBit i := by
  have := congrArg (fun x => x.testBit i) h
  simpa only [Nat.testBit_and] using this

theorem lt32_bool {m : Nat} (hm : m < 2 ^ 32) (i : Nat) :
    (m.testBit i && !decide (i < 32)) = false := by
  by_cases h : m.testBit i = true
  · simp [testBit_of_lt32 hm h]
  · simp [h]

theorem typeResult_bool :
    ∀ l r c u t w n : Bool, (c && u) = false → (c && t) = false → (u && t) = false →
      (w && t) = w → (c && !n) = false → (u && !n) = false → (t && !n) = false →
      ((l && c && (r && c) || (l && u || r && u) || w) && c) = (l && c && (r && c))
      ∧ ((l && c && (r && c) || (l && u || r && u) || w) && u) = (l && u || r && u)
      ∧ ((l && c && (r && c) || (l && u || r && u) || w) && t) = w
      ∧ ((l && c && (r && c) || (l && u || r && u) || w) && (n ^^ (c || u || t))) = false := by
  decide

/-- The flags of the result descriptor `(l & C & (r & C)) | (l & U | r & U) | w`
of `g_typeadjust`, for a width code `w`. -/
theorem typeResult_bits (E : Env) (hE : E.WF) (l r w : Nat) (hw : w &&& E.CF_TYPE = w) :
    (((l &&& E.CF_CONST) &&& (r &&& E.CF_CONST))
        ||| ((l &&& E.CF_UNSIGNED) ||| (r &&& E.CF_UNSIGNED)) ||| w) &&& E.CF_CONST
      = (l &&& E.CF_CONST) &&& (r &&& E.CF_CONST)
    ∧ (((l &&& E.CF_CONST) &&& (r &&& E.CF_CONST))
        ||| ((l &&& E.CF_UNSIGNED) ||| (r &&& E.CF_UNSIGNED)) ||| w) &&& E.CF_UNSIGNED
      = (l &&& E.CF_UNSIGNED) ||| (r &&& E.CF_UNSIGNED)
    ∧ (((l &&& E.CF_CONST) &&& (r &&& E.CF_CONST))
        ||| ((l &&& E.CF_UNSIGNED) ||| (r &&& E.CF_UNSIGNED)) ||| w) &&& E.CF_TYPE = w
    ∧ (((l &&& E.CF_CONST) &&& (r &&& E.CF_CONST))
        ||| ((l &&& E.CF_UNSIGNED) ||| (r &&& E.CF_UNSIGNED)) ||| w)
        &&& bnot (E.CF_CONST ||| E.CF_UNSIGNED ||| E.CF_TYPE) = 0 := by
  have key : ∀ i, _ := fun i =>
    typeResult_bool (l.testBit i) (r.testBit i) (E.CF_CONST.testBit i)
      (E.CF_UNSIGNED.testBit i) (E.CF_TYPE.testBit i) (w.testBit i) (decide (i < 32))
      (disjoint_bool hE.const_unsigned i) (disjoint_bool hE.const_type i)
      (disjoint_bool hE.unsigned_type i) (sub_bool hw i)
      (lt32_bool (isBit_lt hE.const_bit) i) (lt32_bool (isBit_lt hE.unsigned_bit) i)
      (lt32_bool hE.type_lt i)
  refine ⟨?_, ?_, ?_, ?_⟩
  · apply Nat.eq_of_testBit_eq
    intro i
    simp only [Nat.testBit_and, Nat.testBit_or]
    exact (key i).1
  · apply Nat.eq_of_testBit_eq
    intro i
    simp only [Nat.testBit_and, Nat.testBit_or]
    exact (key i).2.1
  · apply Nat.eq_of_testBit_eq
    intro i
    simp only [Nat.testBit_and, Nat.testBit_or]
    exact (key i).2.2.1
  · apply Nat.eq_of_testBit_eq
    intro i
    simp only [bnot, Nat.testBit_and, Nat.testBit_or, Nat.testBit_xor, testBit_allOnes,
      Nat.zero_testBit]
    exact (key i).2.2.2

theorem and_bit_both {c : Nat} (hc : isBit c) (l r : Nat) :
    (l &&& c) &&& (r &&& c) ≠ 0 ↔ l &&& c ≠ 0 ∧ r &&& c ≠ 0 := by
  have h0 := isBit_ne_zero hc
  rcases and_bit_eq hc l with hl | hl <;> rcases and_bit_eq hc r with hr | hr <;>
    simp [hl, hr, h0]

theorem or_bit_either {c : Nat} (hc : isBit c) (l r : Nat) :
    (l &&& c) ||| (r &&& c) ≠ 0 ↔ l &&& c ≠ 0 ∨ r &&& c ≠ 0 := by
  have h0 := isBit_ne_zero hc
  rcases and_bit_eq hc l with hl | hl <;> rcases and_bit_eq hc r with hr | hr <;>
    simp [hl, hr, h0]

/-- C8: for all descriptors lhs and rhs of recognised width, `g_typeadjust`
returns a descriptor that is constant if and only if both lhs and rhs are
constant, and unsigned if and only if at least one of lhs and rhs is unsigned;
it carries no flag other than constancy, signedness and width. -/
theorem C8_typeadjust_const_unsigned (E : Env) (hE : E.WF) (lhs rhs : Nat) (s : State)
    (hl : Recognised E lhs) (hr : Recognised E rhs) :
    ∃ res s1, g_typeadjust E lhs rhs s = Res.ok res s1
      ∧ (IsConst E res ↔ IsConst E lhs ∧ IsConst E rhs)
      ∧ (IsUnsigned E res ↔ IsUnsigned E lhs ∨ IsUnsigned E rhs)
      ∧ res &&& bnot (E.CF_CONST ||| E.CF_UNSIGNED ||| E.CF_TYPE) = 0 := by
  obtain ⟨s1, new, e, -, -, -⟩ := g_typeadjust_spec E hE lhs rhs s hl hr
  have hw : (if rhs &&& E.CF_TYPE = E.CF_LONG ∨ lhs &&& E.CF_TYPE = E.CF_LONG
      then E.CF_LONG else E.CF_INT) &&& E.CF_TYPE
      = (if rhs &&& E.CF_TYPE = E.CF_LONG ∨ lhs &&& E.CF_TYPE = E.CF_LONG
      then E.CF_LONG else E.CF_INT) := by
    split_ifs
    · exact hE.long_type
    · exact hE.int_type
  obtain ⟨b1, b2, -, b4⟩ := typeResult_bits E hE lhs rhs _ hw
  refine ⟨_, s1, e, ?_, ?_, b4⟩
  · unfold IsConst
    rw [b1]
    exact and_bit_both hE.const_bit lhs rhs
  · unfold IsUnsigned
    rw [b2]
    exact or_bit_either hE.unsigned_bit lhs rhs

/-- Witness of C8: an unsigned constant char against a signed constant long. -/
theorem C8_witness :
    cc65Env.WF
    ∧ Recognised cc65Env (cc65Env.CF_CHAR ||| cc65Env.CF_CONST ||| cc65Env.CF_UNSIGNED)
    ∧ Recognised cc65Env (cc65Env.CF_LONG ||| cc65Env.CF_CONST)
    ∧ ∃ res s1, g_typeadjust cc65Env
          (cc65Env.CF_CHAR ||| cc65Env.CF_CONST ||| cc65Env.CF_UNSIGNED)
          (cc65Env.CF_LONG ||| cc65Env.CF_CONST) State.init = Res.ok res s1
      ∧ (IsConst cc65Env res ↔
          IsConst cc65Env (cc65Env.CF_CHAR ||| cc65Env.CF_CONST ||| cc65Env.CF_UNSIGNED)
          ∧ IsConst cc65Env (cc65Env.CF_LONG ||| cc65Env.CF_CONST))
      ∧ (IsUnsigned cc65Env res ↔
          IsUnsigned cc65Env (cc65Env.CF_CHAR ||| cc65Env.CF_CONST ||| cc65Env.CF_UNSIGNED)
          ∨ IsUnsigned cc65Env (cc65Env.CF_LONG ||| cc65Env.CF_CONST))
      ∧ res &&& bnot (cc65Env.CF_CONST ||| cc65Env.CF_UNSIGNED ||| cc65Env.CF_TYPE) = 0 :=
  ⟨cc65Env_wf, by decide, by decide,
    C8_typeadjust_const_unsigned cc65Env cc65Env_wf _ _ State.init (by decide) (by decide)⟩

/-- C9, as stated, fails: for two byte operands (`CF_CHAR` with `CF_FORCECHAR`,
`sizeofarg` 1) `g_typeadjust` returns `CF_INT`, the word width, not the
maximum (byte) of the two widths. -/
theorem C9_counterexample :
    Recognised cc65Env (cc65Env.CF_CHAR ||| cc65Env.CF_FORCECHAR)
    ∧ g_typeadjust cc65Env (cc65Env.CF_CHAR ||| cc65Env.CF_FORCECHAR)
        (cc65Env.CF_CHAR ||| cc65Env.CF_FORCECHAR) State.init
      = Res.ok cc65Env.CF_INT State.init
    ∧ widthRank cc65Env (cc65Env.CF_CHAR ||| cc65Env.CF_FORCECHAR) = 0
    ∧ argSize cc65Env (cc65Env.CF_CHAR ||| cc65Env.CF_FORCECHAR) = 1
    ∧ widthRank cc65Env cc65Env.CF_INT = 1
    ∧ argSize cc65Env cc65Env.CF_INT = 2
    ∧ widthRank cc65Env cc65Env.CF_INT
      ≠ max (widthRank cc65Env (cc65Env.CF_CHAR ||| cc65Env.CF_FORCECHAR))
          (widthRank cc65Env (cc65Env.CF_CHAR ||| cc65Env.CF_FORCECHAR)) := by
  decide

theorem widthRank_of_type (E : Env) (hE : E.WF) (f : Nat) :
    (f &&& E.CF_TYPE = E.CF_CHAR → widthRank E f = 0)
    ∧ (f &&& E.CF_TYPE = E.CF_INT → widthRank E f = 1)
    ∧ (f &&& E.CF_TYPE = E.CF_LONG → widthRank E f = 2) := by
  unfold widthRank
  refine ⟨fun h => by simp [h], fun h => ?_, fun h => ?_⟩
  · rw [if_neg (by rw [h]; exact fun e => hE.char_ne_int e.symm), if_pos h]
  · rw [if_neg (by rw [h]; exact fun e => hE.char_ne_long e.symm),
      if_neg (by rw [h]; exact fun e => hE.int_ne_long e.symm)]

/-- C9 (amended): for all descriptors lhs and rhs of recognised width, the
width of the descriptor returned by `g_typeadjust` is the maximum of the width
of lhs and the width of rhs (byte < word < dword), but never less than the
word width: it is dword when at least one operand is dword and word
otherwise. -/
theorem C9_typeadjust_width (E : Env) (hE : E.WF) (lhs rhs : Nat) (s : State)
    (hl : Recognised E lhs) (hr : Recognised E rhs) :
    ∃ res s1, g_typeadjust E lhs rhs s = Res.ok res s1
      ∧ widthRank E res = max 1 (max (widthRank E lhs) (widthRank E rhs))
      ∧ res &&& E.CF_TYPE = (if lhs &&& E.CF_TYPE = E.CF_LONG ∨ rhs &&& E.CF_TYPE = E.CF_LONG
          then E.CF_LONG else E.CF_INT) := by
  obtain ⟨s1, new, e, -, -, -⟩ := g_typeadjust_spec E hE lhs rhs s hl hr
  have hw : (if rhs &&& E.CF_TYPE = E.CF_LONG ∨ lhs &&& E.CF_TYPE = E.CF_LONG
      then E.CF_LONG else E.CF_INT) &&& E.CF_TYPE
      = (if rhs &&& E.CF_TYPE = E.CF_LONG ∨ lhs &&& E.CF_TYPE = E.CF_LONG
      then E.CF_LONG else E.CF_INT) := by
    split_ifs
    · exact hE.long_type
    · exact hE.int_type
  obtain ⟨-, -, b3, -⟩ := typeResult_bits E hE lhs rhs _ hw
  refine ⟨_, s1, e, ?_, ?_⟩
  · have hres := widthRank_of_type E hE
      (((lhs &&& E.CF_CONST) &&& (rhs &&& E.CF_CONST))
        ||| ((lhs &&& E.CF_UNSIGNED) ||| (rhs &&& E.CF_UNSIGNED))
        ||| (if rhs &&& E.CF_TYPE = E.CF_LONG ∨ lhs &&& E.CF_TYPE = E.CF_LONG
              then E.CF_LONG else E.CF_INT))
    rw [b3] at hres
    have hL := widthRank_of_type E hE lhs
    have hR := widthRank_of_type E hE rhs
    by_cases hlong : rhs &&& E.CF_TYPE = E.CF_LONG ∨ lhs &&& E.CF_TYPE = E.CF_LONG
    · simp only [if_pos hlong] at hres ⊢
      rw [hres.2.2 trivial]
      rcases hlong with h | h
      · rw [hR.2.2 h]
        rcases hl with g | g | g
        · rw [hL.1 g]; rfl
        · rw [hL.2.1 g]; rfl
        · rw [hL.2.2 g]; rfl
      · rw [hL.2.2 h]
        rcases hr with g | g | g
        · rw [hR.1 g]; rfl
        · rw [hR.2.1 g]; rfl
        · rw [hR.2.2 g]; rfl
    · simp only [if_neg hlong] at hres ⊢
      rw [hres.2.1 trivial]
      have hl2 : widthRank E lhs ≤ 1 := by
        rcases hl with g | g | g
        · rw [hL.1 g]; omega
        · rw [hL.2.1 g]
        · exact absurd (Or.inr g) hlong
      have hr2 : widthRank E rhs ≤ 1 := by
        rcases hr with g | g | g
        · rw [hR.1 g]; omega
        · rw [hR.2.1 g]
        · exact absurd (Or.inl g) hlong
      omega
  · rw [b3]
    by_cases hlong : rhs &&& E.CF_TYPE = E.CF_LONG ∨ lhs &&& E.CF_TYPE = E.CF_LONG
    · rw [if_pos hlong, if_pos hlong.symm]
    · rw [if_neg hlong, if_neg (fun h => hlong h.symm)]

/-- Witness of C9: an int against a long gives a long. -/
theorem C9_witness :
    cc65Env.WF ∧ Recognised cc65Env cc65Env.CF_INT ∧ Recognised cc65Env cc65Env.CF_LONG
    ∧ ∃ res s1, g_typeadjust cc65Env cc65Env.CF_INT cc65Env.CF_LONG State.init
        = Res.ok res s1
      ∧ widthRank cc65Env res
        = max 1 (max (widthRank cc65Env cc65Env.CF_INT) (widthRank cc65Env cc65Env.CF_LONG))
      ∧ res &&& cc65Env.CF_TYPE
        = (if cc65Env.CF_INT &&& cc65Env.CF_TYPE = cc65Env.CF_LONG
              ∨ cc65Env.CF_LONG &&& cc65Env.CF_TYPE = cc65Env.CF_LONG
          then cc65Env.CF_LONG else cc65Env.CF_INT) :=
  ⟨cc65Env_wf, by decide, by decide,
    C9_typeadjust_width cc65Env cc65Env_wf _ _ State.init (by decide) (by decide)⟩

/-- C10: for descriptors of recognised width, `g_typeadjust` returns, and it
emits promotion code if and only if exactly one operand has the 32-bit width
and the other, narrower operand is not a constant; when the narrower operand
is a constant, or neither or both operands are 32-bit, it emits no line and
leaves `oursp` (and the whole state) unchanged. -/
theorem C10_typeadjust_promotion (E : Env) (hE : E.WF) (lhs rhs : Nat) (s : State)
    (hl : Recognised E lhs) (hr : Recognised E rhs) :
    ∃ res s1 new, g_typeadjust E lhs rhs s = Res.ok res s1
      ∧ s1.out = s.out ++ new
      ∧ (new ≠ [] ↔ NeedsPromotion E lhs rhs)
      ∧ (¬ NeedsPromotion E lhs rhs → s1.out = s.out ∧ s1.oursp = s.oursp ∧ s1 = s) := by
  obtain ⟨s1, new, e, ho, hiff, hsame⟩ := g_typeadjust_spec E hE lhs rhs s hl hr
  refine ⟨_, s1, new, e, ho, hiff, fun hn => ?_⟩
  have := hsame hn
  subst this
  exact ⟨rfl, rfl, rfl⟩

/-- Witness of C10: a non-constant int against a long is promoted. -/
theorem C10_witness :
    cc65Env.WF ∧ Recognised cc65Env cc65Env.CF_INT ∧ Recognised cc65Env cc65Env.CF_LONG
    ∧ NeedsPromotion cc65Env cc65Env.CF_INT cc65Env.CF_LONG
    ∧ ∃ res s1 new, g_typeadjust cc65Env cc65Env.CF_INT cc65Env.CF_LONG State.init
        = Res.ok res s1
      ∧ s1.out = State.init.out ++ new
      ∧ (new ≠ [] ↔ NeedsPromotion cc65Env cc65Env.CF_INT cc65Env.CF_LONG)
      ∧ (¬ NeedsPromotion cc65Env cc65Env.CF_INT cc65Env.CF_LONG →
          s1.out = State.init.out ∧ s1.oursp = State.init.oursp ∧ s1 = State.init) :=
  ⟨cc65Env_wf, by decide, by decide, by decide,
    C10_typeadjust_promotion cc65Env cc65Env_wf _ _ State.init (by decide) (by decide)⟩

/-! ## Promotion of a long operand is a no-op (C11) -/

/-- C11: promoting an operand that already has the maximal (32-bit) width is a
no-op: `g_reglong` and `g_toslong` called with a long descriptor return with
the state unchanged (no line, no hint, `oursp` unchanged), and `g_typeadjust`
called with two long descriptors returns a long result with the state
unchanged. -/
theorem C11_promote_long_noop (E : Env) (hE : E.WF) (f lhs rhs : Nat) (s : State)
    (hf : IsLong E f) (hl : IsLong E lhs) (hr : IsLong E rhs) :
    g_reglong E f s = Res.ok () s
    ∧ g_toslong E f s = Res.ok () s
    ∧ ∃ res, g_typeadjust E lhs rhs s = Res.ok res s ∧ IsLong E res := by
  unfold IsLong at *
  have hn : ¬ (f &&& E.CF_TYPE = E.CF_CHAR ∨ f &&& E.CF_TYPE = E.CF_INT) := by
    rw [hf]
    rintro (h | h)
    · exact hE.char_ne_long h.symm
    · exact hE.int_ne_long h.symm
  refine ⟨?_, ?_, ?_⟩
  · unfold g_reglong
    rw [if_neg hn, if_pos hf]
    rfl
  · unfold g_toslong
    rw [if_neg hn, if_pos hf]
    rfl
  · obtain ⟨s1, new, e, -, -, hsame⟩ :=
      g_typeadjust_spec E hE lhs rhs s (Or.inr (Or.inr hl)) (Or.inr (Or.inr hr))
    have hP : ¬ NeedsPromotion E lhs rhs := by
      rintro (h | h)
      · exact h.2.1 hr
      · exact h.1 hl
    have hs := hsame hP
    subst hs
    refine ⟨_, e, ?_⟩
    rw [if_pos (Or.inl hr)]
    exact (typeResult_bits E hE lhs rhs E.CF_LONG hE.long_type).2.2.1

/-- Witness of C11 on long descriptors (signed, and unsigned constant). -/
theorem C11_witness :
    cc65Env.WF ∧ IsLong cc65Env cc65Env.CF_LONG
    ∧ IsLong cc65Env (cc65Env.CF_LONG ||| cc65Env.CF_UNSIGNED ||| cc65Env.CF_CONST)
    ∧ g_reglong cc65Env cc65Env.CF_LONG State.init = Res.ok () State.init
    ∧ g_toslong cc65Env cc65Env.CF_LONG State.init = Res.ok () State.init
    ∧ ∃ res, g_typeadjust cc65Env cc65Env.CF_LONG
          (cc65Env.CF_LONG ||| cc65Env.CF_UNSIGNED ||| cc65Env.CF_CONST) State.init
        = Res.ok res State.init ∧ IsLong cc65Env res :=
  ⟨cc65Env_wf, by decide, by decide,
    C11_promote_long_noop cc65Env cc65Env_wf cc65Env.CF_LONG cc65Env.CF_LONG
      (cc65Env.CF_LONG ||| cc65Env.CF_UNSIGNED ||| cc65Env.CF_CONST) State.init
      (by decide) (by decide) (by decide)⟩

/-! ## The cast operation (C12) -/

/-- C12, as stated, fails: with the target descriptor marked constant (as the
caller does to avoid a manipulation of TOS) and a source that is not constant,
the descriptor returned by `g_typecast` has its constant flag set although the
constant flag of rhs is not set. -/
theorem C12_counterexample :
    Recognised cc65Env (cc65Env.CF_INT ||| cc65Env.CF_CONST)
    ∧ Recognised cc65Env cc65Env.CF_INT
    ∧ ¬ IsConst cc65Env cc65Env.CF_INT
    ∧ g_typecast cc65Env (cc65Env.CF_INT ||| cc65Env.CF_CONST) cc65Env.CF_INT State.init
      = Res.ok (cc65Env.CF_INT ||| cc65Env.CF_CONST) State.init
    ∧ IsConst cc65Env (cc65Env.CF_INT ||| cc65Env.CF_CONST) := by
  decide

theorem or_and_right (a b c : Nat) : (a ||| b) &&& c = (a &&& c) ||| (b &&& c) := by
  rw [Nat.and_comm, Nat.and_or_distrib_left, Nat.and_comm c a, Nat.and_comm c b]

/-- C12 (amended): for every target descriptor lhs and every source descriptor
rhs of recognised width, `g_typecast` returns `lhs | (rhs & CF_CONST)`: a
descriptor with the width of lhs whose constant flag is set exactly when the
constant flag of rhs or of lhs is set; so for a target that is not itself
marked constant, exactly when the constant flag of rhs is set. -/
theorem C12_typecast_result (E : Env) (hE : E.WF) (lhs rhs : Nat) (s : State)
    (hr : Recognised E rhs) :
    ∃ res s1, g_typecast E lhs rhs s = Res.ok res s1
      ∧ res = lhs ||| (rhs &&& E.CF_CONST)
      ∧ res &&& E.CF_TYPE = lhs &&& E.CF_TYPE
      ∧ (IsConst E res ↔ IsConst E rhs ∨ IsConst E lhs)
      ∧ (¬ IsConst E lhs → (IsConst E res ↔ IsConst E rhs)) := by
  have hT : (lhs ||| (rhs &&& E.CF_CONST)) &&& E.CF_TYPE = lhs &&& E.CF_TYPE := by
    rw [or_and_right, Nat.and_assoc, hE.const_type, Nat.and_zero, Nat.or_zero]
  have hC : (IsConst E (lhs ||| (rhs &&& E.CF_CONST)) ↔ IsConst E rhs ∨ IsConst E lhs) := by
    unfold IsConst
    rw [or_and_right, Nat.and_assoc, Nat.and_self]
    rw [or_bit_either hE.const_bit lhs rhs]
    exact Or.comm
  have hrun : ∃ s1, g_typecast E lhs rhs s = Res.ok (lhs ||| (rhs &&& E.CF_CONST)) s1 := by
    unfold g_typecast
    by_cases h1 : lhs &&& E.CF_TYPE = E.CF_LONG ∧ rhs &&& E.CF_TYPE ≠ E.CF_LONG
        ∧ rhs &&& E.CF_CONST = 0
    · have hrt : rhs &&& E.CF_TYPE = E.CF_CHAR ∨ rhs &&& E.CF_TYPE = E.CF_INT := by
        rcases hr with h | h | h
        · exact Or.inl h
        · exact Or.inr h
        · exact absurd h h1.2.1
      obtain ⟨s1, new, e, -, -⟩ := g_reglong_emits E rhs s hrt
      refine ⟨s1, ?_⟩
      simp only [if_pos h1, Gen.bind_run, e, Gen.pure_run]
    · refine ⟨s, ?_⟩
      simp only [if_neg h1, Gen.bind_run, Gen.pure_run]
  obtain ⟨s1, e⟩ := hrun
  refine ⟨_, s1, e, rfl, hT, hC, fun hl => ?_⟩
  rw [hC]
  exact ⟨fun h => h.resolve_right hl, Or.inl⟩

/-- Witness of C12: an int cast to long. -/
theorem C12_witness :
    cc65Env.WF ∧ Recognised cc65Env cc65Env.CF_INT
    ∧ ∃ res s1, g_typecast cc65Env cc65Env.CF_LONG cc65Env.CF_INT State.init = Res.ok res s1
      ∧ res = cc65Env.CF_LONG ||| (cc65Env.CF_INT &&& cc65Env.CF_CONST)
      ∧ res &&& cc65Env.CF_TYPE = cc65Env.CF_LONG &&& cc65Env.CF_TYPE
      ∧ (IsConst cc65Env res ↔ IsConst cc65Env cc65Env.CF_INT ∨ IsConst cc65Env cc65Env.CF_LONG)
      ∧ (¬ IsConst cc65Env cc65Env.CF_LONG →
          (IsConst cc65Env res ↔ IsConst cc65Env cc65Env.CF_INT)) :=
  ⟨cc65Env_wf, by decide,
    C12_typecast_result cc65Env cc65Env_wf cc65Env.CF_LONG cc65Env.CF_INT State.init
      (by decide)⟩

/-! ## Segments (C17, C18) -/

theorem useEntry_eq (seg : Int) (h : ValidSeg seg) : useEntry seg = UseSeg seg := by
  rcases h with h | h | h | h <;> subst h <;> rfl

theorem nameEntry_eq (seg : Int) (Name : String) (h : ValidSeg seg) :
    nameEntry seg Name = SegName seg Name := by
  rcases h with h | h | h | h <;> subst h <;> rfl

theorem UseSeg_same (s : State) (seg : Int) (h : s.CurSeg = seg) :
    UseSeg seg s = Res.ok () s := by
  unfold UseSeg
  rw [if_neg (by simpa using h)]

theorem UseSeg_other (s : State) (seg : Int) (h : s.CurSeg ≠ seg) :
    UseSeg seg s = Res.ok ()
      { s with CurSeg := seg, out := s.out ++ [segDirective s seg, segHint seg] } := by
  unfold UseSeg
  rw [if_pos h]
  simp [Gen.bind_run, AddCodeLine, AddCodeHint, segDirective, segHint]

/-- C17: segment-switch minimality. A request to use the segment that is
already current (`g_usecode`, `g_userodata`, `g_usedata`, `g_usebss`) emits no
line and no hint and leaves the state unchanged; switching from the current
segment `a` to a different segment `b` and back emits exactly two `.segment`
directives, each followed by its segment-kind hint, and changes nothing else. -/
theorem C17_segment_switch_minimality (s : State) (a b : Int) (ha : ValidSeg a)
    (hb : ValidSeg b) (hcur : s.CurSeg = a) (hab : a ≠ b) :
    useEntry a s = Res.ok () s
    ∧ (useEntry b >>= fun _ => useEntry a) s = Res.ok ()
        { s with out := s.out ++ [segDirective s b, segHint b, segDirective s a, segHint a] } := by
  rw [useEntry_eq a ha, useEntry_eq b hb]
  refine ⟨UseSeg_same s a hcur, ?_⟩
  have h1 : s.CurSeg ≠ b := by rw [hcur]; exact hab
  rw [Gen.bind_run, UseSeg_other s b h1]
  simp only
  rw [UseSeg_other _ a (by simpa using fun h => hab h.symm)]
  subst hcur
  simp [segDirective]

/-- Witness of C17: from the code segment to rodata and back. -/
theorem C17_witness :
    ValidSeg SEG_CODE ∧ ValidSeg SEG_RODATA ∧ State.init.CurSeg = SEG_CODE
    ∧ SEG_CODE ≠ SEG_RODATA
    ∧ useEntry SEG_CODE State.init = Res.ok () State.init
    ∧ (useEntry SEG_RODATA >>= fun _ => useEntry SEG_CODE) State.init = Res.ok ()
        { State.init with out := State.init.out ++ [segDirective State.init SEG_RODATA,
            segHint SEG_RODATA, segDirective State.init SEG_CODE, segHint SEG_CODE] } :=
  ⟨by decide, by decide, by decide, by decide,
    C17_segment_switch_minimality State.init SEG_CODE SEG_RODATA (by decide) (by decide)
      (by decide) (by decide)⟩

theorem getD_set_self (l : List String) (i : Nat) (a : String) (h : i < l.length) :
    (l.set i a).getD i "" = a := by
  rw [List.getD_eq_getElem?_getD, List.getElem?_set_self h]
  rfl

theorem validSeg_toNat_lt (seg : Int) (h : ValidSeg seg) : seg.toNat < 4 := by
  rcases h with h | h | h | h <;> subst h <;> decide

theorem validSeg_ne_inv (seg : Int) (h : ValidSeg seg) : SEG_INV ≠ seg := by
  rcases h with h | h | h | h <;> subst h <;> decide

/-- C18: renaming a segment (`g_codename`, `g_rodataname`, `g_dataname`,
`g_bssname`) emits exactly one `.segment` directive carrying the new name,
followed by that segment's kind hint, when the renamed segment is the current
one, and emits nothing when it is not current; in both cases nothing else
changes, the current segment after the call is the same as before it and the
stored name of the renamed segment is the new name. -/
theorem C18_segment_rename (s : State) (seg : Int) (Name : String) (hseg : ValidSeg seg)
    (hlen : s.SegmentNames.length = 4) :
    ∃ s1, nameEntry seg Name s = Res.ok () s1
      ∧ s1.CurSeg = s.CurSeg
      ∧ s1.SegmentNames = s.SegmentNames.set seg.toNat Name
      ∧ s1.SegmentNames.getD seg.toNat "" = Name
      ∧ (s.CurSeg = seg → s1 = { s with
            SegmentNames := s.SegmentNames.set seg.toNat Name
            out := s.out ++ [Out.line (".segment\t\"" ++ Name ++ "\""), segHint seg] })
      ∧ (s.CurSeg ≠ seg → s1 = { s with
            SegmentNames := s.SegmentNames.set seg.toNat Name }) := by
  have hlt : seg.toNat < s.SegmentNames.length := by
    rw [hlen]; exact validSeg_toNat_lt seg hseg
  have hget := getD_set_self s.SegmentNames seg.toNat Name hlt
  rw [nameEntry_eq seg Name hseg]
  unfold SegName
  by_cases hc : s.CurSeg = seg
  · simp only [if_pos hc.symm]
    rw [UseSeg_other _ seg (by simpa using validSeg_ne_inv seg hseg)]
    refine ⟨_, rfl, ?_, rfl, hget, fun _ => ?_, fun h => absurd hc h⟩
    · exact hc.symm
    · simp only [segDirective, hget]
      rw [← hc]
  · have hc2 : ¬ seg = s.CurSeg := fun h => hc h.symm
    simp only [if_neg hc2]
    exact ⟨_, rfl, rfl, rfl, hget, fun h => absurd h hc, fun _ => rfl⟩

/-- Witness of C18: renaming the current code segment. -/
theorem C18_witness :
    ValidSeg SEG_CODE ∧ State.init.SegmentNames.length = 4
    ∧ ∃ s1, nameEntry SEG_CODE "STARTUP" State.init = Res.ok () s1
      ∧ s1.CurSeg = State.init.CurSeg
      ∧ s1.SegmentNames = State.init.SegmentNames.set SEG_CODE.toNat "STARTUP"
      ∧ s1.SegmentNames.getD SEG_CODE.toNat "" = "STARTUP"
      ∧ (State.init.CurSeg = SEG_CODE → s1 = { State.init with
            SegmentNames := State.init.SegmentNames.set SEG_CODE.toNat "STARTUP"
            out := State.init.out
              ++ [Out.line (".segment\t\"" ++ "STARTUP" ++ "\""), segHint SEG_CODE] })
      ∧ (State.init.CurSeg ≠ SEG_CODE → s1 = { State.init with
            SegmentNames := State.init.SegmentNames.set SEG_CODE.toNat "STARTUP" }) :=
  ⟨by decide, by decide,
    C18_segment_rename State.init SEG_CODE "STARTUP" (by decide) (by decide)⟩

/-! ## Function exit (C14, C15, C16) -/

theorem bind_getFuncargs {α : Type} (F : Int → Gen α) (s : State) :
    (getFuncargs >>= F) s = F s.funcargs s := rfl

theorem toUnsigned_natCast (k : Nat) (hk : k < 2 ^ 32) : toUnsigned (k : Int) = k := by
  unfold toUnsigned
  omega

/-- C15, as stated, fails: after `g_enter` with `CF_FIXARGC` and `argsize` 2,
`g_leave` with a constant int return value 0 at `oursp = 0` does not emit a
single `rts`: it loads the constant and leaves through `jmp incsp2`. -/
theorem C15_counterexample :
    g_enter cc65Env cc65Env.CF_FIXARGC 2 State.init
      = Res.ok () { State.init with funcargs := 2 }
    ∧ g_leave cc65Env (cc65Env.CF_INT ||| cc65Env.CF_CONST) 0 { State.init with funcargs := 2 }
      = Res.ok () { State.init with
          funcargs := 2
          out := [Out.line "\tldx\t#$00", Out.line "\tlda\t#$00",
                  Out.line "\tjmp\tincsp2", Out.empty] }
    ∧ Out.line "\trts" ∉ [Out.line "\tldx\t#$00", Out.line "\tlda\t#$00",
                  Out.line "\tjmp\tincsp2", Out.empty] := by
  decide

/-- C15 (amended): from every state, `g_enter` with `CF_FIXARGC` and `argsize` 2
emits no line (no `jsr enter`) and records two bytes of arguments; the
following `g_leave` with a constant int return value 0 and `oursp = 0` emits
the load of the constant (`ldx #$00`, `lda #$00`), then `jmp incsp2`, which
drops the two argument bytes, then the blank separator line, and no `rts`. -/
theorem C15_fixed_args_epilogue (s : State) (h : s.oursp = 0) :
    g_enter cc65Env cc65Env.CF_FIXARGC 2 s = Res.ok () { s with funcargs := 2 }
    ∧ g_leave cc65Env (cc65Env.CF_INT ||| cc65Env.CF_CONST) 0 { s with funcargs := 2 }
      = Res.ok () { s with
          funcargs := 2
          out := s.out ++ [Out.line "\tldx\t#$00", Out.line "\tlda\t#$00",
                  Out.line "\tjmp\tincsp2", Out.empty] } := by
  have hg : ∀ t : State, g_getimmed cc65Env (cc65Env.CF_INT ||| cc65Env.CF_CONST)
      (toUnsigned 0) 0 t
      = Res.ok () { t with out := t.out ++ [Out.line "\tldx\t#$00"]
          ++ [Out.line "\tlda\t#$00"] } := by
    intro t
    have a1 : (cc65Env.CF_INT ||| cc65Env.CF_CONST) &&& cc65Env.CF_CONST ≠ 0 := by decide
    have a2 : ¬ ((cc65Env.CF_INT ||| cc65Env.CF_CONST) &&& cc65Env.CF_TYPE = cc65Env.CF_CHAR
        ∧ (cc65Env.CF_INT ||| cc65Env.CF_CONST) &&& cc65Env.CF_FORCECHAR ≠ 0) := by decide
    have a3 : (cc65Env.CF_INT ||| cc65Env.CF_CONST) &&& cc65Env.CF_TYPE = cc65Env.CF_CHAR
        ∨ (cc65Env.CF_INT ||| cc65Env.CF_CONST) &&& cc65Env.CF_TYPE = cc65Env.CF_INT := by
      decide
    have a4 : "\tldx\t#$" ++ hex2 (((toUnsigned 0 >>> 8) &&& 0xFF) &&& 0xFF)
        = "\tldx\t#$00" := by decide
    have a5 : "\tlda\t#$" ++ hex2 ((toUnsigned 0 &&& 0xFF) &&& 0xFF) = "\tlda\t#$00" := by
      decide
    unfold g_getimmed
    simp only [if_pos a1, if_neg a2, if_pos a3, Gen.bind_run, ldxconst, ldaconst,
      AddCodeLine, a4, a5]
  have c1 : (cc65Env.CF_INT ||| cc65Env.CF_CONST) &&& cc65Env.CF_CONST ≠ 0 := by decide
  have c2 : ({ s with funcargs := 2 } : State).funcargs ≥ 0 := by
    show (2 : Int) ≥ 0
    decide
  have c3 : ¬ (-({ s with funcargs := 2 } : State).oursp
      + ({ s with funcargs := 2 } : State).funcargs = 0) := by
    simp only [h]
    decide
  have c4 : -({ s with funcargs := 2 } : State).oursp
      + ({ s with funcargs := 2 } : State).funcargs ≤ 8 := by
    simp only [h]
    decide
  have c5 : "\tjmp\tincsp" ++ decI (-({ s with funcargs := 2 } : State).oursp
      + ({ s with funcargs := 2 } : State).funcargs) = "\tjmp\tincsp2" := by
    simp only [h]
    decide
  refine ⟨rfl, ?_⟩
  unfold g_leave
  rw [bind_getOursp, bind_getFuncargs]
  simp only [if_pos c2, if_pos c1, if_neg c3, if_pos c4, c5, Gen.bind_run, hg, AddCodeLine,
    AddEmptyLine, List.append_assoc, List.singleton_append, List.cons_append,
    List.nil_append]

/-- Witness of C15: the initial state. -/
theorem C15_witness :
    State.init.oursp = 0
    ∧ g_enter cc65Env cc65Env.CF_FIXARGC 2 State.init
      = Res.ok () { State.init with funcargs := 2 }
    ∧ g_leave cc65Env (cc65Env.CF_INT ||| cc65Env.CF_CONST) 0
        { State.init with funcargs := 2 }
      = Res.ok () { State.init with
          funcargs := 2
          out := State.init.out ++ [Out.line "\tldx\t#$00", Out.line "\tlda\t#$00",
                  Out.line "\tjmp\tincsp2", Out.empty] } :=
  ⟨rfl, C15_fixed_args_epilogue State.init rfl⟩

/-- C16: the caller-determined argument path of `g_leave` has no range check
on the byte count. After `g_enter` without `CF_FIXARGC`, with 256 bytes of
locals (`oursp = -256`), `g_leave` loads Y with 0 (256 truncated to a byte),
not with k = 256, jumps to `leavey`, and reports no diagnostic. -/
theorem C16_variadic_leave_truncates :
    g_enter cc65Env 0 0 State.init
      = Res.ok () { State.init with funcargs := -1, out := [Out.line "\tjsr\tenter"] }
    ∧ g_leave cc65Env cc65Env.CF_INT 0
        { State.init with funcargs := -1, out := [Out.line "\tjsr\tenter"], oursp := -256 }
      = Res.ok () { State.init with
          funcargs := -1
          oursp := -256
          out := [Out.line "\tjsr\tenter", Out.line "\tldy\t#$00",
                  Out.line "\tjmp\tleavey", Out.empty]
          diags := [] }
    ∧ hex2 256 ≠ "00" := by
  decide

/-! ## What the generators emit -/

theorem EO_bind {α β : Type} {P : Out → Prop} {g : Gen α} {f : α → Gen β}
    (h1 : EmitsOnly P g) (h2 : ∀ a, EmitsOnly P (f a)) : EmitsOnly P (g >>= f) := by
  intro s
  obtain ⟨o1, e1, p1⟩ := h1 s
  rw [Gen.bind_run]
  cases hg : g s with
  | ok a s1 =>
    obtain ⟨o2, e2, p2⟩ := h2 a s1
    rw [hg] at e1
    simp only [Res.state] at e1
    refine ⟨o1 ++ o2, by simp only [e2, e1, List.append_assoc], ?_⟩
    intro x hx
    rcases List.mem_append.1 hx with h | h
    · exact p1 x h
    · exact p2 x h
  | fatal m s1 =>
    rw [hg] at e1
    exact ⟨o1, e1, p1⟩

theorem EO_ite {α : Type} {P : Out → Prop} {c : Prop} [Decidable c] {g1 g2 : Gen α}
    (h1 : EmitsOnly P g1) (h2 : EmitsOnly P g2) :
    EmitsOnly P (if c then g1 else g2) := by
  by_cases h : c
  · simpa [h] using h1
  · simpa [h] using h2

theorem EO_mono {α : Type} {P Q : Out → Prop} {g : Gen α} (h : EmitsOnly P g)
    (hpq : ∀ x, P x → Q x) : EmitsOnly Q g := by
  intro s
  obtain ⟨o, e, p⟩ := h s
  exact ⟨o, e, fun x hx => hpq x (p x hx)⟩

theorem EO_pure {α : Type} (P : Out → Prop) (a : α) : EmitsOnly P (pure a : Gen α) :=
  fun s => ⟨[], by simp [Res.state], by simp⟩

theorem EO_line {P : Out → Prop} {t : String} (h : P (Out.line t)) :
    EmitsOnly P (AddCodeLine t) :=
  fun s => ⟨[Out.line t], by simp [AddCodeLine, Res.state], by simpa using h⟩

theorem EO_Internal {α : Type} (P : Out → Prop) (m : String) :
    EmitsOnly P (Internal m : Gen α) :=
  fun s => ⟨[], by simp [Internal, Res.state], by simp⟩

theorem EO_typeerror (P : Out → Prop) (E : Env) (t : Nat) : EmitsOnly P (typeerror E t) :=
  EO_Internal P _

theorem EO_setOursp {α : Type} (P : Out → Prop) (v : State → α) (n : State → Int) :
    EmitsOnly P (fun s => Res.ok (v s) { s with oursp := n s } : Gen α) :=
  fun s => ⟨[], by simp [Res.state], by simp⟩

theorem EO_sizeofarg (P : Out → Prop) (E : Env) (flags : Nat) :
    EmitsOnly P (sizeofarg E flags) := by
  unfold sizeofarg
  repeat' with_reducible (first
    | exact EO_pure _ _
    | exact EO_typeerror _ _ _
    | refine EO_bind ?_ (fun _ => ?_)
    | refine EO_ite ?_ ?_)

theorem EO_push (P : Out → Prop) (E : Env) (flags : Nat) : EmitsOnly P (push E flags) :=
  EO_bind (EO_sizeofarg P E flags) (fun _ => EO_setOursp P _ _)

theorem EO_pop (P : Out → Prop) (E : Env) (flags : Nat) : EmitsOnly P (pop E flags) :=
  EO_bind (EO_sizeofarg P E flags) (fun _ => EO_setOursp P _ _)

theorem EO_GetLabelName (P : Out → Prop) (E : Env) (flags label offs : Nat) :
    EmitsOnly P (GetLabelName E flags label offs) := by
  unfold GetLabelName
  repeat' with_reducible (first
    | exact EO_pure _ _
    | exact EO_Internal _ _
    | refine EO_bind ?_ (fun _ => ?_)
    | refine EO_ite ?_ ?_)

/-- A line that starts with a text no delegate call starts with is plain. -/
theorem plain_of_start (a b : String)
    (h : ∀ d ∈ mulDelegates ++ modDelegates,
      ("\tjsr\t" ++ d).data.take a.data.length ≠ a.data) :
    Plain (Out.line (a ++ b)) := by
  rintro ⟨d, hd, e⟩
  apply h d hd
  have e2 : a ++ b = "\tjsr\t" ++ d := Out.line.inj e
  rw [← e2, String.data_append, List.take_left]

/-- The calls through a table none of whose routines is a delegate are plain. -/
theorem plain_table (subs : Subs)
    (h : ∀ x ∈ subs, Plain (Out.line ("\tjsr\t" ++ x.getD "(null)"))) (i : Nat) :
    Plain (Out.line ("\tjsr\t" ++ (subs.entry i).getD "(null)")) := by
  unfold Subs.entry
  rw [List.getD_eq_getElem?_getD]
  by_cases hi : i < subs.length
  · rw [List.getElem?_eq_getElem hi]
    exact h _ (List.getElem_mem hi)
  · rw [List.getElem?_eq_none (by omega)]
    decide

theorem EO_jsrSub (subs : Subs)
    (h : ∀ x ∈ subs, Plain (Out.line ("\tjsr\t" ++ x.getD "(null)"))) (i : Nat) :
    EmitsOnly Plain (jsrSub subs i) :=
  EO_line (plain_table subs h i)

theorem EO_ldaconst (v : Nat) : EmitsOnly Plain (ldaconst v) :=
  EO_line (plain_of_start _ _ (by decide))

theorem EO_ldxconst (v : Nat) : EmitsOnly Plain (ldxconst v) :=
  EO_line (plain_of_start _ _ (by decide))

theorem EO_ldyconst (v : Nat) : EmitsOnly Plain (ldyconst v) :=
  EO_line (plain_of_start _ _ (by decide))

theorem EO_g_getimmed (E : Env) (flags val offs : Nat) :
    EmitsOnly Plain (g_getimmed E flags val offs) := by
  unfold g_getimmed
  repeat' with_reducible (first
    | exact EO_pure _ _
    | exact EO_ldaconst _
    | exact EO_ldxconst _
    | exact EO_typeerror _ _ _
    | exact EO_GetLabelName _ _ _ _ _
    | refine EO_line ?_
    | refine EO_bind ?_ (fun _ => ?_)
    | refine EO_ite ?_ ?_)
  all_goals first
    | decide
    | exact plain_of_start _ _ (by decide)

theorem EO_g_push (E : Env) (flags val : Nat) : EmitsOnly Plain (g_push E flags val) := by
  unfold g_push
  repeat' with_reducible (first
    | exact EO_pure _ _
    | exact EO_ldaconst _
    | exact EO_typeerror _ _ _
    | exact EO_g_getimmed _ _ _ _
    | exact EO_push _ _ _
    | refine EO_line ?_
    | refine EO_bind ?_ (fun _ => ?_)
    | refine EO_ite ?_ ?_)
  all_goals first
    | decide
    | exact plain_of_start _ _ (by decide)
    | (split <;> decide)

theorem EO_oper (E : Env) (flags val : Nat) (subs : Subs)
    (h : ∀ x ∈ subs, Plain (Out.line ("\tjsr\t" ++ x.getD "(null)"))) :
    EmitsOnly Plain (oper E flags val subs) := by
  unfold oper
  repeat' with_reducible (first
    | exact EO_pure _ _
    | exact EO_jsrSub subs h _
    | exact EO_ldaconst _
    | exact EO_typeerror _ _ _
    | exact EO_g_getimmed _ _ _ _
    | exact EO_pop _ _ _
    | refine EO_bind ?_ (fun _ => ?_)
    | refine EO_ite ?_ ?_)

theorem EO_g_asl (E : Env) (flags val : Nat) : EmitsOnly Plain (g_asl E flags val) := by
  unfold g_asl
  repeat' with_reducible (first
    | exact EO_pure _ _
    | exact EO_typeerror _ _ _
    | exact EO_g_push _ _ _
    | exact EO_oper _ _ _ _ (by decide)
    | refine EO_line ?_
    | refine EO_bind ?_ (fun _ => ?_)
    | refine EO_ite ?_ ?_)
  all_goals first
    | decide
    | exact plain_of_start _ _ (by decide)

theorem EO_g_and (E : Env) (flags val : Nat) : EmitsOnly Plain (g_and E flags val) := by
  unfold g_and
  repeat' with_reducible (first
    | exact EO_pure _ _
    | exact EO_typeerror _ _ _
    | exact EO_ldaconst _
    | exact EO_ldxconst _
    | exact EO_g_push _ _ _
    | exact EO_oper _ _ _ _ (by decide)
    | refine EO_line ?_
    | refine EO_bind ?_ (fun _ => ?_)
    | refine EO_ite ?_ ?_)
  all_goals first
    | decide
    | exact plain_of_start _ _ (by decide)

/-! ## Strength reduction (C19, C20) -/

theorem powerof2_pow (p : Nat) (hp : p < 32) : powerof2 (2 ^ p) = (p : Int) := by
  interval_cases p <;> decide

theorem powerof2_nonneg_iff (v : Nat) : powerof2 v ≥ 0 ↔ isBit v := by
  constructor
  · intro h
    unfold powerof2 at h
    cases hf : (List.range 32).find? (fun i => v == 2 ^ i) with
    | none => rw [hf] at h; simp at h
    | some i =>
      have h1 := List.find?_some hf
      have h2 := List.mem_of_find?_eq_some hf
      exact ⟨i, List.mem_range.1 h2, by simpa using h1⟩
  · rintro ⟨k, hk, rfl⟩
    rw [powerof2_pow k hk]
    omega

theorem plain_not_mul {x : Out} (h : Plain x) : ¬ IsCallTo mulDelegates x := by
  rintro ⟨d, hd, e⟩
  exact h ⟨d, List.mem_append_left _ hd, e⟩

theorem plain_not_mod {x : Out} (h : Plain x) : ¬ IsCallTo modDelegates x := by
  rintro ⟨d, hd, e⟩
  exact h ⟨d, List.mem_append_right _ hd, e⟩

theorem g_mul_pow2 (E : Env) (hpw : E.powerof2 = powerof2) (flags p : Nat)
    (hc : flags &&& E.CF_CONST ≠ 0) (hp : p < 32) :
    g_mul E flags (2 ^ p) = g_asl E flags p := by
  have h1 : flags &&& E.CF_CONST ≠ 0 ∧ E.powerof2 (2 ^ p) ≥ 0 := by
    refine ⟨hc, ?_⟩
    rw [hpw, powerof2_pow p hp]
    omega
  have h2 : (E.powerof2 (2 ^ p)).toNat = p := by
    rw [hpw, powerof2_pow p hp]
    simp
  unfold g_mul
  simp only [if_pos h1, h2]

theorem unsigned_int_const (E : Env) (hE : E.WF) :
    (E.CF_INT ||| E.CF_UNSIGNED ||| E.CF_CONST) &&& E.CF_CONST ≠ 0
    ∧ (E.CF_INT ||| E.CF_UNSIGNED ||| E.CF_CONST) &&& E.CF_TYPE = E.CF_INT
    ∧ (E.CF_INT ||| E.CF_UNSIGNED ||| E.CF_CONST) &&& E.CF_UNSIGNED ≠ 0 := by
  refine ⟨const_set_const E hE _, ?_, ?_⟩
  · rw [type_set_const E hE, or_and_disjoint _ hE.unsigned_type, hE.int_type]
  · rw [or_and_disjoint _ hE.const_unsigned, or_and_self]
    exact isBit_ne_zero hE.unsigned_bit

/-- C19: for every flag encoding that satisfies `Env.WF`, with `powerof2` the
exponent helper, and for every constant descriptor (any width, signed or
unsigned): `g_mul` with the constant `2 ^ p` (p < 32) is the generator
`g_asl` with shift count `p`, so it emits exactly the code of that shift, and
nothing it emits is a call of a generic multiply delegate. In particular,
multiplying an unsigned 16-bit value by the constant 8 emits the single line
`jsr shlax3` and changes nothing else (`oursp` included). -/
theorem C19_mul_pow2_is_shift (E : Env) (hE : E.WF) (hpw : E.powerof2 = powerof2)
    (flags p : Nat) (hc : IsConst E flags) (hp : p < 32) :
    g_mul E flags (2 ^ p) = g_asl E flags p
    ∧ NeverCalls mulDelegates (g_mul E flags (2 ^ p))
    ∧ ∀ s, g_mul E (E.CF_INT ||| E.CF_UNSIGNED ||| E.CF_CONST) 8 s
        = Res.ok () { s with out := s.out ++ [Out.line "\tjsr\tshlax3"] } := by
  refine ⟨g_mul_pow2 E hpw flags p hc hp, ?_, ?_⟩
  · rw [g_mul_pow2 E hpw flags p hc hp]
    exact EO_mono (EO_g_asl E flags p) (fun _ h => plain_not_mul h)
  · intro s
    obtain ⟨h1, h2, h3⟩ := unsigned_int_const E hE
    have e8 : (8 : Nat) = 2 ^ 3 := by decide
    rw [e8, g_mul_pow2 E hpw _ 3 h1 (by decide)]
    have c1 : (E.CF_INT ||| E.CF_UNSIGNED ||| E.CF_CONST) &&& E.CF_TYPE = E.CF_CHAR
        ∨ (E.CF_INT ||| E.CF_UNSIGNED ||| E.CF_CONST) &&& E.CF_TYPE = E.CF_INT := Or.inr h2
    have c2 : (3 : Nat) ≥ 1 ∧ (3 : Nat) ≤ 3 := by decide
    have c3 : "\tjsr\tshlax" ++ decU 3 = "\tjsr\tshlax3" := by decide
    unfold g_asl
    simp only [if_pos h1, if_pos c1, if_pos c2, if_pos h3, c3, AddCodeLine]

/-- Witness of C19: signed long descriptor, multiplication by 16. -/
theorem C19_witness :
    cc65Env.WF ∧ cc65Env.powerof2 = powerof2
    ∧ IsConst cc65Env (cc65Env.CF_LONG ||| cc65Env.CF_CONST) ∧ 4 < 32
    ∧ g_mul cc65Env (cc65Env.CF_LONG ||| cc65Env.CF_CONST) (2 ^ 4)
        = g_asl cc65Env (cc65Env.CF_LONG ||| cc65Env.CF_CONST) 4
    ∧ NeverCalls mulDelegates (g_mul cc65Env (cc65Env.CF_LONG ||| cc65Env.CF_CONST) (2 ^ 4))
    ∧ ∀ s, g_mul cc65Env (cc65Env.CF_INT ||| cc65Env.CF_UNSIGNED ||| cc65Env.CF_CONST) 8 s
        = Res.ok () { s with out := s.out ++ [Out.line "\tjsr\tshlax3"] } :=
  ⟨cc65Env_wf, rfl, by decide, by decide,
    C19_mul_pow2_is_shift cc65Env cc65Env_wf rfl (cc65Env.CF_LONG ||| cc65Env.CF_CONST) 4
      (by decide) (by decide)⟩


theorem Returns_of {α : Type} {P : Out → Prop} {g : Gen α} {d : Int} (h1 : Sp g d)
    (h2 : EmitsOnly P g) : Returns g := by
  intro s
  obtain ⟨a, s1, e, -⟩ := h1 s
  obtain ⟨o, eo, -⟩ := h2 s
  rw [e] at eo
  exact ⟨a, s1, o, e, eo⟩

theorem EW_bind_last {α β : Type} {Q : Out → Prop} {g : Gen α} {f : α → Gen β}
    (h1 : Returns g) (h2 : ∀ a, EndsWith Q (f a)) : EndsWith Q (g >>= f) := by
  intro s
  obtain ⟨a, s1, o1, e1, g1⟩ := h1 s
  obtain ⟨b, s2, o2, x, e2, g2, q⟩ := h2 a s1
  refine ⟨b, s2, o1 ++ o2, x, ?_, ?_, q⟩
  · rw [Gen.bind_run, e1]
    exact e2
  · rw [g2, g1]
    simp only [List.append_assoc]

theorem EW_ite {α : Type} {Q : Out → Prop} {c : Prop} [Decidable c] {g1 g2 : Gen α}
    (h1 : c → EndsWith Q g1) (h2 : ¬ c → EndsWith Q g2) :
    EndsWith Q (if c then g1 else g2) := by
  by_cases h : c
  · simpa [h] using h1 h
  · simpa [h] using h2 h

theorem EW_line {Q : Out → Prop} {t : String} (h : Q (Out.line t)) :
    EndsWith Q (AddCodeLine t) :=
  fun s => ⟨(), _, [], Out.line t, rfl, by simp, h⟩

theorem EW_hint {Q : Out → Prop} {t : String} (h : Q (Out.hint t)) :
    EndsWith Q (AddCodeHint t) :=
  fun s => ⟨(), _, [], Out.hint t, rfl, by simp, h⟩

/-- The call through the table followed by the pop of the argument. -/
theorem EW_jsr_pop {Q : Out → Prop} (E : Env) (flags : Nat) (subs : Subs) (i : Nat)
    (hr : Recognised E flags) (h : Q (Out.line ("\tjsr\t" ++ (subs.entry i).getD "(null)"))) :
    EndsWith Q (jsrSub subs i >>= fun _ => pop E flags >>= fun _ => pure PUnit.unit) := by
  intro s
  refine ⟨PUnit.unit, { s with
      out := s.out ++ [Out.line ("\tjsr\t" ++ (subs.entry i).getD "(null)")]
      oursp := s.oursp + argSize E flags }, [], _, ?_, by simp, h⟩
  simp only [Gen.bind_run, jsrSub, AddCodeLine, pop_ok E flags hr, Gen.pure_run]

/-- For a descriptor of recognised width `oper` returns, and the last line it
emits is the call of a routine of its table: entry 2 of a group, or an entry
0 or 1 that is not null. -/
theorem EW_oper {Q : Out → Prop} (E : Env) (flags val : Nat) (subs : Subs)
    (hr : Recognised E flags)
    (hQ : ∀ i, i < 12 → (i % 3 = 2 ∨ (subs.entry i).isSome) →
      Q (Out.line ("\tjsr\t" ++ (subs.entry i).getD "(null)"))) :
    EndsWith Q (oper E flags val subs) := by
  have hoffs : ∃ offs, (offs = 0 ∨ offs = 3 ∨ offs = 6 ∨ offs = 9) ∧ ∀ s,
      (if flags &&& E.CF_TYPE = E.CF_CHAR ∨ flags &&& E.CF_TYPE = E.CF_INT then
        pure (if flags &&& E.CF_UNSIGNED ≠ 0 then 3 else 0)
      else if flags &&& E.CF_TYPE = E.CF_LONG then
        pure ((if flags &&& E.CF_UNSIGNED ≠ 0 then 3 else 0) + 6)
      else do
        typeerror E flags
        pure (if flags &&& E.CF_UNSIGNED ≠ 0 then 3 else 0) : Gen Nat) s = Res.ok offs s := by
    by_cases h1 : flags &&& E.CF_TYPE = E.CF_CHAR ∨ flags &&& E.CF_TYPE = E.CF_INT
    · refine ⟨if flags &&& E.CF_UNSIGNED ≠ 0 then 3 else 0, ?_, fun s => by rw [if_pos h1]; rfl⟩
      split <;> simp
    · have h2 : flags &&& E.CF_TYPE = E.CF_LONG := by
        rcases hr with h | h | h
        · exact absurd (Or.inl h) h1
        · exact absurd (Or.inr h) h1
        · exact h
      refine ⟨(if flags &&& E.CF_UNSIGNED ≠ 0 then 3 else 0) + 6, ?_,
        fun s => by rw [if_neg h1, if_pos h2]; rfl⟩
      split <;> simp
  obtain ⟨offs, ho, hrun⟩ := hoffs
  have hlt : offs + 2 < 12 ∧ offs % 3 = 0 := by
    rcases ho with h | h | h | h <;> subst h <;> decide
  have htail : EndsWith Q
      (if flags &&& E.CF_CONST ≠ 0 then
        if val = 0 ∧ (subs.entry (offs + 0)).isSome then
          jsrSub subs (offs + 0) >>= fun _ => pop E flags >>= fun _ => pure PUnit.unit
        else if val < 0x100 ∧ (subs.entry (offs + 1)).isSome then
          ldaconst val >>= fun _ =>
            jsrSub subs (offs + 1) >>= fun _ => pop E flags >>= fun _ => pure PUnit.unit
        else
          g_getimmed E flags val 0 >>= fun _ =>
            jsrSub subs (offs + 2) >>= fun _ => pop E flags >>= fun _ => pure PUnit.unit
      else
        jsrSub subs (offs + 2) >>= fun _ => pop E flags >>= fun _ => pure PUnit.unit) := by
    refine EW_ite (fun hc => ?_) (fun _ => ?_)
    · refine EW_ite (fun h => ?_) (fun _ => EW_ite (fun h => ?_) (fun _ => ?_))
      · exact EW_jsr_pop E flags subs _ hr (hQ _ (by omega) (Or.inr h.2))
      · exact EW_bind_last (Returns_of (Sp_ldaconst _) (EO_ldaconst _))
          (fun _ => EW_jsr_pop E flags subs _ hr (hQ _ (by omega) (Or.inr h.2)))
      · exact EW_bind_last (Returns_of (Sp_g_getimmed E flags val 0 hr hc)
          (EO_g_getimmed E flags val 0))
          (fun _ => EW_jsr_pop E flags subs _ hr (hQ _ (by omega) (Or.inl (by omega))))
    · exact EW_jsr_pop E flags subs _ hr (hQ _ (by omega) (Or.inl (by omega)))
  intro s
  obtain ⟨a, s1, o, x, e, g, q⟩ := htail s
  refine ⟨a, s1, o, x, ?_, g, q⟩
  rw [← e]
  unfold oper
  simp only [Gen.bind_run, hrun]

theorem isBit_ne_allOnes {v : Nat} (h : isBit v) : v ≠ 0xFFFFFFFF := by
  obtain ⟨k, hk, rfl⟩ := h
  interval_cases k <;> decide

theorem modTable_calls : ∀ i, i < 12 → (i % 3 = 2 ∨ (modTable.entry i).isSome) →
    IsCallTo modDelegates (Out.line ("\tjsr\t" ++ (modTable.entry i).getD "(null)")) := by
  decide

theorem g_mod_generic (E : Env) (flags val : Nat) (hc : flags &&& E.CF_CONST ≠ 0)
    (h : ¬ (flags &&& E.CF_CONST ≠ 0 ∧ flags &&& E.CF_UNSIGNED ≠ 0 ∧ val ≠ 0xFFFFFFFF
      ∧ E.powerof2 val ≥ 0)) :
    g_mod E flags val
      = (g_push E (flags &&& bnot E.CF_FORCECHAR &&& bnot E.CF_CONST) 0 >>= fun _ =>
          oper E (flags &&& bnot E.CF_FORCECHAR) val modTable) := by
  unfold g_mod
  simp only [if_neg h, if_pos hc]
  rfl

/-- C20: for every flag encoding that satisfies `Env.WF`, with `powerof2` the
exponent helper, every constant descriptor of recognised width and every
32-bit `val`: `g_mod` is the generator `g_and (flags, val - 1)` (the
subtraction that of a 32-bit unsigned) if and only if the descriptor is
unsigned and `val` is a power of two, and then `val - 1` does not wrap. In
every other case `g_mod` is the generic path: it pushes the left operand
(`g_push` with `CF_CONST` and `CF_FORCECHAR` cleared), then runs `oper` on
the table of modulo delegates, it returns, and the last line it emits is the
call of a modulo delegate, a line that `g_and` never emits. -/
theorem C20_mod_mask_rewrite (E : Env) (hE : E.WF) (hpw : E.powerof2 = powerof2)
    (flags val : Nat) (hr : Recognised E flags) (hc : IsConst E flags) (hv : val < 2 ^ 32) :
    (g_mod E flags val = g_and E flags ((val + (2 ^ 32 - 1)) % 2 ^ 32)
      ↔ IsUnsigned E flags ∧ isBit val)
    ∧ (isBit val → (val + (2 ^ 32 - 1)) % 2 ^ 32 = val - 1)
    ∧ (¬ (IsUnsigned E flags ∧ isBit val) →
        g_mod E flags val
          = (g_push E (flags &&& bnot E.CF_FORCECHAR &&& bnot E.CF_CONST) 0 >>= fun _ =>
              oper E (flags &&& bnot E.CF_FORCECHAR) val modTable)
        ∧ EndsWith (IsCallTo modDelegates) (g_mod E flags val))
    ∧ NeverCalls modDelegates (g_and E flags ((val + (2 ^ 32 - 1)) % 2 ^ 32)) := by
  have hnever : NeverCalls modDelegates (g_and E flags ((val + (2 ^ 32 - 1)) % 2 ^ 32)) :=
    EO_mono (EO_g_and E flags _) (fun _ h => plain_not_mod h)
  have hgen : ¬ (IsUnsigned E flags ∧ isBit val) →
      g_mod E flags val
        = (g_push E (flags &&& bnot E.CF_FORCECHAR &&& bnot E.CF_CONST) 0 >>= fun _ =>
            oper E (flags &&& bnot E.CF_FORCECHAR) val modTable)
      ∧ EndsWith (IsCallTo modDelegates) (g_mod E flags val) := by
    intro hn
    have hcond : ¬ (flags &&& E.CF_CONST ≠ 0 ∧ flags &&& E.CF_UNSIGNED ≠ 0
        ∧ val ≠ 0xFFFFFFFF ∧ E.powerof2 val ≥ 0) := by
      rintro ⟨_, hu, _, hp⟩
      rw [hpw] at hp
      exact hn ⟨hu, (powerof2_nonneg_iff val).1 hp⟩
    have e := g_mod_generic E flags val hc hcond
    refine ⟨e, ?_⟩
    rw [e]
    have hr1 : Recognised E (flags &&& bnot E.CF_FORCECHAR) :=
      Recognised_clear_forcechar E hE hr
    exact EW_bind_last
      (Returns_of (Sp_g_push E _ 0 (Recognised_clear_const E hE hr1)) (EO_g_push E _ 0))
      (fun _ => EW_oper E _ val modTable hr1 modTable_calls)
  refine ⟨⟨?_, ?_⟩, ?_, hgen, hnever⟩
  · intro heq
    by_contra hn
    obtain ⟨_, s1, o, x, e, g, q⟩ := (hgen hn).2 State.init
    obtain ⟨o2, e2, p2⟩ := hnever State.init
    rw [← heq, e] at e2
    simp only [Res.state] at e2
    rw [g] at e2
    have hx : x ∈ o2 := by
      have : x ∈ State.init.out ++ o2 := by rw [← e2]; simp
      simpa [State.init] using this
    exact p2 x hx q
  · rintro ⟨hu, hb⟩
    have hcond : flags &&& E.CF_CONST ≠ 0 ∧ flags &&& E.CF_UNSIGNED ≠ 0
        ∧ val ≠ 0xFFFFFFFF ∧ E.powerof2 val ≥ 0 := by
      refine ⟨hc, hu, isBit_ne_allOnes hb, ?_⟩
      rw [hpw]
      exact (powerof2_nonneg_iff val).2 hb
    unfold g_mod
    simp only [if_pos hcond]
  · intro hb
    have : val ≠ 0 := isBit_ne_zero hb
    omega

/-- Witness of C20: unsigned int descriptor, modulo 16. -/
theorem C20_witness :
    cc65Env.WF ∧ cc65Env.powerof2 = powerof2
    ∧ Recognised cc65Env (cc65Env.CF_INT ||| cc65Env.CF_UNSIGNED ||| cc65Env.CF_CONST)
    ∧ IsConst cc65Env (cc65Env.CF_INT ||| cc65Env.CF_UNSIGNED ||| cc65Env.CF_CONST)
    ∧ (16 : Nat) < 2 ^ 32
    ∧ (g_mod cc65Env (cc65Env.CF_INT ||| cc65Env.CF_UNSIGNED ||| cc65Env.CF_CONST) 16
        = g_and cc65Env (cc65Env.CF_INT ||| cc65Env.CF_UNSIGNED ||| cc65Env.CF_CONST)
            ((16 + (2 ^ 32 - 1)) % 2 ^ 32)
      ↔ IsUnsigned cc65Env (cc65Env.CF_INT ||| cc65Env.CF_UNSIGNED ||| cc65Env.CF_CONST)
        ∧ isBit 16) :=
  ⟨cc65Env_wf, rfl, by decide, by decide, by decide,
    (C20_mod_mask_rewrite cc65Env cc65Env_wf rfl
      (cc65Env.CF_INT ||| cc65Env.CF_UNSIGNED ||| cc65Env.CF_CONST) 16
      (by decide) (by decide) (by decide)).1⟩

/-! ## Splitting an offset for indexed access (C13) -/

theorem Returns_pure {α : Type} (a : α) : Returns (pure a : Gen α) :=
  fun s => ⟨a, s, [], rfl, by simp⟩

theorem Returns_line (t : String) : Returns (AddCodeLine t) :=
  fun _ => ⟨(), _, [Out.line t], rfl, rfl⟩

theorem Returns_hint (t : String) : Returns (AddCodeHint t) :=
  fun _ => ⟨(), _, [Out.hint t], rfl, rfl⟩

theorem Returns_bind {α β : Type} {g : Gen α} {f : α → Gen β}
    (h1 : Returns g) (h2 : ∀ a, Returns (f a)) : Returns (g >>= f) := by
  intro s
  obtain ⟨a, s1, o1, e1, g1⟩ := h1 s
  obtain ⟨b, s2, o2, e2, g2⟩ := h2 a s1
  refine ⟨b, s2, o1 ++ o2, ?_, ?_⟩
  · rw [Gen.bind_run, e1]
    exact e2
  · rw [g2, g1, List.append_assoc]

theorem Returns_ite {α : Type} {c : Prop} [Decidable c] {g1 g2 : Gen α}
    (h1 : Returns g1) (h2 : Returns g2) : Returns (if c then g1 else g2) := by
  by_cases h : c
  · simpa [h] using h1
  · simpa [h] using h2

theorem EW_bind_first {α β : Type} {Q : Out → Prop} {g : Gen α} {f : α → Gen β}
    (h1 : EndsWith Q g) (h2 : ∀ a, Returns (f a)) :
    EndsWith (fun _ => True) (g >>= f) := by
  intro s
  obtain ⟨a, s1, o1, x, e1, g1, -⟩ := h1 s
  obtain ⟨b, s2, o2, e2, g2⟩ := h2 a s1
  have hne : o1 ++ [x] ++ o2 ≠ [] := by simp
  obtain ⟨o, y, ey⟩ : ∃ o y, o1 ++ [x] ++ o2 = o ++ [y] := by
    rcases List.eq_nil_or_concat (o1 ++ [x] ++ o2) with h | ⟨o, y, h⟩
    · exact absurd h hne
    · exact ⟨o, y, by rw [h]; simp⟩
  refine ⟨b, s2, o, y, ?_, ?_, trivial⟩
  · rw [Gen.bind_run, e1]
    exact e2
  · rw [g2, g1, List.append_assoc s.out o [y], ← ey]
    simp only [List.append_assoc]

theorem EW_weaken {α : Type} {Q : Out → Prop} {g : Gen α} (h : EndsWith Q g) :
    EndsWith (fun _ => True) g := by
  intro s
  obtain ⟨a, s1, o, x, e, g1, -⟩ := h s
  exact ⟨a, s1, o, x, e, g1, trivial⟩

theorem EW_g_add (E : Env) (hE : E.WF) (flags val : Nat) (hr : Recognised E flags) :
    EndsWith (fun _ => True) (g_add E flags val) := by
  unfold g_add
  refine EW_ite (fun _ => ?_) (fun _ => ?_)
  · have hr1 : Recognised E (flags &&& bnot E.CF_FORCECHAR) :=
      Recognised_clear_forcechar E hE hr
    exact EW_bind_last
      (Returns_of (Sp_g_push E _ 0 (Recognised_clear_const E hE hr1)) (EO_g_push E _ 0))
      (fun _ => EW_oper E _ val _ hr1 (fun _ _ _ => trivial))
  · exact EW_oper E _ val _ hr (fun _ _ _ => trivial)

theorem EW_line_any (t : String) : EndsWith (fun _ => True) (AddCodeLine t) :=
  EW_line trivial

theorem EW_hint_any (t : String) : EndsWith (fun _ => True) (AddCodeHint t) :=
  EW_hint trivial

theorem Returns_ldyconst (v : Nat) : Returns (ldyconst v) := Returns_line _

/-- An increment of a 16-bit value by a non-zero constant emits code. -/
theorem EW_g_inc_int (E : Env) (hE : E.WF) (val : Nat) (hv : val ≠ 0) :
    EndsWith (fun _ => True) (g_inc E (E.CF_INT ||| E.CF_CONST) val) := by
  have ht : ((E.CF_INT ||| E.CF_CONST) &&& bnot E.CF_CONST) &&& E.CF_TYPE = E.CF_INT := by
    rw [type_clear_const E hE, type_set_const E hE, hE.int_type]
  have c1 : ¬ (((E.CF_INT ||| E.CF_CONST) &&& bnot E.CF_CONST) &&& E.CF_TYPE = E.CF_CHAR
      ∧ ((E.CF_INT ||| E.CF_CONST) &&& bnot E.CF_CONST) &&& E.CF_FORCECHAR ≠ 0) := by
    rintro ⟨h, -⟩
    rw [ht] at h
    exact hE.char_ne_int h.symm
  have c2 : ((E.CF_INT ||| E.CF_CONST) &&& bnot E.CF_CONST) &&& E.CF_TYPE = E.CF_CHAR
      ∨ ((E.CF_INT ||| E.CF_CONST) &&& bnot E.CF_CONST) &&& E.CF_TYPE = E.CF_INT := Or.inr ht
  have hr : Recognised E (((E.CF_INT ||| E.CF_CONST) &&& bnot E.CF_CONST) ||| E.CF_CONST) :=
    Recognised_set_const E hE (Or.inr (Or.inl ht))
  have hmask : val &&& 0xFF = val % 256 := Nat.and_pow_two_sub_one_eq_mod val 8
  unfold g_inc
  simp only [if_neg hv, if_neg c1, if_pos c2]
  refine EW_ite (fun _ => ?_) (fun _ => EW_ite (fun _ => ?_) (fun _ =>
    EW_ite (fun h3 => ?_) (fun _ => ?_)))
  · repeat' with_reducible (first
      | exact EW_line_any _
      | exact EW_hint_any _
      | refine EW_bind_last (Returns_line _) (fun _ => ?_))
  · repeat' with_reducible (first
      | exact EW_line_any _
      | exact EW_g_add E hE _ _ hr
      | refine EW_bind_last (Returns_ldyconst _) (fun _ => ?_)
      | refine EW_ite (fun _ => ?_) (fun _ => ?_))
  · by_cases hl : val &&& 0xFF ≠ 0
    · simp only [if_pos hl]
      refine EW_bind_last (Returns_line _) (fun _ => EW_bind_last (Returns_line _) (fun _ =>
        EW_bind_last (Returns_line _) (fun _ => EW_bind_last (Returns_line _) (fun _ =>
          EW_bind_first (EW_hint_any _) (fun _ => ?_)))))
      repeat' with_reducible (first
        | exact Returns_pure _
        | exact Returns_line _
        | refine Returns_bind ?_ (fun _ => ?_)
        | refine Returns_ite ?_ ?_)
    · have h1 : val ≥ 0x100 := by
        rw [hmask] at hl
        omega
      simp only [if_neg hl, if_pos h1]
      refine EW_bind_last (Returns_pure _) (fun _ => EW_bind_first (EW_line_any _) (fun _ => ?_))
      repeat' with_reducible (first
        | exact Returns_pure _
        | exact Returns_line _
        | refine Returns_bind ?_ (fun _ => ?_)
        | refine Returns_ite ?_ ?_)
  · repeat' with_reducible (first
      | exact EW_line_any _
      | refine EW_bind_last (Returns_line _) (fun _ => ?_)
      | refine EW_bind_last (Returns_hint _) (fun _ => ?_)
      | refine EW_bind_last (Returns_pure _) (fun _ => ?_)
      | refine EW_ite (fun _ => ?_) (fun _ => ?_))


theorem and_FF (x : Nat) : x &&& 0xFF = x % 256 := Nat.and_pow_two_sub_one_eq_mod x 8

theorem and_bnot_FF (x : Nat) (hx : x < 2 ^ 32) : x &&& bnot 0xFF = x - x % 256 := by
  have h1 : x &&& bnot 0xFF = (x >>> 8) <<< 8 := by
    apply Nat.eq_of_testBit_eq
    intro i
    have hff : (0xFF : Nat).testBit i = decide (i < 8) := Nat.testBit_two_pow_sub_one 8 i
    simp only [bnot, Nat.testBit_and, Nat.testBit_xor, testBit_allOnes, hff,
      Nat.testBit_shiftLeft, Nat.testBit_shiftRight]
    by_cases h8 : i < 8
    · have : ¬ 8 ≤ i := by omega
      simp [h8, this]
      intro _
      omega
    · have h8b : 8 ≤ i := by omega
      have e : 8 + (i - 8) = i := by omega
      by_cases h32 : i < 32
      · simp [h8, h8b, h32, e]
      · have hf : x.testBit i = false := by
          by_contra hc
          exact h32 (testBit_of_lt32 hx (by simpa using hc))
        simp [h8, h8b, h32, e, hf]
  rw [h1, Nat.shiftRight_eq_div_pow, Nat.shiftLeft_eq]
  have := Nat.div_add_mod x 256
  norm_num
  omega

theorem argSize_range (E : Env) (flags : Nat) (hr : Recognised E flags) :
    1 ≤ argSize E flags ∧ argSize E flags ≤ 4 := by
  unfold argSize sizeofarg
  rcases hr with h | h | h <;> split_ifs <;> simp_all

theorem g_inc_zero (E : Env) (flags : Nat) (s : State) : g_inc E flags 0 s = Res.ok () s := by
  unfold g_inc
  rw [if_pos rfl]
  rfl

/-- C13: for every flag encoding that satisfies `Env.WF`, every descriptor of
recognised width w = `sizeofarg (Flags)` and every 32-bit offset `Offs`,
`MakeByteOffs` returns a remaining offset r with r + w <= 256, r equal to
`Offs mod 256` or to 0, and its effect on the state is that of
`g_inc (CF_INT | CF_CONST, Offs - r)`: the pointer in the primary register is
incremented by exactly `Offs - r`. It emits nothing exactly when
`Offs + w <= 256`, and it returns `Offs` unchanged exactly in that case. -/
theorem C13_byte_offset_split (E : Env) (hE : E.WF) (Flags Offs : Nat)
    (hr : Recognised E Flags) (ho : Offs < 2 ^ 32) (s : State) :
    ∃ r s1 new,
      MakeByteOffs E Flags Offs s = Res.ok r s1
      ∧ r + argSize E Flags ≤ 256
      ∧ (r = Offs % 256 ∨ r = 0)
      ∧ r ≤ Offs
      ∧ g_inc E (E.CF_INT ||| E.CF_CONST) (Offs - r) s = Res.ok () s1
      ∧ s1.out = s.out ++ new
      ∧ (new = [] ↔ Offs + argSize E Flags ≤ 256)
      ∧ (r = Offs ↔ Offs + argSize E Flags ≤ 256) := by
  obtain ⟨hw1, hw4⟩ := argSize_range E Flags hr
  have hmod : Offs % 256 ≤ Offs := Nat.mod_le _ _
  unfold MakeByteOffs
  simp only [Gen.bind_run, sizeofarg_ok E Flags hr, and_FF, and_bnot_FF Offs ho]
  by_cases hbig : Offs % 256 > 256 - argSize E Flags
  · have hO : Offs - Offs % 256 + Offs % 256 = Offs := by omega
    have hne : Offs ≠ 0 := by omega
    simp only [if_pos hbig, hO, if_pos hne]
    obtain ⟨_, s1, o, x, e, g, -⟩ := EW_g_inc_int E hE Offs hne s
    refine ⟨0, s1, o ++ [x], ?_, by omega, Or.inr rfl, by omega, ?_, ?_, ?_, ?_⟩
    · simp only [Gen.bind_run, e, Gen.pure_run, Nat.sub_self]
    · simpa using e
    · rw [g, List.append_assoc]
    · constructor
      · intro h; simp at h
      · intro h; omega
    · constructor
      · intro h; omega
      · intro h; omega
  · simp only [if_neg hbig]
    by_cases hO : Offs - Offs % 256 ≠ 0
    · simp only [if_pos hO]
      obtain ⟨_, s1, o, x, e, g, -⟩ := EW_g_inc_int E hE (Offs - Offs % 256) hO s
      have hr2 : Offs - (Offs - Offs % 256) = Offs % 256 := by omega
      refine ⟨Offs % 256, s1, o ++ [x], ?_, by omega, Or.inl rfl, by omega, ?_, ?_, ?_, ?_⟩
      · simp only [Gen.bind_run, e, Gen.pure_run, hr2]
      · exact e
      · rw [g, List.append_assoc]
      · constructor
        · intro h; simp at h
        · intro h; omega
      · constructor
        · intro h; omega
        · intro h; omega
    · simp only [if_neg hO]
      have hsmall : Offs % 256 = Offs := by omega
      refine ⟨Offs, s, [], rfl, by omega, Or.inl hsmall.symm, le_refl _, ?_, by simp, ?_, ?_⟩
      · rw [Nat.sub_self]
        exact g_inc_zero E _ s
      · constructor
        · intro _; omega
        · intro _; rfl
      · constructor
        · intro _; omega
        · intro _; rfl

/-- Witness of C13: a long at offset 254. -/
theorem C13_witness :
    cc65Env.WF ∧ Recognised cc65Env cc65Env.CF_LONG ∧ (254 : Nat) < 2 ^ 32
    ∧ ∃ r s1 new,
      MakeByteOffs cc65Env cc65Env.CF_LONG 254 State.init = Res.ok r s1
      ∧ r + argSize cc65Env cc65Env.CF_LONG ≤ 256
      ∧ (r = 254 % 256 ∨ r = 0)
      ∧ r ≤ 254
      ∧ g_inc cc65Env (cc65Env.CF_INT ||| cc65Env.CF_CONST) (254 - r) State.init = Res.ok () s1
      ∧ s1.out = State.init.out ++ new
      ∧ (new = [] ↔ 254 + argSize cc65Env cc65Env.CF_LONG ≤ 256)
      ∧ (r = 254 ↔ 254 + argSize cc65Env cc65Env.CF_LONG ≤ 256) :=
  ⟨cc65Env_wf, by decide, by decide,
    C13_byte_offset_split cc65Env cc65Env_wf cc65Env.CF_LONG 254 (by decide) (by decide)
      State.init⟩

/-! ## Division by a power of two, OR with a byte constant (C21, C22) -/

/-- C21: `g_div` has no test of `CF_UNSIGNED` in its strength reduction (the
sibling `g_mod` has one). For a signed int descriptor and the constant 2 it
emits the arithmetic shift `jsr asrax1` and no call of the signed division
delegate, while the remainder by the same operand goes through the generic
path (`tosmoda0`). -/
theorem C21_signed_division_by_shift :
    ¬ IsUnsigned cc65Env (cc65Env.CF_INT ||| cc65Env.CF_CONST)
    ∧ g_div cc65Env (cc65Env.CF_INT ||| cc65Env.CF_CONST) 2 State.init
      = Res.ok () { State.init with out := [Out.line "\tjsr\tasrax1"] }
    ∧ g_asr cc65Env (cc65Env.CF_INT ||| cc65Env.CF_CONST) 1 State.init
      = Res.ok () { State.init with out := [Out.line "\tjsr\tasrax1"] }
    ∧ g_mod cc65Env (cc65Env.CF_INT ||| cc65Env.CF_CONST) 2 State.init
      = Res.ok () { State.init with
          out := [Out.line "\tjsr\tpushax", Out.line "\tlda\t#$02",
                  Out.line "\tjsr\ttosmoda0"] } := by
  decide

/-- C22: for a forced-byte operand `g_or` skips the instruction when the low
byte of the constant is `0xFF` instead of when it is 0. With the constant
`0xFF` it emits nothing, so the accumulator keeps its value (0 stays 0, while
0 OR 0xFF is 0xFF); with the constant 0 it emits `ora #$00`. -/
theorem C22_or_skips_all_ones :
    g_or cc65Env (cc65Env.CF_CHAR ||| cc65Env.CF_FORCECHAR ||| cc65Env.CF_CONST) 0xFF
        State.init
      = Res.ok () State.init
    ∧ State.init.out = []
    ∧ (exec [] { a := 0, x := 0, sreg := 0, sreg1 := 0 }).map Regs.a = some 0
    ∧ (0 : Nat) ||| (0xFF % 256) = 0xFF
    ∧ g_or cc65Env (cc65Env.CF_CHAR ||| cc65Env.CF_FORCECHAR ||| cc65Env.CF_CONST) 0
        State.init
      = Res.ok () { State.init with out := [Out.line "\tora\t#$00"] } := by
  decide

/-! ## The width of a descriptor (C28) -/

/-- C28: for every flag encoding that satisfies `Env.WF`, `sizeofarg` returns
1 for a char descriptor with `CF_FORCECHAR`, 2 for a char descriptor without
it, 2 for an int descriptor and 4 for a long descriptor, in each case with the
state unchanged; the result is the same for any two descriptors that agree on
the width bits and on `CF_FORCECHAR`; and it aborts through `typeerror`
exactly when the width bits are none of char, int, long. -/
theorem C28_sizeofarg_table (E : Env) (hE : E.WF) (flags : Nat) (s : State) :
    (flags &&& E.CF_TYPE = E.CF_CHAR → flags &&& E.CF_FORCECHAR ≠ 0 →
      sizeofarg E flags s = Res.ok 1 s)
    ∧ (flags &&& E.CF_TYPE = E.CF_CHAR → flags &&& E.CF_FORCECHAR = 0 →
      sizeofarg E flags s = Res.ok 2 s)
    ∧ (flags &&& E.CF_TYPE = E.CF_INT → sizeofarg E flags s = Res.ok 2 s)
    ∧ (flags &&& E.CF_TYPE = E.CF_LONG → sizeofarg E flags s = Res.ok 4 s)
    ∧ (∀ other, other &&& E.CF_TYPE = flags &&& E.CF_TYPE →
        other &&& E.CF_FORCECHAR = flags &&& E.CF_FORCECHAR → Recognised E flags →
        sizeofarg E other s = sizeofarg E flags s)
    ∧ ((∃ m s1, sizeofarg E flags s = Res.fatal m s1) ↔ ¬ Recognised E flags)
    ∧ (¬ Recognised E flags →
        ∃ m, typeerror E flags s = Res.fatal m s ∧ sizeofarg E flags s = Res.fatal m s) := by
  have hfatal : ¬ Recognised E flags →
      ∃ m, typeerror E flags s = Res.fatal m s ∧ sizeofarg E flags s = Res.fatal m s := by
    intro hn
    have h1 : ¬ flags &&& E.CF_TYPE = E.CF_CHAR := fun h => hn (Or.inl h)
    have h2 : ¬ flags &&& E.CF_TYPE = E.CF_INT := fun h => hn (Or.inr (Or.inl h))
    have h3 : ¬ flags &&& E.CF_TYPE = E.CF_LONG := fun h => hn (Or.inr (Or.inr h))
    refine ⟨_, rfl, ?_⟩
    unfold sizeofarg
    simp only [if_neg h1, if_neg h2, if_neg h3, Gen.bind_run]
    rfl
  refine ⟨?_, ?_, ?_, ?_, ?_, ⟨?_, ?_⟩, hfatal⟩
  · intro h hf
    unfold sizeofarg
    simp only [if_pos h, if_pos hf]
    rfl
  · intro h hf
    have hf2 : ¬ flags &&& E.CF_FORCECHAR ≠ 0 := fun h => h hf
    unfold sizeofarg
    simp only [if_pos h, if_neg hf2]
    rfl
  · intro h
    have h1 : ¬ flags &&& E.CF_TYPE = E.CF_CHAR := by
      rw [h]; exact fun e => hE.char_ne_int e.symm
    unfold sizeofarg
    simp only [if_neg h1, if_pos h]
    rfl
  · intro h
    have h1 : ¬ flags &&& E.CF_TYPE = E.CF_CHAR := by
      rw [h]; exact fun e => hE.char_ne_long e.symm
    have h2 : ¬ flags &&& E.CF_TYPE = E.CF_INT := by
      rw [h]; exact fun e => hE.int_ne_long e.symm
    unfold sizeofarg
    simp only [if_neg h1, if_neg h2, if_pos h]
    rfl
  · intro other ht hf hr
    have hr2 : Recognised E other := Recognised_congr E ht hr
    rw [sizeofarg_ok E other hr2, sizeofarg_ok E flags hr, argSize_congr E ht hf]
  · rintro ⟨m, s1, e⟩ hr
    rw [sizeofarg_ok E flags hr] at e
    cases e
  · intro hn
    obtain ⟨m, -, e⟩ := hfatal hn
    exact ⟨m, s, e⟩

/-- Witness of C28: an unsigned constant long. -/
theorem C28_witness :
    cc65Env.WF
    ∧ sizeofarg cc65Env (cc65Env.CF_LONG ||| cc65Env.CF_UNSIGNED ||| cc65Env.CF_CONST)
        State.init = Res.ok 4 State.init :=
  ⟨cc65Env_wf,
    (C28_sizeofarg_table cc65Env cc65Env_wf
      (cc65Env.CF_LONG ||| cc65Env.CF_UNSIGNED ||| cc65Env.CF_CONST) State.init).2.2.2.1
      (by decide)⟩

/-! ## Increment of a static word (C23) -/

/-- A line made of a literal start `q` and a tail does not start with `p`
when `q` and `p` differ on their common length. -/
theorem not_startsWith (p q x : String)
    (h : q.data.take p.data.length ≠ p.data.take q.data.length) :
    ¬ StartsWith p (Out.line (q ++ x)) := by
  intro hs
  apply h
  have hs2 : (q.data ++ x.data).take p.data.length = p.data := by
    simpa [StartsWith, String.data_append] using hs
  have e1 : p.data.take q.data.length
      = ((q.data ++ x.data).take p.data.length).take q.data.length := by rw [hs2]
  rw [e1, List.take_take, Nat.min_comm, ← List.take_take, List.take_left]

/-- Two lines with literal starts that differ on their common length are
different lines. -/
theorem line_ne (q x c y : String)
    (h : q.data.take c.data.length ≠ c.data.take q.data.length) :
    Out.line (q ++ x) ≠ Out.line (c ++ y) := by
  intro e
  apply not_startsWith c q x h
  rw [e]
  simp [StartsWith, String.data_append]

theorem GetLabelName_static (E : Env) (flags label offs : Nat)
    (h : flags &&& E.CF_ADDRMASK = E.CF_STATIC) :
    GetLabelName E flags label offs
      = pure ("L" ++ hex4 (label &&& 0xFFFF) ++ "+" ++ decU offs) := by
  unfold GetLabelName
  rw [if_pos h]

theorem GetLabelName_external (E : Env) (flags label offs : Nat)
    (h1 : flags &&& E.CF_ADDRMASK ≠ E.CF_STATIC)
    (h : flags &&& E.CF_ADDRMASK = E.CF_EXTERNAL) :
    GetLabelName E flags label offs = pure ("_" ++ E.strAt label ++ "+" ++ decU offs) := by
  unfold GetLabelName
  rw [if_neg h1, if_pos h]

/-- The label name of a static or external memory cell. -/
theorem GetLabelName_global (E : Env) (flags label offs : Nat)
    (h : flags &&& E.CF_ADDRMASK = E.CF_STATIC ∨ flags &&& E.CF_ADDRMASK = E.CF_EXTERNAL) :
    ∃ lbuf, GetLabelName E flags label offs = pure lbuf := by
  by_cases h1 : flags &&& E.CF_ADDRMASK = E.CF_STATIC
  · exact ⟨_, GetLabelName_static E flags label offs h1⟩
  · exact ⟨_, GetLabelName_external E flags label offs h1 (h.resolve_left h1)⟩

/-- The code of `x += 1` for an int in a static or external cell, from every
state: `g_addeqstatic` with an int descriptor, `CF_CONST` and `val = 1`
returns and emits exactly six lines: `inc` of the low byte, `bne` to the
label the allocator hands out, printed in full, `inc` of the high byte, a
label definition that prints the low 16 bits of that label, `lda` of the low
byte and `ldx` of the high byte. None of the lines is a `jsr`, the label
definition occurs once, and nothing else in the state changes. -/
theorem g_addeqstatic_word_inc (E : Env) (hE : E.WF) (flags label offs : Nat) (s : State)
    (ht : flags &&& E.CF_TYPE = E.CF_INT) (hc : IsConst E flags)
    (ha : flags &&& E.CF_ADDRMASK = E.CF_STATIC ∨ flags &&& E.CF_ADDRMASK = E.CF_EXTERNAL) :
    ∃ lbuf code,
      GetLabelName E flags label offs s = Res.ok lbuf s
      ∧ code = [Out.line ("\tinc\t" ++ lbuf),
                Out.line ("\tbne\tL" ++ hex4 s.nextLabel),
                Out.line ("\tinc\t" ++ lbuf ++ "+1"),
                Out.line ("L" ++ hex4 (s.nextLabel &&& 0xFFFF) ++ ":"),
                Out.line ("\tlda\t" ++ lbuf),
                Out.line ("\tldx\t" ++ lbuf ++ "+1")]
      ∧ g_addeqstatic E flags label offs 1 s
        = Res.ok () { s with out := s.out ++ code, nextLabel := s.nextLabel + 1 }
      ∧ (∀ x ∈ code, ¬ IsJsr x)
      ∧ code.count (Out.line ("L" ++ hex4 (s.nextLabel &&& 0xFFFF) ++ ":")) = 1 := by
  obtain ⟨lbuf, hL⟩ := GetLabelName_global E flags label offs ha
  have c1 : ¬ (flags &&& E.CF_TYPE = E.CF_CHAR ∧ flags &&& E.CF_FORCECHAR ≠ 0) := by
    rintro ⟨h, -⟩
    rw [ht] at h
    exact hE.char_ne_int h.symm
  have c2 : flags &&& E.CF_TYPE = E.CF_CHAR ∨ flags &&& E.CF_TYPE = E.CF_INT := Or.inr ht
  have hc2 : flags &&& E.CF_CONST ≠ 0 := hc
  have n1 : ¬ IsJsr (Out.line ("\tinc\t" ++ lbuf)) := not_startsWith _ _ _ (by decide)
  have n2 : ¬ IsJsr (Out.line ("\tbne\tL" ++ hex4 s.nextLabel)) :=
    not_startsWith _ _ _ (by decide)
  have n3 : ¬ IsJsr (Out.line ("\tinc\t" ++ lbuf ++ "+1")) := by
    rw [String.append_assoc]
    exact not_startsWith _ _ _ (by decide)
  have n4 : ¬ IsJsr (Out.line ("L" ++ hex4 (s.nextLabel &&& 0xFFFF) ++ ":")) := by
    rw [String.append_assoc]
    exact not_startsWith _ _ _ (by decide)
  have n5 : ¬ IsJsr (Out.line ("\tlda\t" ++ lbuf)) := not_startsWith _ _ _ (by decide)
  have n6 : ¬ IsJsr (Out.line ("\tldx\t" ++ lbuf ++ "+1")) := by
    rw [String.append_assoc]
    exact not_startsWith _ _ _ (by decide)
  have d1 : Out.line ("\tinc\t" ++ lbuf)
      ≠ Out.line ("L" ++ hex4 (s.nextLabel &&& 0xFFFF) ++ ":") := by
    rw [String.append_assoc "L"]
    exact line_ne _ _ _ _ (by decide)
  have d2 : Out.line ("\tbne\tL" ++ hex4 s.nextLabel)
      ≠ Out.line ("L" ++ hex4 (s.nextLabel &&& 0xFFFF) ++ ":") := by
    rw [String.append_assoc "L"]
    exact line_ne _ _ _ _ (by decide)
  have d3 : Out.line ("\tinc\t" ++ lbuf ++ "+1")
      ≠ Out.line ("L" ++ hex4 (s.nextLabel &&& 0xFFFF) ++ ":") := by
    rw [String.append_assoc "L", String.append_assoc "\tinc\t"]
    exact line_ne _ _ _ _ (by decide)
  have d5 : Out.line ("\tlda\t" ++ lbuf)
      ≠ Out.line ("L" ++ hex4 (s.nextLabel &&& 0xFFFF) ++ ":") := by
    rw [String.append_assoc "L"]
    exact line_ne _ _ _ _ (by decide)
  have d6 : Out.line ("\tldx\t" ++ lbuf ++ "+1")
      ≠ Out.line ("L" ++ hex4 (s.nextLabel &&& 0xFFFF) ++ ":") := by
    rw [String.append_assoc "L", String.append_assoc "\tldx\t"]
    exact line_ne _ _ _ _ (by decide)
  refine ⟨lbuf, _, by rw [hL]; rfl, rfl, ?_, ?_, ?_⟩
  · unfold g_addeqstatic
    rw [hL]
    simp only [Gen.bind_run, Gen.pure_run, if_neg c1, if_pos c2, if_pos hc2, if_true,
      GetLabel, AddCodeLine, g_defloclabel, List.append_assoc,
      List.singleton_append, List.cons_append, List.nil_append]
  · intro x hx
    simp only [List.mem_cons, List.mem_singleton, List.not_mem_nil, or_false] at hx
    rcases hx with h | h | h | h | h | h <;> subst h <;> assumption
  · simp [List.count_cons, d1, d2, d3, d5, d6]

/-- C23 fails on the code: the branch of the increment prints the new label
in full (`bne L%04X` of `label`), the definition prints `label & 0xFFFF`.
With the label allocator at `0x10000`, `g_addeqstatic` for an int in a static
cell with `CF_CONST` and `val = 1` emits `bne L10000` and then defines
`L0000:`, so the branch does not go to the label that is defined and `L10000`
is defined nowhere; with the allocator at 0 the branch and the definition
agree (`bne L0000`, `L0000:`). -/
theorem C23_branch_label_mismatch :
    g_addeqstatic cc65Env (cc65Env.CF_INT ||| cc65Env.CF_CONST ||| cc65Env.CF_STATIC) 5 0 1
        { State.init with nextLabel := 0x10000 }
      = Res.ok () { State.init with
          nextLabel := 0x10001
          out := [Out.line "\tinc\tL0005+0", Out.line "\tbne\tL10000",
                  Out.line "\tinc\tL0005+0+1", Out.line "L0000:",
                  Out.line "\tlda\tL0005+0", Out.line "\tldx\tL0005+0+1"] }
    ∧ Out.line "L10000:"
        ∉ [Out.line "\tinc\tL0005+0", Out.line "\tbne\tL10000",
           Out.line "\tinc\tL0005+0+1", Out.line "L0000:",
           Out.line "\tlda\tL0005+0", Out.line "\tldx\tL0005+0+1"]
    ∧ g_addeqstatic cc65Env (cc65Env.CF_INT ||| cc65Env.CF_CONST ||| cc65Env.CF_STATIC) 5 0 1
        State.init
      = Res.ok () { State.init with
          nextLabel := 1
          out := [Out.line "\tinc\tL0005+0", Out.line "\tbne\tL0000",
                  Out.line "\tinc\tL0005+0+1", Out.line "L0000:",
                  Out.line "\tlda\tL0005+0", Out.line "\tldx\tL0005+0+1"] } := by
  decide

/-! ## Loads of a 32-bit value (C24) -/

/-- C24, as stated, fails for `g_getstatic`: the load of a long from a static
cell (not in test mode) is inline, byte by byte, and contains no `jsr`. -/
theorem C24_counterexample :
    IsLong cc65Env (cc65Env.CF_LONG ||| cc65Env.CF_STATIC)
    ∧ (cc65Env.CF_LONG ||| cc65Env.CF_STATIC) &&& cc65Env.CF_TEST = 0
    ∧ g_getstatic cc65Env (cc65Env.CF_LONG ||| cc65Env.CF_STATIC) 5 0 State.init
      = Res.ok () { State.init with
          out := [Out.line "\tlda\tL0005+0+3", Out.line "\tsta\tsreg+1",
                  Out.line "\tlda\tL0005+0+2", Out.line "\tsta\tsreg",
                  Out.line "\tldx\tL0005+0+1", Out.line "\tlda\tL0005+0"] }
    ∧ ∀ x ∈ [Out.line "\tlda\tL0005+0+3", Out.line "\tsta\tsreg+1",
              Out.line "\tlda\tL0005+0+2", Out.line "\tsta\tsreg",
              Out.line "\tldx\tL0005+0+1", Out.line "\tlda\tL0005+0"], ¬ IsJsr x := by
  decide

theorem long_not_word (E : Env) (hE : E.WF) {flags : Nat} (hl : flags &&& E.CF_TYPE = E.CF_LONG) :
    ¬ flags &&& E.CF_TYPE = E.CF_CHAR ∧ ¬ flags &&& E.CF_TYPE = E.CF_INT := by
  rw [hl]
  exact ⟨fun e => hE.char_ne_long e.symm, fun e => hE.int_ne_long e.symm⟩

theorem CheckLocalOffs_ok (n : Nat) (s : State) :
    ∃ s1, CheckLocalOffs n s = Res.ok () s1 ∧ s1.oursp = s.oursp := by
  unfold CheckLocalOffs
  by_cases h : n ≥ 256
  · rw [if_pos h]
    exact ⟨_, rfl, rfl⟩
  · rw [if_neg h]
    exact ⟨_, rfl, rfl⟩

theorem MakeByteOffs_ok (E : Env) (hE : E.WF) (flags offs : Nat) (hr : Recognised E flags)
    (s : State) : ∃ r s1, MakeByteOffs E flags offs s = Res.ok r s1 := by
  have key : ∀ O : Nat, ∃ r s1,
      (if O ≠ 0 then do
        g_inc E (E.CF_INT ||| E.CF_CONST) O
        pure (offs - O)
      else pure offs : Gen Nat) s = Res.ok r s1 := by
    intro O
    by_cases hO : O ≠ 0
    · obtain ⟨_, s1, _, _, e, -, -⟩ := EW_g_inc_int E hE O hO s
      exact ⟨offs - O, s1, by simp only [if_pos hO, Gen.bind_run, e, Gen.pure_run]⟩
    · exact ⟨offs, s, by simp only [if_neg hO, Gen.pure_run]⟩
  unfold MakeByteOffs
  simp only [Gen.bind_run, sizeofarg_ok E flags hr]
  exact key _

/-- C24 (amended): for every flag encoding that satisfies `Env.WF` and every
long descriptor that is not in test mode: `g_getlocal` emits, after the offset
check, exactly `jsr ldeax0sp` (effective offset 0) or `ldy #offset+3` and
`jsr ldeaxysp`; `g_getind` emits, after the pointer adjustment of
`MakeByteOffs`, exactly `jsr ldeaxi` (remaining offset 0) or `ldy #offset+3`
and `jsr ldeaxidx`; so both load through a runtime routine with no inline
`lda`/`ldx` of the value. `g_getstatic` for a static or external cell loads
inline: exactly the six lines `lda lbuf+3`, `sta sreg+1`, `lda lbuf+2`,
`sta sreg`, `ldx lbuf+1`, `lda lbuf`, none of which is a `jsr`. -/
theorem C24_long_loads (E : Env) (hE : E.WF) (flags : Nat) (hl : IsLong E flags)
    (ht : flags &&& E.CF_TEST = 0) (s : State) :
    (∀ offs : Int, ∃ s1,
      CheckLocalOffs (toUnsigned (offs - s.oursp)) s = Res.ok () s1
      ∧ g_getlocal E flags offs s = Res.ok () { s1 with
          out := s1.out ++ (if offs - s.oursp = 0 then [Out.line "\tjsr\tldeax0sp"]
            else [Out.line ("\tldy\t#$" ++ hex2 (toUnsigned (offs - s.oursp + 3) &&& 0xFF)),
                  Out.line "\tjsr\tldeaxysp"]) })
    ∧ (∀ offs : Nat, ∃ r s1,
      MakeByteOffs E flags offs s = Res.ok r s1
      ∧ g_getind E flags offs s = Res.ok () { s1 with
          out := s1.out ++ (if r = 0 then [Out.line "\tjsr\tldeaxi"]
            else [Out.line ("\tldy\t#$" ++ hex2 ((r + 3) &&& 0xFF)),
                  Out.line "\tjsr\tldeaxidx"]) })
    ∧ (∀ label offs : Nat,
        flags &&& E.CF_ADDRMASK = E.CF_STATIC ∨ flags &&& E.CF_ADDRMASK = E.CF_EXTERNAL →
        ∃ lbuf code,
          GetLabelName E flags label offs s = Res.ok lbuf s
          ∧ code = [Out.line ("\tlda\t" ++ lbuf ++ "+3"), Out.line "\tsta\tsreg+1",
                    Out.line ("\tlda\t" ++ lbuf ++ "+2"), Out.line "\tsta\tsreg",
                    Out.line ("\tldx\t" ++ lbuf ++ "+1"), Out.line ("\tlda\t" ++ lbuf)]
          ∧ g_getstatic E flags label offs s = Res.ok () { s with out := s.out ++ code }
          ∧ ∀ x ∈ code, ¬ IsJsr x) := by
  have hl2 : flags &&& E.CF_TYPE = E.CF_LONG := hl
  obtain ⟨n1, n2⟩ := long_not_word E hE hl2
  have ht2 : ¬ flags &&& E.CF_TEST ≠ 0 := fun h => h ht
  refine ⟨?_, ?_, ?_⟩
  · intro offs
    obtain ⟨s1, e1, ho⟩ := CheckLocalOffs_ok (toUnsigned (offs - s.oursp)) s
    refine ⟨s1, e1, ?_⟩
    unfold g_getlocal
    rw [bind_getOursp]
    simp only [Gen.bind_run, e1, if_neg n1, if_neg n2, if_pos hl2]
    by_cases h0 : offs - s.oursp = 0
    · have h0b : ¬ offs - s.oursp ≠ 0 := fun h => h h0
      simp only [if_neg h0b, if_pos h0, AddCodeLine]
    · simp only [if_pos h0, if_neg h0, Gen.bind_run, ldyconst, AddCodeLine,
        List.append_assoc, List.singleton_append]
  · intro offs
    obtain ⟨r, s1, e1⟩ := MakeByteOffs_ok E hE flags offs (Or.inr (Or.inr hl2)) s
    refine ⟨r, s1, e1, ?_⟩
    unfold g_getind
    simp only [Gen.bind_run, e1, if_neg n1, if_neg n2, if_pos hl2, if_neg ht2]
    by_cases h0 : r = 0
    · simp only [if_pos h0, Gen.bind_run, AddCodeLine, Gen.pure_run]
    · simp only [if_neg h0, Gen.bind_run, ldyconst, AddCodeLine, Gen.pure_run,
        List.append_assoc, List.singleton_append]
  · intro label offs ha
    obtain ⟨lbuf, hL⟩ := GetLabelName_global E flags label offs ha
    refine ⟨lbuf, _, by rw [hL]; rfl, rfl, ?_, ?_⟩
    · unfold g_getstatic
      rw [hL]
      simp only [Gen.bind_run, Gen.pure_run, if_neg n1, if_neg n2, if_pos hl2, if_neg ht2,
        AddCodeLine, List.append_assoc, List.singleton_append, List.cons_append,
        List.nil_append]
    · intro x hx
      simp only [List.mem_cons, List.mem_singleton, List.not_mem_nil, or_false] at hx
      rcases hx with h | h | h | h | h | h <;> subst h
      · rw [String.append_assoc]; exact not_startsWith _ _ _ (by decide)
      · decide
      · rw [String.append_assoc]; exact not_startsWith _ _ _ (by decide)
      · decide
      · rw [String.append_assoc]; exact not_startsWith _ _ _ (by decide)
      · exact not_startsWith _ _ _ (by decide)

/-- Witness of C24: a signed long. -/
theorem C24_witness :
    cc65Env.WF ∧ IsLong cc65Env cc65Env.CF_LONG ∧ cc65Env.CF_LONG &&& cc65Env.CF_TEST = 0
    ∧ ∃ s1,
      CheckLocalOffs (toUnsigned (4 - State.init.oursp)) State.init = Res.ok () s1
      ∧ g_getlocal cc65Env cc65Env.CF_LONG 4 State.init = Res.ok () { s1 with
          out := s1.out ++ (if (4 : Int) - State.init.oursp = 0
            then [Out.line "\tjsr\tldeax0sp"]
            else [Out.line ("\tldy\t#$"
                    ++ hex2 (toUnsigned (4 - State.init.oursp + 3) &&& 0xFF)),
                  Out.line "\tjsr\tldeaxysp"]) } :=
  ⟨cc65Env_wf, by decide, by decide,
    (C24_long_loads cc65Env cc65Env_wf cc65Env.CF_LONG (by decide) (by decide) State.init).1 4⟩

/-! ## Compound assignment through a pointer (C25) -/

/-- C25, as stated, fails: for a char descriptor, and for an int descriptor
when code size is not preferred, `g_addeqind` emits an inline
read-modify-write through `ptr1`, with no push of the pointer. -/
theorem C25_counterexample :
    g_addeqind cc65Env cc65Env.CF_CHAR 0 1 State.init
      = Res.ok () { State.init with
          out := [Out.line "\tsta\tptr1", Out.line "\tstx\tptr1+1", Out.line "\tldx\t#$00",
                  Out.line "\tlda\t#$01", Out.line "\tclc", Out.line "\tadc\t(ptr1,x)",
                  Out.line "\tsta\t(ptr1,x)"] }
    ∧ cc65Env.FavourSize = 0
    ∧ (g_addeqind cc65Env cc65Env.CF_INT 0 1 State.init).state.out.take 2
      = [Out.line "\tsta\tptr1", Out.line "\tstx\tptr1+1"]
    ∧ Out.line "\tjsr\tpushax" ∉ (g_addeqind cc65Env cc65Env.CF_INT 0 1 State.init).state.out
    ∧ Out.line "\tjsr\tpushax" ∉ (g_subeqind cc65Env cc65Env.CF_INT 0 1 State.init).state.out
    ∧ Out.line "\tjsr\tpushax" ∉ (g_subeqind cc65Env cc65Env.CF_CHAR 0 1 State.init).state.out
    := by
  decide

/-- C25 (amended): for every flag encoding that satisfies `Env.WF`, every
descriptor of recognised width, every offset and value: after the pointer
adjustment of `MakeByteOffs` (remaining offset r), `g_addeqind` and
`g_subeqind` use the explicit sequence exactly for a long descriptor and for
an int descriptor when `FavourSize` is set: `jsr pushax`, then the code of
`g_getind`, then `g_inc` (respectively `g_dec`), then `g_putind`. For a char descriptor, and for an
int descriptor when `FavourSize` is clear, they emit an inline
read-modify-write through `ptr1` instead (the lines listed), with no push of
the pointer. -/
theorem C25_indirect_compound (E : Env) (hE : E.WF) (flags offs val : Nat)
    (hr : Recognised E flags) (s : State) :
    ∃ r s1, MakeByteOffs E flags offs s = Res.ok r s1
    ∧ (IsLong E flags ∨ (flags &&& E.CF_TYPE = E.CF_INT ∧ E.FavourSize ≠ 0) →
        g_addeqind E flags offs val s
          = (AddCodeLine "\tjsr\tpushax" >>= fun _ => push E flags >>= fun _ =>
              g_getind E flags r >>= fun _ => g_inc E flags val >>= fun _ =>
              g_putind E flags r) s1
        ∧ g_subeqind E flags offs val s
          = (AddCodeLine "\tjsr\tpushax" >>= fun _ => push E flags >>= fun _ =>
              g_getind E flags r >>= fun _ => g_dec E flags val >>= fun _ =>
              g_putind E flags r) s1)
    ∧ (flags &&& E.CF_TYPE = E.CF_CHAR →
        g_addeqind E flags offs val s = Res.ok () { s1 with out := s1.out ++
          (if r = 0 then
            [Out.line "\tsta\tptr1", Out.line "\tstx\tptr1+1", Out.line "\tldx\t#$00",
             Out.line ("\tlda\t#$" ++ hex2 (val &&& 0xFF)), Out.line "\tclc",
             Out.line "\tadc\t(ptr1,x)", Out.line "\tsta\t(ptr1,x)"]
          else
            [Out.line "\tsta\tptr1", Out.line "\tstx\tptr1+1",
             Out.line ("\tldy\t#$" ++ hex2 r), Out.line "\tldx\t#$00",
             Out.line ("\tlda\t#$" ++ hex2 (val &&& 0xFF)), Out.line "\tclc",
             Out.line "\tadc\t(ptr1),y", Out.line "\tsta\t(ptr1),y"]) }
        ∧ g_subeqind E flags offs val s = Res.ok () { s1 with out := s1.out ++
          (if r = 0 then
            [Out.line "\tsta\tptr1", Out.line "\tstx\tptr1+1", Out.line "\tldx\t#$00",
             Out.line "\tlda\t(ptr1,x)", Out.line "\tsec",
             Out.line ("\tsbc\t#$" ++ hex2 (val &&& 0xFF)), Out.line "\tsta\t(ptr1,x)"]
          else
            [Out.line "\tsta\tptr1", Out.line "\tstx\tptr1+1",
             Out.line ("\tldy\t#$" ++ hex2 r), Out.line "\tldx\t#$00",
             Out.line "\tlda\t(ptr1),y", Out.line "\tsec",
             Out.line ("\tsbc\t#$" ++ hex2 (val &&& 0xFF)), Out.line "\tsta\t(ptr1),y"]) })
    ∧ (flags &&& E.CF_TYPE = E.CF_INT ∧ E.FavourSize = 0 →
        g_addeqind E flags offs val s = Res.ok () { s1 with out := s1.out ++
          [Out.line "\tsta\tptr1", Out.line "\tstx\tptr1+1",
           Out.line ("\tldy\t#$" ++ hex2 r),
           Out.line ("\tlda\t#$" ++ hex2 (val &&& 0xFF)), Out.line "\tclc",
           Out.line "\tadc\t(ptr1),y", Out.line "\tsta\t(ptr1),y", Out.line "\tpha",
           Out.line "\tiny", Out.line ("\tlda\t#$" ++ hex2 ((val >>> 8) &&& 0xFF)),
           Out.line "\tadc\t(ptr1),y", Out.line "\tsta\t(ptr1),y", Out.line "\ttax",
           Out.line "\tpla"] }
        ∧ g_subeqind E flags offs val s = Res.ok () { s1 with out := s1.out ++
          [Out.line "\tsta\tptr1", Out.line "\tstx\tptr1+1",
           Out.line ("\tldy\t#$" ++ hex2 r), Out.line "\tlda\t(ptr1),y", Out.line "\tsec",
           Out.line ("\tsbc\t#$" ++ hex2 (val &&& 0xFF)), Out.line "\tsta\t(ptr1),y",
           Out.line "\tpha", Out.line "\tiny", Out.line "\tlda\t(ptr1),y",
           Out.line ("\tsbc\t#$" ++ hex2 ((val >>> 8) &&& 0xFF)),
           Out.line "\tsta\t(ptr1),y", Out.line "\ttax", Out.line "\tpla"] }) := by
  obtain ⟨r, s1, e1⟩ := MakeByteOffs_ok E hE flags offs hr s
  refine ⟨r, s1, e1, ?_, ?_, ?_⟩
  · intro h
    have n1 : ¬ flags &&& E.CF_TYPE = E.CF_CHAR := by
      rcases h with h | ⟨h, -⟩
      · exact (long_not_word E hE h).1
      · rw [h]; exact fun e => hE.char_ne_int e.symm
    have n2 : ¬ (flags &&& E.CF_TYPE = E.CF_INT ∧ E.FavourSize = 0) := by
      rcases h with h | ⟨-, h⟩
      · exact fun hh => (long_not_word E hE h).2 hh.1
      · exact fun hh => h hh.2
    have p3 : flags &&& E.CF_TYPE = E.CF_INT ∨ flags &&& E.CF_TYPE = E.CF_LONG := by
      rcases h with h | ⟨h, -⟩
      · exact Or.inr h
      · exact Or.inl h
    constructor
    · unfold g_addeqind
      simp only [Gen.bind_run, e1, if_neg n1, if_neg n2, if_pos p3]
    · unfold g_subeqind
      simp only [Gen.bind_run, e1, if_neg n1, if_neg n2, if_pos p3]
  · intro h
    constructor
    · unfold g_addeqind
      by_cases h0 : r = 0
      · simp only [Gen.bind_run, e1, if_pos h, if_pos h0, AddCodeLine, List.append_assoc,
          List.singleton_append, List.cons_append, List.nil_append]
      · simp only [Gen.bind_run, e1, if_pos h, if_neg h0, AddCodeLine, List.append_assoc,
          List.singleton_append, List.cons_append, List.nil_append]
    · unfold g_subeqind
      by_cases h0 : r = 0
      · simp only [Gen.bind_run, e1, if_pos h, if_pos h0, AddCodeLine, List.append_assoc,
          List.singleton_append, List.cons_append, List.nil_append]
      · simp only [Gen.bind_run, e1, if_pos h, if_neg h0, AddCodeLine, List.append_assoc,
          List.singleton_append, List.cons_append, List.nil_append]
  · intro h
    have n1 : ¬ flags &&& E.CF_TYPE = E.CF_CHAR := by
      rw [h.1]; exact fun e => hE.char_ne_int e.symm
    constructor
    · unfold g_addeqind
      simp only [Gen.bind_run, e1, if_neg n1, if_pos h, AddCodeLine, List.append_assoc,
        List.singleton_append, List.cons_append, List.nil_append]
    · unfold g_subeqind
      simp only [Gen.bind_run, e1, if_neg n1, if_pos h, AddCodeLine, List.append_assoc,
        List.singleton_append, List.cons_append, List.nil_append]

/-- Witness of C25: a long at offset 4. -/
theorem C25_witness :
    cc65Env.WF ∧ Recognised cc65Env cc65Env.CF_LONG
    ∧ ∃ r s1, MakeByteOffs cc65Env cc65Env.CF_LONG 4 State.init = Res.ok r s1
      ∧ (IsLong cc65Env cc65Env.CF_LONG
          ∨ (cc65Env.CF_LONG &&& cc65Env.CF_TYPE = cc65Env.CF_INT ∧ cc65Env.FavourSize ≠ 0) →
        g_addeqind cc65Env cc65Env.CF_LONG 4 1 State.init
          = (AddCodeLine "\tjsr\tpushax" >>= fun _ => push cc65Env cc65Env.CF_LONG >>= fun _ =>
              g_getind cc65Env cc65Env.CF_LONG r >>= fun _ =>
              g_inc cc65Env cc65Env.CF_LONG 1 >>= fun _ =>
              g_putind cc65Env cc65Env.CF_LONG r) s1
        ∧ g_subeqind cc65Env cc65Env.CF_LONG 4 1 State.init
          = (AddCodeLine "\tjsr\tpushax" >>= fun _ => push cc65Env cc65Env.CF_LONG >>= fun _ =>
              g_getind cc65Env cc65Env.CF_LONG r >>= fun _ =>
              g_dec cc65Env cc65Env.CF_LONG 1 >>= fun _ =>
              g_putind cc65Env cc65Env.CF_LONG r) s1) := by
  obtain ⟨r, s1, h1, h2, -, -⟩ :=
    C25_indirect_compound cc65Env cc65Env_wf cc65Env.CF_LONG 4 1 (by decide) State.init
  exact ⟨cc65Env_wf, by decide, r, s1, h1, h2⟩

/-! ## The lookup of `oper` (C29) -/

theorem group_word (E : Env) (hE : E.WF) {flags : Nat}
    (h : flags &&& E.CF_TYPE = E.CF_CHAR ∨ flags &&& E.CF_TYPE = E.CF_INT) :
    group E flags = if flags &&& E.CF_UNSIGNED ≠ 0 then 3 else 0 := by
  have hn : ¬ IsLong E flags := by
    unfold IsLong
    rintro hl
    rcases h with h | h
    · rw [hl] at h; exact hE.char_ne_long h.symm
    · rw [hl] at h; exact hE.int_ne_long h.symm
  unfold group IsUnsigned
  rw [if_neg hn, Nat.zero_add]

theorem group_long (E : Env) {flags : Nat} (h : flags &&& E.CF_TYPE = E.CF_LONG) :
    group E flags = (if flags &&& E.CF_UNSIGNED ≠ 0 then 3 else 0) + 6 := by
  have hl : IsLong E flags := h
  unfold group IsUnsigned
  rw [if_pos hl, Nat.add_comm]

theorem group_lt (E : Env) (flags : Nat) : group E flags + 2 < 12 ∧ group E flags % 3 = 0 := by
  unfold group
  split <;> split <;> decide

/-- For a descriptor of recognised width `oper` is the dispatch on the
constant, at the group of the descriptor, followed by the pop. -/
theorem oper_eq (E : Env) (hE : E.WF) (flags val : Nat) (subs : Subs)
    (hr : Recognised E flags) (s : State) :
    oper E flags val subs s
      = ((if flags &&& E.CF_CONST ≠ 0 then
          if val = 0 ∧ (subs.entry (group E flags + 0)).isSome then
            jsrSub subs (group E flags + 0) >>= fun _ => pop E flags >>= fun _ =>
              pure PUnit.unit
          else if val < 0x100 ∧ (subs.entry (group E flags + 1)).isSome then
            ldaconst val >>= fun _ =>
              jsrSub subs (group E flags + 1) >>= fun _ => pop E flags >>= fun _ =>
                pure PUnit.unit
          else
            g_getimmed E flags val 0 >>= fun _ =>
              jsrSub subs (group E flags + 2) >>= fun _ => pop E flags >>= fun _ =>
                pure PUnit.unit
        else
          jsrSub subs (group E flags + 2) >>= fun _ => pop E flags >>= fun _ =>
            pure PUnit.unit) : Gen Unit) s := by
  have hrun : ∀ s,
      (if flags &&& E.CF_TYPE = E.CF_CHAR ∨ flags &&& E.CF_TYPE = E.CF_INT then
        pure (if flags &&& E.CF_UNSIGNED ≠ 0 then 3 else 0)
      else if flags &&& E.CF_TYPE = E.CF_LONG then
        pure ((if flags &&& E.CF_UNSIGNED ≠ 0 then 3 else 0) + 6)
      else do
        typeerror E flags
        pure (if flags &&& E.CF_UNSIGNED ≠ 0 then 3 else 0) : Gen Nat) s
      = Res.ok (group E flags) s := by
    intro s
    by_cases h1 : flags &&& E.CF_TYPE = E.CF_CHAR ∨ flags &&& E.CF_TYPE = E.CF_INT
    · rw [if_pos h1, group_word E hE h1]; rfl
    · have h2 : flags &&& E.CF_TYPE = E.CF_LONG := by
        rcases hr with h | h | h
        · exact absurd (Or.inl h) h1
        · exact absurd (Or.inr h) h1
        · exact h
      rw [if_neg h1, if_pos h2, group_long E h2]; rfl
  unfold oper
  simp only [Gen.bind_run, hrun]

/-- For a descriptor that is not constant every binary operator is the call
of `oper` on its table. -/
theorem gen_eq_oper (E : Env) (op : BinOp) (flags val : Nat)
    (hc : ¬ flags &&& E.CF_CONST ≠ 0) :
    op.gen E flags val = oper E flags val op.table := by
  have hc2 : ∀ p : Prop, ¬ (flags &&& E.CF_CONST ≠ 0 ∧ p) := fun _ h => hc h.1
  cases op <;>
    simp only [BinOp.gen, BinOp.table, g_add, g_sub, g_mul, g_div, g_mod, g_or, g_xor, g_and,
      g_asr, g_asl, g_eq, g_ne, g_lt, g_le, g_gt, g_ge, if_neg hc, if_neg (hc2 _)]

theorem table_general (op : BinOp) : ∀ i, i < 12 → i % 3 = 2 → (op.table.entry i).isSome := by
  cases op <;> decide

theorem table_named (op : BinOp) : ∀ i, i < 12 → (i % 3 = 2 ∨ (op.table.entry i).isSome) →
    callEntry op.table i ∈ op.table.filterMap (Option.map (fun n => Out.line ("\tjsr\t" ++ n)))
    := by
  cases op <;> decide

/-- C29: for every flag encoding that satisfies `Env.WF` and every descriptor
of recognised width, `oper` selects the routine at the group of the
descriptor (0 signed word-class, 3 unsigned word-class, 6 signed long, 9
unsigned long). For an operand that is not constant it emits only the call of
entry group+2. For a constant it emits only the call of entry group+0 when
`val = 0` and that entry exists; else `lda #val` and the call of entry
group+1 when `val < 256` and that entry exists; else the code of `g_getimmed`
followed by the call of entry group+2. In every case it then pops the
operand. Each of the 16 operators hands its table to `oper`; in each of these
tables and in the table of `g_rsub` the entry group+2 is present, and the
call `oper` emits last is always the call of a routine named in the table. -/
theorem C29_oper_lookup (E : Env) (hE : E.WF) (flags val : Nat) (subs : Subs)
    (hr : Recognised E flags) (s : State) :
    (¬ IsConst E flags →
      oper E flags val subs s = Res.ok () { s with
        out := s.out ++ [callEntry subs (group E flags + 2)]
        oursp := s.oursp + argSize E flags })
    ∧ (IsConst E flags → val = 0 → (subs.entry (group E flags)).isSome →
      oper E flags val subs s = Res.ok () { s with
        out := s.out ++ [callEntry subs (group E flags)]
        oursp := s.oursp + argSize E flags })
    ∧ (IsConst E flags → ¬ (val = 0 ∧ (subs.entry (group E flags)).isSome) →
      val < 256 → (subs.entry (group E flags + 1)).isSome →
      oper E flags val subs s = Res.ok () { s with
        out := s.out ++ [Out.line ("\tlda\t#$" ++ hex2 val),
                         callEntry subs (group E flags + 1)]
        oursp := s.oursp + argSize E flags })
    ∧ (IsConst E flags → ¬ (val = 0 ∧ (subs.entry (group E flags)).isSome) →
      ¬ (val < 256 ∧ (subs.entry (group E flags + 1)).isSome) →
      ∃ s1, g_getimmed E flags val 0 s = Res.ok () s1
        ∧ oper E flags val subs s = Res.ok () { s1 with
            out := s1.out ++ [callEntry subs (group E flags + 2)]
            oursp := s1.oursp + argSize E flags })
    ∧ (∀ op : BinOp, ∀ f v, ¬ IsConst E f → op.gen E f v = oper E f v op.table)
    ∧ (∀ f v, g_rsub E f v = oper E f v rsubOps)
    ∧ (∀ op : BinOp, (op.table.entry (group E flags + 2)).isSome)
    ∧ (rsubOps.entry (group E flags + 2)).isSome
    ∧ (∀ op : BinOp, EndsWith
        (fun x => x ∈ op.table.filterMap (Option.map (fun n => Out.line ("\tjsr\t" ++ n))))
        (oper E flags val op.table)) := by
  obtain ⟨hg1, hg2⟩ := group_lt E flags
  refine ⟨?_, ?_, ?_, ?_, ?_, ?_, ?_, ?_, ?_⟩
  · intro hc
    have hc2 : ¬ flags &&& E.CF_CONST ≠ 0 := hc
    rw [oper_eq E hE flags val subs hr]
    simp only [if_neg hc2, Gen.bind_run, jsrSub, AddCodeLine, pop_ok E flags hr, Gen.pure_run,
      callEntry]
  · intro hc h0 hs
    have hc2 : flags &&& E.CF_CONST ≠ 0 := hc
    have c1 : val = 0 ∧ (subs.entry (group E flags)).isSome := ⟨h0, hs⟩
    rw [oper_eq E hE flags val subs hr]
    simp only [Nat.add_zero]
    simp only [if_pos hc2, if_pos c1, Gen.bind_run, jsrSub, AddCodeLine, pop_ok E flags hr,
      Gen.pure_run, callEntry, Nat.add_zero]
  · intro hc h0 h256 hs
    have hc2 : flags &&& E.CF_CONST ≠ 0 := hc
    have c1 : ¬ (val = 0 ∧ (subs.entry (group E flags)).isSome) := h0
    have c2 : val < 0x100 ∧ (subs.entry (group E flags + 1)).isSome := ⟨h256, hs⟩
    have hv : val &&& 0xFF = val := by rw [and_FF]; exact Nat.mod_eq_of_lt h256
    rw [oper_eq E hE flags val subs hr]
    simp only [Nat.add_zero]
    simp only [if_pos hc2, if_neg c1, if_pos c2, Gen.bind_run, jsrSub, ldaconst, AddCodeLine,
      pop_ok E flags hr, Gen.pure_run, callEntry, hv, List.append_assoc,
      List.singleton_append]
  · intro hc h0 h1
    have hc2 : flags &&& E.CF_CONST ≠ 0 := hc
    have c1 : ¬ (val = 0 ∧ (subs.entry (group E flags)).isSome) := h0
    have c2 : ¬ (val < 0x100 ∧ (subs.entry (group E flags + 1)).isSome) := h1
    obtain ⟨_, s1, e, -⟩ := Sp_g_getimmed E flags val 0 hr hc2 s
    refine ⟨s1, e, ?_⟩
    rw [oper_eq E hE flags val subs hr]
    simp only [Nat.add_zero]
    simp only [if_pos hc2, if_neg c1, if_neg c2, Gen.bind_run, e, jsrSub, AddCodeLine,
      pop_ok E flags hr, Gen.pure_run, callEntry]
  · intro op f v hc
    exact gen_eq_oper E op f v hc
  · intro f v
    rfl
  · intro op
    exact table_general op _ hg1 (by omega)
  · have h : ∀ i, i < 12 → i % 3 = 2 → (rsubOps.entry i).isSome := by decide
    exact h _ hg1 (by omega)
  · intro op
    exact EW_oper E flags val op.table hr (table_named op)

/-- Witness of C29: `g_le` on an unsigned int that is not constant. -/
theorem C29_witness :
    cc65Env.WF ∧ Recognised cc65Env (cc65Env.CF_INT ||| cc65Env.CF_UNSIGNED)
    ∧ ¬ IsConst cc65Env (cc65Env.CF_INT ||| cc65Env.CF_UNSIGNED)
    ∧ group cc65Env (cc65Env.CF_INT ||| cc65Env.CF_UNSIGNED) = 3
    ∧ callEntry BinOp.le.table 5 = Out.line "\tjsr\ttosuleax"
    ∧ oper cc65Env (cc65Env.CF_INT ||| cc65Env.CF_UNSIGNED) 7 BinOp.le.table State.init
      = Res.ok () { State.init with
          out := State.init.out
            ++ [callEntry BinOp.le.table (group cc65Env (cc65Env.CF_INT ||| cc65Env.CF_UNSIGNED) + 2)]
          oursp := State.init.oursp + argSize cc65Env (cc65Env.CF_INT ||| cc65Env.CF_UNSIGNED) } :=
  ⟨cc65Env_wf, by decide, by decide, by decide, by decide,
    (C29_oper_lookup cc65Env cc65Env_wf (cc65Env.CF_INT ||| cc65Env.CF_UNSIGNED) 7
      BinOp.le.table (by decide) State.init).1 (by decide)⟩

/-! ## Warnings of the comparisons against zero (C26) -/

theorem KD_bind {α β : Type} {g : Gen α} {f : α → Gen β}
    (h1 : KeepsDiags g) (h2 : ∀ a, KeepsDiags (f a)) : KeepsDiags (g >>= f) := by
  intro s
  have e1 := h1 s
  rw [Gen.bind_run]
  cases hg : g s with
  | ok a s1 =>
    rw [hg] at e1
    simp only [Res.state] at e1
    rw [h2 a s1, e1]
  | fatal m s1 =>
    rw [hg] at e1
    exact e1

theorem KD_ite {α : Type} {c : Prop} [Decidable c] {g1 g2 : Gen α}
    (h1 : KeepsDiags g1) (h2 : KeepsDiags g2) : KeepsDiags (if c then g1 else g2) := by
  by_cases h : c
  · simpa [h] using h1
  · simpa [h] using h2

theorem KD_pure {α : Type} (a : α) : KeepsDiags (pure a : Gen α) := fun _ => rfl

theorem KD_line (t : String) : KeepsDiags (AddCodeLine t) := fun _ => rfl

theorem KD_Internal {α : Type} (m : String) : KeepsDiags (Internal m : Gen α) := fun _ => rfl

theorem KD_typeerror (E : Env) (t : Nat) : KeepsDiags (typeerror E t) := KD_Internal _

theorem KD_setOursp {α : Type} (v : State → α) (n : State → Int) :
    KeepsDiags (fun s => Res.ok (v s) { s with oursp := n s } : Gen α) := fun _ => rfl

theorem KD_sizeofarg (E : Env) (flags : Nat) : KeepsDiags (sizeofarg E flags) := by
  unfold sizeofarg
  repeat' with_reducible (first
    | exact KD_pure _
    | exact KD_typeerror _ _
    | refine KD_bind ?_ (fun _ => ?_)
    | refine KD_ite ?_ ?_)

theorem KD_push (E : Env) (flags : Nat) : KeepsDiags (push E flags) :=
  KD_bind (KD_sizeofarg E flags) (fun _ => KD_setOursp _ _)

theorem KD_pop (E : Env) (flags : Nat) : KeepsDiags (pop E flags) :=
  KD_bind (KD_sizeofarg E flags) (fun _ => KD_setOursp _ _)

theorem KD_GetLabelName (E : Env) (flags label offs : Nat) :
    KeepsDiags (GetLabelName E flags label offs) := by
  unfold GetLabelName
  repeat' with_reducible (first
    | exact KD_pure _
    | exact KD_Internal _
    | refine KD_bind ?_ (fun _ => ?_)
    | refine KD_ite ?_ ?_)

theorem KD_g_getimmed (E : Env) (flags val offs : Nat) :
    KeepsDiags (g_getimmed E flags val offs) := by
  unfold g_getimmed ldaconst ldxconst
  repeat' with_reducible (first
    | exact KD_pure _
    | exact KD_line _
    | exact KD_typeerror _ _
    | exact KD_GetLabelName _ _ _ _
    | refine KD_bind ?_ (fun _ => ?_)
    | refine KD_ite ?_ ?_)

theorem KD_g_push (E : Env) (flags val : Nat) : KeepsDiags (g_push E flags val) := by
  unfold g_push ldaconst
  repeat' with_reducible (first
    | exact KD_pure _
    | exact KD_line _
    | exact KD_typeerror _ _
    | exact KD_g_getimmed _ _ _ _
    | exact KD_push _ _
    | refine KD_bind ?_ (fun _ => ?_)
    | refine KD_ite ?_ ?_)

theorem KD_oper (E : Env) (flags val : Nat) (subs : Subs) :
    KeepsDiags (oper E flags val subs) := by
  unfold oper jsrSub ldaconst
  repeat' with_reducible (first
    | exact KD_pure _
    | exact KD_line _
    | exact KD_typeerror _ _
    | exact KD_g_getimmed _ _ _ _
    | exact KD_pop _ _
    | refine KD_bind ?_ (fun _ => ?_)
    | refine KD_ite ?_ ?_)

/-- A warning followed by code that raises nothing leaves exactly the warning. -/
theorem diags_warn_then {α : Type} (W : Diag) {g : Unit → Gen α}
    (h : ∀ u, KeepsDiags (g u)) (s : State) :
    ((Warning W >>= g) s).state.diags = s.diags ++ [W] := by
  rw [Gen.bind_run]
  exact h () _

theorem g_lt_diags (E : Env) (flags val : Nat) (s : State) :
    (g_lt E flags val s).state.diags
      = s.diags ++ (if IsConst E flags ∧ IsUnsigned E flags ∧ val = 0
          then [Diag.WARN_COND_NEVER_TRUE] else []) := by
  unfold IsConst IsUnsigned
  by_cases hc : flags &&& E.CF_CONST ≠ 0
  · by_cases hw : flags &&& E.CF_UNSIGNED ≠ 0 ∧ val = 0
    · rw [if_pos ⟨hc, hw⟩]
      unfold g_lt
      simp only [if_pos hc, if_pos hw]
      refine diags_warn_then _ (fun _ => ?_) s
      repeat' with_reducible (first
        | exact KD_pure _
        | exact KD_line _
        | exact KD_typeerror _ _
        | exact KD_g_push _ _ _
        | exact KD_oper _ _ _ _
        | refine KD_bind ?_ (fun _ => ?_)
        | refine KD_ite ?_ ?_)
    · rw [if_neg (fun h => hw h.2), List.append_nil]
      unfold g_lt
      simp only [if_pos hc, if_neg hw]
      revert s
      show KeepsDiags _
      repeat' with_reducible (first
        | exact KD_pure _
        | exact KD_line _
        | exact KD_typeerror _ _
        | exact KD_g_push _ _ _
        | exact KD_oper _ _ _ _
        | refine KD_bind ?_ (fun _ => ?_)
        | refine KD_ite ?_ ?_)
  · rw [if_neg (fun h => hc h.1), List.append_nil]
    unfold g_lt
    simp only [if_neg hc]
    exact KD_oper _ _ _ _ s

theorem g_ge_diags (E : Env) (flags val : Nat) (s : State) :
    (g_ge E flags val s).state.diags
      = s.diags ++ (if IsConst E flags ∧ IsUnsigned E flags ∧ val = 0
          then [Diag.WARN_COND_ALWAYS_TRUE] else []) := by
  unfold IsConst IsUnsigned
  by_cases hc : flags &&& E.CF_CONST ≠ 0
  · by_cases hw : flags &&& E.CF_UNSIGNED ≠ 0 ∧ val = 0
    · rw [if_pos ⟨hc, hw⟩]
      unfold g_ge
      simp only [if_pos hc, if_pos hw]
      refine diags_warn_then _ (fun _ => ?_) s
      repeat' with_reducible (first
        | exact KD_pure _
        | exact KD_line _
        | exact KD_typeerror _ _
        | exact KD_g_push _ _ _
        | exact KD_oper _ _ _ _
        | refine KD_bind ?_ (fun _ => ?_)
        | refine KD_ite ?_ ?_)
    · rw [if_neg (fun h => hw h.2), List.append_nil]
      unfold g_ge
      simp only [if_pos hc, if_neg hw]
      revert s
      show KeepsDiags _
      repeat' with_reducible (first
        | exact KD_pure _
        | exact KD_line _
        | exact KD_typeerror _ _
        | exact KD_g_push _ _ _
        | exact KD_oper _ _ _ _
        | refine KD_bind ?_ (fun _ => ?_)
        | refine KD_ite ?_ ?_)
  · rw [if_neg (fun h => hc h.1), List.append_nil]
    unfold g_ge
    simp only [if_neg hc]
    exact KD_oper _ _ _ _ s


/-- C26: for every flag encoding that satisfies `Env.WF`: the diagnostics
`g_lt` raises are exactly the condition-never-true warning when the right
operand is constant, the descriptor is unsigned and the constant is 0, and
none otherwise; likewise `g_ge` and the condition-always-true warning. The
warning does not alter the emitted code: for an unsigned constant word (int,
or char without `CF_FORCECHAR`) the lines are, for every `val`, `cpx` of the
high byte, `bne *+4`, `cmp` of the low byte and `jsr boolult` (respectively
`jsr booluge`); for an unsigned constant forced byte they are `cmp` of the low
byte and the same call; for an unsigned constant long the code is the generic
path (`g_push` of the left operand, then `oper` on the table of the operator),
preceded by the warning when `val = 0`. -/
theorem C26_zero_comparison_warnings (E : Env) (hE : E.WF) (flags val : Nat) (s : State) :
    (g_lt E flags val s).state.diags
      = s.diags ++ (if IsConst E flags ∧ IsUnsigned E flags ∧ val = 0
          then [Diag.WARN_COND_NEVER_TRUE] else [])
    ∧ (g_ge E flags val s).state.diags
      = s.diags ++ (if IsConst E flags ∧ IsUnsigned E flags ∧ val = 0
          then [Diag.WARN_COND_ALWAYS_TRUE] else [])
    ∧ (IsConst E flags → IsUnsigned E flags →
        (flags &&& E.CF_TYPE = E.CF_INT
          ∨ (flags &&& E.CF_TYPE = E.CF_CHAR ∧ flags &&& E.CF_FORCECHAR = 0)) →
        g_lt E flags val s = Res.ok () { s with
          out := s.out ++ [Out.line ("\tcpx\t#$" ++ hex2 ((val >>> 8) &&& 0xFF)),
                           Out.line "\tbne\t*+4",
                           Out.line ("\tcmp\t#$" ++ hex2 (val &&& 0xFF)),
                           Out.line "\tjsr\tboolult"]
          diags := s.diags ++ (if val = 0 then [Diag.WARN_COND_NEVER_TRUE] else []) }
        ∧ g_ge E flags val s = Res.ok () { s with
          out := s.out ++ [Out.line ("\tcpx\t#$" ++ hex2 ((val >>> 8) &&& 0xFF)),
                           Out.line "\tbne\t*+4",
                           Out.line ("\tcmp\t#$" ++ hex2 (val &&& 0xFF)),
                           Out.line "\tjsr\tbooluge"]
          diags := s.diags ++ (if val = 0 then [Diag.WARN_COND_ALWAYS_TRUE] else []) })
    ∧ (IsConst E flags → IsUnsigned E flags →
        flags &&& E.CF_TYPE = E.CF_CHAR ∧ flags &&& E.CF_FORCECHAR ≠ 0 →
        g_lt E flags val s = Res.ok () { s with
          out := s.out ++ [Out.line ("\tcmp\t#$" ++ hex2 (val &&& 0xFF)),
                           Out.line "\tjsr\tboolult"]
          diags := s.diags ++ (if val = 0 then [Diag.WARN_COND_NEVER_TRUE] else []) }
        ∧ g_ge E flags val s = Res.ok () { s with
          out := s.out ++ [Out.line ("\tcmp\t#$" ++ hex2 (val &&& 0xFF)),
                           Out.line "\tjsr\tbooluge"]
          diags := s.diags ++ (if val = 0 then [Diag.WARN_COND_ALWAYS_TRUE] else []) })
    ∧ (IsConst E flags → IsUnsigned E flags → IsLong E flags →
        g_lt E flags val
          = ((if val = 0 then Warning Diag.WARN_COND_NEVER_TRUE else pure ()) >>= fun _ =>
              g_push E (flags &&& bnot E.CF_CONST) 0 >>= fun _ =>
              oper E flags val BinOp.lt.table)
        ∧ g_ge E flags val
          = ((if val = 0 then Warning Diag.WARN_COND_ALWAYS_TRUE else pure ()) >>= fun _ =>
              g_push E (flags &&& bnot E.CF_CONST) 0 >>= fun _ =>
              oper E flags val BinOp.ge.table)) := by
  refine ⟨g_lt_diags E flags val s, g_ge_diags E flags val s, ?_, ?_, ?_⟩
  · intro hc hu hw
    have hc2 : flags &&& E.CF_CONST ≠ 0 := hc
    have hu2 : flags &&& E.CF_UNSIGNED ≠ 0 := hu
    have c1 : ¬ (flags &&& E.CF_TYPE = E.CF_CHAR ∧ flags &&& E.CF_FORCECHAR ≠ 0) := by
      rintro ⟨h1, h2⟩
      rcases hw with h | ⟨-, h⟩
      · rw [h] at h1; exact hE.char_ne_int h1.symm
      · exact h2 h
    have c2 : flags &&& E.CF_TYPE = E.CF_CHAR ∨ flags &&& E.CF_TYPE = E.CF_INT := by
      rcases hw with h | ⟨h, -⟩
      · exact Or.inr h
      · exact Or.inl h
    have c3 : ¬ (flags &&& E.CF_UNSIGNED = 0 ∧ val = 0) := fun h => hu2 h.1
    constructor
    · unfold g_lt
      by_cases hv : val = 0
      · have cw : flags &&& E.CF_UNSIGNED ≠ 0 ∧ val = 0 := ⟨hu2, hv⟩
        simp only [if_pos hc2, if_pos cw, if_neg c1, if_pos c2, if_neg c3, if_pos hu2,
          if_pos hv, Gen.bind_run, Warning, AddCodeLine, List.append_assoc,
          List.singleton_append, List.cons_append, List.nil_append]
      · have cw : ¬ (flags &&& E.CF_UNSIGNED ≠ 0 ∧ val = 0) := fun h => hv h.2
        simp only [if_pos hc2, if_neg cw, if_neg c1, if_pos c2, if_neg c3, if_pos hu2,
          if_neg hv, Gen.bind_run, Gen.pure_run, AddCodeLine, List.append_assoc,
          List.singleton_append, List.cons_append, List.nil_append, List.append_nil]
    · unfold g_ge
      by_cases hv : val = 0
      · have cw : flags &&& E.CF_UNSIGNED ≠ 0 ∧ val = 0 := ⟨hu2, hv⟩
        simp only [if_pos hc2, if_pos cw, if_neg c1, if_pos c2, if_pos hu2,
          if_pos hv, Gen.bind_run, Warning, AddCodeLine, List.append_assoc,
          List.singleton_append, List.cons_append, List.nil_append]
      · have cw : ¬ (flags &&& E.CF_UNSIGNED ≠ 0 ∧ val = 0) := fun h => hv h.2
        simp only [if_pos hc2, if_neg cw, if_neg c1, if_pos c2, if_pos hu2,
          if_neg hv, Gen.bind_run, Gen.pure_run, AddCodeLine, List.append_assoc,
          List.singleton_append, List.cons_append, List.nil_append, List.append_nil]
  · intro hc hu c1
    have hc2 : flags &&& E.CF_CONST ≠ 0 := hc
    have hu2 : flags &&& E.CF_UNSIGNED ≠ 0 := hu
    constructor
    · unfold g_lt
      by_cases hv : val = 0
      · have cw : flags &&& E.CF_UNSIGNED ≠ 0 ∧ val = 0 := ⟨hu2, hv⟩
        simp only [if_pos hc2, if_pos cw, if_pos c1, if_pos hu2,
          if_pos hv, Gen.bind_run, Warning, AddCodeLine, List.append_assoc,
          List.singleton_append, List.cons_append, List.nil_append]
      · have cw : ¬ (flags &&& E.CF_UNSIGNED ≠ 0 ∧ val = 0) := fun h => hv h.2
        simp only [if_pos hc2, if_neg cw, if_pos c1, if_pos hu2,
          if_neg hv, Gen.bind_run, Gen.pure_run, AddCodeLine, List.append_assoc,
          List.singleton_append, List.cons_append, List.nil_append, List.append_nil]
    · unfold g_ge
      by_cases hv : val = 0
      · have cw : flags &&& E.CF_UNSIGNED ≠ 0 ∧ val = 0 := ⟨hu2, hv⟩
        simp only [if_pos hc2, if_pos cw, if_pos c1, if_pos hu2,
          if_pos hv, Gen.bind_run, Warning, AddCodeLine, List.append_assoc,
          List.singleton_append, List.cons_append, List.nil_append]
      · have cw : ¬ (flags &&& E.CF_UNSIGNED ≠ 0 ∧ val = 0) := fun h => hv h.2
        simp only [if_pos hc2, if_neg cw, if_pos c1, if_pos hu2,
          if_neg hv, Gen.bind_run, Gen.pure_run, AddCodeLine, List.append_assoc,
          List.singleton_append, List.cons_append, List.nil_append, List.append_nil]
  · intro hc hu hl
    have hc2 : flags &&& E.CF_CONST ≠ 0 := hc
    have hu2 : flags &&& E.CF_UNSIGNED ≠ 0 := hu
    have hl2 : flags &&& E.CF_TYPE = E.CF_LONG := hl
    obtain ⟨n1, n2⟩ := long_not_word E hE hl2
    have c1 : ¬ (flags &&& E.CF_TYPE = E.CF_CHAR ∧ flags &&& E.CF_FORCECHAR ≠ 0) :=
      fun h => n1 h.1
    have c2 : ¬ (flags &&& E.CF_TYPE = E.CF_CHAR ∨ flags &&& E.CF_TYPE = E.CF_INT) := by
      rintro (h | h)
      · exact n1 h
      · exact n2 h
    constructor
    · unfold g_lt
      by_cases hv : val = 0
      · have cw : flags &&& E.CF_UNSIGNED ≠ 0 ∧ val = 0 := ⟨hu2, hv⟩
        simp only [if_pos hc2, if_pos cw, if_neg c1, if_neg c2, if_pos hl2, if_pos hv,
          BinOp.table]
      · have cw : ¬ (flags &&& E.CF_UNSIGNED ≠ 0 ∧ val = 0) := fun h => hv h.2
        simp only [if_pos hc2, if_neg cw, if_neg c1, if_neg c2, if_pos hl2, if_neg hv,
          BinOp.table]
    · unfold g_ge
      by_cases hv : val = 0
      · have cw : flags &&& E.CF_UNSIGNED ≠ 0 ∧ val = 0 := ⟨hu2, hv⟩
        simp only [if_pos hc2, if_pos cw, if_neg c1, if_neg c2, if_pos hl2, if_pos hv,
          BinOp.table]
      · have cw : ¬ (flags &&& E.CF_UNSIGNED ≠ 0 ∧ val = 0) := fun h => hv h.2
        simp only [if_pos hc2, if_neg cw, if_neg c1, if_neg c2, if_pos hl2, if_neg hv,
          BinOp.table]

/-- Witness of C26: an unsigned int compared against the constant 0. -/
theorem C26_witness :
    cc65Env.WF
    ∧ IsConst cc65Env (cc65Env.CF_INT ||| cc65Env.CF_UNSIGNED ||| cc65Env.CF_CONST)
    ∧ IsUnsigned cc65Env (cc65Env.CF_INT ||| cc65Env.CF_UNSIGNED ||| cc65Env.CF_CONST)
    ∧ hex2 ((0 >>> 8) &&& 0xFF) = "00" ∧ hex2 (0 &&& 0xFF) = "00"
    ∧ g_lt cc65Env (cc65Env.CF_INT ||| cc65Env.CF_UNSIGNED ||| cc65Env.CF_CONST) 0 State.init
      = Res.ok () { State.init with
          out := State.init.out ++ [Out.line ("\tcpx\t#$" ++ hex2 ((0 >>> 8) &&& 0xFF)),
                           Out.line "\tbne\t*+4",
                           Out.line ("\tcmp\t#$" ++ hex2 (0 &&& 0xFF)),
                           Out.line "\tjsr\tboolult"]
          diags := State.init.diags
            ++ (if (0 : Nat) = 0 then [Diag.WARN_COND_NEVER_TRUE] else []) }
    ∧ g_ge cc65Env (cc65Env.CF_INT ||| cc65Env.CF_UNSIGNED ||| cc65Env.CF_CONST) 0 State.init
      = Res.ok () { State.init with
          out := State.init.out ++ [Out.line ("\tcpx\t#$" ++ hex2 ((0 >>> 8) &&& 0xFF)),
                           Out.line "\tbne\t*+4",
                           Out.line ("\tcmp\t#$" ++ hex2 (0 &&& 0xFF)),
                           Out.line "\tjsr\tbooluge"]
          diags := State.init.diags
            ++ (if (0 : Nat) = 0 then [Diag.WARN_COND_ALWAYS_TRUE] else []) } :=
  ⟨cc65Env_wf, by decide, by decide, by decide, by decide,
    (C26_zero_comparison_warnings cc65Env cc65Env_wf
      (cc65Env.CF_INT ||| cc65Env.CF_UNSIGNED ||| cc65Env.CF_CONST) 0 State.init).2.2.1
      (by decide) (by decide) (Or.inl (by decide))⟩

/-! ## The value loaded by a constant long load (C30) -/

theorem hexDigit_digitChar : ∀ k, k < 16 → hexDigit (Char.toUpper (Nat.digitChar k)) = k := by
  decide

theorem readHex_core (fuel : Nat) : ∀ n ds, n < fuel →
    ((Nat.toDigitsCore 16 fuel n ds).map Char.toUpper).foldl
        (fun n c => n * 16 + hexDigit c) 0
      = (ds.map Char.toUpper).foldl (fun n c => n * 16 + hexDigit c) n := by
  induction fuel with
  | zero => intro n ds h; omega
  | succ fuel ih =>
    intro n ds h
    unfold Nat.toDigitsCore
    have hd : hexDigit (Char.toUpper (Nat.digitChar (n % 16))) = n % 16 :=
      hexDigit_digitChar _ (Nat.mod_lt _ (by omega))
    by_cases h0 : n / 16 = 0
    · simp only [h0, if_true, List.map_cons, List.foldl_cons, hd]
      have : n % 16 = n := by omega
      rw [Nat.zero_mul, Nat.zero_add, this]
    · simp only [h0, if_false]
      rw [ih (n / 16) _ (by omega)]
      simp only [List.map_cons, List.foldl_cons, hd]
      have : n / 16 * 16 + n % 16 = n := by omega
      rw [this]

theorem readHex_zeros (k : Nat) (cs : List Char) :
    readHex (List.replicate k '0' ++ cs) = readHex cs := by
  unfold readHex
  induction k with
  | zero => rfl
  | succ k ih =>
    rw [List.replicate_succ, List.cons_append, List.foldl_cons]
    have : (0 : Nat) * 16 + hexDigit '0' = 0 := by decide
    rw [this]
    exact ih

/-- Reading back the conversion `%0wX` gives the number. -/
theorem readHex_hexW (w n : Nat) : readHex (hexW w n).data = n := by
  unfold hexW
  simp only
  rw [readHex_zeros]
  unfold readHex Nat.toDigits
  rw [readHex_core (n + 1) n [] (by omega)]
  rfl

theorem execLine_lda (v : Nat) (r : Regs) :
    execLine ("\tlda\t#$" ++ hex2 v) r = some { r with a := v % 256 } := by
  have hl : "\tlda\t#$".data.length = 7 := by decide
  unfold execLine
  simp only [String.data_append, List.take_left' hl, List.drop_left' hl]
  rw [show hex2 v = hexW 2 v from rfl, readHex_hexW]
  rfl

theorem execLine_ldx (v : Nat) (r : Regs) :
    execLine ("\tldx\t#$" ++ hex2 v) r = some { r with x := v % 256 } := by
  have hl : "\tldx\t#$".data.length = 7 := by decide
  unfold execLine
  simp only [String.data_append, List.take_left' hl, List.drop_left' hl]
  rw [show hex2 v = hexW 2 v from rfl, readHex_hexW]
  rfl

theorem execLine_ora (v : Nat) (r : Regs) :
    execLine ("\tora\t#$" ++ hex2 v) r = some { r with a := r.a ||| v % 256 } := by
  have hl : "\tora\t#$".data.length = 7 := by decide
  unfold execLine
  simp only [String.data_append, List.take_left' hl, List.drop_left' hl]
  rw [show hex2 v = hexW 2 v from rfl, readHex_hexW]
  rfl

theorem execDword_hex8 (v : Nat) :
    execDword ("\t.dword\t$" ++ hex8 v)
      = some { a := v % 256, x := v / 256 % 256, sreg := v / 65536 % 256,
               sreg1 := v / 16777216 % 256 } := by
  have hl : "\t.dword\t$".data.length = 9 := by decide
  unfold execDword
  simp only [String.data_append, List.take_left' hl, List.drop_left' hl]
  rw [show hex8 v = hexW 8 v from rfl, readHex_hexW]
  rfl


theorem append_ne_lit (q x c : String)
    (h : q.data.take c.data.length ≠ c.data.take q.data.length) : q ++ x ≠ c := by
  intro e
  have h2 := line_ne q x c "" h
  apply h2
  rw [e, String.append_empty]

theorem exec_line (t : String) (rest : List Out) (r r1 : Regs) (hne : t ≠ "\tjsr\tldeax")
    (h : execLine t r = some r1) : exec (Out.line t :: rest) r = exec rest r1 := by
  cases rest with
  | nil => simp only [exec, if_neg hne, h]
  | cons o rest2 => cases o <;> simp only [exec, if_neg hne, h]

theorem exec_ldeax (d : String) (rest : List Out) (r r1 : Regs)
    (h : execDword d = some r1) :
    exec (Out.line "\tjsr\tldeax" :: Out.line d :: rest) r = exec rest r1 := by
  simp only [exec, if_true, h]

theorem exec_lda (v : Nat) (rest : List Out) (r : Regs) :
    exec (Out.line ("\tlda\t#$" ++ hex2 v) :: rest) r = exec rest { r with a := v % 256 } :=
  exec_line _ _ _ _ (append_ne_lit _ _ _ (by decide)) (execLine_lda v r)

theorem exec_ldx (v : Nat) (rest : List Out) (r : Regs) :
    exec (Out.line ("\tldx\t#$" ++ hex2 v) :: rest) r = exec rest { r with x := v % 256 } :=
  exec_line _ _ _ _ (append_ne_lit _ _ _ (by decide)) (execLine_ldx v r)

theorem exec_ldx_00 (rest : List Out) (r : Regs) :
    exec (Out.line "\tldx\t#$00" :: rest) r = exec rest { r with x := 0 } :=
  exec_line _ _ _ _ (by decide) rfl

theorem exec_lda_00 (rest : List Out) (r : Regs) :
    exec (Out.line "\tlda\t#$00" :: rest) r = exec rest { r with a := 0 } :=
  exec_line _ _ _ _ (by decide) rfl

theorem exec_ldx_FF (rest : List Out) (r : Regs) :
    exec (Out.line "\tldx\t#$FF" :: rest) r = exec rest { r with x := 255 } :=
  exec_line _ _ _ _ (by decide) rfl

theorem exec_lda_FF (rest : List Out) (r : Regs) :
    exec (Out.line "\tlda\t#$FF" :: rest) r = exec rest { r with a := 255 } :=
  exec_line _ _ _ _ (by decide) rfl

theorem exec_txa (rest : List Out) (r : Regs) :
    exec (Out.line "\ttxa" :: rest) r = exec rest { r with a := r.x } :=
  exec_line _ _ _ _ (by decide) rfl

theorem exec_sta_sreg (rest : List Out) (r : Regs) :
    exec (Out.line "\tsta\tsreg" :: rest) r = exec rest { r with sreg := r.a } :=
  exec_line _ _ _ _ (by decide) rfl

theorem exec_sta_sreg1 (rest : List Out) (r : Regs) :
    exec (Out.line "\tsta\tsreg+1" :: rest) r = exec rest { r with sreg1 := r.a } :=
  exec_line _ _ _ _ (by decide) rfl

theorem exec_stx_sreg (rest : List Out) (r : Regs) :
    exec (Out.line "\tstx\tsreg" :: rest) r = exec rest { r with sreg := r.x } :=
  exec_line _ _ _ _ (by decide) rfl

theorem exec_stx_sreg1 (rest : List Out) (r : Regs) :
    exec (Out.line "\tstx\tsreg+1" :: rest) r = exec rest { r with sreg1 := r.x } :=
  exec_line _ _ _ _ (by decide) rfl

theorem and_and_FF (a b : Nat) : (a &&& b) &&& 0xFF = (a &&& 0xFF) &&& (b &&& 0xFF) := by
  apply Nat.eq_of_testBit_eq
  intro i
  simp only [Nat.testBit_and]
  cases a.testBit i <;> cases b.testBit i <;> cases (0xFF : Nat).testBit i <;> rfl

/-- A byte of `v` under a mask whose byte at that place is `0xFF`. -/
theorem byte_mask {v m c : Nat} (h : v &&& m = c) (k : Nat) (hm : m / 2 ^ k % 256 = 255) :
    v / 2 ^ k % 256 = c / 2 ^ k % 256 := by
  have e : (v &&& m) / 2 ^ k % 256 = (v / 2 ^ k % 256) &&& (m / 2 ^ k % 256) := by
    rw [← Nat.shiftRight_eq_div_pow, ← Nat.shiftRight_eq_div_pow, ← Nat.shiftRight_eq_div_pow,
      ← and_FF, ← and_FF, ← and_FF]
    apply Nat.eq_of_testBit_eq
    intro i
    simp only [Nat.testBit_and, Nat.testBit_shiftRight]
    cases v.testBit (k + i) <;> cases m.testBit (k + i) <;> cases (0xFF : Nat).testBit i <;> rfl
  rw [h, hm, and_FF, Nat.mod_mod] at e
  exact e.symm


theorem exec_nil (r : Regs) : exec [] r = some r := by
  simp only [exec]

/-- C30: for every flag encoding that satisfies `Env.WF`, either `FavourSize`
setting, every constant long descriptor and every constant `val`,
`g_getimmed` returns, and the code it emits, read as 6502 instructions from
any initial register contents, leaves in `sreg+1`, `sreg`, X and A the four
bytes of `val`, most significant first: the primary register holds
`val mod 2^32`. This covers the shortened shapes (upper bytes all zero, upper
bytes all `0xFF`) and the general one (`jsr ldeax` with its `.dword`
operand). -/
theorem C30_getimmed_long_value (E : Env) (hE : E.WF) (flags val : Nat)
    (hl : IsLong E flags) (hc : IsConst E flags) (s : State) (r0 : Regs) :
    ∃ s1 code r, g_getimmed E flags val 0 s = Res.ok () s1
      ∧ s1.out = s.out ++ code
      ∧ exec code r0 = some r
      ∧ r.sreg1 = val / 2 ^ 24 % 256 ∧ r.sreg = val / 2 ^ 16 % 256
      ∧ r.x = val / 2 ^ 8 % 256 ∧ r.a = val % 256
      ∧ r.eax = val % 2 ^ 32 := by
  have hl2 : flags &&& E.CF_TYPE = E.CF_LONG := hl
  have hc2 : flags &&& E.CF_CONST ≠ 0 := hc
  obtain ⟨n1, n2⟩ := long_not_word E hE hl2
  have c1 : ¬ (flags &&& E.CF_TYPE = E.CF_CHAR ∧ flags &&& E.CF_FORCECHAR ≠ 0) :=
    fun h => n1 h.1
  have c2 : ¬ (flags &&& E.CF_TYPE = E.CF_CHAR ∨ flags &&& E.CF_TYPE = E.CF_INT) := by
    rintro (h | h)
    · exact n1 h
    · exact n2 h
  have hsh : (val >>> 8) % 256 = val / 2 ^ 8 % 256 := by rw [Nat.shiftRight_eq_div_pow]
  have key : ∀ r : Regs, r.sreg1 = val / 2 ^ 24 % 256 → r.sreg = val / 2 ^ 16 % 256 →
      r.x = val / 2 ^ 8 % 256 → r.a = val % 256 →
      r.sreg1 = val / 2 ^ 24 % 256 ∧ r.sreg = val / 2 ^ 16 % 256
      ∧ r.x = val / 2 ^ 8 % 256 ∧ r.a = val % 256 ∧ r.eax = val % 2 ^ 32 := by
    intro r h3 h2 h1 h0
    refine ⟨h3, h2, h1, h0, ?_⟩
    unfold Regs.eax
    rw [h3, h2, h1, h0]
    norm_num
    omega
  unfold g_getimmed
  simp only [if_pos hc2, if_neg c1, if_neg c2, if_pos hl2]
  by_cases k1 : val < 0x100
  · simp only [if_pos k1, Gen.bind_run, AddCodeLine]
    refine ⟨_, [Out.line "\tldx\t#$00", Out.line "\tstx\tsreg+1", Out.line "\tstx\tsreg",
        Out.line ("\tlda\t#$" ++ hex2 (val % 256))],
      { a := val % 256 % 256, x := 0, sreg := 0, sreg1 := 0 }, rfl, ?_, ?_, ?_⟩
    · simp only [List.append_assoc, List.singleton_append, List.cons_append, List.nil_append]
    · rw [exec_ldx_00, exec_stx_sreg1, exec_stx_sreg, exec_lda, exec_nil]
    · refine key _ ?_ ?_ ?_ ?_ <;> simp only <;> norm_num <;> omega
  · simp only [if_neg k1]
    by_cases k2 : val &&& 0xFFFF00FF = 0
    · have b0 := byte_mask k2 0 (by decide)
      have b2 := byte_mask k2 16 (by decide)
      have b3 := byte_mask k2 24 (by decide)
      norm_num at b0 b2 b3
      simp only [if_pos k2, Gen.bind_run, AddCodeLine]
      refine ⟨_, [Out.line "\tlda\t#$00", Out.line "\tsta\tsreg+1", Out.line "\tsta\tsreg",
          Out.line ("\tldx\t#$" ++ hex2 ((val >>> 8) % 256))],
        { a := 0, x := (val >>> 8) % 256 % 256, sreg := 0, sreg1 := 0 }, rfl, ?_, ?_, ?_⟩
      · simp only [List.append_assoc, List.singleton_append, List.cons_append, List.nil_append]
      · rw [exec_lda_00, exec_sta_sreg1, exec_sta_sreg, exec_ldx, exec_nil]
      · refine key _ ?_ ?_ ?_ ?_ <;> simp only [hsh] <;> norm_num <;> omega
    · simp only [if_neg k2]
      by_cases k3 : val &&& 0xFFFF0000 = 0 ∧ E.FavourSize = 0
      · have b2 := byte_mask k3.1 16 (by decide)
        have b3 := byte_mask k3.1 24 (by decide)
        norm_num at b2 b3
        simp only [if_pos k3, Gen.bind_run, AddCodeLine]
        refine ⟨_, [Out.line "\tlda\t#$00", Out.line "\tsta\tsreg+1", Out.line "\tsta\tsreg",
            Out.line ("\tlda\t#$" ++ hex2 (val % 256)),
            Out.line ("\tldx\t#$" ++ hex2 ((val >>> 8) % 256))],
          { a := val % 256 % 256, x := (val >>> 8) % 256 % 256, sreg := 0, sreg1 := 0 },
          rfl, ?_, ?_, ?_⟩
        · simp only [List.append_assoc, List.singleton_append, List.cons_append,
            List.nil_append]
        · rw [exec_lda_00, exec_sta_sreg1, exec_sta_sreg, exec_lda, exec_ldx, exec_nil]
        · refine key _ ?_ ?_ ?_ ?_ <;> simp only [hsh] <;> norm_num <;> omega
      · simp only [if_neg k3]
        by_cases k4 : val &&& 0xFFFFFF00 = 0xFFFFFF00
        · have b1 := byte_mask k4 8 (by decide)
          have b2 := byte_mask k4 16 (by decide)
          have b3 := byte_mask k4 24 (by decide)
          norm_num at b1 b2 b3
          simp only [if_pos k4]
          by_cases k5 : val &&& 0xFF = 0xFF
          · have b0 : val % 256 = 255 := by rw [← and_FF]; exact k5
            simp only [if_pos k5, Gen.bind_run, AddCodeLine]
            refine ⟨_, [Out.line "\tldx\t#$FF", Out.line "\tstx\tsreg+1",
                Out.line "\tstx\tsreg", Out.line "\ttxa"],
              { a := 255, x := 255, sreg := 255, sreg1 := 255 }, rfl, ?_, ?_, ?_⟩
            · simp only [List.append_assoc, List.singleton_append, List.cons_append,
                List.nil_append]
            · rw [exec_ldx_FF, exec_stx_sreg1, exec_stx_sreg, exec_txa, exec_nil]
            · refine key _ ?_ ?_ ?_ ?_ <;> simp only <;> norm_num <;> omega
          · simp only [if_neg k5, Gen.bind_run, AddCodeLine]
            refine ⟨_, [Out.line "\tldx\t#$FF", Out.line "\tstx\tsreg+1",
                Out.line "\tstx\tsreg", Out.line ("\tlda\t#$" ++ hex2 (val % 256))],
              { a := val % 256 % 256, x := 255, sreg := 255, sreg1 := 255 }, rfl, ?_, ?_, ?_⟩
            · simp only [List.append_assoc, List.singleton_append, List.cons_append,
                List.nil_append]
            · rw [exec_ldx_FF, exec_stx_sreg1, exec_stx_sreg, exec_lda, exec_nil]
            · refine key _ ?_ ?_ ?_ ?_ <;> simp only <;> norm_num <;> omega
        · simp only [if_neg k4]
          by_cases k6 : val &&& 0xFFFF00FF = 0xFFFF00FF
          · have b0 := byte_mask k6 0 (by decide)
            have b2 := byte_mask k6 16 (by decide)
            have b3 := byte_mask k6 24 (by decide)
            norm_num at b0 b2 b3
            simp only [if_pos k6, Gen.bind_run, AddCodeLine]
            refine ⟨_, [Out.line "\tlda\t#$FF", Out.line "\tsta\tsreg+1",
                Out.line "\tsta\tsreg", Out.line ("\tldx\t#$" ++ hex2 ((val >>> 8) % 256))],
              { a := 255, x := (val >>> 8) % 256 % 256, sreg := 255, sreg1 := 255 },
              rfl, ?_, ?_, ?_⟩
            · simp only [List.append_assoc, List.singleton_append, List.cons_append,
                List.nil_append]
            · rw [exec_lda_FF, exec_sta_sreg1, exec_sta_sreg, exec_ldx, exec_nil]
            · refine key _ ?_ ?_ ?_ ?_ <;> simp only [hsh] <;> norm_num <;> omega
          · have hm : val &&& 0xFFFFFFFF = val % 2 ^ 32 :=
              Nat.and_pow_two_sub_one_eq_mod val 32
            simp only [if_neg k6, Gen.bind_run, AddCodeLine]
            refine ⟨_, [Out.line "\tjsr\tldeax",
                Out.line ("\t.dword\t$" ++ hex8 (val &&& 0xFFFFFFFF))],
              { a := val % 2 ^ 32 % 256, x := val % 2 ^ 32 / 256 % 256,
                sreg := val % 2 ^ 32 / 65536 % 256,
                sreg1 := val % 2 ^ 32 / 16777216 % 256 }, rfl, ?_, ?_, ?_⟩
            · simp only [List.append_assoc, List.singleton_append, List.cons_append,
                List.nil_append]
            · rw [exec_ldeax _ _ _ _ (execDword_hex8 _), exec_nil, hm]
            · refine key _ ?_ ?_ ?_ ?_ <;> simp only <;> norm_num <;> omega

/-- Witness of C30: the constant `0xFFFF12FF`, from arbitrary register
contents. -/
theorem C30_witness :
    cc65Env.WF ∧ IsLong cc65Env (cc65Env.CF_LONG ||| cc65Env.CF_CONST)
    ∧ IsConst cc65Env (cc65Env.CF_LONG ||| cc65Env.CF_CONST)
    ∧ ∃ s1 code r,
      g_getimmed cc65Env (cc65Env.CF_LONG ||| cc65Env.CF_CONST) 0xFFFF12FF 0 State.init
        = Res.ok () s1
      ∧ s1.out = State.init.out ++ code
      ∧ exec code { a := 1, x := 2, sreg := 3, sreg1 := 4 } = some r
      ∧ r.sreg1 = 0xFFFF12FF / 2 ^ 24 % 256 ∧ r.sreg = 0xFFFF12FF / 2 ^ 16 % 256
      ∧ r.x = 0xFFFF12FF / 2 ^ 8 % 256 ∧ r.a = 0xFFFF12FF % 256
      ∧ r.eax = 0xFFFF12FF % 2 ^ 32 :=
  ⟨cc65Env_wf, by decide, by decide,
    C30_getimmed_long_value cc65Env cc65Env_wf (cc65Env.CF_LONG ||| cc65Env.CF_CONST)
      0xFFFF12FF (by decide) (by decide) State.init { a := 1, x := 2, sreg := 3, sreg1 := 4 }⟩

/-! ## Baseline CPU (C27) -/

theorem EO_ite_cpu {α : Type} {P : Out → Prop} {E : Env} (hcpu : E.CPU ≠ E.CPU_65C02)
    {q : Prop} [Decidable q] {g1 g2 : Gen α} (h2 : EmitsOnly P g2) :
    EmitsOnly P (if E.CPU = E.CPU_65C02 ∧ q then g1 else g2) := by
  rw [if_neg (fun h => hcpu h.1)]
  exact h2

theorem EO_hint {P : Out → Prop} {t : String} (h : P (Out.hint t)) :
    EmitsOnly P (AddCodeHint t) :=
  fun s => ⟨[Out.hint t], by simp [AddCodeHint, Res.state], by simpa using h⟩

theorem EO_Error (P : Out → Prop) (d : Diag) : EmitsOnly P (Error d) :=
  fun s => ⟨[], by simp [Error, Res.state], by simp⟩

theorem EO_getOursp (P : Out → Prop) : EmitsOnly P getOursp :=
  fun s => ⟨[], by simp [getOursp, Res.state], by simp⟩

theorem EO_GetLabel (P : Out → Prop) : EmitsOnly P GetLabel :=
  fun s => ⟨[], by simp [GetLabel, Res.state], by simp⟩

/-- A line with a literal start that differs from every extended idiom on
the common length is legal on the baseline CPU. -/
theorem baseline_of_start (q x : String)
    (h : ∀ c ∈ extendedIdioms, q.data.take c.data.length ≠ c.data.take q.data.length) :
    IsBaseline (Out.line (q ++ x)) := by
  unfold IsBaseline
  rw [List.mem_map]
  rintro ⟨c, hc, e⟩
  exact append_ne_lit q x c (h c hc) (Out.line.inj e).symm

/-- A load or store of a cell named by `GetLabelName` is no stack-pointer
indirect access: the name does not start with a parenthesis. -/
theorem baseline_label (p lbuf x : String) (hp : p = "\tlda\t" ∨ p = "\tsta\t")
    (hg : ∃ c rest, lbuf.data = c :: rest ∧ c ≠ '(') :
    IsBaseline (Out.line (p ++ lbuf ++ x)) := by
  obtain ⟨c, rest, hd, hc⟩ := hg
  unfold IsBaseline extendedIdioms
  intro hm
  simp only [List.map_cons, List.map_nil, List.mem_cons, List.mem_singleton, Out.line.injEq,
    List.not_mem_nil, or_false] at hm
  have key : ∀ t : String, (p ++ lbuf ++ x = t) →
      (p ++ lbuf ++ x).data = t.data := fun t e => by rw [e]
  rcases hp with rfl | rfl <;> rcases hm with h | h | h | h <;>
    · have h2 := key _ h
      simp [String.data_append, hd] at h2
      try exact hc h2.1

theorem CheckLocalOffs_baseline (n : Nat) : EmitsOnly IsBaseline (CheckLocalOffs n) := by
  unfold CheckLocalOffs
  exact EO_ite (EO_bind (EO_line (by decide)) (fun _ => EO_Error _ _)) (EO_pure _ _)

theorem ldaconst_baseline (v : Nat) : EmitsOnly IsBaseline (ldaconst v) :=
  EO_line (baseline_of_start _ _ (by decide))

theorem ldxconst_baseline (v : Nat) : EmitsOnly IsBaseline (ldxconst v) :=
  EO_line (baseline_of_start _ _ (by decide))

theorem ldyconst_baseline (v : Nat) : EmitsOnly IsBaseline (ldyconst v) :=
  EO_line (baseline_of_start _ _ (by decide))

theorem jsrSub_baseline (subs : Subs) (i : Nat) : EmitsOnly IsBaseline (jsrSub subs i) :=
  EO_line (baseline_of_start _ _ (by decide))

theorem g_getimmed_baseline (E : Env) (flags val offs : Nat) :
    EmitsOnly IsBaseline (g_getimmed E flags val offs) := by
  unfold g_getimmed
  repeat' with_reducible (first
    | exact EO_pure _ _
    | exact ldaconst_baseline _
    | exact ldxconst_baseline _
    | exact EO_typeerror _ _ _
    | exact EO_GetLabelName _ _ _ _ _
    | refine EO_line ?_
    | refine EO_bind ?_ (fun _ => ?_)
    | refine EO_ite ?_ ?_)
  all_goals first
    | decide
    | exact baseline_of_start _ _ (by decide)

theorem g_push_baseline (E : Env) (flags val : Nat) :
    EmitsOnly IsBaseline (g_push E flags val) := by
  unfold g_push
  repeat' with_reducible (first
    | exact EO_pure _ _
    | exact ldaconst_baseline _
    | exact EO_typeerror _ _ _
    | exact g_getimmed_baseline _ _ _ _
    | exact EO_push _ _ _
    | refine EO_line ?_
    | refine EO_bind ?_ (fun _ => ?_)
    | refine EO_ite ?_ ?_)
  all_goals first
    | decide
    | exact baseline_of_start _ _ (by decide)

theorem oper_baseline (E : Env) (flags val : Nat) (subs : Subs) :
    EmitsOnly IsBaseline (oper E flags val subs) := by
  unfold oper
  repeat' with_reducible (first
    | exact EO_pure _ _
    | exact jsrSub_baseline _ _
    | exact ldaconst_baseline _
    | exact EO_typeerror _ _ _
    | exact g_getimmed_baseline _ _ _ _
    | exact EO_pop _ _ _
    | refine EO_bind ?_ (fun _ => ?_)
    | refine EO_ite ?_ ?_)

theorem g_add_baseline (E : Env) (flags val : Nat) :
    EmitsOnly IsBaseline (g_add E flags val) := by
  unfold g_add
  exact EO_ite (EO_bind (g_push_baseline _ _ _) (fun _ => oper_baseline _ _ _ _))
    (oper_baseline _ _ _ _)

theorem g_sub_baseline (E : Env) (flags val : Nat) :
    EmitsOnly IsBaseline (g_sub E flags val) := by
  unfold g_sub
  exact EO_ite (EO_bind (g_push_baseline _ _ _) (fun _ => oper_baseline _ _ _ _))
    (oper_baseline _ _ _ _)

theorem g_inc_baseline (E : Env) (hcpu : E.CPU ≠ E.CPU_65C02) (flags val : Nat) :
    EmitsOnly IsBaseline (g_inc E flags val) := by
  unfold g_inc
  repeat' with_reducible (first
    | exact EO_pure _ _
    | exact ldyconst_baseline _
    | exact EO_typeerror _ _ _
    | exact g_add_baseline _ _ _
    | refine EO_line ?_
    | refine EO_hint ?_
    | refine EO_bind ?_ (fun _ => ?_)
    | refine EO_ite_cpu hcpu ?_
    | refine EO_ite ?_ ?_)
  all_goals first
    | decide
    | exact baseline_of_start _ _ (by decide)

theorem g_dec_baseline (E : Env) (hcpu : E.CPU ≠ E.CPU_65C02) (flags val : Nat) :
    EmitsOnly IsBaseline (g_dec E flags val) := by
  unfold g_dec
  repeat' with_reducible (first
    | exact EO_pure _ _
    | exact ldyconst_baseline _
    | exact EO_typeerror _ _ _
    | exact g_sub_baseline _ _ _
    | refine EO_line ?_
    | refine EO_hint ?_
    | refine EO_bind ?_ (fun _ => ?_)
    | refine EO_ite_cpu hcpu ?_
    | refine EO_ite ?_ ?_)
  all_goals first
    | decide
    | exact baseline_of_start _ _ (by decide)

theorem MakeByteOffs_baseline (E : Env) (hcpu : E.CPU ≠ E.CPU_65C02) (Flags Offs : Nat) :
    EmitsOnly IsBaseline (MakeByteOffs E Flags Offs) := by
  unfold MakeByteOffs
  repeat' with_reducible (first
    | exact EO_pure _ _
    | exact EO_sizeofarg _ _ _
    | exact g_inc_baseline E hcpu _ _
    | refine EO_bind ?_ (fun _ => ?_)
    | refine EO_ite ?_ ?_)

theorem g_getind_baseline (E : Env) (hcpu : E.CPU ≠ E.CPU_65C02) (flags offs : Nat) :
    EmitsOnly IsBaseline (g_getind E flags offs) := by
  unfold g_getind
  repeat' with_reducible (first
    | exact EO_pure _ _
    | exact ldyconst_baseline _
    | exact EO_typeerror _ _ _
    | exact MakeByteOffs_baseline E hcpu _ _
    | refine EO_line ?_
    | refine EO_bind ?_ (fun _ => ?_)
    | refine EO_ite ?_ ?_)
  all_goals decide

theorem g_putind_baseline (E : Env) (flags offs : Nat) :
    EmitsOnly IsBaseline (g_putind E flags offs) := by
  unfold g_putind
  repeat' with_reducible (first
    | exact EO_pure _ _
    | exact ldyconst_baseline _
    | exact EO_typeerror _ _ _
    | exact EO_Internal _ _
    | exact EO_sizeofarg _ _ _
    | exact EO_pop _ _ _
    | refine EO_line ?_
    | refine EO_bind ?_ (fun _ => ?_)
    | refine EO_ite ?_ ?_)
  all_goals decide

theorem g_getlocal_baseline (E : Env) (hcpu : E.CPU ≠ E.CPU_65C02) (flags : Nat) (offs : Int) :
    EmitsOnly IsBaseline (g_getlocal E flags offs) := by
  unfold g_getlocal
  repeat' with_reducible (first
    | exact EO_pure _ _
    | exact EO_getOursp _
    | exact CheckLocalOffs_baseline _
    | exact ldyconst_baseline _
    | exact EO_typeerror _ _ _
    | refine EO_line ?_
    | refine EO_hint ?_
    | refine EO_bind ?_ (fun _ => ?_)
    | refine EO_ite_cpu hcpu ?_
    | refine EO_ite ?_ ?_)
  all_goals decide

theorem g_putlocal_baseline (E : Env) (hcpu : E.CPU ≠ E.CPU_65C02) (flags : Nat) (offs : Int) :
    EmitsOnly IsBaseline (g_putlocal E flags offs) := by
  unfold g_putlocal
  repeat' with_reducible (first
    | exact EO_pure _ _
    | exact EO_getOursp _
    | exact CheckLocalOffs_baseline _
    | exact ldyconst_baseline _
    | exact EO_typeerror _ _ _
    | refine EO_line ?_
    | refine EO_hint ?_
    | refine EO_bind ?_ (fun _ => ?_)
    | refine EO_ite_cpu hcpu ?_
    | refine EO_ite ?_ ?_)
  all_goals decide

theorem g_leasp_baseline (E : Env) (hcpu : E.CPU ≠ E.CPU_65C02) (offs : Int) :
    EmitsOnly IsBaseline (g_leasp E offs) := by
  unfold g_leasp
  repeat' with_reducible (first
    | exact EO_pure _ _
    | exact EO_getOursp _
    | exact ldaconst_baseline _
    | refine EO_line ?_
    | refine EO_hint ?_
    | refine EO_bind ?_ (fun _ => ?_)
    | refine EO_ite_cpu hcpu ?_
    | refine EO_ite ?_ ?_)
  all_goals decide

theorem g_addeqind_baseline (E : Env) (hcpu : E.CPU ≠ E.CPU_65C02) (flags offs val : Nat) :
    EmitsOnly IsBaseline (g_addeqind E flags offs val) := by
  unfold g_addeqind
  repeat' with_reducible (first
    | exact EO_pure _ _
    | exact EO_typeerror _ _ _
    | exact EO_push _ _ _
    | exact MakeByteOffs_baseline E hcpu _ _
    | exact g_getind_baseline E hcpu _ _
    | exact g_inc_baseline E hcpu _ _
    | exact g_putind_baseline _ _ _
    | refine EO_line ?_
    | refine EO_bind ?_ (fun _ => ?_)
    | refine EO_ite ?_ ?_)
  all_goals first
    | decide
    | exact baseline_of_start _ _ (by decide)

theorem g_subeqind_baseline (E : Env) (hcpu : E.CPU ≠ E.CPU_65C02) (flags offs val : Nat) :
    EmitsOnly IsBaseline (g_subeqind E flags offs val) := by
  unfold g_subeqind
  repeat' with_reducible (first
    | exact EO_pure _ _
    | exact EO_typeerror _ _ _
    | exact EO_push _ _ _
    | exact MakeByteOffs_baseline E hcpu _ _
    | exact g_getind_baseline E hcpu _ _
    | exact g_dec_baseline E hcpu _ _
    | exact g_putind_baseline _ _ _
    | refine EO_line ?_
    | refine EO_bind ?_ (fun _ => ?_)
    | refine EO_ite ?_ ?_)
  all_goals first
    | decide
    | exact baseline_of_start _ _ (by decide)


theorem baseline_label0 (p lbuf : String) (hp : p = "\tlda\t" ∨ p = "\tsta\t")
    (hg : ∃ c rest, lbuf.data = c :: rest ∧ c ≠ '(') :
    IsBaseline (Out.line (p ++ lbuf)) := by
  have h := baseline_label p lbuf "" hp hg
  rwa [String.append_empty] at h

/-- What follows the computation of a label name sees a name that does not
start with a parenthesis. -/
theorem EO_bind_label {α : Type} {P : Out → Prop} (E : Env) (flags label offs : Nat)
    {f : String → Gen α}
    (h : ∀ lbuf, (∃ c rest, lbuf.data = c :: rest ∧ c ≠ '(') → EmitsOnly P (f lbuf)) :
    EmitsOnly P (GetLabelName E flags label offs >>= f) := by
  intro s
  unfold GetLabelName
  by_cases h1 : flags &&& E.CF_ADDRMASK = E.CF_STATIC
  · simp only [if_pos h1, Gen.bind_run, Gen.pure_run]
    exact h _ ⟨'L', _, by simp only [String.data_append]; rfl, by decide⟩ s
  · by_cases h2 : flags &&& E.CF_ADDRMASK = E.CF_EXTERNAL
    · simp only [if_neg h1, if_pos h2, Gen.bind_run, Gen.pure_run]
      exact h _ ⟨'_', _, by simp only [String.data_append]; rfl, by decide⟩ s
    · by_cases h3 : flags &&& E.CF_ADDRMASK = E.CF_ABSOLUTE
      · simp only [if_neg h1, if_neg h2, if_pos h3, Gen.bind_run, Gen.pure_run]
        exact h _ ⟨'$', _, by simp only [String.data_append]; rfl, by decide⟩ s
      · by_cases h4 : flags &&& E.CF_ADDRMASK = E.CF_REGVAR
        · simp only [if_neg h1, if_neg h2, if_neg h3, if_pos h4, Gen.bind_run, Gen.pure_run]
          exact h _ ⟨'r', _, by simp only [String.data_append]; rfl, by decide⟩ s
        · simp only [if_neg h1, if_neg h2, if_neg h3, if_neg h4, Gen.bind_run, Internal]
          exact ⟨[], by simp [Res.state], by simp⟩

theorem g_defloclabel_baseline (l : Nat) : EmitsOnly IsBaseline (g_defloclabel l) := by
  unfold g_defloclabel
  refine EO_line ?_
  rw [String.append_assoc]
  exact baseline_of_start _ _ (by decide)

theorem g_getstatic_baseline (E : Env) (flags label offs : Nat) :
    EmitsOnly IsBaseline (g_getstatic E flags label offs) := by
  unfold g_getstatic
  refine EO_bind_label _ _ _ _ (fun lbuf hg => ?_)
  repeat' with_reducible (first
    | exact EO_pure _ _
    | exact ldxconst_baseline _
    | exact EO_typeerror _ _ _
    | refine EO_line ?_
    | refine EO_hint ?_
    | refine EO_bind ?_ (fun _ => ?_)
    | refine EO_ite ?_ ?_)
  all_goals first
    | decide
    | exact baseline_of_start _ _ (by decide)
    | (rw [String.append_assoc]; exact baseline_of_start _ _ (by decide))
    | exact baseline_label _ _ _ (Or.inl rfl) hg
    | exact baseline_label0 _ _ (Or.inl rfl) hg

theorem g_putstatic_baseline (E : Env) (flags label offs : Nat) :
    EmitsOnly IsBaseline (g_putstatic E flags label offs) := by
  unfold g_putstatic
  refine EO_bind_label _ _ _ _ (fun lbuf hg => ?_)
  repeat' with_reducible (first
    | exact EO_pure _ _
    | exact EO_typeerror _ _ _
    | refine EO_line ?_
    | refine EO_bind ?_ (fun _ => ?_)
    | refine EO_ite ?_ ?_)
  all_goals first
    | decide
    | (rw [String.append_assoc]; exact baseline_of_start _ _ (by decide))
    | exact baseline_label _ _ _ (Or.inr rfl) hg
    | exact baseline_label0 _ _ (Or.inr rfl) hg

theorem g_addeqstatic_baseline (E : Env) (hcpu : E.CPU ≠ E.CPU_65C02)
    (flags label offs val : Nat) :
    EmitsOnly IsBaseline (g_addeqstatic E flags label offs val) := by
  unfold g_addeqstatic
  refine EO_bind_label _ _ _ _ (fun lbuf hg => ?_)
  repeat' with_reducible (first
    | exact EO_pure _ _
    | exact EO_typeerror _ _ _
    | exact EO_GetLabel _
    | exact g_defloclabel_baseline _
    | exact g_getstatic_baseline _ _ _ _
    | exact g_inc_baseline E hcpu _ _
    | exact g_putstatic_baseline _ _ _ _
    | refine EO_line ?_
    | refine EO_hint ?_
    | refine EO_bind ?_ (fun _ => ?_)
    | refine EO_ite ?_ ?_)
  all_goals first
    | decide
    | exact baseline_of_start _ _ (by decide)
    | (rw [String.append_assoc]; exact baseline_of_start _ _ (by decide))
    | exact baseline_label _ _ _ (Or.inl rfl) hg
    | exact baseline_label _ _ _ (Or.inr rfl) hg
    | exact baseline_label0 _ _ (Or.inl rfl) hg
    | exact baseline_label0 _ _ (Or.inr rfl) hg

/-- C27: when the configured CPU is not the 65C02, nothing that `g_getlocal`,
`g_putlocal`, `g_leasp`, `g_inc`, `g_dec`, or the operations built on them
(`MakeByteOffs`, `g_getind`, `g_putind`, `g_addeqind`, `g_subeqind`, `g_addeqstatic`)
emit is one of the extended idioms `ina`, `dea`, `lda (sp)`, `sta (sp)`, for
every descriptor, offset, label and value, from every state, whether the
operation returns or aborts. -/
theorem C27_baseline_cpu (E : Env) (hcpu : E.CPU ≠ E.CPU_65C02) :
    (∀ flags offs, EmitsOnly IsBaseline (g_getlocal E flags offs))
    ∧ (∀ flags offs, EmitsOnly IsBaseline (g_putlocal E flags offs))
    ∧ (∀ offs, EmitsOnly IsBaseline (g_leasp E offs))
    ∧ (∀ flags val, EmitsOnly IsBaseline (g_inc E flags val))
    ∧ (∀ flags val, EmitsOnly IsBaseline (g_dec E flags val))
    ∧ (∀ flags offs, EmitsOnly IsBaseline (MakeByteOffs E flags offs))
    ∧ (∀ flags offs, EmitsOnly IsBaseline (g_getind E flags offs))
    ∧ (∀ flags offs, EmitsOnly IsBaseline (g_putind E flags offs))
    ∧ (∀ flags offs val, EmitsOnly IsBaseline (g_addeqind E flags offs val))
    ∧ (∀ flags offs val, EmitsOnly IsBaseline (g_subeqind E flags offs val))
    ∧ (∀ flags label offs val, EmitsOnly IsBaseline (g_addeqstatic E flags label offs val)) :=
  ⟨g_getlocal_baseline E hcpu, g_putlocal_baseline E hcpu, g_leasp_baseline E hcpu,
    g_inc_baseline E hcpu, g_dec_baseline E hcpu, MakeByteOffs_baseline E hcpu,
    g_getind_baseline E hcpu, g_putind_baseline E,
    g_addeqind_baseline E hcpu, g_subeqind_baseline E hcpu,
    g_addeqstatic_baseline E hcpu⟩

/-- Witness of C27: the baseline configuration, a forced byte at the top of
the stack. -/
theorem C27_witness :
    cc65Env.CPU ≠ cc65Env.CPU_65C02
    ∧ EmitsOnly IsBaseline
        (g_getlocal cc65Env (cc65Env.CF_CHAR ||| cc65Env.CF_FORCECHAR) 0)
    ∧ EmitsOnly IsBaseline (g_inc cc65Env (cc65Env.CF_CHAR ||| cc65Env.CF_FORCECHAR) 1) :=
  ⟨by decide, (C27_baseline_cpu cc65Env (by decide)).1 _ _,
    (C27_baseline_cpu cc65Env (by decide)).2.2.2.1 _ _⟩

/-! ## The address of a stack cell has no range check (C33) -/

/-- C33 fails on the code: `g_leasp` never calls `CheckLocalOffs`. With the
effective offset 256 it raises no diagnostic and loads A with `$00` (256
truncated to a byte), with either `FavourSize` setting; with the effective
offset -1 it loads `$FF`, again without a diagnostic. The sibling
`g_getlocal` raises the too-many-locals diagnostic at the offset 256. -/
theorem C33_leasp_truncates :
    g_leasp cc65Env 256 State.init
      = Res.ok () { State.init with
          out := [Out.line "\tlda\t#$00", Out.line "\tclc", Out.line "\tldx\tsp+1",
                  Out.line "\tadc\tsp", Out.line "\tbcc\t*+3", Out.line "\tinx",
                  Out.hint "x:!"] }
    ∧ (256 : Int) - State.init.oursp = 256
    ∧ (g_leasp cc65Env 256 State.init).state.diags = []
    ∧ g_leasp cc65EnvSize 256 State.init
      = Res.ok () { State.init with
          out := [Out.line "\tlda\t#$00", Out.line "\tjsr\tleaasp"] }
    ∧ (g_leasp cc65Env (-1) State.init).state.diags = []
    ∧ (g_leasp cc65Env (-1) State.init).state.out.head? = some (Out.line "\tlda\t#$FF")
    ∧ Diag.ERR_TOO_MANY_LOCALS
        ∈ (g_getlocal cc65Env cc65Env.CF_INT 256 State.init).state.diags := by
  decide

/-! ## Scaling a signed byte down (C36) -/

/-- C36 fails on the code: for a signed forced-byte operand scaled down by 4
(k = 2) `g_scale` stays inline but emits the pair `cmp #$80`, `ror a` once,
not twice: the same code as for scaling down by 2. The unsigned branch next
to it loops (`lsr a` twice), as does scaling up (`asl a` twice). -/
theorem C36_signed_scale_down_once :
    cc65Env.powerof2 4 = 2
    ∧ g_scale cc65Env (cc65Env.CF_CHAR ||| cc65Env.CF_FORCECHAR) (-4) State.init
      = Res.ok () { State.init with
          out := [Out.line "\tcmp\t#$80", Out.line "\tror\ta"] }
    ∧ g_scale cc65Env (cc65Env.CF_CHAR ||| cc65Env.CF_FORCECHAR) (-2) State.init
      = g_scale cc65Env (cc65Env.CF_CHAR ||| cc65Env.CF_FORCECHAR) (-4) State.init
    ∧ g_scale cc65EnvSize (cc65Env.CF_CHAR ||| cc65Env.CF_FORCECHAR) (-4) State.init
      = Res.ok () { State.init with
          out := [Out.line "\tcmp\t#$80", Out.line "\tror\ta"] }
    ∧ g_scale cc65Env (cc65Env.CF_CHAR ||| cc65Env.CF_FORCECHAR ||| cc65Env.CF_UNSIGNED) (-4)
        State.init
      = Res.ok () { State.init with
          out := [Out.line "\tlsr\ta", Out.line "\tlsr\ta"] }
    ∧ g_scale cc65Env (cc65Env.CF_CHAR ||| cc65Env.CF_FORCECHAR) 4 State.init
      = Res.ok () { State.init with
          out := [Out.line "\tasl\ta", Out.line "\tasl\ta"] } := by
  decide

/-! ## Label names (C39) -/

/-- C39 fails on the code: the jumps print the label identifier unmasked
(`L%04X` of `label`), `g_defloclabel` prints `label & 0xFFFF`. For the
identifier `0x10000` the jumps refer to `L10000` while the definition is
`L0000:`, the name under which the identifier 0 is defined as well. -/
theorem C39_label_name_mismatch :
    g_jump 0x10000 State.init
      = Res.ok () { State.init with out := [Out.line "\tjmp\tL10000"] }
    ∧ g_truejump cc65Env 0 0x10000 State.init
      = Res.ok () { State.init with out := [Out.line "\tjne\tL10000"] }
    ∧ g_falsejump cc65Env 0 0x10000 State.init
      = Res.ok () { State.init with out := [Out.line "\tjeq\tL10000"] }
    ∧ g_truejump cc65Env cc65Env.CF_SHORT 0x10000 State.init
      = Res.ok () { State.init with out := [Out.line "\tbne\tL10000"] }
    ∧ g_defloclabel 0x10000 State.init
      = Res.ok () { State.init with out := [Out.line "L0000:"] }
    ∧ g_defloclabel 0 State.init = g_defloclabel 0x10000 State.init
    ∧ (0 : Nat) ≠ 0x10000 := by
  decide

/-! ## Space on the stack (C40) -/

/-- C40, as stated, fails for 256 bytes or more: `g_space (300)` raises the
too-many-locals diagnostic, emits its marker line, and loads Y with `$2C`
(300 mod 256), not with 300. -/
theorem C40_counterexample :
    g_space 300 State.init
      = Res.ok () { State.init with
          out := [Out.line ";*** Too many locals", Out.line "\tldy\t#$2C",
                  Out.line "\tjsr\tsubysp"]
          diags := [Diag.ERR_TOO_MANY_LOCALS] }
    ∧ hex2 300 = "12C" := by
  decide

theorem chrC_digit (k : Nat) (h1 : 1 ≤ k) (h8 : k ≤ 8) :
    chrC ((k : Int) + ('0'.toNat : Int)) = decU k := by
  interval_cases k <;> decide

theorem mod_internal_small (k : Nat) (h1 : 1 ≤ k) (h8 : k ≤ 8) (verb1 verb2 : String)
    (s : State) :
    mod_internal (k : Int) verb1 verb2 s
      = Res.ok () { s with out := s.out ++ [Out.line ("\tjsr\t" ++ verb1 ++ "sp" ++ decU k)] } := by
  unfold mod_internal
  rw [if_pos (by omega), chrC_digit k h1 h8]
  rfl

theorem mod_internal_byte (k : Nat) (h8 : 8 < k) (h255 : k ≤ 255) (verb1 verb2 : String)
    (s : State) :
    mod_internal (k : Int) verb1 verb2 s
      = Res.ok () { s with
          out := s.out ++ [Out.line ("\tldy\t#$" ++ hex2 k),
                           Out.line ("\tjsr\t" ++ verb2 ++ "sp")] } := by
  unfold mod_internal
  have hu : toUnsigned (k : Int) = k := toUnsigned_natCast k (by omega)
  have hm : k &&& 0xFF = k := by rw [and_FF]; omega
  rw [if_neg (by omega), hu]
  simp only [CheckLocalOffs, if_neg (show ¬ k ≥ 256 by omega), ldyconst, hm, Gen.bind_run,
    Gen.pure_run, AddCodeLine, List.append_assoc, List.singleton_append]

theorem mod_internal_large (k : Nat) (h256 : 256 ≤ k) (h32 : k < 2 ^ 32) (verb1 verb2 : String)
    (s : State) :
    mod_internal (k : Int) verb1 verb2 s
      = Res.ok () { s with
          out := s.out ++ [Out.line ";*** Too many locals",
                           Out.line ("\tldy\t#$" ++ hex2 (k % 256)),
                           Out.line ("\tjsr\t" ++ verb2 ++ "sp")]
          diags := s.diags ++ [Diag.ERR_TOO_MANY_LOCALS] } := by
  unfold mod_internal
  have hu : toUnsigned (k : Int) = k := toUnsigned_natCast k h32
  rw [if_neg (by omega), hu]
  simp only [CheckLocalOffs, if_pos (show k ≥ 256 by omega), ldyconst, and_FF, Gen.bind_run,
    Error, AddCodeLine, List.append_assoc, List.singleton_append, List.cons_append,
    List.nil_append]

/-- C40 (amended): for every `int` n, `g_space (n)` returns and changes
nothing but the emitted code and the diagnostics; `oursp` is unchanged. With
k the absolute value of n: it emits nothing for n = 0; exactly
`jsr decsp<k>` for 1 <= n <= 8 and `jsr incsp<k>` for -8 <= n <= -1;
`ldy #k` followed by `jsr subysp` (n positive) or `jsr addysp` (n negative)
for 9 <= k <= 255; and for k >= 256, n not the most negative `int`, it raises
the too-many-locals diagnostic and emits its marker line, `ldy` of k mod 256
and the same call. For the most negative `int` the negation wraps around to
the same value, which passes the test `k <= 8`: the code is `jsr incsp0`,
without a diagnostic. -/
theorem C40_space_code (n : Int) (hn : IsInt32 n) (s : State) :
    ∃ s1, g_space n s = Res.ok () s1
      ∧ s1.oursp = s.oursp
      ∧ (n = 0 → s1 = s)
      ∧ (1 ≤ n → n ≤ 8 →
          s1 = { s with out := s.out ++ [Out.line ("\tjsr\tdecsp" ++ decU n.natAbs)] })
      ∧ (-8 ≤ n → n ≤ -1 →
          s1 = { s with out := s.out ++ [Out.line ("\tjsr\tincsp" ++ decU n.natAbs)] })
      ∧ (8 < n → n ≤ 255 →
          s1 = { s with
            out := s.out ++ [Out.line ("\tldy\t#$" ++ hex2 n.natAbs),
                             Out.line "\tjsr\tsubysp"] })
      ∧ (-255 ≤ n → n < -8 →
          s1 = { s with
            out := s.out ++ [Out.line ("\tldy\t#$" ++ hex2 n.natAbs),
                             Out.line "\tjsr\taddysp"] })
      ∧ (256 ≤ n →
          s1 = { s with
            out := s.out ++ [Out.line ";*** Too many locals",
                             Out.line ("\tldy\t#$" ++ hex2 (n.natAbs % 256)),
                             Out.line "\tjsr\tsubysp"]
            diags := s.diags ++ [Diag.ERR_TOO_MANY_LOCALS] })
      ∧ (n ≤ -256 → -(2 ^ 31) < n →
          s1 = { s with
            out := s.out ++ [Out.line ";*** Too many locals",
                             Out.line ("\tldy\t#$" ++ hex2 (n.natAbs % 256)),
                             Out.line "\tjsr\taddysp"]
            diags := s.diags ++ [Diag.ERR_TOO_MANY_LOCALS] })
      ∧ (n = -(2 ^ 31) →
          s1 = { s with out := s.out ++ [Out.line "\tjsr\tincsp0"] }) := by
  obtain ⟨hlo, hhi⟩ := hn
  have e1 : "\tjsr\t" ++ "dec" ++ "sp" = "\tjsr\tdecsp" := by decide
  have e2 : "\tjsr\t" ++ "inc" ++ "sp" = "\tjsr\tincsp" := by decide
  have e3 : "\tjsr\t" ++ "suby" ++ "sp" = "\tjsr\tsubysp" := by decide
  have e4 : "\tjsr\t" ++ "addy" ++ "sp" = "\tjsr\taddysp" := by decide
  unfold g_space
  by_cases h0 : n = 0
  · subst h0
    refine ⟨s, by simp only [lt_irrefl, if_false]; rfl, rfl, fun _ => rfl, ?_, ?_, ?_, ?_, ?_,
      ?_, ?_⟩ <;> intros <;> omega
  by_cases hneg : n < 0
  · rw [if_pos hneg]
    by_cases hmin : n = -(2 ^ 31)
    · have hk : toInt (-n) = -(2 ^ 31) := by
        rw [hmin]
        decide
      have hc : chrC (-(2 ^ 31) + ('0'.toNat : Int)) = "0" := by decide
      rw [hk]
      unfold mod_internal
      rw [if_pos (by omega), hc]
      refine ⟨_, rfl, rfl, ?_, ?_, ?_, ?_, ?_, ?_, ?_, fun _ => rfl⟩ <;> intros <;> omega
    · have hk : toInt (-n) = ((n.natAbs : Nat) : Int) := by
        unfold toInt
        omega
      rw [hk]
      by_cases h8 : n.natAbs ≤ 8
      · rw [mod_internal_small _ (by omega) h8, e2]
        refine ⟨_, rfl, rfl, ?_, ?_, fun _ _ => rfl, ?_, ?_, ?_, ?_, ?_⟩ <;> intros <;> omega
      · by_cases h255 : n.natAbs ≤ 255
        · rw [mod_internal_byte _ (by omega) h255, e4]
          refine ⟨_, rfl, rfl, ?_, ?_, ?_, ?_, fun _ _ => rfl, ?_, ?_, ?_⟩ <;> intros <;> omega
        · rw [mod_internal_large _ (by omega) (by omega), e4]
          refine ⟨_, rfl, rfl, ?_, ?_, ?_, ?_, ?_, ?_, fun _ _ => rfl, ?_⟩ <;> intros <;> omega
  · have hk : n = ((n.natAbs : Nat) : Int) := by omega
    have hpos : n > 0 := by omega
    rw [if_neg hneg, if_pos hpos]
    by_cases h8 : n.natAbs ≤ 8
    · rw [hk, mod_internal_small _ (by omega) h8, e1, ← hk]
      refine ⟨_, rfl, rfl, ?_, fun _ _ => rfl, ?_, ?_, ?_, ?_, ?_, ?_⟩ <;> intros <;> omega
    · by_cases h255 : n.natAbs ≤ 255
      · rw [hk, mod_internal_byte _ (by omega) h255, e3, ← hk]
        refine ⟨_, rfl, rfl, ?_, ?_, ?_, fun _ _ => rfl, ?_, ?_, ?_, ?_⟩ <;> intros <;> omega
      · rw [hk, mod_internal_large _ (by omega) (by omega), e3, ← hk]
        refine ⟨_, rfl, rfl, ?_, ?_, ?_, ?_, ?_, fun _ => rfl, ?_, ?_⟩ <;> intros <;> omega

/-- Witness of C40: three bytes of new space. -/
theorem C40_witness :
    IsInt32 3
    ∧ ∃ s1, g_space 3 State.init = Res.ok () s1
      ∧ s1.oursp = State.init.oursp
      ∧ s1 = { State.init with
          out := State.init.out ++ [Out.line ("\tjsr\tdecsp" ++ decU (3 : Int).natAbs)] } := by
  obtain ⟨s1, e, h1, -, h3, -⟩ := C40_space_code 3 (by decide) State.init
  exact ⟨by decide, s1, e, h1, h3 (by decide) (by decide)⟩

/-! ## Store through the pointer on the stack (C34) -/

theorem pop_ptr (E : Env) (hE : E.WF) (s : State) :
    pop E E.CF_PTR s = Res.ok (s.oursp + 2) { s with oursp := s.oursp + 2 } := by
  have hr : Recognised E E.CF_PTR := by rw [hE.ptr_int]; exact Recognised_CF_INT E hE
  have h2 : argSize E E.CF_PTR = 2 := by
    rw [hE.ptr_int]
    unfold argSize sizeofarg
    rw [if_neg (by rw [hE.int_type]; exact fun h => hE.char_ne_int h.symm), if_pos hE.int_type]
  rw [pop_ok E E.CF_PTR hr s, h2]
  rfl

theorem g_putind_small (E : Env) (hE : E.WF) (flags offs : Nat) (hr : Recognised E flags)
    (s : State) :
    ¬ offs > 256 - argSize E flags →
      g_putind E flags offs s = Res.ok () { s with
        out := s.out
          ++ (if offs ≠ 0 then [Out.line ("\tldy\t#$" ++ hex2 offs)] else [])
          ++ [Out.line ("\tjsr\t" ++
                (if flags &&& E.CF_TYPE = E.CF_CHAR then
                  (if offs ≠ 0 then "staspidx" else "staspp")
                else if flags &&& E.CF_TYPE = E.CF_INT then
                  (if offs ≠ 0 then "staxspidx" else "staxspp")
                else
                  (if offs ≠ 0 then "steaxspidx" else "steaxspp")))]
        oursp := s.oursp + 2 } := by
  obtain ⟨hw1, hw4⟩ := argSize_range E flags hr
  have hsz := sizeofarg_ok E flags hr
  intro h
  have hm : offs &&& 0xFF = offs := by rw [and_FF]; omega
  have e1 : "\tjsr\t" ++ "staspidx" = "\tjsr\tstaspidx" := by decide
  have e2 : "\tjsr\t" ++ "staspp" = "\tjsr\tstaspp" := by decide
  have e3 : "\tjsr\t" ++ "staxspidx" = "\tjsr\tstaxspidx" := by decide
  have e4 : "\tjsr\t" ++ "staxspp" = "\tjsr\tstaxspp" := by decide
  have e5 : "\tjsr\t" ++ "steaxspidx" = "\tjsr\tsteaxspidx" := by decide
  have e6 : "\tjsr\t" ++ "steaxspp" = "\tjsr\tsteaxspp" := by decide
  unfold g_putind
  by_cases h0 : offs ≠ 0
  · rcases hr with hc | hi | hl
    · simp only [Gen.bind_run, hsz, if_neg h, if_pos h0, if_pos hc, Gen.pure_run, ldyconst,
        AddCodeLine, hm, pop_ptr E hE, e1, List.append_assoc, List.singleton_append]
    · have nc : ¬ flags &&& E.CF_TYPE = E.CF_CHAR := by
        rw [hi]; exact fun e => hE.char_ne_int e.symm
      simp only [Gen.bind_run, hsz, if_neg h, if_pos h0, if_neg nc, if_pos hi, Gen.pure_run,
        ldyconst, AddCodeLine, hm, pop_ptr E hE, e3, List.append_assoc,
        List.singleton_append]
    · obtain ⟨nc, ni⟩ := long_not_word E hE hl
      simp only [Gen.bind_run, hsz, if_neg h, if_pos h0, if_neg nc, if_neg ni, if_pos hl,
        Gen.pure_run, ldyconst, AddCodeLine, hm, pop_ptr E hE, e5, List.append_assoc,
        List.singleton_append]
  · rcases hr with hc | hi | hl
    · simp only [Gen.bind_run, hsz, if_neg h, if_neg h0, if_pos hc, Gen.pure_run,
        AddCodeLine, pop_ptr E hE, e2, List.append_nil]
    · have nc : ¬ flags &&& E.CF_TYPE = E.CF_CHAR := by
        rw [hi]; exact fun e => hE.char_ne_int e.symm
      simp only [Gen.bind_run, hsz, if_neg h, if_neg h0, if_neg nc, if_pos hi, Gen.pure_run,
        AddCodeLine, pop_ptr E hE, e4, List.append_nil]
    · obtain ⟨nc, ni⟩ := long_not_word E hE hl
      simp only [Gen.bind_run, hsz, if_neg h, if_neg h0, if_neg nc, if_neg ni, if_pos hl,
        Gen.pure_run, AddCodeLine, pop_ptr E hE, e6, List.append_nil]

theorem Sp_g_inc (E : Env) (hE : E.WF) (flags val : Nat) (hr : Recognised E flags) :
    Sp (g_inc E flags val) 0 := by
  have hr1 := Recognised_clear_const E hE hr
  have hadd : Sp (g_add E ((flags &&& bnot E.CF_CONST) ||| E.CF_CONST) val) 0 := by
    have h := Sp_g_add E hE _ val (Recognised_set_const E hE hr1)
    rwa [if_pos (const_set_const E hE _)] at h
  unfold g_inc
  repeat' with_reducible (first
    | exact Sp_pure _
    | exact Sp_AddCodeLine _
    | exact Sp_AddCodeHint _
    | exact Sp_ldyconst _
    | exact hadd
    | exact Sp_repeatGen _ (Sp_AddCodeLine _)
    | refine Sp_seq0 ?_ (fun _ => ?_)
    | refine Sp_ite (fun h => ?_) (fun h => ?_)
    | (refine Sp_typeerror_absurd E _ _ hr1 ?_ ?_ ?_ <;> tauto))

theorem Sp_g_dec (E : Env) (hE : E.WF) (flags val : Nat) (hr : Recognised E flags) :
    Sp (g_dec E flags val) 0 := by
  have hr1 := Recognised_clear_const E hE hr
  have hsub : Sp (g_sub E ((flags &&& bnot E.CF_CONST) ||| E.CF_CONST) val) 0 := by
    have h := Sp_g_sub E hE _ val (Recognised_set_const E hE hr1)
    rwa [if_pos (const_set_const E hE _)] at h
  unfold g_dec
  repeat' with_reducible (first
    | exact Sp_pure _
    | exact Sp_AddCodeLine _
    | exact Sp_ldyconst _
    | exact hsub
    | exact Sp_repeatGen _ (Sp_AddCodeLine _)
    | refine Sp_seq0 ?_ (fun _ => ?_)
    | refine Sp_ite (fun h => ?_) (fun h => ?_)
    | (refine Sp_typeerror_absurd E _ _ hr1 ?_ ?_ ?_ <;> tauto))

theorem Sp_MakeByteOffs (E : Env) (hE : E.WF) (flags offs : Nat) (hr : Recognised E flags) :
    Sp (MakeByteOffs E flags offs) 0 := by
  have hinc : ∀ O, Sp (g_inc E (E.CF_INT ||| E.CF_CONST) O) 0 := fun O =>
    Sp_g_inc E hE _ O (Recognised_set_const E hE (Recognised_CF_INT E hE))
  unfold MakeByteOffs
  repeat' with_reducible (first
    | exact Sp_pure _
    | exact Sp_sizeofarg E flags hr
    | exact hinc _
    | refine Sp_seq0 ?_ (fun _ => ?_)
    | refine Sp_ite (fun h => ?_) (fun h => ?_))

theorem Sp_g_getind (E : Env) (hE : E.WF) (flags offs : Nat) (hr : Recognised E flags) :
    Sp (g_getind E flags offs) 0 := by
  unfold g_getind
  repeat' with_reducible (first
    | exact Sp_pure _
    | exact Sp_AddCodeLine _
    | exact Sp_ldyconst _
    | exact Sp_MakeByteOffs E hE flags offs hr
    | refine Sp_seq0 ?_ (fun _ => ?_)
    | refine Sp_ite (fun h => ?_) (fun h => ?_)
    | (refine Sp_typeerror_absurd E _ _ hr ?_ ?_ ?_ <;> tauto))

/-- The offset `MakeByteOffs` returns leaves room for the object below 256. -/
theorem MakeByteOffs_rem (E : Env) (hE : E.WF) (flags offs : Nat) (hr : Recognised E flags)
    (ho : offs < 2 ^ 32) (s : State) :
    ∃ r s1, MakeByteOffs E flags offs s = Res.ok r s1 ∧ r + argSize E flags ≤ 256 := by
  obtain ⟨hw1, hw4⟩ := argSize_range E flags hr
  have hmod : offs % 256 ≤ offs := Nat.mod_le _ _
  have hinc : ∀ O, ∃ s1, g_inc E (E.CF_INT ||| E.CF_CONST) O s = Res.ok () s1 := fun O => by
    obtain ⟨_, s1, e, -⟩ :=
      Sp_g_inc E hE _ O (Recognised_set_const E hE (Recognised_CF_INT E hE)) s
    exact ⟨s1, e⟩
  unfold MakeByteOffs
  simp only [Gen.bind_run, sizeofarg_ok E flags hr, and_FF, and_bnot_FF offs ho]
  by_cases hbig : offs % 256 > 256 - argSize E flags
  · have hO : offs - offs % 256 + offs % 256 = offs := by omega
    have hne : offs ≠ 0 := by omega
    obtain ⟨s1, e⟩ := hinc offs
    simp only [if_pos hbig, hO, if_pos hne]
    exact ⟨0, s1, by simp only [Gen.bind_run, e, Gen.pure_run, Nat.sub_self], by omega⟩
  · simp only [if_neg hbig]
    by_cases hO : offs - offs % 256 ≠ 0
    · obtain ⟨s1, e⟩ := hinc (offs - offs % 256)
      have hr2 : offs - (offs - offs % 256) = offs % 256 := by omega
      simp only [if_pos hO]
      exact ⟨offs % 256, s1, by simp only [Gen.bind_run, e, Gen.pure_run, hr2], by omega⟩
    · simp only [if_neg hO]
      exact ⟨offs, s, rfl, by omega⟩

/-- On an offset that leaves room for the object below 256, `MakeByteOffs`
is the identity and emits nothing. -/
theorem MakeByteOffs_small (E : Env) (flags r : Nat) (hr : Recognised E flags)
    (h : r + argSize E flags ≤ 256) (s : State) :
    MakeByteOffs E flags r s = Res.ok r s := by
  obtain ⟨hw1, hw4⟩ := argSize_range E flags hr
  have h32 : r < 2 ^ 32 := by omega
  have hsm : r % 256 = r := by omega
  unfold MakeByteOffs
  have hc : ¬ r > 256 - argSize E flags := by omega
  simp only [Gen.bind_run, sizeofarg_ok E flags hr, and_FF, and_bnot_FF r h32, hsm,
    Nat.sub_self, if_neg hc, ne_eq, not_true_eq_false, if_false]
  rfl

theorem isOk_of_Sp {α : Type} {g : Gen α} {d : Int} (h : Sp g d) (s : State) :
    (g s).isOk = true := by
  obtain ⟨a, s1, e, -⟩ := h s
  rw [e]
  rfl

/-- C35: for every flag encoding that satisfies `Env.WF`, every descriptor of
recognised width w and every 32-bit offset: the offset r that `g_addeqind`
and `g_subeqind` keep after `MakeByteOffs` satisfies `r <= 256 - w`; on r,
`MakeByteOffs` (as run again inside `g_getind`) returns r and leaves the
state unchanged, emitting nothing; `g_putind` at r returns; on the path that
calls `g_putind` (long, and int when `FavourSize` is set) the offset handed
to `g_getind` and `g_putind` is r; and `g_addeqind` and `g_subeqind` return
without an internal error. -/
theorem C35_putind_error_unreachable (E : Env) (hE : E.WF) (flags offs val : Nat)
    (hr : Recognised E flags) (ho : offs < 2 ^ 32) (s : State) :
    ∃ r s1, MakeByteOffs E flags offs s = Res.ok r s1
      ∧ r ≤ 256 - argSize E flags
      ∧ (∀ s2, MakeByteOffs E flags r s2 = Res.ok r s2)
      ∧ (∀ s2, (g_putind E flags r s2).isOk = true)
      ∧ (IsLong E flags ∨ (flags &&& E.CF_TYPE = E.CF_INT ∧ E.FavourSize ≠ 0) →
          g_addeqind E flags offs val s
            = (AddCodeLine "\tjsr\tpushax" >>= fun _ => push E flags >>= fun _ =>
                g_getind E flags r >>= fun _ => g_inc E flags val >>= fun _ =>
                g_putind E flags r) s1
          ∧ g_subeqind E flags offs val s
            = (AddCodeLine "\tjsr\tpushax" >>= fun _ => push E flags >>= fun _ =>
                g_getind E flags r >>= fun _ => g_dec E flags val >>= fun _ =>
                g_putind E flags r) s1)
      ∧ (g_addeqind E flags offs val s).isOk = true
      ∧ (g_subeqind E flags offs val s).isOk = true := by
  obtain ⟨hw1, hw4⟩ := argSize_range E flags hr
  obtain ⟨r, s1, e1, hrem⟩ := MakeByteOffs_rem E hE flags offs hr ho s
  have hput : ∀ s2, (g_putind E flags r s2).isOk = true := fun s2 => by
    rw [g_putind_small E hE flags r hr s2 (by omega)]
    rfl
  have hputSp : Sp (g_putind E flags r) 2 := fun s2 =>
    ⟨(), _, g_putind_small E hE flags r hr s2 (by omega), rfl⟩
  have hexpA : Sp (AddCodeLine "\tjsr\tpushax" >>= fun _ => push E flags >>= fun _ =>
      g_getind E flags r >>= fun _ => g_inc E flags val >>= fun _ =>
      g_putind E flags r) (2 - (argSize E flags : Int)) :=
    Sp_bind (Sp_AddCodeLine _) (fun _ => Sp_bind (Sp_push E flags hr) (fun _ =>
      Sp_bind (Sp_g_getind E hE flags r hr) (fun _ =>
        Sp_bind (Sp_g_inc E hE flags val hr) (fun _ => hputSp) (Int.zero_add 2))
        (Int.zero_add 2)) rfl) (by omega)
  have hexpS : Sp (AddCodeLine "\tjsr\tpushax" >>= fun _ => push E flags >>= fun _ =>
      g_getind E flags r >>= fun _ => g_dec E flags val >>= fun _ =>
      g_putind E flags r) (2 - (argSize E flags : Int)) :=
    Sp_bind (Sp_AddCodeLine _) (fun _ => Sp_bind (Sp_push E flags hr) (fun _ =>
      Sp_bind (Sp_g_getind E hE flags r hr) (fun _ =>
        Sp_bind (Sp_g_dec E hE flags val hr) (fun _ => hputSp) (Int.zero_add 2))
        (Int.zero_add 2)) rfl) (by omega)
  have hlink : IsLong E flags ∨ (flags &&& E.CF_TYPE = E.CF_INT ∧ E.FavourSize ≠ 0) →
      g_addeqind E flags offs val s
        = (AddCodeLine "\tjsr\tpushax" >>= fun _ => push E flags >>= fun _ =>
            g_getind E flags r >>= fun _ => g_inc E flags val >>= fun _ =>
            g_putind E flags r) s1
      ∧ g_subeqind E flags offs val s
        = (AddCodeLine "\tjsr\tpushax" >>= fun _ => push E flags >>= fun _ =>
            g_getind E flags r >>= fun _ => g_dec E flags val >>= fun _ =>
            g_putind E flags r) s1 := by
    intro h
    have n1 : ¬ flags &&& E.CF_TYPE = E.CF_CHAR := by
      rcases h with h | ⟨h, -⟩
      · exact (long_not_word E hE h).1
      · rw [h]; exact fun e => hE.char_ne_int e.symm
    have n2 : ¬ (flags &&& E.CF_TYPE = E.CF_INT ∧ E.FavourSize = 0) := by
      rcases h with h | ⟨-, h⟩
      · exact fun hh => (long_not_word E hE h).2 hh.1
      · exact fun hh => h hh.2
    have p3 : flags &&& E.CF_TYPE = E.CF_INT ∨ flags &&& E.CF_TYPE = E.CF_LONG := by
      rcases h with h | ⟨h, -⟩
      · exact Or.inr h
      · exact Or.inl h
    constructor
    · unfold g_addeqind
      simp only [Gen.bind_run, e1, if_neg n1, if_neg n2, if_pos p3]
    · unfold g_subeqind
      simp only [Gen.bind_run, e1, if_neg n1, if_neg n2, if_pos p3]
  refine ⟨r, s1, e1, by omega, fun s2 => MakeByteOffs_small E flags r hr hrem s2, hput, hlink,
    ?_, ?_⟩
  · by_cases hx : IsLong E flags ∨ (flags &&& E.CF_TYPE = E.CF_INT ∧ E.FavourSize ≠ 0)
    · rw [(hlink hx).1]
      exact isOk_of_Sp hexpA s1
    · have hinl : flags &&& E.CF_TYPE = E.CF_CHAR
          ∨ (flags &&& E.CF_TYPE = E.CF_INT ∧ E.FavourSize = 0) := by
        rcases hr with h | h | h
        · exact Or.inl h
        · by_cases hf : E.FavourSize = 0
          · exact Or.inr ⟨h, hf⟩
          · exact absurd (Or.inr ⟨h, hf⟩) hx
        · exact absurd (Or.inl h) hx
      unfold g_addeqind
      simp only [Gen.bind_run, e1]
      rcases hinl with hc | hi
      · rw [if_pos hc]
        refine isOk_of_Sp (d := 0) ?_ s1
        repeat' with_reducible (first
          | exact Sp_AddCodeLine _
          | refine Sp_seq0 ?_ (fun _ => ?_)
          | refine Sp_ite (fun h => ?_) (fun h => ?_))
      · have nc : ¬ flags &&& E.CF_TYPE = E.CF_CHAR := by
          rw [hi.1]; exact fun e => hE.char_ne_int e.symm
        rw [if_neg nc, if_pos hi]
        refine isOk_of_Sp (d := 0) ?_ s1
        repeat' with_reducible (first
          | exact Sp_AddCodeLine _
          | refine Sp_seq0 ?_ (fun _ => ?_))
  · by_cases hx : IsLong E flags ∨ (flags &&& E.CF_TYPE = E.CF_INT ∧ E.FavourSize ≠ 0)
    · rw [(hlink hx).2]
      exact isOk_of_Sp hexpS s1
    · have hinl : flags &&& E.CF_TYPE = E.CF_CHAR
          ∨ (flags &&& E.CF_TYPE = E.CF_INT ∧ E.FavourSize = 0) := by
        rcases hr with h | h | h
        · exact Or.inl h
        · by_cases hf : E.FavourSize = 0
          · exact Or.inr ⟨h, hf⟩
          · exact absurd (Or.inr ⟨h, hf⟩) hx
        · exact absurd (Or.inl h) hx
      unfold g_subeqind
      simp only [Gen.bind_run, e1]
      rcases hinl with hc | hi
      · rw [if_pos hc]
        refine isOk_of_Sp (d := 0) ?_ s1
        repeat' with_reducible (first
          | exact Sp_AddCodeLine _
          | refine Sp_seq0 ?_ (fun _ => ?_)
          | refine Sp_ite (fun h => ?_) (fun h => ?_))
      · have nc : ¬ flags &&& E.CF_TYPE = E.CF_CHAR := by
          rw [hi.1]; exact fun e => hE.char_ne_int e.symm
        rw [if_neg nc, if_pos hi]
        refine isOk_of_Sp (d := 0) ?_ s1
        repeat' with_reducible (first
          | exact Sp_AddCodeLine _
          | refine Sp_seq0 ?_ (fun _ => ?_))

/-- Witness of C35: a long at the offset 510. -/
theorem C35_witness :
    cc65Env.WF ∧ Recognised cc65Env cc65Env.CF_LONG ∧ (510 : Nat) < 2 ^ 32
    ∧ ∃ r s1, MakeByteOffs cc65Env cc65Env.CF_LONG 510 State.init = Res.ok r s1
      ∧ r ≤ 256 - argSize cc65Env cc65Env.CF_LONG
      ∧ (∀ s2, MakeByteOffs cc65Env cc65Env.CF_LONG r s2 = Res.ok r s2)
      ∧ (∀ s2, (g_putind cc65Env cc65Env.CF_LONG r s2).isOk = true)
      ∧ (g_addeqind cc65Env cc65Env.CF_LONG 510 1 State.init).isOk = true
      ∧ (g_subeqind cc65Env cc65Env.CF_LONG 510 1 State.init).isOk = true := by
  obtain ⟨r, s1, e, h1, h2, h3, -, h5, h6⟩ :=
    C35_putind_error_unreachable cc65Env cc65Env_wf cc65Env.CF_LONG 510 1 (by decide)
      (by decide) State.init
  exact ⟨cc65Env_wf, by decide, by decide, r, s1, e, h1, h2, h3, h5, h6⟩

/-! ## The segment in effect (C37) -/

theorem directiveName_directive (n : String) :
    directiveName (Out.line (".segment\t\"" ++ n ++ "\"")) = some n := by
  have hl : ".segment\t\"".data.length = 10 := by decide
  unfold directiveName
  simp only [String.data_append, List.append_assoc, List.take_left' hl, List.drop_left' hl,
    if_true]
  rw [List.dropLast_concat]

theorem findSome_directive (os : List Out) (seg : Int) (n : String) :
    (os ++ [Out.line (".segment\t\"" ++ n ++ "\""), segHint seg]).reverse.findSome?
        directiveName = some n := by
  simp only [List.reverse_append, List.reverse_cons, List.reverse_nil, List.nil_append,
    List.singleton_append, List.cons_append, List.findSome?_cons, segHint, directiveName_directive]
  rfl

theorem SegInv_UseSeg (s : State) (seg : Int) (hseg : ValidSeg seg) (h : SegInv s) :
    ∃ s1, UseSeg seg s = Res.ok () s1 ∧ SegInv s1 := by
  by_cases hc : s.CurSeg = seg
  · exact ⟨s, UseSeg_same s seg hc, h⟩
  · refine ⟨_, UseSeg_other s seg hc, hseg, h.2.1, ?_⟩
    simp only [segDirective, findSome_directive]

theorem getD_set_other (l : List String) (i j : Nat) (a : String) (h : i ≠ j) :
    (l.set i a).getD j "" = l.getD j "" := by
  rw [List.getD_eq_getElem?_getD, List.getD_eq_getElem?_getD, List.getElem?_set_ne h]

theorem validSeg_toNat_inj {a b : Int} (ha : ValidSeg a) (hb : ValidSeg b)
    (h : a.toNat = b.toNat) : a = b := by
  rcases ha with ha | ha | ha | ha <;> rcases hb with hb | hb | hb | hb <;> subst ha <;> subst hb
    <;> first | rfl | (exact absurd h (by decide))

theorem SegInv_SegName (s : State) (seg : Int) (Name : String) (hseg : ValidSeg seg)
    (h : SegInv s) : ∃ s1, SegName seg Name s = Res.ok () s1 ∧ SegInv s1 := by
  obtain ⟨hv, hlen, hm⟩ := h
  have hlt : seg.toNat < s.SegmentNames.length := by
    rw [hlen]; exact validSeg_toNat_lt seg hseg
  have hget := getD_set_self s.SegmentNames seg.toNat Name hlt
  unfold SegName
  by_cases hc : seg = s.CurSeg
  · simp only [if_pos hc]
    rw [UseSeg_other _ seg (by simpa using validSeg_ne_inv seg hseg)]
    refine ⟨_, rfl, hseg, by simpa using hlen, ?_⟩
    simp only [segDirective, findSome_directive, hget]
  · simp only [if_neg hc]
    refine ⟨_, rfl, hv, by simpa using hlen, ?_⟩
    have hne : seg.toNat ≠ s.CurSeg.toNat := fun e => hc (validSeg_toNat_inj hseg hv e)
    simp only
    cases hf : s.out.reverse.findSome? directiveName with
    | some n =>
      rw [hf] at hm
      simp only at hm ⊢
      rw [getD_set_other _ _ _ _ hne]
      exact hm
    | none =>
      rw [hf] at hm
      simp only at hm ⊢
      refine ⟨hm.1, ?_⟩
      rw [getD_set_other _ _ _ _ (by rw [← hm.1]; exact hne)]
      exact hm.2

theorem SegInv_step (op : SegOp) (s : State) (h : SegInv s) :
    ∃ s1, op.gen s = Res.ok () s1 ∧ SegInv s1 := by
  cases op with
  | usecode => exact SegInv_UseSeg s SEG_CODE (by decide) h
  | userodata => exact SegInv_UseSeg s SEG_RODATA (by decide) h
  | usedata => exact SegInv_UseSeg s SEG_DATA (by decide) h
  | usebss => exact SegInv_UseSeg s SEG_BSS (by decide) h
  | codename n => exact SegInv_SegName s SEG_CODE n (by decide) h
  | rodataname n => exact SegInv_SegName s SEG_RODATA n (by decide) h
  | dataname n => exact SegInv_SegName s SEG_DATA n (by decide) h
  | bssname n => exact SegInv_SegName s SEG_BSS n (by decide) h

theorem SegInv_run (ops : List SegOp) : ∀ s, SegInv s →
    ∃ s1, runSegOps ops s = Res.ok () s1 ∧ SegInv s1 := by
  induction ops with
  | nil => intro s h; exact ⟨s, rfl, h⟩
  | cons op ops ih =>
    intro s h
    obtain ⟨s1, e1, h1⟩ := SegInv_step op s h
    obtain ⟨s2, e2, h2⟩ := ih s1 h1
    refine ⟨s2, ?_, h2⟩
    show (op.gen >>= fun _ => runSegOps ops) s = _
    rw [Gen.bind_run, e1]
    exact e2

theorem segmentInEffect_of_inv (s : State) (h : SegInv s) :
    segmentInEffect "CODE" s.out = s.SegmentNames.getD s.CurSeg.toNat "" := by
  obtain ⟨-, -, hm⟩ := h
  unfold segmentInEffect
  cases hf : s.out.reverse.findSome? directiveName with
  | some n =>
    rw [hf] at hm
    exact hm
  | none =>
    rw [hf] at hm
    simp only at hm
    rw [hm.1]
    exact hm.2.symm

theorem findSome_none_append (os new : List Out)
    (h1 : ∀ o ∈ os, directiveName o = none) (h2 : ∀ o ∈ new, directiveName o = none) :
    (os ++ new).reverse.findSome? directiveName = none := by
  rw [List.findSome?_eq_none_iff]
  intro o ho
  rw [List.mem_reverse, List.mem_append] at ho
  rcases ho with ho | ho
  · exact h1 o ho
  · exact h2 o ho

theorem set_names (l : List String) (h : l.length = 4) :
    (((l.set SEG_CODE.toNat "CODE").set SEG_RODATA.toNat "RODATA").set SEG_DATA.toNat
      "DATA").set SEG_BSS.toNat "BSS" = ["CODE", "RODATA", "DATA", "BSS"] := by
  rcases l with _ | ⟨a, _ | ⟨b, _ | ⟨c, _ | ⟨d, _ | ⟨e, t⟩⟩⟩⟩⟩ <;> simp at h
  rfl

/-- The preamble installs the four default names, leaves the current segment
alone and emits no `.segment` directive. -/
theorem g_preamble_run (E : Env) (a b c d : Nat) (s : State) (hlen : s.SegmentNames.length = 4) :
    ∃ new, g_preamble E a b c d s = Res.ok () { s with
        out := s.out ++ new
        SegmentNames := ["CODE", "RODATA", "DATA", "BSS"] }
      ∧ ∀ o ∈ new, directiveName o = none := by
  unfold g_preamble
  by_cases hcpu : E.CPU = E.CPU_65C02
  · refine ⟨[Out.line ("; File generated by cc65 v " ++ decU a ++ "." ++ decU b ++ "." ++ decU c),
      Out.empty,
      Out.line (".fopt\t\tcompiler,\"cc65 v " ++ decU a ++ "." ++ decU b ++ "." ++ decU c ++ "\""),
      Out.empty,
      Out.line ".pc02",
      Out.line ".autoimport\ton",
      Out.line ".case\t\ton",
      Out.line (".debuginfo\t" ++ (if d ≠ 0 then "on" else "off")),
      Out.line ".importzp\tsp, sreg, regsave, regbank, tmp1, ptr1",
      Out.line ".macpack\tlongbranch",
      Out.empty,
      Out.line ".macro  ldax    Value",
      Out.line "        lda     #<(Value)",
      Out.line "        ldx     #>(Value)",
      Out.line ".endmacro",
      Out.empty,
      Out.hint "end_of_preamble"], ?_, ?_⟩
    · simp only [if_pos hcpu, Gen.bind_run, AddCodeLine, AddEmptyLine, AddCodeHint,
        List.append_assoc, List.singleton_append, List.cons_append, List.nil_append,
        set_names _ hlen]
    · intro o ho
      simp only [List.mem_cons, List.mem_singleton, List.not_mem_nil, or_false] at ho
      rcases ho with h | h | h | h | h | h | h | h | h | h | h | h | h | h | h | h | h
        <;> subst h <;> rfl
  · refine ⟨[Out.line ("; File generated by cc65 v " ++ decU a ++ "." ++ decU b ++ "." ++ decU c),
      Out.empty,
      Out.line (".fopt\t\tcompiler,\"cc65 v " ++ decU a ++ "." ++ decU b ++ "." ++ decU c ++ "\""),
      Out.empty,
      Out.line ".autoimport\ton",
      Out.line ".case\t\ton",
      Out.line (".debuginfo\t" ++ (if d ≠ 0 then "on" else "off")),
      Out.line ".importzp\tsp, sreg, regsave, regbank, tmp1, ptr1",
      Out.line ".macpack\tlongbranch",
      Out.empty,
      Out.line ".macro  ldax    Value",
      Out.line "        lda     #<(Value)",
      Out.line "        ldx     #>(Value)",
      Out.line ".endmacro",
      Out.empty,
      Out.hint "end_of_preamble"], ?_, ?_⟩
    · simp only [if_neg hcpu, Gen.bind_run, Gen.pure_run, AddCodeLine, AddEmptyLine,
        AddCodeHint, List.append_assoc, List.singleton_append, List.cons_append,
        List.nil_append, set_names _ hlen]
    · intro o ho
      simp only [List.mem_cons, List.mem_singleton, List.not_mem_nil, or_false] at ho
      rcases ho with h | h | h | h | h | h | h | h | h | h | h | h | h | h | h | h
        <;> subst h <;> rfl

/-- C37: from a state in which the code segment is current and no `.segment`
directive has been emitted (the state at program start), after `g_preamble`
has installed the default names, every sequence of the eight segment
operations returns, and after each operation of the sequence (after every
initial part of it) the current segment is one of the four valid segments
and the segment in effect in the output stream (the name in the most recent
`.segment` directive, `CODE` if there is none) is the current name of the
current segment. -/
theorem C37_segment_in_effect (E : Env) (VER_MAJOR VER_MINOR VER_PATCH DebugInfo : Nat)
    (s0 : State) (hcur : s0.CurSeg = SEG_CODE) (hlen : s0.SegmentNames.length = 4)
    (hout : ∀ o ∈ s0.out, directiveName o = none) (ops : List SegOp) (k : Nat) :
    ∃ s1 s2, g_preamble E VER_MAJOR VER_MINOR VER_PATCH DebugInfo s0 = Res.ok () s1
      ∧ runSegOps (ops.take k) s1 = Res.ok () s2
      ∧ ValidSeg s2.CurSeg
      ∧ s2.CurSeg ≠ SEG_INV
      ∧ segmentInEffect "CODE" s2.out = s2.SegmentNames.getD s2.CurSeg.toNat "" := by
  obtain ⟨new, e1, hnew⟩ := g_preamble_run E VER_MAJOR VER_MINOR VER_PATCH DebugInfo s0 hlen
  have hinv : SegInv { s0 with
      out := s0.out ++ new
      SegmentNames := ["CODE", "RODATA", "DATA", "BSS"] } := by
    refine ⟨by rw [hcur]; decide, rfl, ?_⟩
    simp only [findSome_none_append s0.out new hout hnew]
    exact ⟨hcur, rfl⟩
  obtain ⟨s2, e2, h2⟩ := SegInv_run (ops.take k) _ hinv
  exact ⟨_, s2, e1, e2, h2.1, fun e => validSeg_ne_inv _ h2.1 e.symm,
    segmentInEffect_of_inv s2 h2⟩

/-- Witness of C37: from the initial state, rename the code segment, switch
to the data segment, rename the bss segment. -/
theorem C37_witness :
    State.init.CurSeg = SEG_CODE ∧ State.init.SegmentNames.length = 4
    ∧ (∀ o ∈ State.init.out, directiveName o = none)
    ∧ ∃ s1 s2, g_preamble cc65Env 2 5 0 0 State.init = Res.ok () s1
      ∧ runSegOps ([SegOp.codename "STARTUP", SegOp.usedata, SegOp.bssname "ZP"].take 3) s1
          = Res.ok () s2
      ∧ ValidSeg s2.CurSeg
      ∧ s2.CurSeg ≠ SEG_INV
      ∧ segmentInEffect "CODE" s2.out = s2.SegmentNames.getD s2.CurSeg.toNat "" :=
  ⟨by decide, by decide, by decide,
    C37_segment_in_effect cc65Env 2 5 0 0 State.init (by decide) (by decide) (by decide)
      [SegOp.codename "STARTUP", SegOp.usedata, SegOp.bssname "ZP"] 3⟩

/-! ## Multiplication of a byte by 3, 5 and 10 (C32) -/

theorem run_line (t : String) (rest : List Out) (m m1 : Cpu) (h : Cpu.step t m = some m1) :
    Cpu.run (Out.line t :: rest) m = Cpu.run rest m1 := by
  simp only [Cpu.run, h]

/-- C32: with `powerof2` the exponent helper, for a forced-byte descriptor
with `CF_CONST` and a constant of 3, 5 or 10, `g_mul` returns and changes
nothing but the emitted code (no push, `oursp` unchanged); every line it
emits is one of `sta tmp1`, `asl a`, `clc`, `adc tmp1`; and the emitted
sequence, read as instructions from any register contents, leaves
`(c * A) mod 256` in the accumulator. -/
theorem C32_mul_shift_add (E : Env) (hp : E.powerof2 = powerof2) (flags val : Nat)
    (hb : flags &&& E.CF_TYPE = E.CF_CHAR ∧ flags &&& E.CF_FORCECHAR ≠ 0)
    (hc : IsConst E flags) (hv : val = 3 ∨ val = 5 ∨ val = 10) (s : State) (m : Cpu) :
    ∃ code m1,
      g_mul E flags val s = Res.ok () { s with out := s.out ++ code }
      ∧ (∀ o ∈ code, o ∈ [Out.line "\tsta\ttmp1", Out.line "\tasl\ta", Out.line "\tclc",
                          Out.line "\tadc\ttmp1"])
      ∧ (∀ o ∈ code, ¬ IsJsr o)
      ∧ Cpu.run code m = some m1
      ∧ m1.a = val * m.a % 256 := by
  have hc2 : flags &&& E.CF_CONST ≠ 0 := hc
  unfold g_mul
  rw [hp]
  rcases hv with hv | hv | hv
  · subst hv
    have n1 : ¬ (flags &&& E.CF_CONST ≠ 0 ∧ powerof2 3 ≥ 0) := fun h => absurd h.2 (by decide)
    refine ⟨[Out.line "\tsta\ttmp1", Out.line "\tasl\ta", Out.line "\tclc",
      Out.line "\tadc\ttmp1"], _, ?_, by decide, by decide, rfl, ?_⟩
    · simp only [if_neg n1, if_pos hc2, if_pos hb, if_true, Gen.bind_run, AddCodeLine,
        List.append_assoc, List.singleton_append, List.cons_append, List.nil_append]
    · show (2 * m.a % 256 + m.a + 0) % 256 = 3 * m.a % 256
      omega
  · subst hv
    have n1 : ¬ (flags &&& E.CF_CONST ≠ 0 ∧ powerof2 5 ≥ 0) := fun h => absurd h.2 (by decide)
    refine ⟨[Out.line "\tsta\ttmp1", Out.line "\tasl\ta", Out.line "\tasl\ta",
      Out.line "\tclc", Out.line "\tadc\ttmp1"], _, ?_, by decide, by decide, rfl, ?_⟩
    · simp only [if_neg n1, if_pos hc2, if_pos hb, if_true,
        if_neg (show ¬ (5 : Nat) = 3 by decide), Gen.bind_run, AddCodeLine,
        List.append_assoc, List.singleton_append, List.cons_append, List.nil_append]
    · show (2 * (2 * m.a % 256) % 256 + m.a + 0) % 256 = 5 * m.a % 256
      omega
  · subst hv
    have n1 : ¬ (flags &&& E.CF_CONST ≠ 0 ∧ powerof2 10 ≥ 0) := fun h => absurd h.2 (by decide)
    refine ⟨[Out.line "\tsta\ttmp1", Out.line "\tasl\ta", Out.line "\tasl\ta",
      Out.line "\tclc", Out.line "\tadc\ttmp1", Out.line "\tasl\ta"], _, ?_, by decide,
      by decide, rfl, ?_⟩
    · simp only [if_neg n1, if_pos hc2, if_pos hb, if_true,
        if_neg (show ¬ (10 : Nat) = 3 by decide), if_neg (show ¬ (10 : Nat) = 5 by decide),
        Gen.bind_run, AddCodeLine,
        List.append_assoc, List.singleton_append, List.cons_append, List.nil_append]
    · show 2 * ((2 * (2 * m.a % 256) % 256 + m.a + 0) % 256) % 256 = 10 * m.a % 256
      omega

/-- Witness of C32: the constant 10, the accumulator holding 200. -/
theorem C32_witness :
    cc65Env.powerof2 = powerof2
    ∧ ((cc65Env.CF_CHAR ||| cc65Env.CF_FORCECHAR ||| cc65Env.CF_CONST) &&& cc65Env.CF_TYPE
          = cc65Env.CF_CHAR
        ∧ (cc65Env.CF_CHAR ||| cc65Env.CF_FORCECHAR ||| cc65Env.CF_CONST)
            &&& cc65Env.CF_FORCECHAR ≠ 0)
    ∧ IsConst cc65Env (cc65Env.CF_CHAR ||| cc65Env.CF_FORCECHAR ||| cc65Env.CF_CONST)
    ∧ ∃ code m1,
      g_mul cc65Env (cc65Env.CF_CHAR ||| cc65Env.CF_FORCECHAR ||| cc65Env.CF_CONST) 10
          State.init
        = Res.ok () { State.init with out := State.init.out ++ code }
      ∧ Cpu.run code { a := 200, x := 0, y := 0, tmp1 := 0, carry := true } = some m1
      ∧ m1.a = 10 * 200 % 256 := by
  obtain ⟨code, m1, h1, -, -, h4, h5⟩ :=
    C32_mul_shift_add cc65Env rfl
      (cc65Env.CF_CHAR ||| cc65Env.CF_FORCECHAR ||| cc65Env.CF_CONST) 10
      (by decide) (by decide) (by decide) State.init
      { a := 200, x := 0, y := 0, tmp1 := 0, carry := true }
  exact ⟨rfl, by decide, by decide, code, m1, h1, h4, h5⟩

/-! ## The inline 16-bit AND (C31) -/

theorem step_and (v : Nat) (m : Cpu) :
    Cpu.step ("\tand\t#$" ++ hex2 v) m = some { m with a := m.a &&& v % 256 } := by
  have hl : "\tand\t#$".data.length = 7 := by decide
  unfold Cpu.step
  simp only [String.data_append, List.take_left' hl, List.drop_left' hl]
  rw [show hex2 v = hexW 2 v from rfl, readHex_hexW]
  rfl

theorem run_and (v : Nat) (rest : List Out) (m : Cpu) :
    Cpu.run (Out.line ("\tand\t#$" ++ hex2 v) :: rest) m
      = Cpu.run rest { m with a := m.a &&& v % 256 } :=
  run_line _ _ _ _ (step_and v m)

theorem run_ldx_0 (rest : List Out) (m : Cpu) :
    Cpu.run (Out.line ("\tldx\t#$" ++ hex2 (0 &&& 0xFF)) :: rest) m
      = Cpu.run rest { m with x := 0 } :=
  run_line _ _ _ _ rfl

theorem run_lda_0 (rest : List Out) (m : Cpu) :
    Cpu.run (Out.line ("\tlda\t#$" ++ hex2 (0 &&& 0xFF)) :: rest) m
      = Cpu.run rest { m with a := 0 } :=
  run_line _ _ _ _ rfl

theorem run_txa (rest : List Out) (m : Cpu) :
    Cpu.run (Out.line "\ttxa" :: rest) m = Cpu.run rest { m with a := m.x } :=
  run_line _ _ _ _ rfl

theorem run_tax (rest : List Out) (m : Cpu) :
    Cpu.run (Out.line "\ttax" :: rest) m = Cpu.run rest { m with x := m.a } :=
  run_line _ _ _ _ rfl

theorem run_tay (rest : List Out) (m : Cpu) :
    Cpu.run (Out.line "\ttay" :: rest) m = Cpu.run rest { m with y := m.a } :=
  run_line _ _ _ _ rfl

theorem run_tya (rest : List Out) (m : Cpu) :
    Cpu.run (Out.line "\ttya" :: rest) m = Cpu.run rest { m with a := m.y } :=
  run_line _ _ _ _ rfl

theorem run_nil (m : Cpu) : Cpu.run [] m = some m := rfl

/-- The AND of a 16-bit value, byte by byte. -/
theorem and_word (a x v : Nat) (ha : a < 256) :
    (a + 256 * x) &&& (v % 65536)
      = (a &&& (v % 256)) + 256 * (x &&& (v / 256 % 256)) := by
  have h1 : a + 256 * x = 2 ^ 8 * x + a := by omega
  have h2 : (a &&& (v % 256)) + 256 * (x &&& (v / 256 % 256))
      = 2 ^ 8 * (x &&& ((v >>> 8) % 2 ^ 8)) + (a &&& (v % 2 ^ 8)) := by
    rw [Nat.shiftRight_eq_div_pow, show (2 : Nat) ^ 8 = 256 from rfl]
    omega
  have ha2 : a < 2 ^ 8 := ha
  have hlt : a &&& (v % 2 ^ 8) < 2 ^ 8 := lt_of_le_of_lt Nat.and_le_left ha2
  rw [h1, h2, show (65536 : Nat) = 2 ^ 16 from rfl]
  apply Nat.eq_of_testBit_eq
  intro j
  rw [Nat.testBit_and, Nat.testBit_mul_pow_two_add _ ha2, Nat.testBit_mul_pow_two_add _ hlt,
    Nat.testBit_mod_two_pow]
  by_cases hj : j < 8
  · have hj16 : j < 16 := by omega
    simp only [hj, hj16, if_true, Nat.testBit_and, Nat.testBit_mod_two_pow, decide_True,
      Bool.true_and]
  · simp only [hj, if_false, Nat.testBit_and, Nat.testBit_mod_two_pow,
      Nat.testBit_shiftRight]
    have e : 8 + (j - 8) = j := by omega
    rw [e]
    by_cases hj16 : j < 16
    · have h8 : j - 8 < 8 := by omega
      simp only [hj16, h8, decide_True, Bool.true_and]
    · have h8 : ¬ j - 8 < 8 := by omega
      simp only [hj16, h8, decide_False, Bool.false_and, Bool.and_false]

theorem and_byte_FF (a : Nat) (ha : a < 256) : a &&& 255 = a := by
  have e : a &&& 255 = a % 2 ^ 8 := Nat.and_pow_two_sub_one_eq_mod a 8
  rw [e]
  exact Nat.mod_eq_of_lt ha

theorem shr8 (v : Nat) : v >>> 8 = v / 256 := Nat.shiftRight_eq_div_pow v 8

/-- C31: for every flag encoding that satisfies `Env.WF`, a word-class
descriptor (int, or char without `CF_FORCECHAR`) with `CF_CONST`, and every
constant `val`: `g_and` returns and changes nothing but the emitted code (no
push, `oursp` unchanged), none of the emitted lines is a `jsr`, and the
emitted sequence, read as instructions from any byte contents of A and X,
leaves in X:A the AND of the former X:A with `val mod 65536`. It emits
nothing when `val mod 65536 = 0xFFFF`. -/
theorem C31_and_word_inline (E : Env) (hE : E.WF) (flags val : Nat)
    (hw : flags &&& E.CF_TYPE = E.CF_INT
      ∨ (flags &&& E.CF_TYPE = E.CF_CHAR ∧ flags &&& E.CF_FORCECHAR = 0))
    (hc : IsConst E flags) (s : State) (m : Cpu) (ha : m.a < 256) (hx : m.x < 256) :
    ∃ code m1,
      g_and E flags val s = Res.ok () { s with out := s.out ++ code }
      ∧ (∀ o ∈ code, ¬ IsJsr o)
      ∧ Cpu.run code m = some m1
      ∧ m1.a < 256 ∧ m1.x < 256
      ∧ m1.ax = m.ax &&& (val % 65536)
      ∧ (val % 65536 = 0xFFFF → code = []) := by
  have hc2 : flags &&& E.CF_CONST ≠ 0 := hc
  have c1 : ¬ (flags &&& E.CF_TYPE = E.CF_CHAR ∧ flags &&& E.CF_FORCECHAR ≠ 0) := by
    rcases hw with h | h
    · rw [h]; exact fun hh => hE.char_ne_int hh.1.symm
    · exact fun hh => hh.2 h.2
  have c2 : flags &&& E.CF_TYPE = E.CF_CHAR ∨ flags &&& E.CF_TYPE = E.CF_INT := by
    rcases hw with h | h
    · exact Or.inr h
    · exact Or.inl h.1
  have hFFFF : val &&& 0xFFFF = val % 65536 := Nat.and_pow_two_sub_one_eq_mod val 16
  have hmod : val % 65536 = val % 256 + 256 * (val / 256 % 256) := by omega
  have key := and_word m.a m.x val ha
  have hlo : ∀ k, m.a &&& k ≤ m.a := fun k => Nat.and_le_left
  have hhi : ∀ k, m.x &&& k ≤ m.x := fun k => Nat.and_le_left
  unfold g_and
  simp only [if_pos hc2, if_neg c1, if_pos c2, hFFFF, and_FF, shr8]
  by_cases b1 : val % 65536 ≠ 0xFFFF
  · simp only [if_pos b1, Nat.mod_mod]
    by_cases b2 : val ≤ 0xFF
    · have h0 : val / 256 % 256 = 0 := by omega
      have hv : val % 256 = val := by omega
      by_cases b3 : val = 0
      · refine ⟨[Out.line ("\tldx\t#$" ++ hex2 (0 &&& 0xFF)),
          Out.line ("\tlda\t#$" ++ hex2 (0 &&& 0xFF))], { m with x := 0, a := 0 }, ?_,
          by decide, ?_, by simp, by simp, ?_, fun h => absurd h b1⟩
        · simp only [if_pos b2, if_pos b3, Gen.bind_run, ldxconst, ldaconst, AddCodeLine,
            List.append_assoc, List.singleton_append]
        · simp only [run_ldx_0, run_lda_0, run_nil]
        · show 0 + 256 * 0 = m.ax &&& (val % 65536)
          unfold Cpu.ax
          rw [key, h0, hv, b3, Nat.and_zero, Nat.and_zero]
      · by_cases b4 : val ≠ 0xFF
        · refine ⟨[Out.line ("\tldx\t#$" ++ hex2 (0 &&& 0xFF)),
            Out.line ("\tand\t#$" ++ hex2 (val % 256))],
            { m with x := 0, a := m.a &&& val % 256 % 256 }, ?_, ?_, ?_, ?_, by simp, ?_,
            fun h => absurd h b1⟩
          · simp only [if_pos b2, if_neg b3, if_pos b4, Gen.bind_run, ldxconst, AddCodeLine,
              List.append_assoc, List.singleton_append]
          · intro o ho
            simp only [List.mem_cons, List.mem_singleton, List.not_mem_nil, or_false] at ho
            rcases ho with h | h <;> subst h
            · decide
            · exact not_startsWith _ _ _ (by decide)
          · simp only [run_ldx_0, run_and, run_nil]
          · exact lt_of_le_of_lt (hlo _) ha
          · show (m.a &&& val % 256 % 256) + 256 * 0 = m.ax &&& (val % 65536)
            unfold Cpu.ax
            rw [key, h0, Nat.and_zero, Nat.mod_mod]
        · have b5 : val = 0xFF := by omega
          refine ⟨[Out.line ("\tldx\t#$" ++ hex2 (0 &&& 0xFF))], { m with x := 0 }, ?_,
            by decide, ?_, ha, by simp, ?_, fun h => absurd h b1⟩
          · simp only [if_pos b2, if_neg b3, if_neg b4, Gen.bind_run, Gen.pure_run, ldxconst,
              AddCodeLine]
          · simp only [run_ldx_0, run_nil]
          · show m.a + 256 * 0 = m.ax &&& (val % 65536)
            unfold Cpu.ax
            rw [key, h0, hv, b5, Nat.and_zero, and_byte_FF _ ha]
    · have hFF00 : val &&& 0xFF00 = 0xFF00 → val / 256 % 256 = 255 := fun h =>
        byte_mask h 8 (by decide)
      by_cases b3 : val &&& 0xFF00 = 0xFF00
      · refine ⟨[Out.line ("\tand\t#$" ++ hex2 (val % 256))],
          { m with a := m.a &&& val % 256 % 256 }, ?_, ?_, ?_, ?_, hx, ?_,
          fun h => absurd h b1⟩
        · simp only [if_neg b2, if_pos b3, AddCodeLine]
        · intro o ho
          simp only [List.mem_singleton] at ho
          subst ho
          exact not_startsWith _ _ _ (by decide)
        · simp only [run_and, run_nil]
        · exact lt_of_le_of_lt (hlo _) ha
        · show (m.a &&& val % 256 % 256) + 256 * m.x = m.ax &&& (val % 65536)
          unfold Cpu.ax
          rw [key, hFF00 b3, and_byte_FF _ hx, Nat.mod_mod]
      · by_cases b4 : val % 256 = 0
        · refine ⟨[Out.line "\ttxa", Out.line ("\tand\t#$" ++ hex2 (val / 256 % 256)),
            Out.line "\ttax", Out.line ("\tlda\t#$" ++ hex2 (0 &&& 0xFF))],
            { m with x := m.x &&& val / 256 % 256 % 256, a := 0 }, ?_, ?_, ?_, by simp, ?_, ?_,
            fun h => absurd h b1⟩
          · simp only [if_neg b2, if_neg b3, if_pos b4, Gen.bind_run, ldaconst, AddCodeLine,
              List.append_assoc, List.singleton_append, List.cons_append, List.nil_append]
          · intro o ho
            simp only [List.mem_cons, List.mem_singleton, List.not_mem_nil, or_false] at ho
            rcases ho with h | h | h | h <;> subst h
            · decide
            · exact not_startsWith _ _ _ (by decide)
            · decide
            · decide
          · simp only [run_txa, run_and, run_tax, run_lda_0, run_nil]
          · exact lt_of_le_of_lt (hhi _) hx
          · show 0 + 256 * (m.x &&& val / 256 % 256 % 256) = m.ax &&& (val % 65536)
            unfold Cpu.ax
            rw [key, b4, Nat.and_zero, Nat.mod_mod]
        · by_cases b5 : val % 256 ≠ 0xFF
          · refine ⟨[Out.line "\ttay", Out.line "\ttxa",
              Out.line ("\tand\t#$" ++ hex2 (val / 256 % 256)), Out.line "\ttax",
              Out.line "\ttya", Out.line ("\tand\t#$" ++ hex2 (val % 256))],
              { m with y := m.a, x := m.x &&& val / 256 % 256 % 256,
                       a := m.a &&& val % 256 % 256 }, ?_, ?_, ?_, ?_, ?_, ?_,
              fun h => absurd h b1⟩
            · simp only [if_neg b2, if_neg b3, if_neg b4, if_pos b5, Gen.bind_run, AddCodeLine,
                List.append_assoc, List.singleton_append, List.cons_append, List.nil_append]
            · intro o ho
              simp only [List.mem_cons, List.mem_singleton, List.not_mem_nil, or_false] at ho
              rcases ho with h | h | h | h | h | h <;> subst h
              · decide
              · decide
              · exact not_startsWith _ _ _ (by decide)
              · decide
              · decide
              · exact not_startsWith _ _ _ (by decide)
            · simp only [run_tay, run_txa, run_and, run_tax, run_tya, run_nil]
            · exact lt_of_le_of_lt (hlo _) ha
            · exact lt_of_le_of_lt (hhi _) hx
            · show (m.a &&& val % 256 % 256) + 256 * (m.x &&& val / 256 % 256 % 256)
                = m.ax &&& (val % 65536)
              unfold Cpu.ax
              rw [key, Nat.mod_mod, Nat.mod_mod]
          · have b6 : val % 256 = 0xFF := by omega
            refine ⟨[Out.line "\ttay", Out.line "\ttxa",
              Out.line ("\tand\t#$" ++ hex2 (val / 256 % 256)), Out.line "\ttax",
              Out.line "\ttya"],
              { m with y := m.a, x := m.x &&& val / 256 % 256 % 256, a := m.a }, ?_, ?_, ?_,
              ha, ?_, ?_, fun h => absurd h b1⟩
            · simp only [if_neg b2, if_neg b3, if_neg b4, if_neg b5, Gen.bind_run,
                Gen.pure_run, AddCodeLine,
                List.append_assoc, List.singleton_append, List.cons_append, List.nil_append]
            · intro o ho
              simp only [List.mem_cons, List.mem_singleton, List.not_mem_nil, or_false] at ho
              rcases ho with h | h | h | h | h <;> subst h
              · decide
              · decide
              · exact not_startsWith _ _ _ (by decide)
              · decide
              · decide
            · simp only [run_tay, run_txa, run_and, run_tax, run_tya, run_nil]
            · exact lt_of_le_of_lt (hhi _) hx
            · show m.a + 256 * (m.x &&& val / 256 % 256 % 256) = m.ax &&& (val % 65536)
              unfold Cpu.ax
              rw [key, b6, and_byte_FF _ ha, Nat.mod_mod]
  · have b1' : val % 65536 = 0xFFFF := by omega
    refine ⟨[], m, ?_, by simp, rfl, ha, hx, ?_, fun _ => rfl⟩
    · simp only [if_neg b1, Gen.pure_run, List.append_nil]
    · unfold Cpu.ax
      have l : val % 256 = 255 := by omega
      have h : val / 256 % 256 = 255 := by omega
      rw [key, l, h, and_byte_FF _ ha, and_byte_FF _ hx]

/-- Witness of C31: an int ANDed with `0x0F0F`, X:A holding `0xCDAB`. -/
theorem C31_witness :
    cc65Env.WF
    ∧ ((cc65Env.CF_INT ||| cc65Env.CF_CONST) &&& cc65Env.CF_TYPE = cc65Env.CF_INT
        ∨ ((cc65Env.CF_INT ||| cc65Env.CF_CONST) &&& cc65Env.CF_TYPE = cc65Env.CF_CHAR
          ∧ (cc65Env.CF_INT ||| cc65Env.CF_CONST) &&& cc65Env.CF_FORCECHAR = 0))
    ∧ IsConst cc65Env (cc65Env.CF_INT ||| cc65Env.CF_CONST)
    ∧ (0xAB : Nat) < 256 ∧ (0xCD : Nat) < 256
    ∧ ∃ code m1,
      g_and cc65Env (cc65Env.CF_INT ||| cc65Env.CF_CONST) 0x0F0F State.init
        = Res.ok () { State.init with out := State.init.out ++ code }
      ∧ (∀ o ∈ code, ¬ IsJsr o)
      ∧ Cpu.run code { a := 0xAB, x := 0xCD, y := 0, tmp1 := 0, carry := false } = some m1
      ∧ m1.ax = (0xAB + 256 * 0xCD) &&& (0x0F0F % 65536) := by
  obtain ⟨code, m1, h1, h2, h3, -, -, h6, -⟩ :=
    C31_and_word_inline cc65Env cc65Env_wf (cc65Env.CF_INT ||| cc65Env.CF_CONST) 0x0F0F
      (by decide) (by decide) State.init
      { a := 0xAB, x := 0xCD, y := 0, tmp1 := 0, carry := false } (by decide) (by decide)
  exact ⟨cc65Env_wf, by decide, by decide, by decide, by decide, code, m1, h1, h2, h3, h6⟩

/-! ## Constant data (C38) -/

theorem upper_digit : ∀ k, k < 16 → Char.toUpper (Nat.digitChar k) = hexChars.getD k '0' := by
  decide

theorem toDigits_byte (n : Nat) (h : n < 256) :
    Nat.toDigits 16 n
      = if n < 16 then [Nat.digitChar n]
        else [Nat.digitChar (n / 16), Nat.digitChar (n % 16)] := by
  unfold Nat.toDigits
  by_cases h16 : n < 16
  · rw [if_pos h16]
    unfold Nat.toDigitsCore
    have h0 : n / 16 = 0 := by omega
    have hm : n % 16 = n := by omega
    simp only [h0, if_true, hm]
  · rw [if_neg h16]
    obtain ⟨k, rfl⟩ : ∃ k, n = k + 1 := ⟨n - 1, by omega⟩
    have h0 : ¬ (k + 1) / 16 = 0 := by omega
    have h1 : (k + 1) / 16 / 16 = 0 := by omega
    have hm : (k + 1) / 16 % 16 = (k + 1) / 16 := by omega
    rw [Nat.toDigitsCore]
    simp only [h0, if_false]
    rw [Nat.toDigitsCore]
    simp only [h1, if_true, hm]

/-- The conversion `%02X` of a byte is two upper-case hexadecimal digits. -/
theorem hex2_chars (n : Nat) (h : n < 256) :
    (hex2 n).data = [hexChars.getD (n / 16) '0', hexChars.getD (n % 16) '0'] := by
  unfold hex2 hexW
  simp only [toDigits_byte n h]
  by_cases h16 : n < 16
  · have h0 : n / 16 = 0 := by omega
    have hm : n % 16 = n := by omega
    simp only [if_pos h16, List.map_cons, List.map_nil, List.length_singleton,
      upper_digit n h16, h0, hm]
    rfl
  · simp only [if_neg h16, List.map_cons, List.map_nil, List.length_cons, List.length_nil,
      upper_digit _ (show n / 16 < 16 by omega), upper_digit _ (show n % 16 < 16 by omega)]
    rfl

theorem byteText_data (b : Nat) :
    (byteText b).data
      = ['$', hexChars.getD (b % 256 / 16) '0', hexChars.getD (b % 256 % 16) '0'] := by
  unfold byteText
  rw [String.data_append, and_FF, hex2_chars _ (Nat.mod_lt _ (by decide))]
  rfl

theorem readHex_byteText (b : Nat) :
    readHex [hexChars.getD (b % 256 / 16) '0', hexChars.getD (b % 256 % 16) '0'] = b % 256 := by
  have h := readHex_hexW 2 (b % 256)
  rw [show hexW 2 (b % 256) = hex2 (b % 256) from rfl,
    hex2_chars _ (Nat.mod_lt _ (by decide))] at h
  exact h

theorem intercalate_go_append (p s : String) (l : List String) : ∀ acc : String,
    String.intercalate.go (p ++ acc) s l = p ++ String.intercalate.go acc s l := by
  induction l with
  | nil => intro acc; rfl
  | cons a l ih =>
    intro acc
    show String.intercalate.go (p ++ acc ++ s ++ a) s l
      = p ++ String.intercalate.go (acc ++ s ++ a) s l
    rw [← ih, String.append_assoc, String.append_assoc, String.append_assoc]

theorem intercalate_one (s a : String) : s.intercalate [a] = a := rfl

theorem intercalate_cons (s a b : String) (l : List String) :
    s.intercalate (a :: b :: l) = a ++ s ++ s.intercalate (b :: l) := by
  show String.intercalate.go (a ++ s ++ b) s l = a ++ s ++ String.intercalate.go b s l
  rw [← intercalate_go_append]

/-- One round of the inner loop for each of `k + 1` values: the buffer gains
the values separated by commas, the pointer moves past them. -/
theorem defbytesRow_spec : ∀ (k : Nat) (Bytes : List Nat) (B : String),
    k + 1 ≤ Bytes.length →
    defbytesRow (k + 1) Bytes B
      = (B ++ ",".intercalate ((Bytes.take (k + 1)).map byteText), Bytes.drop (k + 1)) := by
  intro k
  induction k with
  | zero =>
    intro Bytes B h
    cases Bytes with
    | nil => simp at h
    | cons b t =>
      simp only [defbytesRow, ne_eq, not_true_eq_false, if_false, List.headD_cons,
        List.tail_cons, List.take_succ_cons, List.take_zero, List.map_cons, List.map_nil,
        intercalate_one, List.drop_succ_cons, List.drop_zero, byteText, String.append_assoc]
  | succ k ih =>
    intro Bytes B h
    cases Bytes with
    | nil => simp at h
    | cons b t =>
      have ht : k + 1 ≤ t.length := by simpa using h
      cases t with
      | nil => simp at ht
      | cons b2 t2 =>
        have hne : k + 1 ≠ 0 := by omega
        rw [defbytesRow]
        simp only [if_pos hne, List.headD_cons, List.tail_cons]
        rw [ih (b2 :: t2) _ ht]
        simp only [List.take_succ_cons, List.map_cons, intercalate_cons, List.drop_succ_cons,
          byteText, String.append_assoc]

theorem byteRows_nil : byteRows [] = [] := rfl

theorem byteRows_cons (Bytes : List Nat) (h : Bytes ≠ []) :
    byteRows Bytes = Bytes.take 16 :: byteRows (Bytes.drop 16) := by
  have hpos : 0 < Bytes.length := List.length_pos.mpr h
  have hk : (Bytes.length + 15) / 16 = ((Bytes.drop 16).length + 15) / 16 + 1 := by
    rw [List.length_drop]
    omega
  unfold byteRows
  rw [hk, List.range_succ_eq_map, List.map_cons, List.map_map]
  congr 1
  apply List.map_congr_left
  intro i _
  simp only [Function.comp, List.drop_drop]
  congr 2
  rw [Nat.succ_eq_add_one]
  omega

/-- The outer loop, given at least as many rounds as there are bytes, emits
one `.byte` line per row. -/
theorem defbytesLoop_spec : ∀ (rounds : Nat) (Bytes : List Nat) (s : State),
    Bytes.length ≤ rounds →
    defbytesLoop rounds Bytes Bytes.length s
      = Res.ok () { s with
          out := s.out ++ (byteRows Bytes).map (fun row => Out.line (byteLine row)) } := by
  intro rounds
  induction rounds with
  | zero =>
    intro Bytes s h
    have hnil : Bytes = [] := List.length_eq_zero.mp (by omega)
    subst hnil
    simp only [defbytesLoop, byteRows_nil, List.map_nil, List.append_nil]
    rfl
  | succ rounds ih =>
    intro Bytes s h
    by_cases hnil : Bytes = []
    · subst hnil
      simp only [defbytesLoop, List.length_nil, ne_eq, not_true_eq_false, if_false,
        byteRows_nil, List.map_nil, List.append_nil]
      rfl
    · have hpos : 0 < Bytes.length := List.length_pos.mpr hnil
      have hne : Bytes.length ≠ 0 := by omega
      obtain ⟨k, hk⟩ : ∃ k, (if Bytes.length > 16 then 16 else Bytes.length) = k + 1 := by
        by_cases h16 : Bytes.length > 16
        · exact ⟨15, by rw [if_pos h16]⟩
        · exact ⟨Bytes.length - 1, by rw [if_neg h16]; omega⟩
      have hle : k + 1 ≤ Bytes.length := by
        rw [← hk]; split_ifs <;> omega
      have htake : Bytes.take (k + 1) = Bytes.take 16 := by
        rw [← hk]
        by_cases h16 : Bytes.length > 16
        · rw [if_pos h16]
        · rw [if_neg h16, List.take_of_length_le (le_refl _),
            List.take_of_length_le (by omega)]
      have hdrop : Bytes.drop (k + 1) = Bytes.drop 16 := by
        rw [← hk]
        by_cases h16 : Bytes.length > 16
        · rw [if_pos h16]
        · rw [if_neg h16, List.drop_of_length_le (le_refl _),
            List.drop_of_length_le (by omega)]
      have hcount : Bytes.length - (k + 1) = (Bytes.drop 16).length := by
        rw [← hdrop, List.length_drop]
      have hlen : (Bytes.drop 16).length ≤ rounds := by
        rw [List.length_drop]; omega
      rw [defbytesLoop]
      simp only [if_pos hne, hk, defbytesRow_spec k Bytes _ hle, htake, hdrop, hcount,
        Gen.bind_run, AddCodeLine]
      rw [ih (Bytes.drop 16) _ hlen, byteRows_cons Bytes hnil]
      simp only [List.map_cons, List.append_assoc, List.singleton_append, byteLine]

theorem byteRows_flatten : ∀ (n : Nat) (Bytes : List Nat), Bytes.length ≤ n →
    (byteRows Bytes).flatten = Bytes := by
  intro n
  induction n with
  | zero =>
    intro Bytes h
    have hnil : Bytes = [] := List.length_eq_zero.mp (by omega)
    subst hnil
    rfl
  | succ n ih =>
    intro Bytes h
    by_cases hnil : Bytes = []
    · subst hnil
      rfl
    · have hpos : 0 < Bytes.length := List.length_pos.mpr hnil
      rw [byteRows_cons Bytes hnil, List.flatten_cons,
        ih (Bytes.drop 16) (by rw [List.length_drop]; omega), List.take_append_drop]

theorem readValues_row (row : List Nat) :
    readValues (",".intercalate (row.map byteText)).data = row.map (fun b => b % 256) := by
  induction row with
  | nil => rfl
  | cons b t ih =>
    cases t with
    | nil =>
      simp only [List.map_cons, List.map_nil, intercalate_one, byteText_data, readValues,
        if_true, readHex_byteText]
    | cons b2 t2 =>
      rw [List.map_cons, List.map_cons, intercalate_cons, String.data_append,
        String.data_append, byteText_data]
      have hc : ",".data = [','] := rfl
      rw [hc]
      simp only [List.cons_append, List.nil_append, readValues, and_self, if_true,
        readHex_byteText, List.map_cons]
      show b % 256 :: readValues (",".intercalate (List.map byteText (b2 :: t2))).data = _
      rw [ih, List.map_cons]

theorem readByteLine_line (row : List Nat) :
    readByteLine (Out.line (byteLine row)) = row.map (fun b => b % 256) := by
  have hl : "\t.byte\t".data.length = 7 := by decide
  unfold readByteLine byteLine
  simp only [String.data_append, List.take_left' hl, List.drop_left' hl, if_true]
  exact readValues_row row

theorem readBytes_rows (rows : List (List Nat)) :
    readBytes (rows.map (fun row => Out.line (byteLine row)))
      = rows.flatten.map (fun b => b % 256) := by
  unfold readBytes
  rw [List.map_map, List.map_flatten]
  congr 1
  apply List.map_congr_left
  intro row _
  exact readByteLine_line row

/-- C38: for every byte sequence, `g_defbytes` (called with its length)
returns and emits exactly one `.byte` line per row of the sequence:
`ceil (n / 16)` lines (none for n = 0), the line of row i carrying the up to
16 values from position 16 i on. Every row has between 1 and 16 values and
every row but the last has 16; each line is `.byte` followed by the values
as `$` and two upper-case hexadecimal digits, separated by commas, with no
comma at the end; and reading the values of the emitted lines in order gives
the input back (for bytes, that is values below 256). -/
theorem C38_defbytes_lines (Bytes : List Nat) (s : State) :
    g_defbytes Bytes Bytes.length s
      = Res.ok () { s with
          out := s.out ++ (byteRows Bytes).map (fun row => Out.line (byteLine row)) }
    ∧ (byteRows Bytes).length = (Bytes.length + 15) / 16
    ∧ (∀ i row, (byteRows Bytes)[i]? = some row →
        1 ≤ row.length ∧ row.length ≤ 16
        ∧ (i + 1 < (byteRows Bytes).length → row.length = 16)
        ∧ row = (Bytes.drop (16 * i)).take 16)
    ∧ (byteRows Bytes).flatten = Bytes
    ∧ (∀ b, ∃ c1 c2, byteText b = String.mk ['$', c1, c2] ∧ c1 ∈ hexChars ∧ c2 ∈ hexChars)
    ∧ (∀ a b rest, byteLine (a :: b :: rest)
        = "\t.byte\t" ++ (byteText a ++ "," ++ ",".intercalate ((b :: rest).map byteText)))
    ∧ (∀ a, byteLine [a] = "\t.byte\t" ++ byteText a)
    ∧ ((∀ b ∈ Bytes, b < 256) →
        readBytes ((byteRows Bytes).map (fun row => Out.line (byteLine row))) = Bytes) := by
  have hlenRows : (byteRows Bytes).length = (Bytes.length + 15) / 16 := by
    unfold byteRows
    rw [List.length_map, List.length_range]
  refine ⟨defbytesLoop_spec Bytes.length Bytes s (le_refl _), hlenRows, ?_,
    byteRows_flatten Bytes.length Bytes (le_refl _), ?_, ?_, ?_, ?_⟩
  · intro i row hrow
    rw [hlenRows]
    unfold byteRows at hrow
    rw [List.getElem?_map] at hrow
    by_cases hi : i < (Bytes.length + 15) / 16
    · rw [List.getElem?_range hi] at hrow
      simp only [Option.map_some', Option.some.injEq] at hrow
      subst hrow
      rw [List.length_take, List.length_drop]
      refine ⟨by omega, by omega, fun h => by omega, rfl⟩
    · have hnone : (List.range ((Bytes.length + 15) / 16))[i]? = none := by
        rw [List.getElem?_eq_none_iff, List.length_range]
        omega
      rw [hnone] at hrow
      simp at hrow
  · intro b
    have hq : b % 256 / 16 < 16 := by omega
    have hm : b % 256 % 16 < 16 := Nat.mod_lt _ (by decide)
    have hmem : ∀ k, k < 16 → hexChars.getD k '0' ∈ hexChars := by decide
    refine ⟨_, _, ?_, hmem _ hq, hmem _ hm⟩
    rw [← byteText_data b]
  · intro a b rest
    unfold byteLine
    rw [List.map_cons, List.map_cons, intercalate_cons, ← List.map_cons byteText]
  · intro a
    rfl
  · intro hb
    rw [readBytes_rows, byteRows_flatten Bytes.length Bytes (le_refl _)]
    have : ∀ l : List Nat, (∀ b ∈ l, b < 256) → l.map (fun b => b % 256) = l := by
      intro l hl
      induction l with
      | nil => rfl
      | cons x t ih =>
        rw [List.map_cons, ih (fun b hb2 => hl b (List.mem_cons_of_mem _ hb2)),
          Nat.mod_eq_of_lt (hl x (List.mem_cons_self _ _))]
    exact this Bytes hb

/-- Witness of C38: eighteen bytes, two lines. -/
theorem C38_witness :
    (∀ b ∈ [0, 1, 2, 3, 4, 5, 6, 7, 8, 9, 10, 11, 12, 13, 14, 15, 254, 255], b < 256)
    ∧ g_defbytes [0, 1, 2, 3, 4, 5, 6, 7, 8, 9, 10, 11, 12, 13, 14, 15, 254, 255]
        [0, 1, 2, 3, 4, 5, 6, 7, 8, 9, 10, 11, 12, 13, 14, 15, 254, 255].length State.init
      = Res.ok () { State.init with
          out := State.init.out
            ++ (byteRows [0, 1, 2, 3, 4, 5, 6, 7, 8, 9, 10, 11, 12, 13, 14, 15, 254, 255]).map
                (fun row => Out.line (byteLine row)) }
    ∧ (byteRows [0, 1, 2, 3, 4, 5, 6, 7, 8, 9, 10, 11, 12, 13, 14, 15, 254, 255]).map
          (fun row => Out.line (byteLine row))
      = [Out.line "\t.byte\t$00,$01,$02,$03,$04,$05,$06,$07,$08,$09,$0A,$0B,$0C,$0D,$0E,$0F",
         Out.line "\t.byte\t$FE,$FF"]
    ∧ readBytes ((byteRows [0, 1, 2, 3, 4, 5, 6, 7, 8, 9, 10, 11, 12, 13, 14, 15, 254, 255]).map
          (fun row => Out.line (byteLine row)))
      = [0, 1, 2, 3, 4, 5, 6, 7, 8, 9, 10, 11, 12, 13, 14, 15, 254, 255] :=
  ⟨by decide,
    (C38_defbytes_lines [0, 1, 2, 3, 4, 5, 6, 7, 8, 9, 10, 11, 12, 13, 14, 15, 254, 255]
      State.init).1,
    by decide,
    (C38_defbytes_lines [0, 1, 2, 3, 4, 5, 6, 7, 8, 9, 10, 11, 12, 13, 14, 15, 254, 255]
      State.init).2.2.2.2.2.2.2 (by decide)⟩

end CC65
